import Mathlib

/-!
# Tomoko: a shallow embedding of the threaded-code machine and its dictionary

The development follows the C sources of the interpreter:

* `types.h`, `machine.h`, `machine.c`: cells, the two stacks, `ip`, `w`, `NEXT()`;
* `dictionary.h`: the header layout and the `DEF_...` initialiser macros;
* `native.c`, `input.c`: the native words (`fn_...`);
* `tomoko.c`: the hand-compiled dictionary and `main`.

Modelling conventions.

* A `Cell` is a 32-bit machine word, represented by its unsigned value in
  `[0, 2^32)`; signed readings go through `toInt`.  Arithmetic wraps modulo `2^32`.
* Memory is a byte map.  The hand-compiled dictionary entries are `const`
  objects: they are a fixed read-only image (`romByte`), and a store into
  that image has no successor state.  Cells are little-endian (x86).
* `char` is signed, as on the x86 target named in the build notes of `tomoko.c`.
* The parameter stack and the return stack are lists whose head is the cell
  the stack pointer addresses.  Popping an empty stack has no successor
  state.  The fixed capacity of the two arrays is not modelled.
* The linker's placement of objects is fixed once and for all by the
  constants of the section "Address map".
* A native word returns `Option Machine`; `none` means that the C program
  has no defined next state (undefined behaviour) or that the process exits.
-/

namespace Tomoko

/-! ## Cells (`types.h`) -/

/-- Signed reading of a cell (`Cell` is `int32_t`). -/
def toInt (c : Nat) : Int :=
  if c % 4294967296 < 2147483648 then (c % 4294967296 : Nat) else (c % 4294967296 : Nat) - 4294967296

/-- The cell that represents an integer (two's complement, wrapping). -/
def ofInt (i : Int) : Nat := (i % 4294967296).toNat

/-- The macro `BOOLEAN(cond)`: `~0` for true and `0` for false. -/
def BOOLEAN (cond : Bool) : Nat := if cond then 4294967295 else 0

/-- The constant `IMMEDIATE_BIT` of `dictionary.h`. -/
def IMMEDIATE_BIT : Nat := 0x80

/-- The constant `HIDDEN_BIT` of `dictionary.h`. -/
def HIDDEN_BIT : Nat := 0x40

/-- The constant `LENGTH_BITS` of `dictionary.h`: `0xFF ^ (IMMEDIATE_BIT|HIDDEN_BIT)`. -/
def LENGTH_BITS : Nat := 0xFF ^^^ (IMMEDIATE_BIT ||| HIDDEN_BIT)

/-! ## The native functions and the labels of the hand-compiled dictionary -/

/-- The native functions whose addresses occur as code words: `Fn.X` stands
for the C function `fn_X`. -/
inductive Fn
  | DOCOL | DODOES | EXIT | BRANCH | ZBRANCH | LIT | LITSTRING | LBRAC | RBRAC
  | CONST | CONST_STRING | VAR | EXECUTE | TICK | IPFETCH | HALT
  | SYSCALL0 | SYSCALL1 | SYSCALL2 | SYSCALL3 | FIND
  | DROP | SWAP | DUP | PICK | STICK | NTUCK | OVER | ROT | NROT | DDROP | DDUP | DSWAP
  | ZDUP | DSPFETCH | DSPSTORE | TOR | FROMR | RSPFETCH | RSPSTORE | RDROP
  | INCR | DECR | CELLPLUS | CELLMINUS | ADD | SUB | MUL | DIV | MOD | NEGATE | DIVMOD
  | EQ | NE | LT | GT | LE | GE | EQ0 | NE0 | LT0 | GT0 | LE0 | GE0
  | AND | OR | XOR | INVERT
  | STORE | FETCH | PLUSSTORE | MINUSSTORE | CSTORE | CFETCH | CCOPY | CMOVE | FILL
  | EMIT | TELL | DOT | MSLEEP
  | WS | KEY | WORD | XNUMBERIN | NUMBERIN | INIT
  deriving DecidableEq, Repr

/-- The C labels of the entries that `tomoko.c` compiles by hand, in the
order of their definition (each entry links to the one before it). -/
inductive Word
  | VERSION | CELL | CELL_1 | CELLMASK | R0 | DOCOL | DODOES | F_IMMED | F_HIDDEN
  | F_LENMASK | ZERO | ONE | BL | QUITPROMPT
  | SYS_EXIT | SYS_OPEN | SYS_CLOSE | SYS_READ | SYS_WRITE | SYS_CREAT | SYS_BRK
  | O_RDONLY | O_WRONLY | O_RDWR | O_CREAT | O_EXCL | O_TRUNC | O_APPEND | O_NONBLOCK
  | PIFA | STATE | LATEST | HERE | S0 | BASE | CASE_SENSITIVE
  | EXIT | BRANCH | ZBRANCH | LIT | LITSTRING | LBRAC | RBRAC | EXECUTE | TICK | IPFETCH
  | HALT | SYSCALL0 | SYSCALL1 | SYSCALL2 | SYSCALL3 | FIND
  | DROP | SWAP | DUP | PICK | STICK | NTUCK | OVER | ROT | NROT | DDROP | DDUP | DSWAP
  | ZDUP | DSPFETCH | DSPSTORE | TOR | FROMR | RSPFETCH | RSPSTORE | RDROP
  | INCR | DECR | FOURPLUS | FOURMINUS | CELLPLUS | CELLMINUS
  | ADD | SUB | MUL | DIV | MOD | NEGATE | DIVMOD
  | EQ | NE | LT | GT | LE | GE | EQ0 | NE0 | LT0 | GT0 | LE0 | GE0
  | AND | OR | XOR | INVERT
  | STORE | FETCH | PLUSSTORE | MINUSSTORE | CSTORE | CFETCH | CCOPY | CMOVE | FILL
  | WS | KEY | WORD | XNUMBERIN | NUMBERIN | INIT | EMIT | TELL | DOT | MSLEEP
  | NUMBER | CR | SPACE | BSCOMMENT | CHAR | SPHASH | DOT_S | TOCFA | TODFA
  | ALLOT | COMMA | CCOMMA | ERASE | CREATE | IMMEDIATE | HIDDEN | HIDE | WORDS
  | INTERPRET | QUIT | COLON | SEMICOLON | MAIN
  deriving DecidableEq, Repr

/-- The `forthName` argument of the defining macro of each entry. -/
def forthName : Word → String
  | .VERSION => "VERSION" | .CELL => "CELL" | .CELL_1 => "CELL-1" | .CELLMASK => "CELLMASK"
  | .R0 => "R0" | .DOCOL => "DOCOL" | .DODOES => "DODOES" | .F_IMMED => "F_IMMED"
  | .F_HIDDEN => "F_HIDDEN" | .F_LENMASK => "F_LENMASK" | .ZERO => "0" | .ONE => "1"
  | .BL => "BL" | .QUITPROMPT => "QUITPROMPT"
  | .SYS_EXIT => "SYS_EXIT" | .SYS_OPEN => "SYS_OPEN" | .SYS_CLOSE => "SYS_CLOSE"
  | .SYS_READ => "SYS_READ" | .SYS_WRITE => "SYS_WRITE" | .SYS_CREAT => "SYS_CREAT"
  | .SYS_BRK => "SYS_BRK"
  | .O_RDONLY => "O_RDONLY" | .O_WRONLY => "O_WRONLY" | .O_RDWR => "O_RDWR"
  | .O_CREAT => "O_CREAT" | .O_EXCL => "O_EXCL" | .O_TRUNC => "O_TRUNC"
  | .O_APPEND => "O_APPEND" | .O_NONBLOCK => "O_NONBLOCK"
  | .PIFA => "^IFA" | .STATE => "STATE" | .LATEST => "LATEST" | .HERE => "HERE"
  | .S0 => "S0" | .BASE => "BASE" | .CASE_SENSITIVE => "CASE-SENSITIVE"
  | .EXIT => "EXIT" | .BRANCH => "BRANCH" | .ZBRANCH => "0BRANCH" | .LIT => "LIT"
  | .LITSTRING => "LITSTRING" | .LBRAC => "[" | .RBRAC => "]" | .EXECUTE => "EXECUTE"
  | .TICK => "'" | .IPFETCH => "IP@" | .HALT => "HALT"
  | .SYSCALL0 => "SYSCALL0" | .SYSCALL1 => "SYSCALL1" | .SYSCALL2 => "SYSCALL2"
  | .SYSCALL3 => "SYSCALL3" | .FIND => "FIND"
  | .DROP => "DROP" | .SWAP => "SWAP" | .DUP => "DUP" | .PICK => "PICK" | .STICK => "STICK"
  | .NTUCK => "NTUCK" | .OVER => "OVER" | .ROT => "ROT" | .NROT => "-ROT"
  | .DDROP => "2DROP" | .DDUP => "2DUP" | .DSWAP => "2SWAP" | .ZDUP => "?DUP"
  | .DSPFETCH => "DSP@" | .DSPSTORE => "DSP!" | .TOR => ">R" | .FROMR => "R>"
  | .RSPFETCH => "RSP@" | .RSPSTORE => "RSP!" | .RDROP => "RDROP"
  | .INCR => "1+" | .DECR => "1-" | .FOURPLUS => "4+" | .FOURMINUS => "4-"
  | .CELLPLUS => "CELL+" | .CELLMINUS => "CELL-"
  | .ADD => "+" | .SUB => "-" | .MUL => "*" | .DIV => "/" | .MOD => "MOD"
  | .NEGATE => "NEGATE" | .DIVMOD => "/MOD"
  | .EQ => "=" | .NE => "<>" | .LT => "<" | .GT => ">" | .LE => "<=" | .GE => ">="
  | .EQ0 => "0=" | .NE0 => "0<>" | .LT0 => "0<" | .GT0 => "0>" | .LE0 => "0<=" | .GE0 => "0>="
  | .AND => "AND" | .OR => "OR" | .XOR => "XOR" | .INVERT => "INVERT"
  | .STORE => "!" | .FETCH => "@" | .PLUSSTORE => "+!" | .MINUSSTORE => "-!"
  | .CSTORE => "C!" | .CFETCH => "C@" | .CCOPY => "C@C!" | .CMOVE => "CMOVE" | .FILL => "FILL"
  | .WS => "WS?" | .KEY => "KEY" | .WORD => "WORD" | .XNUMBERIN => ">NUMBERIN"
  | .NUMBERIN => "NUMBERIN" | .INIT => "INIT" | .EMIT => "EMIT" | .TELL => "TELL"
  | .DOT => "." | .MSLEEP => "MSLEEP"
  | .NUMBER => "NUMBER" | .CR => "CR" | .SPACE => "SPACE" | .BSCOMMENT => "\\"
  | .CHAR => "CHAR" | .SPHASH => "SP#" | .DOT_S => ".S" | .TOCFA => ">CFA" | .TODFA => ">DFA"
  | .ALLOT => "ALLOT" | .COMMA => "," | .CCOMMA => "C," | .ERASE => "ERASE"
  | .CREATE => "CREATE" | .IMMEDIATE => "IMMEDIATE" | .HIDDEN => "HIDDEN" | .HIDE => "HIDE"
  | .WORDS => "WORDS" | .INTERPRET => "INTERPRET" | .QUIT => "QUIT" | .COLON => ":"
  | .SEMICOLON => ";" | .MAIN => "MAIN"

/-- The bytes of a string literal (without the terminating NUL). -/
def strBytes (s : String) : List Nat := s.toList.map Char.toNat

/-! ## Address map

Where the linker puts each object.  Functions are 16 bytes apart from
`fnBase`; every hand-compiled entry has a slot of 256 bytes in the read-only
image, in the order of definition; the variables, the buffers, the stacks
and the user dictionary follow in writable memory. -/

/-- Address of the first native function (a multiple of `0x10000`). -/
def fnBase : Nat := 0x08040000

/-- Address of the C function `fn_X`. -/
def fnAddr (f : Fn) : Nat := fnBase + 16 * f.toCtorIdx

/-- Address of the first hand-compiled entry (a multiple of `0x10000`). -/
def romBase : Nat := 0x08050000

/-- First address past the read-only image (143 entries). -/
def romEnd : Nat := romBase + 256 * 143

/-- Address of the C variable `PIFA_value` (defined by `DEF_VAR`). -/
def PIFA_value : Nat := 0x08060000

/-- Address of the C variable `STATE_value`. -/
def STATE_value : Nat := 0x08060004

/-- Address of the C variable `LATEST_value`. -/
def LATEST_value : Nat := 0x08060008

/-- Address of the C variable `HERE_value`. -/
def HERE_value : Nat := 0x0806000C

/-- Address of the C variable `S0_value`. -/
def S0_value : Nat := 0x08060010

/-- Address of the C variable `BASE_value`. -/
def BASE_value : Nat := 0x08060014

/-- Address of the C variable `CASE_SENSITIVE_value`. -/
def CASE_SENSITIVE_value : Nat := 0x08060018

/-- The constant `TOMOKO_WORD_MAX` of `input.h`. -/
def TOMOKO_WORD_MAX : Nat := 32

/-- Address of the buffer `char word[TOMOKO_WORD_MAX]` of `input.c`. -/
def word : Nat := 0x08060020

/-- The constant `PARAMETER_STACK_CELLS` of `machine.h`. -/
def PARAMETER_STACK_CELLS : Nat := 64

/-- The constant `RETURN_STACK_CELLS` of `machine.h`. -/
def RETURN_STACK_CELLS : Nat := 32

/-- The constant `DICTIONARY_SIZE` of `machine.h`. -/
def DICTIONARY_SIZE : Nat := 8192

/-- Address of the array `parameterStack`. -/
def parameterStack : Nat := 0x08060100

/-- Address of the array `returnStack`. -/
def returnStack : Nat := 0x08060200

/-- Address of the array `dictionary`. -/
def dictionary : Nat := 0x08061000

/-- The system call numbers of `asm/unistd.h` (not part of the repository):
the values of the i386 ABI, the target of the build notes. -/
def NR_exit : Nat := 1

/-- See `NR_exit`. -/
def NR_open : Nat := 5

/-- See `NR_exit`. -/
def NR_close : Nat := 6

/-- See `NR_exit`. -/
def NR_read : Nat := 3

/-- See `NR_exit`. -/
def NR_write : Nat := 4

/-- See `NR_exit`. -/
def NR_creat : Nat := 8

/-- See `NR_exit`. -/
def NR_brk : Nat := 45

/-! ## The hand-compiled dictionary (`dictionary.h`, `tomoko.c`) -/

/-- The macro `LINK(label)`: the address of the link field of an entry. -/
def LINK (label : Word) : Nat := romBase + 256 * label.toCtorIdx

/-- Size of the header that `DECLARE_HEADER(forthName)` declares, for a name
of `n` characters (`sizeof (forthName)` is `n + 1`):
`(sizeof (Link) + sizeof (char) + sizeof (forthName) + (sizeof (Cell)-1)) / sizeof (Cell) * sizeof (Cell)`. -/
def headerSize (n : Nat) : Nat := (4 + 1 + (n + 1) + (4 - 1)) / 4 * 4

/-- The macro `XT(name)`: the address of the `codeWord` field, which follows the header. -/
@[irreducible]
def XT (name : Word) : Nat := LINK name + headerSize (strBytes (forthName name)).length

/-- An in-line branch offset `n * sizeof (Cell)` as a cell. -/
def cells (n : Int) : Nat := ofInt (n * 4)

/-- The defining macro of an entry with its arguments other than the link,
the label, the name and the flags. -/
inductive Def
  /-- The macro `DEF_CONST(linkInit,label,forthName,valueInit)`. -/
  | const (valueInit : Nat)
  /-- The macro `DEF_CONST_STRING(linkInit,label,forthName,valueInit)`. -/
  | constString (valueInit : String)
  /-- The macro `DEF_VAR(linkInit,label,forthName,valueInit)`; the argument is
  the address of `label_value`. -/
  | var (address : Nat)
  /-- The macro `DEF_NATIVE(linkInit,label,function,forthName,flags)`, and
  `DEF_CODE(linkInit,label,forthName,flags)` with the function `fn_label`. -/
  | native (function : Fn) (flags : Nat)
  /-- The macro `BEGIN_COLON(linkInit,label,forthName,flags,xtCount)` with the
  initialisers up to `END_COLON()`. -/
  | colon (flags : Nat) (xtCount : Nat) (code : List Nat)

/-- The entries of `tomoko.c`. -/
def definition : Word → Def
  | .VERSION => .const (100)
  | .CELL => .const (4)
  | .CELL_1 => .const (4 - 1)
  | .CELLMASK => .const (4294967295 ^^^ (4 - 1))
  | .R0 => .const (returnStack + 4 * RETURN_STACK_CELLS)
  | .DOCOL => .const (fnAddr .DOCOL)
  | .DODOES => .const (fnAddr .DODOES)
  | .F_IMMED => .const (IMMEDIATE_BIT)
  | .F_HIDDEN => .const (HIDDEN_BIT)
  | .F_LENMASK => .const (LENGTH_BITS)
  | .ZERO => .const (0)
  | .ONE => .const (1)
  | .BL => .const (32)
  | .QUITPROMPT => .constString "ok "
  | .SYS_EXIT => .const (NR_exit)
  | .SYS_OPEN => .const (NR_open)
  | .SYS_CLOSE => .const (NR_close)
  | .SYS_READ => .const (NR_read)
  | .SYS_WRITE => .const (NR_write)
  | .SYS_CREAT => .const (NR_creat)
  | .SYS_BRK => .const (NR_brk)
  | .O_RDONLY => .const (0o0)
  | .O_WRONLY => .const (0o1)
  | .O_RDWR => .const (0o2)
  | .O_CREAT => .const (0o100)
  | .O_EXCL => .const (0o200)
  | .O_TRUNC => .const (0o1000)
  | .O_APPEND => .const (0o2000)
  | .O_NONBLOCK => .const (0o4000)
  | .PIFA => .var PIFA_value
  | .STATE => .var STATE_value
  | .LATEST => .var LATEST_value
  | .HERE => .var HERE_value
  | .S0 => .var S0_value
  | .BASE => .var BASE_value
  | .CASE_SENSITIVE => .var CASE_SENSITIVE_value
  | .EXIT => .native .EXIT 0
  | .BRANCH => .native .BRANCH 0
  | .ZBRANCH => .native .ZBRANCH 0
  | .LIT => .native .LIT 0
  | .LITSTRING => .native .LITSTRING 0
  | .LBRAC => .native .LBRAC IMMEDIATE_BIT
  | .RBRAC => .native .RBRAC 0
  | .EXECUTE => .native .EXECUTE 0
  | .TICK => .native .TICK 0
  | .IPFETCH => .native .IPFETCH 0
  | .HALT => .native .HALT 0
  | .SYSCALL0 => .native .SYSCALL0 0
  | .SYSCALL1 => .native .SYSCALL1 0
  | .SYSCALL2 => .native .SYSCALL2 0
  | .SYSCALL3 => .native .SYSCALL3 0
  | .FIND => .native .FIND 0
  | .DROP => .native .DROP 0
  | .SWAP => .native .SWAP 0
  | .DUP => .native .DUP 0
  | .PICK => .native .PICK 0
  | .STICK => .native .STICK 0
  | .NTUCK => .native .NTUCK 0
  | .OVER => .native .OVER 0
  | .ROT => .native .ROT 0
  | .NROT => .native .NROT 0
  | .DDROP => .native .DDROP 0
  | .DDUP => .native .DDUP 0
  | .DSWAP => .native .DSWAP 0
  | .ZDUP => .native .ZDUP 0
  | .DSPFETCH => .native .DSPFETCH 0
  | .DSPSTORE => .native .DSPSTORE 0
  | .TOR => .native .TOR 0
  | .FROMR => .native .FROMR 0
  | .RSPFETCH => .native .RSPFETCH 0
  | .RSPSTORE => .native .RSPSTORE 0
  | .RDROP => .native .RDROP 0
  | .INCR => .native .INCR 0
  | .DECR => .native .DECR 0
  | .FOURPLUS => .native .CELLPLUS 0
  | .FOURMINUS => .native .CELLMINUS 0
  | .CELLPLUS => .native .CELLPLUS 0
  | .CELLMINUS => .native .CELLMINUS 0
  | .ADD => .native .ADD 0
  | .SUB => .native .SUB 0
  | .MUL => .native .MUL 0
  | .DIV => .native .DIV 0
  | .MOD => .native .MOD 0
  | .NEGATE => .native .NEGATE 0
  | .DIVMOD => .native .DIVMOD 0
  | .EQ => .native .EQ 0
  | .NE => .native .NE 0
  | .LT => .native .LT 0
  | .GT => .native .GT 0
  | .LE => .native .LE 0
  | .GE => .native .GE 0
  | .EQ0 => .native .EQ0 0
  | .NE0 => .native .NE0 0
  | .LT0 => .native .LT0 0
  | .GT0 => .native .GT0 0
  | .LE0 => .native .LE0 0
  | .GE0 => .native .GE0 0
  | .AND => .native .AND 0
  | .OR => .native .OR 0
  | .XOR => .native .XOR 0
  | .INVERT => .native .INVERT 0
  | .STORE => .native .STORE 0
  | .FETCH => .native .FETCH 0
  | .PLUSSTORE => .native .PLUSSTORE 0
  | .MINUSSTORE => .native .MINUSSTORE 0
  | .CSTORE => .native .CSTORE 0
  | .CFETCH => .native .CFETCH 0
  | .CCOPY => .native .CCOPY 0
  | .CMOVE => .native .CMOVE 0
  | .FILL => .native .FILL 0
  | .WS => .native .WS 0
  | .KEY => .native .KEY 0
  | .WORD => .native .WORD 0
  | .XNUMBERIN => .native .XNUMBERIN 0
  | .NUMBERIN => .native .NUMBERIN 0
  | .INIT => .native .INIT 0
  | .EMIT => .native .EMIT 0
  | .TELL => .native .TELL 0
  | .DOT => .native .DOT 0
  | .MSLEEP => .native .MSLEEP 0
  | .NUMBER => .colon 0 5 [
      XT .BASE, XT .FETCH, XT .NUMBERIN, XT .SWAP, XT .DROP]
  | .CR => .colon 0 3 [
      XT .LIT, 10, XT .EMIT]
  | .SPACE => .colon 0 3 [
      XT .BL, XT .EMIT]
  | .BSCOMMENT => .colon IMMEDIATE_BIT 15 [
      XT .KEY, XT .DUP, XT .LIT, 13, XT .NE, XT .ZBRANCH, cells (7), XT .LIT, 10, XT
      .NE, XT .ZBRANCH, cells (4), XT .BRANCH, cells (-13), XT .DROP]
  | .CHAR => .colon 0 3 [
      XT .WORD, XT .DROP, XT .CFETCH]
  | .SPHASH => .colon 0 7 [
      XT .S0, XT .FETCH, XT .DSPFETCH, XT .SUB, XT .CELL, XT .DIV, XT .DECR]
  | .DOT_S => .colon 0 23 [
      XT .SPHASH, XT .DUP, XT .LIT, 60, XT .EMIT, XT .DOT, XT .LIT, 62, XT .EMIT, XT
      .DUP, XT .ZBRANCH, cells (8), XT .DUP, XT .PICK, XT .SPACE, XT .DOT, XT .DECR, XT
      .BRANCH, cells (-9), XT .CR, XT .DROP]
  | .TOCFA => .colon 0 15 [
      XT .DUP, XT .ZBRANCH, cells (13), XT .CELLPLUS, XT .DUP, XT .CFETCH, XT
      .F_LENMASK, XT .AND, XT .INCR, XT .INCR, XT .ADD, XT .CELL_1, XT .ADD, XT
      .CELLMASK, XT .AND]
  | .TODFA => .colon 0 5 [
      XT .TOCFA, XT .DUP, XT .ZBRANCH, cells (2), XT .CELLPLUS]
  | .ALLOT => .colon 0 2 [
      XT .HERE, XT .PLUSSTORE]
  | .COMMA => .colon 0 5 [
      XT .HERE, XT .FETCH, XT .STORE, XT .CELL, XT .ALLOT]
  | .CCOMMA => .colon 0 5 [
      XT .HERE, XT .FETCH, XT .CSTORE, XT .ONE, XT .ALLOT]
  | .ERASE => .colon 0 2 [
      XT .ZERO, XT .FILL]
  | .CREATE => .colon 0 33 [
      XT .WORD, XT .HERE, XT .FETCH, XT .LATEST, XT .FETCH, XT .COMMA, XT .LATEST, XT
      .STORE, XT .DUP, XT .CCOMMA, XT .HERE, XT .FETCH, XT .SWAP, XT .DUP, XT .ALLOT, XT
      .CMOVE, XT .ZERO, XT .CCOMMA, XT .HERE, XT .FETCH, XT .CELL_1, XT .ADD, XT
      .CELLMASK, XT .AND, XT .HERE, XT .FETCH, XT .SUB, XT .HERE, XT .FETCH, XT .SWAP,
      XT .DUP, XT .ALLOT, XT .ERASE]
  | .IMMEDIATE => .colon IMMEDIATE_BIT 9 [
      XT .LATEST, XT .FETCH, XT .CELLPLUS, XT .DUP, XT .CFETCH, XT .F_IMMED, XT .XOR, XT
      .SWAP, XT .CSTORE]
  | .HIDDEN => .colon 0 7 [
      XT .CELLPLUS, XT .DUP, XT .CFETCH, XT .F_HIDDEN, XT .XOR, XT .SWAP, XT .CSTORE]
  | .HIDE => .colon 0 3 [
      XT .WORD, XT .FIND, XT .HIDDEN]
  | .WORDS => .colon 0 29 [
      XT .LATEST, XT .FETCH, XT .DUP, XT .ZBRANCH, cells (23), XT .DUP, XT .CELLPLUS, XT
      .DUP, XT .CFETCH, XT .F_HIDDEN, XT .AND, XT .ZBRANCH, cells (4), XT .DROP, XT
      .BRANCH, cells (-14), XT .DUP, XT .CFETCH, XT .F_LENMASK, XT .AND, XT .SWAP, XT
      .INCR, XT .SWAP, XT .TELL, XT .SPACE, XT .BRANCH, cells (-25), XT .DROP, XT .CR]
  | .INTERPRET => .colon 0 51 [
      XT .WORD, XT .DDUP, XT .FIND, XT .DUP, XT .ZBRANCH, cells (24), XT .DUP, XT
      .TOCFA, XT .SWAP, XT .STATE, XT .FETCH, XT .ZBRANCH, cells (9), XT .CELLPLUS, XT
      .CFETCH, XT .F_IMMED, XT .AND, XT .ZBRANCH, cells (8), XT .BRANCH, cells (2), XT
      .DROP, XT .ROT, XT .DDROP, XT .EXECUTE, XT .EXIT, XT .COMMA, XT .DDROP, XT .EXIT,
      XT .DROP, XT .BASE, XT .FETCH, XT .NUMBERIN, XT .DUP, XT .ZBRANCH, cells (7), XT
      .TELL, XT .DROP, XT .LIT, 63, XT .EMIT, XT .EXIT, XT .DDROP, XT .STATE, XT .FETCH,
      XT .ZBRANCH, cells (5), XT .LIT, XT .LIT, XT .COMMA, XT .COMMA]
  | .QUIT => .colon 0 5 [
      XT .R0, XT .RSPSTORE, XT .INTERPRET, XT .BRANCH, cells (-4)]
  | .COLON => .colon 0 7 [
      XT .CREATE, XT .DOCOL, XT .COMMA, XT .LATEST, XT .FETCH, XT .HIDDEN, XT .RBRAC]
  | .SEMICOLON => .colon IMMEDIATE_BIT 7 [
      XT .LIT, XT .EXIT, XT .COMMA, XT .LATEST, XT .FETCH, XT .HIDDEN, XT .LBRAC]
  | .MAIN => .colon 0 2 [
      XT .INIT, XT .QUIT]

/-- The `linkInit` argument: `NULL` for the first entry, `LINK` of the entry
defined just before (whose slot is the one before) for every other one. -/
def linkInit (label : Word) : Nat :=
  match label.toCtorIdx with
  | 0 => 0
  | i + 1 => romBase + 256 * i

/-- Little-endian bytes of a cell. -/
def le32 (v : Nat) : List Nat :=
  [v % 256, v / 256 % 256, v / 65536 % 256, v / 16777216 % 256]

/-- A list cut or zero-filled to `n` elements (static storage is zero-initialised). -/
def padTo (n : Nat) (l : List Nat) : List Nat :=
  l.take n ++ List.replicate (n - l.length) 0

/-- The initialiser of the `length` field of the header. -/
def lengthInit (label : Word) : Nat :=
  let n := (strBytes (forthName label)).length
  match definition label with
  | .const _ => n
  | .constString _ => n
  | .var _ => n
  | .native _ flags => flags ||| n
  | .colon flags _ _ => flags + n

/-- The bytes of the header of an entry: the link, the length, the name with
its NUL, and the padding of the union `u`. -/
def headerBytes (label : Word) : List Nat :=
  let name := strBytes (forthName label)
  padTo (headerSize name.length) (le32 (linkInit label) ++ [lengthInit label % 256] ++ name ++ [0])

/-- The cell that four bytes make (the macro `CELL32` of `string_lit.h`). -/
def CELL32 (b0 b1 b2 b3 : Nat) : Nat := b0 + b1 * 256 + b2 * 65536 + b3 * 16777216

/-- The cells that a list of bytes fills. -/
def cellsOfBytes : List Nat → List Nat
  | b0 :: b1 :: b2 :: b3 :: rest => CELL32 b0 b1 b2 b3 :: cellsOfBytes rest
  | [] => []
  | [b0] => [CELL32 b0 0 0 0]
  | [b0, b1] => [CELL32 b0 b1 0 0]
  | [b0, b1, b2] => [CELL32 b0 b1 b2 0]

/-- The function whose address the defining macro stores in the `codeWord` field. -/
def codeWord (label : Word) : Fn :=
  match definition label with
  | .const _ => .CONST
  | .constString _ => .CONST_STRING
  | .var _ => .VAR
  | .native function _ => function
  | .colon _ _ _ => .DOCOL

/-- The cells of the fields that follow the `codeWord` field. -/
def parameterField (label : Word) : List Nat :=
  match definition label with
  | .const valueInit => [valueInit]
  | .constString valueInit =>
      let n := (strBytes (forthName label)).length + 1
      (strBytes valueInit).length ::
        padTo (max ((n + 3) / 4) ((4 - 1 + ((strBytes valueInit).length + 1)) / 4))
          (cellsOfBytes (strBytes valueInit))
  | .var address => [address]
  | .native _ _ => []
  | .colon _ xtCount code => padTo (xtCount + 1) (code ++ [XT .EXIT])

/-- The cells that follow the header of an entry: the code word and the
parameter field. -/
def entryCells (label : Word) : List Nat := fnAddr (codeWord label) :: parameterField label

/-- The byte at offset `o` of the object that the defining macro of `label` declares. -/
def entryByte (label : Word) (o : Nat) : Nat :=
  let h := headerSize (strBytes (forthName label)).length
  if o < h then (headerBytes label).getD o 0
  else (le32 ((entryCells label).getD ((o - h) / 4) 0)).getD ((o - h) % 4) 0

/-- The address lies in the read-only image. -/
def inRom (a : Nat) : Bool := decide (romBase ≤ a) && decide (a < romEnd)

/-- The labels in the order of definition, which is the order of the slots. -/
def words : List Word :=
  [
   Word.VERSION, Word.CELL, Word.CELL_1, Word.CELLMASK, Word.R0, Word.DOCOL, Word.DODOES,
   Word.F_IMMED, Word.F_HIDDEN, Word.F_LENMASK, Word.ZERO, Word.ONE, Word.BL, Word.QUITPROMPT,
   Word.SYS_EXIT, Word.SYS_OPEN, Word.SYS_CLOSE, Word.SYS_READ, Word.SYS_WRITE, Word.SYS_CREAT,
   Word.SYS_BRK, Word.O_RDONLY, Word.O_WRONLY, Word.O_RDWR, Word.O_CREAT, Word.O_EXCL,
   Word.O_TRUNC, Word.O_APPEND, Word.O_NONBLOCK, Word.PIFA, Word.STATE, Word.LATEST, Word.HERE,
   Word.S0, Word.BASE, Word.CASE_SENSITIVE, Word.EXIT, Word.BRANCH, Word.ZBRANCH, Word.LIT,
   Word.LITSTRING, Word.LBRAC, Word.RBRAC, Word.EXECUTE, Word.TICK, Word.IPFETCH, Word.HALT,
   Word.SYSCALL0, Word.SYSCALL1, Word.SYSCALL2, Word.SYSCALL3, Word.FIND, Word.DROP, Word.SWAP,
   Word.DUP, Word.PICK, Word.STICK, Word.NTUCK, Word.OVER, Word.ROT, Word.NROT, Word.DDROP,
   Word.DDUP, Word.DSWAP, Word.ZDUP, Word.DSPFETCH, Word.DSPSTORE, Word.TOR, Word.FROMR,
   Word.RSPFETCH, Word.RSPSTORE, Word.RDROP, Word.INCR, Word.DECR, Word.FOURPLUS,
   Word.FOURMINUS, Word.CELLPLUS, Word.CELLMINUS, Word.ADD, Word.SUB, Word.MUL, Word.DIV,
   Word.MOD, Word.NEGATE, Word.DIVMOD, Word.EQ, Word.NE, Word.LT, Word.GT, Word.LE, Word.GE,
   Word.EQ0, Word.NE0, Word.LT0, Word.GT0, Word.LE0, Word.GE0, Word.AND, Word.OR, Word.XOR,
   Word.INVERT, Word.STORE, Word.FETCH, Word.PLUSSTORE, Word.MINUSSTORE, Word.CSTORE,
   Word.CFETCH, Word.CCOPY, Word.CMOVE, Word.FILL, Word.WS, Word.KEY, Word.WORD, Word.XNUMBERIN,
   Word.NUMBERIN, Word.INIT, Word.EMIT, Word.TELL, Word.DOT, Word.MSLEEP, Word.NUMBER, Word.CR,
   Word.SPACE, Word.BSCOMMENT, Word.CHAR, Word.SPHASH, Word.DOT_S, Word.TOCFA, Word.TODFA,
   Word.ALLOT, Word.COMMA, Word.CCOMMA, Word.ERASE, Word.CREATE, Word.IMMEDIATE, Word.HIDDEN,
   Word.HIDE, Word.WORDS, Word.INTERPRET, Word.QUIT, Word.COLON, Word.SEMICOLON, Word.MAIN]

/-- A list cut into rows of `n + 1` elements. -/
def rowsOf (n : Nat) : List Word → List (List Word)
  | [] => []
  | a :: l =>
      match rowsOf n l with
      | [] => [[a]]
      | row :: rows => if row.length ≤ n then (a :: row) :: rows else [a] :: row :: rows

/-- The labels in rows of twelve, the last row first filled (a table with a
short look-up). -/
def wordRows : List (List Word) := (rowsOf 11 words.reverse).reverse.map List.reverse

/-- The label of the entry in slot `i`. -/
def wordAt (i : Nat) : Option Word :=
  (wordRows.get? (i / 12)).bind fun row => row.get? (i % 12)

/-- The byte of the read-only image at an address inside it: the image is
shorter than `0x10000` bytes and starts at a multiple of `0x10000`, so the
slot is `a % 0x10000 / 256` and the offset in the slot is `a % 256`. -/
@[irreducible]
def romByte (a : Nat) : Nat :=
  match wordAt (a % 65536 / 256) with
  | some label => entryByte label (a % 256)
  | none => 0

/-! ## Machine state (`machine.h`, `machine.c`, `input.c`) -/

/-- The state of the abstract machine and of its surroundings. -/
structure Machine where
  /-- Writable memory, byte by byte. -/
  mem : Nat → Nat
  /-- The parameter stack; the head is `*sp`. -/
  sp : List Nat
  /-- The return stack; the head is `*rsp`. -/
  rsp : List Nat
  /-- The instruction pointer `ip`. -/
  ip : Nat
  /-- The register `w`: the execution token of the word being executed. -/
  w : Nat
  /-- The characters that the current input source delivers, in order. -/
  input : List Nat
  /-- Index of the next character to read (`lineIndex`). -/
  lineIndex : Nat
  /-- The characters written to standard output so far. -/
  output : List Nat

/-- Read a byte: from the read-only image inside it, from writable memory elsewhere. -/
def read8 (mem : Nat → Nat) (a : Nat) : Nat :=
  if inRom a then romByte a else mem a % 256

/-- Read a cell (little-endian). -/
def read32 (mem : Nat → Nat) (a : Nat) : Nat :=
  read8 mem a + 256 * read8 mem (a + 1) + 65536 * read8 mem (a + 2) + 16777216 * read8 mem (a + 3)

/-- Memory with one byte replaced. -/
def set8 (mem : Nat → Nat) (a v : Nat) : Nat → Nat :=
  fun x => if x = a then v % 256 else mem x

/-- Memory with one cell replaced. -/
def set32 (mem : Nat → Nat) (a v : Nat) : Nat → Nat :=
  set8 (set8 (set8 (set8 mem a v) (a + 1) (v / 256)) (a + 2) (v / 65536)) (a + 3) (v / 16777216)

/-- Store a byte; a store into a `const` object has no successor state. -/
def write8 (mem : Nat → Nat) (a v : Nat) : Option (Nat → Nat) :=
  if inRom a then none else some (set8 mem a v)

/-- Store a cell. -/
def write32 (mem : Nat → Nat) (a v : Nat) : Option (Nat → Nat) :=
  if inRom a || inRom (a + 1) || inRom (a + 2) || inRom (a + 3) then none
  else some (set32 mem a v)

/-- The bytes at `a`, `a + 1`, ..., `a + n - 1`. -/
def readBytes (mem : Nat → Nat) (a : Nat) : Nat → List Nat
  | 0 => []
  | n + 1 => read8 mem a :: readBytes mem (a + 1) n

/-- Memory with the bytes of a list stored from `a` on. -/
def setBytes (mem : Nat → Nat) (a : Nat) : List Nat → Nat → Nat
  | [] => mem
  | b :: bs => setBytes (set8 mem a b) (a + 1) bs

/-- Store the bytes of a list from `a` on. -/
def writeBytes (mem : Nat → Nat) (a : Nat) : List Nat → Option (Nat → Nat)
  | [] => some mem
  | b :: bs => (write8 mem a b).bind fun m => writeBytes m (a + 1) bs

/-- The macro `STACK_PUSH(sp, value)`. -/
def push (v : Nat) (s : Machine) : Machine := { s with sp := v :: s.sp }

/-- The macro `STACK_PUSH(rsp, value)`. -/
def rpush (v : Nat) (s : Machine) : Machine := { s with rsp := v :: s.rsp }

/-- The macro `STACK_POP(sp)`. -/
def pop (s : Machine) : Option (Nat × Machine) :=
  match s.sp with
  | [] => none
  | v :: rest => some (v, { s with sp := rest })

/-- The macro `STACK_POP(rsp)`. -/
def rpop (s : Machine) : Option (Nat × Machine) :=
  match s.rsp with
  | [] => none
  | v :: rest => some (v, { s with rsp := rest })

/-! ## Native words: interpreter basics (`native.c`) -/

/-- The function `fn_DOCOL`. -/
def fn_DOCOL (s : Machine) : Option Machine :=
  some { rpush s.ip s with ip := (s.w + 4) % 4294967296 }

/-- The function `fn_DODOES`. -/
def fn_DODOES (s : Machine) : Option Machine :=
  some { push ((s.w + 8) % 4294967296) (rpush s.ip s) with ip := read32 s.mem (s.w + 4) }

/-- The function `fn_EXIT`. -/
def fn_EXIT (s : Machine) : Option Machine :=
  (rpop s).map fun (v, s1) => { s1 with ip := v }

/-- The function `fn_BRANCH`. -/
def fn_BRANCH (s : Machine) : Option Machine :=
  some { s with ip := (s.ip + read32 s.mem s.ip) % 4294967296 }

/-- The function `fn_ZBRANCH`. -/
def fn_ZBRANCH (s : Machine) : Option Machine :=
  (pop s).map fun (v, s1) =>
    if v = 0 then { s1 with ip := (s1.ip + read32 s1.mem s1.ip) % 4294967296 }
    else { s1 with ip := (s1.ip + 4) % 4294967296 }

/-- The function `fn_LIT`. -/
def fn_LIT (s : Machine) : Option Machine :=
  some { push (read32 s.mem s.ip) s with ip := (s.ip + 4) % 4294967296 }

/-- The function `fn_LITSTRING`. -/
def fn_LITSTRING (s : Machine) : Option Machine :=
  let len := read32 s.mem s.ip
  let skipped := ((len + 2 * 4 - 1) % 4294967296) &&& (4294967295 ^^^ (4 - 1))
  some { push len (push ((s.ip + 4) % 4294967296) s) with ip := (s.ip + skipped) % 4294967296 }

/-- The function `fn_LBRAC`. -/
def fn_LBRAC (s : Machine) : Option Machine :=
  some { s with mem := set32 s.mem STATE_value 0 }

/-- The function `fn_RBRAC`. -/
def fn_RBRAC (s : Machine) : Option Machine :=
  some { s with mem := set32 s.mem STATE_value 1 }

/-- The function `fn_CONST`. -/
def fn_CONST (s : Machine) : Option Machine :=
  some (push (read32 s.mem (s.w + 4)) s)

/-- The function `fn_CONST_STRING`. -/
def fn_CONST_STRING (s : Machine) : Option Machine :=
  some (push (read32 s.mem (s.w + 4)) (push ((s.w + 8) % 4294967296) s))

/-- The function `fn_VAR`. -/
def fn_VAR (s : Machine) : Option Machine :=
  some (push (read32 s.mem (s.w + 4)) s)

/-- The function `fn_TICK`. -/
def fn_TICK (s : Machine) : Option Machine :=
  some { push (read32 s.mem s.ip) s with ip := (s.ip + 4) % 4294967296 }

/-- The function `fn_IPFETCH`. -/
def fn_IPFETCH (s : Machine) : Option Machine :=
  some (push ((s.ip + 4294967292) % 4294967296) s)

/-- The function `fn_HALT`: the process exits. -/
def fn_HALT (_ : Machine) : Option Machine := none

/-- The functions `fn_SYSCALL0` to `fn_SYSCALL3`: their bodies are empty. -/
def fn_SYSCALL (s : Machine) : Option Machine := some s

/-! ## Native words: dictionary search -/

/-- The function `toupper` of the C library in the "C" locale, on byte values. -/
def toupper (c : Nat) : Nat := if 97 ≤ c ∧ c ≤ 122 then c - 32 else c

/-- The two comparison loops of `fn_FIND`: do the `n` bytes at `name` and at
`target` agree, as they are when `caseSensitive`, after `toupper` otherwise? -/
def nameMatches (mem : Nat → Nat) (caseSensitive : Bool) (name target : Nat) : Nat → Bool
  | 0 => true
  | n + 1 =>
      if caseSensitive then
        if read8 mem name ≠ read8 mem target then false
        else nameMatches mem caseSensitive (name + 1) (target + 1) n
      else
        if toupper (read8 mem name) ≠ toupper (read8 mem target) then false
        else nameMatches mem caseSensitive (name + 1) (target + 1) n

/-- The `while (link != NULL)` loop of `fn_FIND`; the first argument bounds
the number of entries visited. -/
def findLoop (mem : Nat → Nat) (target targetLength : Nat) : Nat → Nat → Option Nat
  | 0, _ => none
  | fuel + 1, link =>
      if link = 0 then some 0
      else
        let name := link + 4
        if read8 mem name &&& HIDDEN_BIT = 0 then
          let length := read8 mem name &&& LENGTH_BITS
          if (length : Int) = toInt targetLength then
            if nameMatches mem (read32 mem CASE_SENSITIVE_value != 0) (name + 1) target length
            then some link
            else findLoop mem target targetLength fuel (read32 mem link)
          else findLoop mem target targetLength fuel (read32 mem link)
        else findLoop mem target targetLength fuel (read32 mem link)

/-- The function `fn_FIND`.  A link chain that does not end within `2^32`
entries is cyclic: the loop does not return. -/
def fn_FIND (s : Machine) : Option Machine :=
  match s.sp with
  | targetLength :: target :: rest =>
      (findLoop s.mem target targetLength 4294967296 (read32 s.mem LATEST_value)).map
        fun link => push link { s with sp := rest }
  | _ => none

/-! ## Native words: stack manipulation -/

/-- The function `fn_DROP`. -/
def fn_DROP (s : Machine) : Option Machine :=
  match s.sp with
  | _ :: rest => some { s with sp := rest }
  | _ => none

/-- The function `fn_SWAP`. -/
def fn_SWAP (s : Machine) : Option Machine :=
  match s.sp with
  | c0 :: c1 :: rest => some { s with sp := c1 :: c0 :: rest }
  | _ => none

/-- The function `fn_DUP`. -/
def fn_DUP (s : Machine) : Option Machine :=
  match s.sp with
  | top :: rest => some { s with sp := top :: top :: rest }
  | _ => none

/-- The function `fn_PICK`. -/
def fn_PICK (s : Machine) : Option Machine :=
  match s.sp with
  | index :: rest =>
      if toInt index < 0 then none
      else (rest.get? index).map fun item => { s with sp := item :: rest }
  | _ => none

/-- The function `fn_STICK`. -/
def fn_STICK (s : Machine) : Option Machine :=
  match s.sp with
  | index :: item :: rest =>
      if toInt index < 0 ∨ rest.length ≤ index then none
      else some { s with sp := rest.set index item }
  | _ => none

/-- The function `fn_NTUCK`: the cells `1 .. index` move one place towards
the top and `x` lands at place `index`. -/
def fn_NTUCK (s : Machine) : Option Machine :=
  match s.sp with
  | index :: rest =>
      if 0 < toInt index then
        match rest with
        | x :: below =>
            if below.length < index then none
            else some { s with sp := below.take index ++ x :: below.drop index }
        | [] => none
      else some { s with sp := rest }
  | _ => none

/-- The function `fn_OVER`. -/
def fn_OVER (s : Machine) : Option Machine :=
  match s.sp with
  | n2 :: n1 :: rest => some { s with sp := n1 :: n2 :: n1 :: rest }
  | _ => none

/-- The function `fn_ROT`. -/
def fn_ROT (s : Machine) : Option Machine :=
  match s.sp with
  | n3 :: n2 :: n1 :: rest => some { s with sp := n2 :: n1 :: n3 :: rest }
  | _ => none

/-- The function `fn_NROT`. -/
def fn_NROT (s : Machine) : Option Machine :=
  match s.sp with
  | n3 :: n2 :: n1 :: rest => some { s with sp := n1 :: n3 :: n2 :: rest }
  | _ => none

/-- The function `fn_DDROP`. -/
def fn_DDROP (s : Machine) : Option Machine :=
  match s.sp with
  | _ :: _ :: rest => some { s with sp := rest }
  | _ => none

/-- The function `fn_DDUP`. -/
def fn_DDUP (s : Machine) : Option Machine :=
  match s.sp with
  | n2 :: n1 :: rest => some { s with sp := n2 :: n1 :: n2 :: n1 :: rest }
  | _ => none

/-- The function `fn_DSWAP`. -/
def fn_DSWAP (s : Machine) : Option Machine :=
  match s.sp with
  | n4 :: n3 :: n2 :: n1 :: rest => some { s with sp := n2 :: n1 :: n4 :: n3 :: rest }
  | _ => none

/-- The function `fn_ZDUP`. -/
def fn_ZDUP (s : Machine) : Option Machine :=
  match s.sp with
  | top :: rest => some (if top ≠ 0 then { s with sp := top :: top :: rest } else s)
  | _ => none

/-- The value of the pointer into a stack array of `n` cells at `base` when
`depth` cells are on the stack. -/
def stackPointer (base n depth : Nat) : Nat :=
  (base + 4 * n + (4294967296 - 4 * depth % 4294967296)) % 4294967296

/-- The function `fn_DSPFETCH`. -/
def fn_DSPFETCH (s : Machine) : Option Machine :=
  some (push (stackPointer parameterStack PARAMETER_STACK_CELLS s.sp.length) s)

/-- The cells that stay on a stack when its pointer is set to `value`: the
pointer may only move towards the bottom of the stack, by whole cells. -/
def setPointer (base n : Nat) (value : Nat) (stack : List Nat) : Option (List Nat) :=
  let current := stackPointer base n stack.length
  if current ≤ value ∧ value ≤ base + 4 * n ∧ (value - current) % 4 = 0
  then some (stack.drop ((value - current) / 4)) else none

/-- The function `fn_DSPSTORE`. -/
def fn_DSPSTORE (s : Machine) : Option Machine :=
  match s.sp with
  | value :: rest =>
      (setPointer parameterStack PARAMETER_STACK_CELLS value rest).map fun l => { s with sp := l }
  | _ => none

/-! ## Native words: return stack -/

/-- The function `fn_TOR`. -/
def fn_TOR (s : Machine) : Option Machine :=
  match s.sp with
  | v :: rest => some { s with sp := rest, rsp := v :: s.rsp }
  | _ => none

/-- The function `fn_FROMR`. -/
def fn_FROMR (s : Machine) : Option Machine :=
  match s.rsp with
  | v :: rest => some { s with rsp := rest, sp := v :: s.sp }
  | _ => none

/-- The function `fn_RSPFETCH`. -/
def fn_RSPFETCH (s : Machine) : Option Machine :=
  some (push (stackPointer returnStack RETURN_STACK_CELLS s.rsp.length) s)

/-- The function `fn_RSPSTORE`. -/
def fn_RSPSTORE (s : Machine) : Option Machine :=
  match s.sp with
  | value :: rest =>
      (setPointer returnStack RETURN_STACK_CELLS value s.rsp).map fun l =>
        { s with sp := rest, rsp := l }
  | _ => none

/-- The function `fn_RDROP`. -/
def fn_RDROP (s : Machine) : Option Machine :=
  match s.rsp with
  | _ :: rest => some { s with rsp := rest }
  | _ => none

/-! ## Native words: arithmetic, comparison, bitwise -/

/-- A native word made by `DEF_UNARY_OP_FN`, or written in that shape. -/
def unaryOp (op : Nat → Nat) (s : Machine) : Option Machine :=
  match s.sp with
  | n :: rest => some { s with sp := op n :: rest }
  | _ => none

/-- A native word made by `DEF_BINARY_OP_FN`, for an operator that is
defined on all operands. -/
def binaryOp (op : Nat → Nat → Nat) (s : Machine) : Option Machine :=
  match s.sp with
  | n2 :: n1 :: rest => some { s with sp := op n1 n2 :: rest }
  | _ => none

/-- The function `fn_INCR`. -/
def fn_INCR : Machine → Option Machine := unaryOp fun value => (value + 1) % 4294967296

/-- The function `fn_DECR`. -/
def fn_DECR : Machine → Option Machine := unaryOp fun value => (value + 4294967295) % 4294967296

/-- The function `fn_CELLPLUS`. -/
def fn_CELLPLUS : Machine → Option Machine := unaryOp fun value => (value + 4) % 4294967296

/-- The function `fn_CELLMINUS`. -/
def fn_CELLMINUS : Machine → Option Machine :=
  unaryOp fun value => (value + 4294967292) % 4294967296

/-- The function `fn_ADD`. -/
def fn_ADD : Machine → Option Machine := binaryOp fun n1 n2 => (n1 + n2) % 4294967296

/-- The function `fn_SUB`. -/
def fn_SUB : Machine → Option Machine :=
  binaryOp fun n1 n2 => (n1 + (4294967296 - n2 % 4294967296)) % 4294967296

/-- The function `fn_MUL`. -/
def fn_MUL : Machine → Option Machine := binaryOp fun n1 n2 => (n1 * n2) % 4294967296

/-- The operands on which the machine division is defined: the divisor is
not zero and the quotient is representable. -/
def divDefined (n1 n2 : Nat) : Bool :=
  toInt n2 != 0 && !(toInt n1 == -2147483648 && toInt n2 == -1)

/-- The function `fn_DIV` (C division truncates toward zero). -/
def fn_DIV (s : Machine) : Option Machine :=
  match s.sp with
  | n2 :: n1 :: rest =>
      if divDefined n1 n2 then some { s with sp := ofInt (Int.tdiv (toInt n1) (toInt n2)) :: rest }
      else none
  | _ => none

/-- The function `fn_MOD`. -/
def fn_MOD (s : Machine) : Option Machine :=
  match s.sp with
  | n2 :: n1 :: rest =>
      if divDefined n1 n2 then some { s with sp := ofInt (Int.tmod (toInt n1) (toInt n2)) :: rest }
      else none
  | _ => none

/-- The function `fn_NEGATE`. -/
def fn_NEGATE : Machine → Option Machine :=
  unaryOp fun n => (4294967296 - n % 4294967296) % 4294967296

/-- The function `fn_DIVMOD`. -/
def fn_DIVMOD (s : Machine) : Option Machine :=
  match s.sp with
  | n2 :: n1 :: rest =>
      if divDefined n1 n2 then
        some { s with sp := ofInt (Int.tdiv (toInt n1) (toInt n2)) ::
                            ofInt (Int.tmod (toInt n1) (toInt n2)) :: rest }
      else none
  | _ => none

/-- A native word made by `DEF_COMPARISON_FN`. -/
def comparison (op : Int → Int → Bool) : Machine → Option Machine :=
  binaryOp fun n1 n2 => BOOLEAN (op (toInt n1) (toInt n2))

/-- A native word made by `DEF_COMPARISON0_FN`. -/
def comparison0 (op : Int → Int → Bool) : Machine → Option Machine :=
  unaryOp fun n => BOOLEAN (op (toInt n) 0)

/-- The function `fn_AND`. -/
def fn_AND : Machine → Option Machine := binaryOp fun n1 n2 => (n1 &&& n2) % 4294967296

/-- The function `fn_OR`. -/
def fn_OR : Machine → Option Machine := binaryOp fun n1 n2 => (n1 ||| n2) % 4294967296

/-- The function `fn_XOR`. -/
def fn_XOR : Machine → Option Machine := binaryOp fun n1 n2 => (n1 ^^^ n2) % 4294967296

/-- The function `fn_INVERT`. -/
def fn_INVERT : Machine → Option Machine := unaryOp fun n => 4294967295 - n % 4294967296

/-! ## Native words: memory -/

/-- The function `fn_STORE`. -/
def fn_STORE (s : Machine) : Option Machine :=
  match s.sp with
  | addr :: v :: rest => (write32 s.mem addr v).map fun m => { s with sp := rest, mem := m }
  | _ => none

/-- The function `fn_FETCH`. -/
def fn_FETCH (s : Machine) : Option Machine :=
  match s.sp with
  | addr :: rest => some { s with sp := read32 s.mem addr :: rest }
  | _ => none

/-- The function `fn_PLUSSTORE`. -/
def fn_PLUSSTORE (s : Machine) : Option Machine :=
  match s.sp with
  | addr :: v :: rest =>
      (write32 s.mem addr ((read32 s.mem addr + v) % 4294967296)).map fun m =>
        { s with sp := rest, mem := m }
  | _ => none

/-- The function `fn_MINUSSTORE`: its body is `*addr += STACK_POP(sp)`. -/
def fn_MINUSSTORE (s : Machine) : Option Machine :=
  match s.sp with
  | addr :: v :: rest =>
      (write32 s.mem addr ((read32 s.mem addr + v) % 4294967296)).map fun m =>
        { s with sp := rest, mem := m }
  | _ => none

/-- The function `fn_CSTORE`. -/
def fn_CSTORE (s : Machine) : Option Machine :=
  match s.sp with
  | addr :: v :: rest => (write8 s.mem addr v).map fun m => { s with sp := rest, mem := m }
  | _ => none

/-- The function `fn_CFETCH`. -/
def fn_CFETCH (s : Machine) : Option Machine :=
  match s.sp with
  | addr :: rest => some { s with sp := read8 s.mem addr :: rest }
  | _ => none

/-- The function `fn_CCOPY`: `*dest++ = *source;` then `source` and `dest` are pushed. -/
def fn_CCOPY (s : Machine) : Option Machine :=
  match s.sp with
  | dest :: source :: rest =>
      (write8 s.mem dest (read8 s.mem source)).map fun m =>
        { s with sp := (dest + 1) % 4294967296 :: source :: rest, mem := m }
  | _ => none

/-- The function `fn_CMOVE` (`memmove` reads the source before it writes). -/
def fn_CMOVE (s : Machine) : Option Machine :=
  match s.sp with
  | count :: dest :: source :: rest =>
      if 0 < toInt count then
        (writeBytes s.mem dest (readBytes s.mem source count)).map fun m =>
          { s with sp := rest, mem := m }
      else some { s with sp := rest }
  | _ => none

/-- The function `fn_FILL`. -/
def fn_FILL (s : Machine) : Option Machine :=
  match s.sp with
  | b :: n :: addr :: rest =>
      if 0 < toInt n then
        (writeBytes s.mem addr (List.replicate n (b % 256))).map fun m =>
          { s with sp := rest, mem := m }
      else some { s with sp := rest }
  | _ => none

/-! ## Native words: output -/

/-- The function `charOut`. -/
def charOut (c : Nat) (s : Machine) : Machine := { s with output := s.output ++ [c % 256] }

/-- The function `fn_EMIT`. -/
def fn_EMIT (s : Machine) : Option Machine :=
  match s.sp with
  | c :: rest => some (charOut c { s with sp := rest })
  | _ => none

/-- The function `fn_TELL`. -/
def fn_TELL (s : Machine) : Option Machine :=
  match s.sp with
  | length :: addr :: rest =>
      some { s with sp := rest,
                    output := s.output ++ (if 0 < toInt length then readBytes s.mem addr length else []) }
  | _ => none

/-- The characters that `printf("%d", n)` writes. -/
def decimal (n : Int) : List Nat :=
  (if n < 0 then [45] else []) ++ (Nat.toDigits 10 n.natAbs).map Char.toNat

/-- The function `fn_DOT`. -/
def fn_DOT (s : Machine) : Option Machine :=
  match s.sp with
  | n :: rest => some { s with sp := rest, output := s.output ++ decimal (toInt n) }
  | _ => none

/-- The function `fn_MSLEEP`: the delay is not part of the state. -/
def fn_MSLEEP (s : Machine) : Option Machine :=
  match s.sp with
  | _ :: rest => some { s with sp := rest }
  | _ => none

/-! ## Native words: input (`input.c`) -/

/-- The value of a byte read as a C `char`, which is signed. -/
def toChar (c : Nat) : Int := if c % 256 < 128 then (c % 256 : Nat) else (c % 256 : Nat) - 256

/-- The function `isWS`: `c <= 32` on a `char`. -/
def isWS (c : Nat) : Bool := decide (toChar c ≤ 32)

/-- The function `fn_WS`. -/
def fn_WS : Machine → Option Machine := unaryOp fun c => BOOLEAN (isWS c)

/-- The function `charIn` on the input and `lineIndex`: the next
character and the new `lineIndex`; there is no successor state when the
input is exhausted. -/
def charIn (input : List Nat) (lineIndex : Nat) : Option (Nat × Nat) :=
  (input.get? lineIndex).map fun c => (c % 256, lineIndex + 1)

/-- The function `unReadChar`, on `lineIndex`. -/
def unReadChar (lineIndex : Nat) : Nat := lineIndex - 1

/-- The function `fn_KEY`: the `char` is converted to a cell. -/
def fn_KEY (s : Machine) : Option Machine :=
  (charIn s.input s.lineIndex).map fun (c, lineIndex) =>
    push (ofInt (toChar c)) { s with lineIndex := lineIndex }

/-- The first loop of `fn_WORD`: `do c = charIn(); while (isWS(c));`.  The
result is the final `c` and `lineIndex`. -/
def skipWS (input : List Nat) : Nat → Nat → Option (Nat × Nat)
  | 0, _ => none
  | fuel + 1, lineIndex =>
      match charIn input lineIndex with
      | none => none
      | some (c, lineIndex1) => if isWS c then skipWS input fuel lineIndex1 else some (c, lineIndex1)

/-- The second loop of `fn_WORD`:
`do { word[length++] = c; c = charIn(); } while (! isWS(c) && length < sizeof word - 1);`
The result is the final `length`, `c`, `lineIndex` and memory. -/
def wordLoop (input : List Nat) :
    Nat → Nat → Nat → Nat → (Nat → Nat) → Option (Nat × Nat × Nat × (Nat → Nat))
  | 0, _, _, _, _ => none
  | fuel + 1, length, c, lineIndex, mem =>
      match charIn input lineIndex with
      | none => none
      | some (c1, lineIndex1) =>
          if !isWS c1 && decide (length + 1 < TOMOKO_WORD_MAX - 1) then
            wordLoop input fuel (length + 1) c1 lineIndex1 (set8 mem (word + length) c)
          else some (length + 1, c1, lineIndex1, set8 mem (word + length) c)

/-- The body of `fn_WORD` up to the two pushes: the length of the word, the
new `lineIndex` and the new memory. -/
def readWord (input : List Nat) (lineIndex : Nat) (mem : Nat → Nat) :
    Option (Nat × Nat × (Nat → Nat)) :=
  (skipWS input input.length lineIndex).bind fun (c, lineIndex1) =>
    (wordLoop input TOMOKO_WORD_MAX 0 c lineIndex1 mem).map fun (length, c1, lineIndex2, mem1) =>
      (length, if isWS c1 then unReadChar lineIndex2 else lineIndex2, set8 mem1 (word + length) 0)

/-- The function `fn_WORD`. -/
def fn_WORD (s : Machine) : Option Machine :=
  (readWord s.input s.lineIndex s.mem).map fun (length, lineIndex, mem) =>
    push length (push word { s with mem := mem, lineIndex := lineIndex })

/-- The `while (len > 0)` loop of `fn_XNUMBERIN`; the result is
`(uacc, addr, len)`. -/
def xnumberLoop (mem : Nat → Nat) (base : Nat) : Nat → Nat → Nat → Nat × Nat × Nat
  | 0, addr, uacc => (uacc, addr, 0)
  | len + 1, addr, uacc =>
      let digit := toupper (read8 mem addr)
      let digitValue :=
        if 48 ≤ digit ∧ digit ≤ 57 then digit - 48
        else if 65 ≤ digit ∧ digit ≤ 90 then 10 + digit - 65
        else 99
      if digitValue < base then
        xnumberLoop mem base len ((addr + 1) % 4294967296) ((uacc * base + digitValue) % 4294967296)
      else (uacc, addr, len + 1)

/-- The function `fn_XNUMBERIN`. -/
def fn_XNUMBERIN (s : Machine) : Option Machine :=
  match s.sp with
  | base :: rest =>
      if toInt base < 1 ∨ 36 < toInt base then some { s with sp := rest }
      else
        match rest with
        | len :: addr :: uacc :: rest1 =>
            let r := xnumberLoop s.mem base (if 0 < toInt len then len else 0) addr uacc
            some { s with sp := (if 0 < toInt len then r.2.2 else len) :: r.2.1 :: r.1 :: rest1 }
        | _ => none
  | _ => none

/-- The function `fn_NUMBERIN`. -/
def fn_NUMBERIN (s : Machine) : Option Machine :=
  match s.sp with
  | base :: len :: addr :: rest =>
      let signed := read8 s.mem addr = 45 ∨ read8 s.mem addr = 43
      let sign : Int := if read8 s.mem addr = 45 then -1 else 1
      let addr1 := if signed then (addr + 1) % 4294967296 else addr
      let len1 := if signed then (len + 4294967295) % 4294967296 else len
      (fn_XNUMBERIN { s with sp := base :: len1 :: addr1 :: 0 :: rest }).bind fun s1 =>
        match s1.sp with
        | c0 :: c1 :: c2 :: rest1 => some { s1 with sp := c0 :: c1 :: ofInt (toInt c2 * sign) :: rest1 }
        | _ => none
  | _ => none

/-- The function `fn_INIT`.  The characters of the sourced file are taken to
be the first characters of the input. -/
def fn_INIT (s : Machine) : Option Machine := some s

/-! ## The inner interpreter -/

/-- The function that a code word points to, if it points to one. -/
def decodeFn (codeWord : Nat) : Option Fn :=
  if fnBase ≤ codeWord ∧ codeWord < fnBase + 16 * 87 ∧ codeWord % 16 = 0
  then some (Fn.ofNat (codeWord % 65536 / 16)) else none

/-- The call `(*w)()` for every native function except `fn_EXECUTE`. -/
def callBasic : Fn → Machine → Option Machine
  | .DOCOL => fn_DOCOL | .DODOES => fn_DODOES | .EXIT => fn_EXIT | .BRANCH => fn_BRANCH
  | .ZBRANCH => fn_ZBRANCH | .LIT => fn_LIT | .LITSTRING => fn_LITSTRING
  | .LBRAC => fn_LBRAC | .RBRAC => fn_RBRAC | .CONST => fn_CONST
  | .CONST_STRING => fn_CONST_STRING | .VAR => fn_VAR | .EXECUTE => fun _ => none
  | .TICK => fn_TICK | .IPFETCH => fn_IPFETCH | .HALT => fn_HALT
  | .SYSCALL0 => fn_SYSCALL | .SYSCALL1 => fn_SYSCALL | .SYSCALL2 => fn_SYSCALL
  | .SYSCALL3 => fn_SYSCALL | .FIND => fn_FIND
  | .DROP => fn_DROP | .SWAP => fn_SWAP | .DUP => fn_DUP | .PICK => fn_PICK
  | .STICK => fn_STICK | .NTUCK => fn_NTUCK | .OVER => fn_OVER | .ROT => fn_ROT
  | .NROT => fn_NROT | .DDROP => fn_DDROP | .DDUP => fn_DDUP | .DSWAP => fn_DSWAP
  | .ZDUP => fn_ZDUP | .DSPFETCH => fn_DSPFETCH | .DSPSTORE => fn_DSPSTORE
  | .TOR => fn_TOR | .FROMR => fn_FROMR | .RSPFETCH => fn_RSPFETCH
  | .RSPSTORE => fn_RSPSTORE | .RDROP => fn_RDROP
  | .INCR => fn_INCR | .DECR => fn_DECR | .CELLPLUS => fn_CELLPLUS
  | .CELLMINUS => fn_CELLMINUS | .ADD => fn_ADD | .SUB => fn_SUB | .MUL => fn_MUL
  | .DIV => fn_DIV | .MOD => fn_MOD | .NEGATE => fn_NEGATE | .DIVMOD => fn_DIVMOD
  | .EQ => comparison (fun a b => a == b) | .NE => comparison (fun a b => a != b)
  | .LT => comparison (fun a b => decide (a < b)) | .GT => comparison (fun a b => decide (a > b))
  | .LE => comparison (fun a b => decide (a ≤ b)) | .GE => comparison (fun a b => decide (a ≥ b))
  | .EQ0 => comparison0 (fun a b => a == b) | .NE0 => comparison0 (fun a b => a != b)
  | .LT0 => comparison0 (fun a b => decide (a < b)) | .GT0 => comparison0 (fun a b => decide (a > b))
  | .LE0 => comparison0 (fun a b => decide (a ≤ b)) | .GE0 => comparison0 (fun a b => decide (a ≥ b))
  | .AND => fn_AND | .OR => fn_OR | .XOR => fn_XOR | .INVERT => fn_INVERT
  | .STORE => fn_STORE | .FETCH => fn_FETCH | .PLUSSTORE => fn_PLUSSTORE
  | .MINUSSTORE => fn_MINUSSTORE | .CSTORE => fn_CSTORE | .CFETCH => fn_CFETCH
  | .CCOPY => fn_CCOPY | .CMOVE => fn_CMOVE | .FILL => fn_FILL
  | .EMIT => fn_EMIT | .TELL => fn_TELL | .DOT => fn_DOT | .MSLEEP => fn_MSLEEP
  | .WS => fn_WS | .KEY => fn_KEY | .WORD => fn_WORD | .XNUMBERIN => fn_XNUMBERIN
  | .NUMBERIN => fn_NUMBERIN | .INIT => fn_INIT

/-- The body of `fn_EXECUTE` on a parameter stack given apart from the
state: `w = STACK_POP(sp); (*w)();`.  When the code word is `fn_EXECUTE`
itself the call pops the next cell. -/
def execute : List Nat → Machine → Option Machine
  | [], _ => none
  | xt :: rest, s =>
      match decodeFn (read32 s.mem xt) with
      | none => none
      | some .EXECUTE => execute rest { s with w := xt, sp := rest }
      | some f => callBasic f { s with w := xt, sp := rest }

/-- The function `fn_EXECUTE`. -/
def fn_EXECUTE (s : Machine) : Option Machine := execute s.sp s

/-- The call of a native function. -/
def callCode (f : Fn) (s : Machine) : Option Machine :=
  match f with
  | .EXECUTE => fn_EXECUTE s
  | f => callBasic f s

/-- The call `(*w)()`. -/
def callFn (s : Machine) : Option Machine :=
  (decodeFn (read32 s.mem s.w)).bind fun f => callCode f s

/-- The macro `NEXT()`: `w = *ip++; (*w)();`. -/
def NEXT (s : Machine) : Option Machine :=
  callFn { s with w := read32 s.mem s.ip, ip := (s.ip + 4) % 4294967296 }

/-- The loop of `main`, cut after `n` rounds of `NEXT()`. -/
def steps : Nat → Machine → Option Machine
  | 0, s => some s
  | n + 1, s => (NEXT s).bind (steps n)

/-- The initial values of the variables defined by `DEF_VAR`, with
`LATEST_value` as `main` sets it. -/
def initCells : List (Nat × Nat) :=
  [(PIFA_value, 0), (STATE_value, 0), (LATEST_value, LINK .MAIN), (HERE_value, dictionary),
   (S0_value, parameterStack + 4 * PARAMETER_STACK_CELLS), (BASE_value, 10),
   (CASE_SENSITIVE_value, 1)]

/-- Writable memory when `main` enters its loop. -/
def initMem (a : Nat) : Nat :=
  match initCells.find? (fun p => decide (p.1 ≤ a) && decide (a < p.1 + 4)) with
  | some p => (le32 p.2).getD (a % 4) 0
  | none => 0

/-- The state in which `main` enters its loop, for a given input:
`ip = (CodeWord**) MAIN.code`. -/
def boot (input : List Nat) : Machine :=
  { mem := initMem, sp := [], rsp := [], ip := XT .MAIN + 4, w := 0,
    input := input, lineIndex := 0, output := [] }

/-- The rest of a run after one round of `NEXT()`. -/
def andThen (o : Option Machine) (n : Nat) : Option Machine := o.bind (steps n)

/-- The cell of the read-only image at an address. -/
def romCell (a : Nat) : Nat :=
  romByte a + 256 * romByte (a + 1) + 65536 * romByte (a + 2) + 16777216 * romByte (a + 3)

/-! ## Definitions used in the statements -/

/-- The result `(n, addr2, len2)` of `fn_NUMBERIN` for the arguments
`(addr, len, base)`, as a function of the memory. -/
def numberIn (mem : Nat → Nat) (base len addr : Nat) : Nat × Nat × Nat :=
  let signed := read8 mem addr = 45 ∨ read8 mem addr = 43
  let sign : Int := if read8 mem addr = 45 then -1 else 1
  let addr1 := if signed then (addr + 1) % 4294967296 else addr
  let len1 := if signed then (len + 4294967295) % 4294967296 else len
  if toInt base < 1 ∨ 36 < toInt base then (ofInt (toInt 0 * sign), addr1, len1)
  else
    let r := xnumberLoop mem base (if 0 < toInt len1 then len1 else 0) addr1 0
    (ofInt (toInt r.1 * sign), r.2.1, if 0 < toInt len1 then r.2.2 else len1)

/-- The value that `>CFA` leaves for a link-field address other than 0. -/
def toCFA (mem : Nat → Nat) (lfa : Nat) : Nat :=
  let name := (lfa + 4) % 4294967296
  let length := (read8 mem name &&& LENGTH_BITS) % 4294967296
  let code := (name + ((length + 1) % 4294967296 + 1) % 4294967296) % 4294967296
  ((code + 3) % 4294967296 &&& 4294967292) % 4294967296

/-- The memory that `fn_WORD` leaves. -/
def wordMem (input : List Nat) (lineIndex : Nat) (mem : Nat → Nat) : Nat → Nat :=
  match readWord input lineIndex mem with
  | some r => r.2.2
  | none => mem

/-- A state in which `QUIT` is about to call `INTERPRET`: `ip` is at the
third cell of the body of `QUIT`; the memory, the parameter stack and the
input are given. -/
def atInterpret (mem : Nat → Nat) (sp : List Nat) (input : List Nat) : Machine :=
  { mem := mem, sp := sp, rsp := [], ip := XT .QUIT + 12, w := XT .RSPSTORE, input := input,
    lineIndex := 0, output := [] }

/-- The link-field addresses of the entries of the chain that starts at
`link`, in chain order, up to the null link; the first argument bounds their
number. -/
def linkChain (mem : Nat → Nat) : Nat → Nat → Option (List Nat)
  | 0, _ => none
  | fuel + 1, link =>
      if link = 0 then some []
      else (linkChain mem fuel (read32 mem link)).map fun rest => link :: rest

/-- Equality of two names: byte for byte when `caseSensitive`, after
`toupper` on both sides otherwise. -/
def nameEqual (caseSensitive : Bool) (a b : List Nat) : Bool :=
  if caseSensitive then a == b else a.map toupper == b.map toupper

/-- The test that `FIND` makes on the entry at `link` for the target of
`len` bytes at `target`: the `HIDDEN` bit is clear, the stored length is
`len`, and the name equals the target under the comparison that
`CASE-SENSITIVE` selects. -/
def entryMatches (mem : Nat → Nat) (target len link : Nat) : Bool :=
  (read8 mem (link + 4) &&& HIDDEN_BIT == 0) && (read8 mem (link + 4) &&& LENGTH_BITS == len)
    && nameEqual (read32 mem CASE_SENSITIVE_value != 0)
        (readBytes mem (link + 5) len) (readBytes mem target len)

/-- The memory at start-up with one more entry, named `foo` in lower case,
at the start of the dictionary area and linked in front of the built-in
entries, and with `CASE-SENSITIVE` set to the given value. -/
def withFoo (caseSensitive : Nat) : Nat → Nat :=
  set32 (set32 (setBytes initMem dictionary (le32 (LINK .MAIN) ++ [3] ++ strBytes "foo" ++ [0, 0, 0, 0]))
    LATEST_value dictionary) CASE_SENSITIVE_value caseSensitive

/-- A state in which `FIND` is about to run on a token that `WORD` has just
read. -/
def findState (mem : Nat → Nat) (token : List Nat) : Machine :=
  atInterpret (wordMem (token ++ [32]) 0 mem) [token.length, word] []

/-- The memory that `CREATE` leaves, store by store in the order of its
body, from the memory `m1` that `WORD` left, the old `HERE` and the length
of the token: the link, `HERE`, `LATEST`, the length byte, `HERE`, the name,
the NUL, `HERE`, and the padding. -/
def createMem (m1 : Nat → Nat) (here len : Nat) : Nat → Nat :=
  setBytes
    (set32
      (set8
        (setBytes
          (set32
            (set8
              (set32 (set32 (set32 m1 here (read32 m1 LATEST_value)) HERE_value (here + 4))
                LATEST_value here)
              (here + 4) len)
            HERE_value (here + (5 + len)))
          (here + 5) (readBytes m1 word len))
        (here + (5 + len)) 0)
      HERE_value (here + (5 + (len + (1 + ((here + (5 + (len + 4))) / 4 * 4 - (here + (5 + (len + 1)))))))))
    (here + (5 + (len + 1)))
    (List.replicate ((here + (5 + (len + 4))) / 4 * 4 - (here + (5 + (len + 1)))) 0)

/-- The memory that `:` leaves, from the memory `m1` that `WORD` left, the
old `HERE` and the length of the token: after `CREATE`, the address of
`fn_DOCOL` is stored at the new `HERE`, `HERE` moves on by a cell, the
`HIDDEN` bit of the length byte is toggled and `STATE` is set to 1. -/
def colonMem (m1 : Nat → Nat) (here len : Nat) : Nat → Nat :=
  set32
    (set8
      (set32 (set32 (createMem m1 here len) ((here + (len + 9)) / 4 * 4) (fnAddr .DOCOL))
        HERE_value ((here + (len + 9)) / 4 * 4 + 4))
      (here + 4) ((len ^^^ HIDDEN_BIT) % 4294967296))
    STATE_value 1

/-- The memory that `;` leaves: `XT(EXIT)` is stored at `HERE`, `HERE` moves
on by a cell, the `HIDDEN` bit of the length byte of the entry at `LATEST`
is toggled and `STATE` is set to 0. -/
def semicolonMem (m : Nat → Nat) : Nat → Nat :=
  set32
    (set8
      (set32 (set32 m (read32 m HERE_value) (XT .EXIT)) HERE_value (read32 m HERE_value + 4))
      (read32 m LATEST_value + 4) ((read8 m (read32 m LATEST_value + 4) ^^^ HIDDEN_BIT) % 4294967296))
    STATE_value 0

/-- The entry at `e` is under construction in the memory: `LATEST` is `e`,
its `HIDDEN` bit is set, `STATE` is not 0, and `HERE` lies past its length
byte, inside the dictionary area. -/
def Defining (mem : Nat → Nat) (e : Nat) : Prop :=
  read32 mem LATEST_value = e ∧ read8 mem (e + 4) &&& HIDDEN_BIT ≠ 0 ∧ read32 mem STATE_value ≠ 0
    ∧ dictionary ≤ e ∧ e + 4 < read32 mem HERE_value
    ∧ read32 mem HERE_value ≤ dictionary + DICTIONARY_SIZE

/-- The memory changes that compiling makes: `WORD` reads a token into its
buffer, and `,` stores a cell at `HERE` and moves `HERE` on by a cell. -/
inductive Compiled : (Nat → Nat) → (Nat → Nat) → Prop
  | start (m : Nat → Nat) : Compiled m m
  | token (m m1 m2 : Nat → Nat) (input : List Nat) (lineIndex len lineIndex1 : Nat) :
      Compiled m m1 → readWord input lineIndex m1 = some (len, lineIndex1, m2) → Compiled m m2
  | cell (m m1 : Nat → Nat) (v : Nat) :
      Compiled m m1 → read32 m1 HERE_value + 4 ≤ dictionary + DICTIONARY_SIZE →
      Compiled m (set32 (set32 m1 (read32 m1 HERE_value) v) HERE_value (read32 m1 HERE_value + 4))

/-- A state in which `:` is about to call `CREATE`, with the empty
dictionary area of start-up and the input `SQUARE `. -/
def atCreate : Machine :=
  { atInterpret initMem [7] (strBytes "SQUARE ") with ip := XT .COLON + 4 }

/-- The input of the example `SQUARE`, up to the first use of the new word. -/
def squareInput : List Nat := strBytes ": SQUARE DUP * ; SQUARE "

/-- The state after the definition of `SQUARE`: 292 rounds of `NEXT()` from
start-up, when `QUIT` is about to call `INTERPRET` on the token that follows
the `;`. -/
@[irreducible]
def squareDefined : Machine := (steps 292 (boot squareInput)).getD (boot squareInput)

/-- A state in which `\` is about to be executed, with the memory of
start-up, one cell on the parameter stack and the given input. -/
def atComment (input : List Nat) : Machine :=
  { atInterpret initMem [7] input with w := XT .BSCOMMENT }

/-- The value of a digit character as the specification has it: `0`-`9`
are 0 to 9, `A`-`Z` and `a`-`z` are 10 to 35. -/
def digitOf (c : Nat) : Option Nat :=
  if 48 ≤ c ∧ c ≤ 57 then some (c - 48)
  else if 65 ≤ c ∧ c ≤ 90 then some (c - 55)
  else if 97 ≤ c ∧ c ≤ 122 then some (c - 87)
  else none

/-- The character is a digit of the base. -/
def validDigit (base c : Nat) : Bool :=
  match digitOf c with
  | some d => decide (d < base)
  | none => false

/-- The number that a string of digits denotes in the base, continuing
from `acc`. -/
def digitsValue (base : Nat) (acc : Nat) (ds : List Nat) : Nat :=
  ds.foldl (fun a c => a * base + (digitOf c).getD 0) acc

/-- A state with the memory of start-up and the three characters `1fx` at
the start of `dictionary`. -/
def atDigits : Machine :=
  atInterpret (setBytes initMem dictionary (strBytes "1fx")) [] []

/-- A state with the memory of start-up and the four characters `-12x` at
the start of `dictionary`. -/
def atMinus : Machine :=
  atInterpret (setBytes initMem dictionary (strBytes "-12x")) [] []

/-- The index in the application of `m` that the macro `APPLY_count` of
`string_lit.h` appends to `APPLY_(count-1)`, for `count` from 1 to 19, as
the header has it line by line. -/
def applyIndex : Nat → Nat
  | 1 => 0 | 2 => 1 | 3 => 1 | 4 => 2 | 5 => 3 | 6 => 5 | 7 => 6 | 8 => 7 | 9 => 8 | 10 => 9
  | 11 => 10 | 12 => 11 | 13 => 11 | 14 => 12 | 15 => 13 | 16 => 15 | 17 => 16 | 18 => 17
  | 19 => 18
  | _ => 0

/-- The macro `APPLY(count,m,d)`: the applications of `m` in the expansion,
in order.  `APPLY_0` is empty, `APPLY_count` is `APPLY_(count-1)` followed by
one application of `m`; there is no macro for a count above 19. -/
def APPLY {δ α : Type} (m : Nat → δ → α) (d : δ) : Nat → Option (List α)
  | 0 => some []
  | count + 1 =>
      if count + 1 ≤ 19 then (APPLY m d count).map fun l => l ++ [m (applyIndex (count + 1)) d]
      else none

/-- The macro `S_CELL32(n,offset,s)`: the cell of `n` characters (1 to 4) of
the string `s` from `&s[offset*4]` on. -/
def S_CELL32 (n offset : Nat) (s : List Nat) : Nat :=
  match n with
  | 1 => CELL32 (s.getD (offset * 4) 0) 0 0 0
  | 2 => CELL32 (s.getD (offset * 4) 0) (s.getD (offset * 4 + 1) 0) 0 0
  | 3 => CELL32 (s.getD (offset * 4) 0) (s.getD (offset * 4 + 1) 0) (s.getD (offset * 4 + 2) 0) 0
  | _ => CELL32 (s.getD (offset * 4) 0) (s.getD (offset * 4 + 1) 0) (s.getD (offset * 4 + 2) 0)
          (s.getD (offset * 4 + 3) 0)

/-- The macro `S_CELL32_FULL(i,s)` (without its trailing comma). -/
def S_CELL32_FULL (i : Nat) (s : List Nat) : Nat := S_CELL32 4 i s

/-- The macro `STRING_Q_R(s,quot,rem)`: the cells of the initialiser. -/
def STRING_Q_R (s : List Nat) (quot rem : Nat) : Option (List Nat) :=
  (APPLY S_CELL32_FULL s quot).map fun l => l ++ [S_CELL32 rem quot s]

/-- The position of a link field that the definition of a new entry at
`here` does not write: in the read-only image or in the array `dictionary`,
and either below `here` or the link field at `here` itself. -/
def linkKept (here e : Nat) : Prop := (e + 4 ≤ here ∨ e = here) ∧ (e + 4 ≤ romEnd ∨ dictionary ≤ e)

/-- A state with the memory `withFoo 1`, in which `LATEST` is the entry
`foo` at the start of `dictionary`, and with that link-field address on the
parameter stack. -/
def fooState : Machine := atInterpret (withFoo 1) [dictionary, 7] []

set_option maxHeartbeats 1000000
set_option maxRecDepth 100000

/-! ## Unfolding lemmas

The run functions are made irreducible once their unfolding lemmas are
stated, so that no tactic evaluates a run by unfolding definitions. -/

theorem steps_succ (n : Nat) (s : Machine) : steps (n + 1) s = andThen (NEXT s) n := by
  cases h : NEXT s <;> simp only [steps, andThen, h]

theorem steps_zero (s : Machine) : steps 0 s = some s := by
  simp only [steps]

theorem andThen_some (s : Machine) (n : Nat) : andThen (some s) n = steps n s := by
  simp only [andThen, Option.some_bind]

theorem andThen_none (n : Nat) : andThen none n = none := by
  simp only [andThen, Option.none_bind]

theorem steps_add (a b : Nat) (s : Machine) : steps (a + b) s = (steps a s).bind (steps b) := by
  induction a generalizing s with
  | zero => simp [steps]
  | succ a ih =>
      rw [Nat.succ_add]
      show (NEXT s).bind (steps (a + b)) = ((NEXT s).bind (steps a)).bind (steps b)
      cases h : NEXT s with
      | none => rfl
      | some t => simpa using ih t

attribute [irreducible] steps andThen

theorem wordAt_toCtorIdx (w : Word) : wordAt w.toCtorIdx = some w := by
  cases w <;> decide!

theorem headerSize_forthName (w : Word) :
    8 ≤ headerSize (strBytes (forthName w)).length ∧ headerSize (strBytes (forthName w)).length ≤ 20 := by
  cases w <;> decide!

theorem toCtorIdx_lt (w : Word) : w.toCtorIdx < 143 := by
  cases w <;> decide

theorem XT_eq (w : Word) :
    XT w = 134545408 + 256 * w.toCtorIdx + headerSize (strBytes (forthName w)).length := by
  unfold XT LINK romBase
  rfl

theorem entryCells_lt (w : Word) : ∀ k < 59, (entryCells w).getD k 0 < 4294967296 := by
  cases w <;> decide!

theorem le32_getD (v : Nat) (hv : v < 4294967296) :
    (le32 v).getD 0 0 + 256 * (le32 v).getD 1 0 + 65536 * (le32 v).getD 2 0
      + 16777216 * (le32 v).getD 3 0 = v := by
  simp only [le32, List.getD_cons_zero, List.getD_cons_succ]
  omega

theorem romByte_XT (w : Word) (k j : Nat) (hk : k < 59) (hj : j < 4) :
    inRom (XT w + 4 * k + j) = true ∧
      romByte (XT w + 4 * k + j) = (le32 ((entryCells w).getD k 0)).getD j 0 := by
  have hh := headerSize_forthName w
  have hi := toCtorIdx_lt w
  constructor
  · simp only [inRom, romEnd, Bool.and_eq_true, decide_eq_true_eq, XT_eq, romBase]
    omega
  · have h1 : (XT w + 4 * k + j) % 65536 / 256 = w.toCtorIdx := by
      rw [XT_eq]; omega
    have h2 : (XT w + 4 * k + j) % 256
        = headerSize (strBytes (forthName w)).length + (4 * k + j) := by
      rw [XT_eq]; omega
    unfold romByte
    rw [h1, h2, wordAt_toCtorIdx]
    simp only [entryByte]
    have h3 : ¬ (headerSize (strBytes (forthName w)).length + (4 * k + j)
        < headerSize (strBytes (forthName w)).length) := by omega
    rw [if_neg h3]
    have h4 : (headerSize (strBytes (forthName w)).length + (4 * k + j)
        - headerSize (strBytes (forthName w)).length) = 4 * k + j := by omega
    rw [h4]
    have h5 : (4 * k + j) / 4 = k := by omega
    have h6 : (4 * k + j) % 4 = j := by omega
    rw [h5, h6]

theorem read32_XT_add (m : Nat → Nat) (w : Word) (c : Nat) (h4 : c % 4 = 0) (hc : c < 236) :
    read32 m (XT w + c) = (entryCells w).getD (c / 4) 0 := by
  have hk : c / 4 < 59 := by omega
  have e : c = 4 * (c / 4) := by omega
  have b0 := romByte_XT w (c / 4) 0 hk (by omega)
  have b1 := romByte_XT w (c / 4) 1 hk (by omega)
  have b2 := romByte_XT w (c / 4) 2 hk (by omega)
  have b3 := romByte_XT w (c / 4) 3 hk (by omega)
  rw [← e] at b0 b1 b2 b3
  simp only [Nat.add_zero] at b0
  simp only [read32, read8, b0.1, b1.1, b2.1, b3.1, if_true, b0.2, b1.2, b2.2, b3.2]
  exact le32_getD _ (entryCells_lt w _ hk)

theorem read32_XT (m : Nat → Nat) (w : Word) : read32 m (XT w) = (entryCells w).getD 0 0 := by
  have := read32_XT_add m w 0 (by omega) (by omega)
  simpa using this

theorem decodeFn_fnAddr (f : Fn) : decodeFn (fnAddr f) = some f := by
  cases f <;> decide!

theorem XT_lt (w : Word) : XT w < 134600000 := by
  have hh := headerSize_forthName w
  have hi := toCtorIdx_lt w
  rw [XT_eq]; omega

theorem XT_add_mod (w : Word) (c : Nat) (h : c < 1000000) : (XT w + c) % 4294967296 = XT w + c := by
  have := XT_lt w
  omega

theorem XT_add_mod_wrap (w : Word) (c : Nat) (h1 : 4294967296 ≤ c) (h2 : c < 4295967296) :
    (XT w + c) % 4294967296 = XT w + (c - 4294967296) := by
  have := XT_lt w
  omega

theorem XT_mod (w : Word) : (XT w) % 4294967296 = XT w := by
  have := XT_lt w
  omega

/-- The cells of the entries made by `DEF_NATIVE`: the code word alone. -/
theorem cells_native :
    entryCells .EXIT = [fnAddr .EXIT]
    ∧ entryCells .BRANCH = [fnAddr .BRANCH]
    ∧ entryCells .ZBRANCH = [fnAddr .ZBRANCH]
    ∧ entryCells .LIT = [fnAddr .LIT]
    ∧ entryCells .LITSTRING = [fnAddr .LITSTRING]
    ∧ entryCells .LBRAC = [fnAddr .LBRAC]
    ∧ entryCells .RBRAC = [fnAddr .RBRAC]
    ∧ entryCells .EXECUTE = [fnAddr .EXECUTE]
    ∧ entryCells .TICK = [fnAddr .TICK]
    ∧ entryCells .IPFETCH = [fnAddr .IPFETCH]
    ∧ entryCells .HALT = [fnAddr .HALT]
    ∧ entryCells .SYSCALL0 = [fnAddr .SYSCALL0]
    ∧ entryCells .SYSCALL1 = [fnAddr .SYSCALL1]
    ∧ entryCells .SYSCALL2 = [fnAddr .SYSCALL2]
    ∧ entryCells .SYSCALL3 = [fnAddr .SYSCALL3]
    ∧ entryCells .FIND = [fnAddr .FIND]
    ∧ entryCells .DROP = [fnAddr .DROP]
    ∧ entryCells .SWAP = [fnAddr .SWAP]
    ∧ entryCells .DUP = [fnAddr .DUP]
    ∧ entryCells .PICK = [fnAddr .PICK]
    ∧ entryCells .STICK = [fnAddr .STICK]
    ∧ entryCells .NTUCK = [fnAddr .NTUCK]
    ∧ entryCells .OVER = [fnAddr .OVER]
    ∧ entryCells .ROT = [fnAddr .ROT]
    ∧ entryCells .NROT = [fnAddr .NROT]
    ∧ entryCells .DDROP = [fnAddr .DDROP]
    ∧ entryCells .DDUP = [fnAddr .DDUP]
    ∧ entryCells .DSWAP = [fnAddr .DSWAP]
    ∧ entryCells .ZDUP = [fnAddr .ZDUP]
    ∧ entryCells .DSPFETCH = [fnAddr .DSPFETCH]
    ∧ entryCells .DSPSTORE = [fnAddr .DSPSTORE]
    ∧ entryCells .TOR = [fnAddr .TOR]
    ∧ entryCells .FROMR = [fnAddr .FROMR]
    ∧ entryCells .RSPFETCH = [fnAddr .RSPFETCH]
    ∧ entryCells .RSPSTORE = [fnAddr .RSPSTORE]
    ∧ entryCells .RDROP = [fnAddr .RDROP]
    ∧ entryCells .INCR = [fnAddr .INCR]
    ∧ entryCells .DECR = [fnAddr .DECR]
    ∧ entryCells .FOURPLUS = [fnAddr .CELLPLUS]
    ∧ entryCells .FOURMINUS = [fnAddr .CELLMINUS]
    ∧ entryCells .CELLPLUS = [fnAddr .CELLPLUS]
    ∧ entryCells .CELLMINUS = [fnAddr .CELLMINUS]
    ∧ entryCells .ADD = [fnAddr .ADD]
    ∧ entryCells .SUB = [fnAddr .SUB]
    ∧ entryCells .MUL = [fnAddr .MUL]
    ∧ entryCells .DIV = [fnAddr .DIV]
    ∧ entryCells .MOD = [fnAddr .MOD]
    ∧ entryCells .NEGATE = [fnAddr .NEGATE]
    ∧ entryCells .DIVMOD = [fnAddr .DIVMOD]
    ∧ entryCells .EQ = [fnAddr .EQ]
    ∧ entryCells .NE = [fnAddr .NE]
    ∧ entryCells .LT = [fnAddr .LT]
    ∧ entryCells .GT = [fnAddr .GT]
    ∧ entryCells .LE = [fnAddr .LE]
    ∧ entryCells .GE = [fnAddr .GE]
    ∧ entryCells .EQ0 = [fnAddr .EQ0]
    ∧ entryCells .NE0 = [fnAddr .NE0]
    ∧ entryCells .LT0 = [fnAddr .LT0]
    ∧ entryCells .GT0 = [fnAddr .GT0]
    ∧ entryCells .LE0 = [fnAddr .LE0]
    ∧ entryCells .GE0 = [fnAddr .GE0]
    ∧ entryCells .AND = [fnAddr .AND]
    ∧ entryCells .OR = [fnAddr .OR]
    ∧ entryCells .XOR = [fnAddr .XOR]
    ∧ entryCells .INVERT = [fnAddr .INVERT]
    ∧ entryCells .STORE = [fnAddr .STORE]
    ∧ entryCells .FETCH = [fnAddr .FETCH]
    ∧ entryCells .PLUSSTORE = [fnAddr .PLUSSTORE]
    ∧ entryCells .MINUSSTORE = [fnAddr .MINUSSTORE]
    ∧ entryCells .CSTORE = [fnAddr .CSTORE]
    ∧ entryCells .CFETCH = [fnAddr .CFETCH]
    ∧ entryCells .CCOPY = [fnAddr .CCOPY]
    ∧ entryCells .CMOVE = [fnAddr .CMOVE]
    ∧ entryCells .FILL = [fnAddr .FILL]
    ∧ entryCells .WS = [fnAddr .WS]
    ∧ entryCells .KEY = [fnAddr .KEY]
    ∧ entryCells .WORD = [fnAddr .WORD]
    ∧ entryCells .XNUMBERIN = [fnAddr .XNUMBERIN]
    ∧ entryCells .NUMBERIN = [fnAddr .NUMBERIN]
    ∧ entryCells .INIT = [fnAddr .INIT]
    ∧ entryCells .EMIT = [fnAddr .EMIT]
    ∧ entryCells .TELL = [fnAddr .TELL]
    ∧ entryCells .DOT = [fnAddr .DOT]
    ∧ entryCells .MSLEEP = [fnAddr .MSLEEP] := by
  refine ⟨?_, ?_, ?_, ?_, ?_, ?_, ?_, ?_, ?_, ?_, ?_, ?_, ?_, ?_, ?_, ?_, ?_, ?_, ?_, ?_, ?_, ?_, ?_, ?_, ?_, ?_, ?_, ?_, ?_, ?_, ?_, ?_, ?_, ?_, ?_, ?_, ?_, ?_, ?_, ?_, ?_, ?_, ?_, ?_, ?_, ?_, ?_, ?_, ?_, ?_, ?_, ?_, ?_, ?_, ?_, ?_, ?_, ?_, ?_, ?_, ?_, ?_, ?_, ?_, ?_, ?_, ?_, ?_, ?_, ?_, ?_, ?_, ?_, ?_, ?_, ?_, ?_, ?_, ?_, ?_, ?_, ?_, ?_, ?_⟩ <;> rfl

/-- The cells of the entries made by `DEF_CONST` and `DEF_VAR`. -/
theorem cells_value :
    entryCells .VERSION = [fnAddr .CONST, 100]
    ∧ entryCells .CELL = [fnAddr .CONST, 4]
    ∧ entryCells .CELL_1 = [fnAddr .CONST, (4 - 1)]
    ∧ entryCells .CELLMASK = [fnAddr .CONST, (4294967295 ^^^ (4 - 1))]
    ∧ entryCells .R0 = [fnAddr .CONST, (returnStack + 4 * RETURN_STACK_CELLS)]
    ∧ entryCells .DOCOL = [fnAddr .CONST, (fnAddr .DOCOL)]
    ∧ entryCells .DODOES = [fnAddr .CONST, (fnAddr .DODOES)]
    ∧ entryCells .F_IMMED = [fnAddr .CONST, IMMEDIATE_BIT]
    ∧ entryCells .F_HIDDEN = [fnAddr .CONST, HIDDEN_BIT]
    ∧ entryCells .F_LENMASK = [fnAddr .CONST, LENGTH_BITS]
    ∧ entryCells .ZERO = [fnAddr .CONST, 0]
    ∧ entryCells .ONE = [fnAddr .CONST, 1]
    ∧ entryCells .BL = [fnAddr .CONST, 32]
    ∧ entryCells .SYS_EXIT = [fnAddr .CONST, NR_exit]
    ∧ entryCells .SYS_OPEN = [fnAddr .CONST, NR_open]
    ∧ entryCells .SYS_CLOSE = [fnAddr .CONST, NR_close]
    ∧ entryCells .SYS_READ = [fnAddr .CONST, NR_read]
    ∧ entryCells .SYS_WRITE = [fnAddr .CONST, NR_write]
    ∧ entryCells .SYS_CREAT = [fnAddr .CONST, NR_creat]
    ∧ entryCells .SYS_BRK = [fnAddr .CONST, NR_brk]
    ∧ entryCells .O_RDONLY = [fnAddr .CONST, 0o0]
    ∧ entryCells .O_WRONLY = [fnAddr .CONST, 0o1]
    ∧ entryCells .O_RDWR = [fnAddr .CONST, 0o2]
    ∧ entryCells .O_CREAT = [fnAddr .CONST, 0o100]
    ∧ entryCells .O_EXCL = [fnAddr .CONST, 0o200]
    ∧ entryCells .O_TRUNC = [fnAddr .CONST, 0o1000]
    ∧ entryCells .O_APPEND = [fnAddr .CONST, 0o2000]
    ∧ entryCells .O_NONBLOCK = [fnAddr .CONST, 0o4000]
    ∧ entryCells .PIFA = [fnAddr .VAR, PIFA_value]
    ∧ entryCells .STATE = [fnAddr .VAR, STATE_value]
    ∧ entryCells .LATEST = [fnAddr .VAR, LATEST_value]
    ∧ entryCells .HERE = [fnAddr .VAR, HERE_value]
    ∧ entryCells .S0 = [fnAddr .VAR, S0_value]
    ∧ entryCells .BASE = [fnAddr .VAR, BASE_value]
    ∧ entryCells .CASE_SENSITIVE = [fnAddr .VAR, CASE_SENSITIVE_value] := by
  refine ⟨?_, ?_, ?_, ?_, ?_, ?_, ?_, ?_, ?_, ?_, ?_, ?_, ?_, ?_, ?_, ?_, ?_, ?_, ?_, ?_, ?_, ?_, ?_, ?_, ?_, ?_, ?_, ?_, ?_, ?_, ?_, ?_, ?_, ?_, ?_⟩ <;> rfl

/-- The cells of the entries made by `DEF_COLON` that the proofs run through. -/
theorem cells_colon :
    entryCells .NUMBER = [fnAddr .DOCOL,  XT .BASE, XT .FETCH, XT .NUMBERIN, XT .SWAP, XT .DROP, XT .EXIT]
    ∧ entryCells .TOCFA = [fnAddr .DOCOL,  XT .DUP, XT .ZBRANCH, cells (13), XT .CELLPLUS, XT .DUP, XT .CFETCH, XT .F_LENMASK, XT .AND, XT .INCR, XT .INCR, XT .ADD, XT .CELL_1, XT .ADD, XT .CELLMASK, XT .AND, XT .EXIT]
    ∧ entryCells .ALLOT = [fnAddr .DOCOL,  XT .HERE, XT .PLUSSTORE, XT .EXIT]
    ∧ entryCells .COMMA = [fnAddr .DOCOL,  XT .HERE, XT .FETCH, XT .STORE, XT .CELL, XT .ALLOT, XT .EXIT]
    ∧ entryCells .CCOMMA = [fnAddr .DOCOL,  XT .HERE, XT .FETCH, XT .CSTORE, XT .ONE, XT .ALLOT, XT .EXIT]
    ∧ entryCells .ERASE = [fnAddr .DOCOL,  XT .ZERO, XT .FILL, XT .EXIT]
    ∧ entryCells .CREATE = [fnAddr .DOCOL,  XT .WORD, XT .HERE, XT .FETCH, XT .LATEST, XT .FETCH, XT .COMMA, XT .LATEST, XT .STORE, XT .DUP, XT .CCOMMA, XT .HERE, XT .FETCH, XT .SWAP, XT .DUP, XT .ALLOT, XT .CMOVE, XT .ZERO, XT .CCOMMA, XT .HERE, XT .FETCH, XT .CELL_1, XT .ADD, XT .CELLMASK, XT .AND, XT .HERE, XT .FETCH, XT .SUB, XT .HERE, XT .FETCH, XT .SWAP, XT .DUP, XT .ALLOT, XT .ERASE, XT .EXIT]
    ∧ entryCells .HIDDEN = [fnAddr .DOCOL,  XT .CELLPLUS, XT .DUP, XT .CFETCH, XT .F_HIDDEN, XT .XOR, XT .SWAP, XT .CSTORE, XT .EXIT]
    ∧ entryCells .INTERPRET = [fnAddr .DOCOL,  XT .WORD, XT .DDUP, XT .FIND, XT .DUP, XT .ZBRANCH, cells (24), XT .DUP, XT .TOCFA, XT .SWAP, XT .STATE, XT .FETCH, XT .ZBRANCH, cells (9), XT .CELLPLUS, XT .CFETCH, XT .F_IMMED, XT .AND, XT .ZBRANCH, cells (8), XT .BRANCH, cells (2), XT .DROP, XT .ROT, XT .DDROP, XT .EXECUTE, XT .EXIT, XT .COMMA, XT .DDROP, XT .EXIT, XT .DROP, XT .BASE, XT .FETCH, XT .NUMBERIN, XT .DUP, XT .ZBRANCH, cells (7), XT .TELL, XT .DROP, XT .LIT, 63, XT .EMIT, XT .EXIT, XT .DDROP, XT .STATE, XT .FETCH, XT .ZBRANCH, cells (5), XT .LIT, XT .LIT, XT .COMMA, XT .COMMA, XT .EXIT]
    ∧ entryCells .QUIT = [fnAddr .DOCOL,  XT .R0, XT .RSPSTORE, XT .INTERPRET, XT .BRANCH, cells (-4), XT .EXIT]
    ∧ entryCells .COLON = [fnAddr .DOCOL,  XT .CREATE, XT .DOCOL, XT .COMMA, XT .LATEST, XT .FETCH, XT .HIDDEN, XT .RBRAC, XT .EXIT]
    ∧ entryCells .SEMICOLON = [fnAddr .DOCOL,  XT .LIT, XT .EXIT, XT .COMMA, XT .LATEST, XT .FETCH, XT .HIDDEN, XT .LBRAC, XT .EXIT]
    ∧ entryCells .MAIN = [fnAddr .DOCOL,  XT .INIT, XT .QUIT, XT .EXIT] := by
  refine ⟨?_, ?_, ?_, ?_, ?_, ?_, ?_, ?_, ?_, ?_, ?_, ?_, ?_⟩ <;> rfl

/-- The call of each native function, function by function. -/
theorem callCode_eqs :
    (∀ s, callCode .DOCOL s = fn_DOCOL s)
    ∧ (∀ s, callCode .DODOES s = fn_DODOES s)
    ∧ (∀ s, callCode .EXIT s = fn_EXIT s)
    ∧ (∀ s, callCode .BRANCH s = fn_BRANCH s)
    ∧ (∀ s, callCode .ZBRANCH s = fn_ZBRANCH s)
    ∧ (∀ s, callCode .LIT s = fn_LIT s)
    ∧ (∀ s, callCode .LITSTRING s = fn_LITSTRING s)
    ∧ (∀ s, callCode .LBRAC s = fn_LBRAC s)
    ∧ (∀ s, callCode .RBRAC s = fn_RBRAC s)
    ∧ (∀ s, callCode .CONST s = fn_CONST s)
    ∧ (∀ s, callCode .CONST_STRING s = fn_CONST_STRING s)
    ∧ (∀ s, callCode .VAR s = fn_VAR s)
    ∧ (∀ s, callCode .EXECUTE s = fn_EXECUTE s)
    ∧ (∀ s, callCode .TICK s = fn_TICK s)
    ∧ (∀ s, callCode .IPFETCH s = fn_IPFETCH s)
    ∧ (∀ s, callCode .HALT s = fn_HALT s)
    ∧ (∀ s, callCode .SYSCALL0 s = fn_SYSCALL s)
    ∧ (∀ s, callCode .SYSCALL1 s = fn_SYSCALL s)
    ∧ (∀ s, callCode .SYSCALL2 s = fn_SYSCALL s)
    ∧ (∀ s, callCode .SYSCALL3 s = fn_SYSCALL s)
    ∧ (∀ s, callCode .FIND s = fn_FIND s)
    ∧ (∀ s, callCode .DROP s = fn_DROP s)
    ∧ (∀ s, callCode .SWAP s = fn_SWAP s)
    ∧ (∀ s, callCode .DUP s = fn_DUP s)
    ∧ (∀ s, callCode .PICK s = fn_PICK s)
    ∧ (∀ s, callCode .STICK s = fn_STICK s)
    ∧ (∀ s, callCode .NTUCK s = fn_NTUCK s)
    ∧ (∀ s, callCode .OVER s = fn_OVER s)
    ∧ (∀ s, callCode .ROT s = fn_ROT s)
    ∧ (∀ s, callCode .NROT s = fn_NROT s)
    ∧ (∀ s, callCode .DDROP s = fn_DDROP s)
    ∧ (∀ s, callCode .DDUP s = fn_DDUP s)
    ∧ (∀ s, callCode .DSWAP s = fn_DSWAP s)
    ∧ (∀ s, callCode .ZDUP s = fn_ZDUP s)
    ∧ (∀ s, callCode .DSPFETCH s = fn_DSPFETCH s)
    ∧ (∀ s, callCode .DSPSTORE s = fn_DSPSTORE s)
    ∧ (∀ s, callCode .TOR s = fn_TOR s)
    ∧ (∀ s, callCode .FROMR s = fn_FROMR s)
    ∧ (∀ s, callCode .RSPFETCH s = fn_RSPFETCH s)
    ∧ (∀ s, callCode .RSPSTORE s = fn_RSPSTORE s)
    ∧ (∀ s, callCode .RDROP s = fn_RDROP s)
    ∧ (∀ s, callCode .INCR s = fn_INCR s)
    ∧ (∀ s, callCode .DECR s = fn_DECR s)
    ∧ (∀ s, callCode .CELLPLUS s = fn_CELLPLUS s)
    ∧ (∀ s, callCode .CELLMINUS s = fn_CELLMINUS s)
    ∧ (∀ s, callCode .ADD s = fn_ADD s)
    ∧ (∀ s, callCode .SUB s = fn_SUB s)
    ∧ (∀ s, callCode .MUL s = fn_MUL s)
    ∧ (∀ s, callCode .DIV s = fn_DIV s)
    ∧ (∀ s, callCode .MOD s = fn_MOD s)
    ∧ (∀ s, callCode .NEGATE s = fn_NEGATE s)
    ∧ (∀ s, callCode .DIVMOD s = fn_DIVMOD s)
    ∧ (∀ s, callCode .EQ s = comparison (fun a b => a == b) s)
    ∧ (∀ s, callCode .NE s = comparison (fun a b => a != b) s)
    ∧ (∀ s, callCode .LT s = comparison (fun a b => decide (a < b)) s)
    ∧ (∀ s, callCode .GT s = comparison (fun a b => decide (a > b)) s)
    ∧ (∀ s, callCode .LE s = comparison (fun a b => decide (a ≤ b)) s)
    ∧ (∀ s, callCode .GE s = comparison (fun a b => decide (a ≥ b)) s)
    ∧ (∀ s, callCode .EQ0 s = comparison0 (fun a b => a == b) s)
    ∧ (∀ s, callCode .NE0 s = comparison0 (fun a b => a != b) s)
    ∧ (∀ s, callCode .LT0 s = comparison0 (fun a b => decide (a < b)) s)
    ∧ (∀ s, callCode .GT0 s = comparison0 (fun a b => decide (a > b)) s)
    ∧ (∀ s, callCode .LE0 s = comparison0 (fun a b => decide (a ≤ b)) s)
    ∧ (∀ s, callCode .GE0 s = comparison0 (fun a b => decide (a ≥ b)) s)
    ∧ (∀ s, callCode .AND s = fn_AND s)
    ∧ (∀ s, callCode .OR s = fn_OR s)
    ∧ (∀ s, callCode .XOR s = fn_XOR s)
    ∧ (∀ s, callCode .INVERT s = fn_INVERT s)
    ∧ (∀ s, callCode .STORE s = fn_STORE s)
    ∧ (∀ s, callCode .FETCH s = fn_FETCH s)
    ∧ (∀ s, callCode .PLUSSTORE s = fn_PLUSSTORE s)
    ∧ (∀ s, callCode .MINUSSTORE s = fn_MINUSSTORE s)
    ∧ (∀ s, callCode .CSTORE s = fn_CSTORE s)
    ∧ (∀ s, callCode .CFETCH s = fn_CFETCH s)
    ∧ (∀ s, callCode .CCOPY s = fn_CCOPY s)
    ∧ (∀ s, callCode .CMOVE s = fn_CMOVE s)
    ∧ (∀ s, callCode .FILL s = fn_FILL s)
    ∧ (∀ s, callCode .EMIT s = fn_EMIT s)
    ∧ (∀ s, callCode .TELL s = fn_TELL s)
    ∧ (∀ s, callCode .DOT s = fn_DOT s)
    ∧ (∀ s, callCode .MSLEEP s = fn_MSLEEP s)
    ∧ (∀ s, callCode .WS s = fn_WS s)
    ∧ (∀ s, callCode .KEY s = fn_KEY s)
    ∧ (∀ s, callCode .WORD s = fn_WORD s)
    ∧ (∀ s, callCode .XNUMBERIN s = fn_XNUMBERIN s)
    ∧ (∀ s, callCode .NUMBERIN s = fn_NUMBERIN s)
    ∧ (∀ s, callCode .INIT s = fn_INIT s) :=
  ⟨fun _ => rfl, fun _ => rfl, fun _ => rfl, fun _ => rfl, fun _ => rfl, fun _ => rfl, fun _ => rfl, fun _ => rfl, fun _ => rfl, fun _ => rfl, fun _ => rfl, fun _ => rfl, fun _ => rfl, fun _ => rfl, fun _ => rfl, fun _ => rfl, fun _ => rfl, fun _ => rfl, fun _ => rfl, fun _ => rfl, fun _ => rfl, fun _ => rfl, fun _ => rfl, fun _ => rfl, fun _ => rfl, fun _ => rfl, fun _ => rfl, fun _ => rfl, fun _ => rfl, fun _ => rfl, fun _ => rfl, fun _ => rfl, fun _ => rfl, fun _ => rfl, fun _ => rfl, fun _ => rfl, fun _ => rfl, fun _ => rfl, fun _ => rfl, fun _ => rfl, fun _ => rfl, fun _ => rfl, fun _ => rfl, fun _ => rfl, fun _ => rfl, fun _ => rfl, fun _ => rfl, fun _ => rfl, fun _ => rfl, fun _ => rfl, fun _ => rfl, fun _ => rfl, fun _ => rfl, fun _ => rfl, fun _ => rfl, fun _ => rfl, fun _ => rfl, fun _ => rfl, fun _ => rfl, fun _ => rfl, fun _ => rfl, fun _ => rfl, fun _ => rfl, fun _ => rfl, fun _ => rfl, fun _ => rfl, fun _ => rfl, fun _ => rfl, fun _ => rfl, fun _ => rfl, fun _ => rfl, fun _ => rfl, fun _ => rfl, fun _ => rfl, fun _ => rfl, fun _ => rfl, fun _ => rfl, fun _ => rfl, fun _ => rfl, fun _ => rfl, fun _ => rfl, fun _ => rfl, fun _ => rfl, fun _ => rfl, fun _ => rfl, fun _ => rfl, fun _ => rfl⟩

/-- The branch offsets that occur in the colon definitions, as cells. -/
theorem cells_eqs :
    cells (-25) = 4294967196
    ∧ cells (-14) = 4294967240
    ∧ cells (-13) = 4294967244
    ∧ cells (-9) = 4294967260
    ∧ cells (-4) = 4294967280
    ∧ cells (2) = 8
    ∧ cells (4) = 16
    ∧ cells (5) = 20
    ∧ cells (7) = 28
    ∧ cells (8) = 32
    ∧ cells (9) = 36
    ∧ cells (13) = 52
    ∧ cells (23) = 92
    ∧ cells (24) = 96 := by
  decide

theorem inRom_ram {a : Nat} (h : romEnd ≤ a) : inRom a = false := by
  unfold inRom; simp only [Bool.and_eq_false_imp, decide_eq_true_eq, decide_eq_false_iff_not, not_lt]
  intro _; exact h

theorem read8_ram (m : Nat → Nat) {a : Nat} (h : romEnd ≤ a) : read8 m a = m a % 256 := by
  unfold read8; rw [inRom_ram h]; rfl

theorem read8_lt (m : Nat → Nat) {a : Nat} (h : romEnd ≤ a) : read8 m a < 256 := by
  rw [read8_ram m h]; exact Nat.mod_lt _ (by decide)

theorem read8_set8_same (m : Nat → Nat) {a : Nat} (v : Nat) (h : romEnd ≤ a) :
    read8 (set8 m a v) a = v % 256 := by
  rw [read8_ram _ h]; simp [set8]

theorem read8_set8_ne (m : Nat → Nat) {a b : Nat} (v : Nat) (h : b ≠ a) :
    read8 (set8 m a v) b = read8 m b := by
  unfold read8 set8; simp [h]

theorem read8_set32_ne (m : Nat → Nat) {a b : Nat} (v : Nat) (h : b < a ∨ a + 4 ≤ b) :
    read8 (set32 m a v) b = read8 m b := by
  unfold set32
  rw [read8_set8_ne _ _ (by omega), read8_set8_ne _ _ (by omega), read8_set8_ne _ _ (by omega),
    read8_set8_ne _ _ (by omega)]

theorem read32_set8_ne (m : Nat → Nat) {a b : Nat} (v : Nat) (h : a < b ∨ b + 4 ≤ a) :
    read32 (set8 m a v) b = read32 m b := by
  unfold read32
  rw [read8_set8_ne _ _ (by omega), read8_set8_ne _ _ (by omega), read8_set8_ne _ _ (by omega),
    read8_set8_ne _ _ (by omega)]

theorem read32_set32_ne (m : Nat → Nat) {a b : Nat} (v : Nat) (h : b + 4 ≤ a ∨ a + 4 ≤ b) :
    read32 (set32 m a v) b = read32 m b := by
  unfold read32
  rw [read8_set32_ne _ _ (by omega), read8_set32_ne _ _ (by omega), read8_set32_ne _ _ (by omega),
    read8_set32_ne _ _ (by omega)]

theorem read32_set32_same (m : Nat → Nat) {a : Nat} (v : Nat) (h : romEnd ≤ a) :
    read32 (set32 m a v) a = v % 4294967296 := by
  unfold read32 set32
  rw [read8_set8_ne _ _ (by omega), read8_set8_ne _ _ (by omega), read8_set8_ne _ _ (by omega),
    read8_set8_same _ _ h, read8_set8_ne _ _ (by omega), read8_set8_ne _ _ (by omega),
    read8_set8_same _ _ (by omega), read8_set8_ne _ _ (by omega), read8_set8_same _ _ (by omega),
    read8_set8_same _ _ (by omega)]
  omega

theorem read32_lt (m : Nat → Nat) {a : Nat} (h : romEnd ≤ a) : read32 m a < 4294967296 := by
  unfold read32
  have h0 := read8_lt m h
  have h1 := read8_lt m (a := a + 1) (by omega)
  have h2 := read8_lt m (a := a + 2) (by omega)
  have h3 := read8_lt m (a := a + 3) (by omega)
  omega

theorem write8_ram (m : Nat → Nat) {a : Nat} (v : Nat) (h : romEnd ≤ a) :
    write8 m a v = some (set8 m a v) := by
  unfold write8; rw [inRom_ram h]; rfl

theorem write32_ram (m : Nat → Nat) {a : Nat} (v : Nat) (h : romEnd ≤ a) :
    write32 m a v = some (set32 m a v) := by
  unfold write32
  rw [inRom_ram h, inRom_ram (a := a + 1) (by omega), inRom_ram (a := a + 2) (by omega),
    inRom_ram (a := a + 3) (by omega)]; rfl

theorem fn_NUMBERIN_eq (m : Nat → Nat) (base len addr : Nat) (sp rsp : List Nat) (ip w : Nat)
    (inp : List Nat) (li : Nat) (out : List Nat) :
    fn_NUMBERIN ⟨m, base :: len :: addr :: sp, rsp, ip, w, inp, li, out⟩
      = some ⟨m, (numberIn m base len addr).2.2 :: (numberIn m base len addr).2.1
                :: (numberIn m base len addr).1 :: sp, rsp, ip, w, inp, li, out⟩ := by
  unfold fn_NUMBERIN numberIn fn_XNUMBERIN
  by_cases hb : toInt base < 1 ∨ 36 < toInt base
  · simp only [hb, if_true, Option.some_bind]
  · simp only [hb, if_false, Option.some_bind]

theorem interpret_error (m : Nat → Nat) (sp rsp : List Nat) (ip w : Nat) (inp : List Nat) (li : Nat)
    (out : List Nat) (len li1 : Nat) (m1 : Nat → Nat)
    (hcall : read32 m ip = XT .INTERPRET)
    (hword : readWord inp li m = some (len, li1, m1))
    (hfind : findLoop m1 word len 4294967296 (read32 m1 LATEST_value) = some 0)
    (hnum : (numberIn m1 (read32 m1 BASE_value) len word).2.2 ≠ 0) :
    steps 17 ⟨m, sp, rsp, ip, w, inp, li, out⟩
      = some ⟨m1, sp, rsp, (ip + 4) % 4294967296, XT .EXIT, inp, li1,
          (out ++ if 0 < toInt (numberIn m1 (read32 m1 BASE_value) len word).2.2 then
              readBytes m1 (numberIn m1 (read32 m1 BASE_value) len word).2.1
                (numberIn m1 (read32 m1 BASE_value) len word).2.2
            else []) ++ [63]⟩ := by
  simp only [steps_succ, steps_zero, andThen_some, andThen_none, NEXT, callFn, read32_XT,
    read32_XT_add, XT_mod, XT_add_mod, cells_native, cells_value, cells_colon, cells_eqs,
    List.getD_cons_succ, List.getD_cons_zero, decodeFn_fnAddr, Option.some_bind, Option.map_some',
    callCode_eqs, pop, push, rpop, rpush, unaryOp, binaryOp, Nat.add_assoc, Nat.reduceAdd,
    Nat.reduceMod, Nat.reduceDiv, Nat.reduceLT, Nat.reduceMul, if_true, if_false, ite_true,
    ite_false, Nat.reduceSub, Nat.reduceXor, fn_DOCOL, fn_EXIT, fn_BRANCH, fn_ZBRANCH, fn_LIT,
    fn_LBRAC, fn_RBRAC, fn_CONST, fn_VAR, fn_FIND, fn_DROP, fn_SWAP, fn_DUP, fn_OVER, fn_ROT,
    fn_NROT, fn_DDROP, fn_DDUP, fn_INCR, fn_CELLPLUS, fn_ADD, fn_SUB, fn_MUL, fn_AND, fn_XOR,
    fn_STORE, fn_FETCH, fn_PLUSSTORE, fn_CSTORE, fn_CFETCH, fn_CMOVE, fn_FILL, fn_EMIT, fn_TELL,
    fn_DOT, fn_WORD, fn_INIT, fn_RSPSTORE, charOut, hcall, hword, hfind, hnum, fn_NUMBERIN_eq]

theorem toCFA_raw (mem : Nat → Nat) (lfa : Nat) :
    ((((lfa + 4) % 4294967296 +
      (((read8 mem ((lfa + 4) % 4294967296) &&& LENGTH_BITS) % 4294967296 + 1) % 4294967296 + 1) % 4294967296)
        % 4294967296 + 3) % 4294967296 &&& 4294967292) % 4294967296 = toCFA mem lfa := rfl

theorem execute_cons (xt : Nat) (rest : List Nat) (s : Machine) :
    execute (xt :: rest) s = callFn { s with w := xt, sp := rest } := by
  unfold execute callFn
  cases h : decodeFn (read32 s.mem xt) with
  | none => simp only [h, Option.none_bind]
  | some f => simp only [h, Option.some_bind]; cases f <;> rfl

theorem andThen_zero (o : Option Machine) : andThen o 0 = o := by
  cases o with
  | none => exact andThen_none 0
  | some s => rw [andThen_some, steps_zero]

theorem and_IMMEDIATE_mod (a : Nat) : (a &&& IMMEDIATE_BIT) % 4294967296 = a &&& IMMEDIATE_BIT :=
  Nat.mod_eq_of_lt (Nat.lt_of_le_of_lt Nat.and_le_right (by decide))

theorem ram_dictionary {a : Nat} (h : dictionary ≤ a) : romEnd ≤ a :=
  Nat.le_trans (by decide) h

theorem interpret_found0 (m : Nat → Nat) (sp rsp : List Nat) (ip w : Nat) (inp : List Nat) (li : Nat)
    (out : List Nat) (len li1 : Nat) (m1 : Nat → Nat) (lfa : Nat)
    (hcall : read32 m ip = XT .INTERPRET)
    (hword : readWord inp li m = some (len, li1, m1))
    (hfind : findLoop m1 word len 4294967296 (read32 m1 LATEST_value) = some lfa)
    (hlfa : lfa ≠ 0) (hstate : read32 m1 STATE_value = 0) :
    steps 31 ⟨m, sp, rsp, ip, w, inp, li, out⟩
      = callFn ⟨m1, sp, (ip + 4) % 4294967296 :: rsp, XT .INTERPRET + 104, toCFA m1 lfa, inp, li1, out⟩ := by
  simp only [steps_succ, steps_zero, andThen_some, andThen_none, NEXT, callFn, read32_XT,
    read32_XT_add, XT_mod, XT_add_mod, cells_native, cells_value, cells_colon, cells_eqs,
    List.getD_cons_succ, List.getD_cons_zero, decodeFn_fnAddr, Option.some_bind, Option.map_some',
    callCode_eqs, pop, push, rpop, rpush, unaryOp, binaryOp, Nat.add_assoc, Nat.reduceAdd,
    Nat.reduceMod, Nat.reduceDiv, Nat.reduceLT, Nat.reduceMul, if_true, if_false, ite_true,
    ite_false, Nat.reduceSub, Nat.reduceXor, fn_DOCOL, fn_EXIT, fn_BRANCH, fn_ZBRANCH, fn_LIT,
    fn_LBRAC, fn_RBRAC, fn_CONST, fn_VAR, fn_FIND, fn_DROP, fn_SWAP, fn_DUP, fn_OVER, fn_ROT,
    fn_NROT, fn_DDROP, fn_DDUP, fn_INCR, fn_CELLPLUS, fn_ADD, fn_SUB, fn_MUL, fn_AND, fn_XOR,
    fn_STORE, fn_FETCH, fn_PLUSSTORE, fn_CSTORE, fn_CFETCH, fn_CMOVE, fn_FILL, fn_EMIT, fn_TELL,
    fn_DOT, fn_WORD, fn_INIT, fn_RSPSTORE, charOut, hcall, hword, hfind, hlfa, hstate, fn_EXECUTE,
    execute_cons, toCFA_raw, andThen_zero]

theorem interpret_found1 (m : Nat → Nat) (sp rsp : List Nat) (ip w : Nat) (inp : List Nat) (li : Nat)
    (out : List Nat) (len li1 : Nat) (m1 : Nat → Nat) (lfa : Nat)
    (hcall : read32 m ip = XT .INTERPRET)
    (hword : readWord inp li m = some (len, li1, m1))
    (hfind : findLoop m1 word len 4294967296 (read32 m1 LATEST_value) = some lfa)
    (hlfa : lfa ≠ 0) (hstate : read32 m1 STATE_value ≠ 0)
    (himm : read8 m1 ((lfa + 4) % 4294967296) &&& IMMEDIATE_BIT ≠ 0) :
    steps 36 ⟨m, sp, rsp, ip, w, inp, li, out⟩
      = callFn ⟨m1, sp, (ip + 4) % 4294967296 :: rsp, XT .INTERPRET + 104, toCFA m1 lfa, inp, li1, out⟩ := by
  simp only [steps_succ, steps_zero, andThen_some, andThen_none, NEXT, callFn, read32_XT,
    read32_XT_add, XT_mod, XT_add_mod, cells_native, cells_value, cells_colon, cells_eqs,
    List.getD_cons_succ, List.getD_cons_zero, decodeFn_fnAddr, Option.some_bind, Option.map_some',
    callCode_eqs, pop, push, rpop, rpush, unaryOp, binaryOp, Nat.add_assoc, Nat.reduceAdd,
    Nat.reduceMod, Nat.reduceDiv, Nat.reduceLT, Nat.reduceMul, if_true, if_false, ite_true,
    ite_false, Nat.reduceSub, Nat.reduceXor, fn_DOCOL, fn_EXIT, fn_BRANCH, fn_ZBRANCH, fn_LIT,
    fn_LBRAC, fn_RBRAC, fn_CONST, fn_VAR, fn_FIND, fn_DROP, fn_SWAP, fn_DUP, fn_OVER, fn_ROT,
    fn_NROT, fn_DDROP, fn_DDUP, fn_INCR, fn_CELLPLUS, fn_ADD, fn_SUB, fn_MUL, fn_AND, fn_XOR,
    fn_STORE, fn_FETCH, fn_PLUSSTORE, fn_CSTORE, fn_CFETCH, fn_CMOVE, fn_FILL, fn_EMIT, fn_TELL,
    fn_DOT, fn_WORD, fn_INIT, fn_RSPSTORE, charOut, hcall, hword, hfind, hlfa, hstate, himm,
    and_IMMEDIATE_mod, fn_EXECUTE, execute_cons, toCFA_raw, andThen_zero]

theorem interpret_found2 (m : Nat → Nat) (sp rsp : List Nat) (ip w : Nat) (inp : List Nat) (li : Nat)
    (out : List Nat) (len li1 : Nat) (m1 : Nat → Nat) (lfa : Nat)
    (hcall : read32 m ip = XT .INTERPRET)
    (hword : readWord inp li m = some (len, li1, m1))
    (hfind : findLoop m1 word len 4294967296 (read32 m1 LATEST_value) = some lfa)
    (hlfa : lfa ≠ 0) (hstate : read32 m1 STATE_value ≠ 0)
    (himm : read8 m1 ((lfa + 4) % 4294967296) &&& IMMEDIATE_BIT = 0)
    (hlo : dictionary ≤ read32 m1 HERE_value)
    (hhi : read32 m1 HERE_value + 4 ≤ dictionary + DICTIONARY_SIZE) :
    steps 44 ⟨m, sp, rsp, ip, w, inp, li, out⟩
      = some ⟨set32 (set32 m1 (read32 m1 HERE_value) (toCFA m1 lfa)) HERE_value (read32 m1 HERE_value + 4),
          sp, rsp, (ip + 4) % 4294967296, XT .EXIT, inp, li1, out⟩ := by
  have hw1 : ∀ v, write32 m1 (read32 m1 HERE_value) v = some (set32 m1 (read32 m1 HERE_value) v) :=
    fun v => write32_ram _ _ (ram_dictionary hlo)
  have hr : ∀ v, read32 (set32 m1 (read32 m1 HERE_value) v) HERE_value = read32 m1 HERE_value :=
    fun v => read32_set32_ne _ _ (Or.inl (Nat.le_trans (by decide) hlo))
  have hw2 : ∀ (mm : Nat → Nat) v, write32 mm HERE_value v = some (set32 mm HERE_value v) :=
    fun mm v => write32_ram _ _ (by decide)
  have hm : (read32 m1 HERE_value + 4) % 4294967296 = read32 m1 HERE_value + 4 :=
    Nat.mod_eq_of_lt (Nat.lt_of_le_of_lt hhi (by decide))
  simp only [steps_succ, steps_zero, andThen_some, andThen_none, NEXT, callFn, read32_XT,
    read32_XT_add, XT_mod, XT_add_mod, cells_native, cells_value, cells_colon, cells_eqs,
    List.getD_cons_succ, List.getD_cons_zero, decodeFn_fnAddr, Option.some_bind, Option.map_some',
    callCode_eqs, pop, push, rpop, rpush, unaryOp, binaryOp, Nat.add_assoc, Nat.reduceAdd,
    Nat.reduceMod, Nat.reduceDiv, Nat.reduceLT, Nat.reduceMul, if_true, if_false, ite_true,
    ite_false, Nat.reduceSub, Nat.reduceXor, fn_DOCOL, fn_EXIT, fn_BRANCH, fn_ZBRANCH, fn_LIT,
    fn_LBRAC, fn_RBRAC, fn_CONST, fn_VAR, fn_FIND, fn_DROP, fn_SWAP, fn_DUP, fn_OVER, fn_ROT,
    fn_NROT, fn_DDROP, fn_DDUP, fn_INCR, fn_CELLPLUS, fn_ADD, fn_SUB, fn_MUL, fn_AND, fn_XOR,
    fn_STORE, fn_FETCH, fn_PLUSSTORE, fn_CSTORE, fn_CFETCH, fn_CMOVE, fn_FILL, fn_EMIT, fn_TELL,
    fn_DOT, fn_WORD, fn_INIT, fn_RSPSTORE, charOut, hcall, hword, hfind, hlfa, hstate, himm,
    and_IMMEDIATE_mod, toCFA_raw, hw1, hr, hw2, hm]

theorem interpret_number0 (m : Nat → Nat) (sp rsp : List Nat) (ip w : Nat) (inp : List Nat) (li : Nat)
    (out : List Nat) (len li1 : Nat) (m1 : Nat → Nat)
    (hcall : read32 m ip = XT .INTERPRET)
    (hword : readWord inp li m = some (len, li1, m1))
    (hfind : findLoop m1 word len 4294967296 (read32 m1 LATEST_value) = some 0)
    (hnum : (numberIn m1 (read32 m1 BASE_value) len word).2.2 = 0)
    (hstate : read32 m1 STATE_value = 0) :
    steps 17 ⟨m, sp, rsp, ip, w, inp, li, out⟩
      = some ⟨m1, (numberIn m1 (read32 m1 BASE_value) len word).1 :: sp, rsp, (ip + 4) % 4294967296,
          XT .EXIT, inp, li1, out⟩ := by
  simp only [steps_succ, steps_zero, andThen_some, andThen_none, NEXT, callFn, read32_XT,
    read32_XT_add, XT_mod, XT_add_mod, cells_native, cells_value, cells_colon, cells_eqs,
    List.getD_cons_succ, List.getD_cons_zero, decodeFn_fnAddr, Option.some_bind, Option.map_some',
    callCode_eqs, pop, push, rpop, rpush, unaryOp, binaryOp, Nat.add_assoc, Nat.reduceAdd,
    Nat.reduceMod, Nat.reduceDiv, Nat.reduceLT, Nat.reduceMul, if_true, if_false, ite_true,
    ite_false, Nat.reduceSub, Nat.reduceXor, fn_DOCOL, fn_EXIT, fn_BRANCH, fn_ZBRANCH, fn_LIT,
    fn_LBRAC, fn_RBRAC, fn_CONST, fn_VAR, fn_FIND, fn_DROP, fn_SWAP, fn_DUP, fn_OVER, fn_ROT,
    fn_NROT, fn_DDROP, fn_DDUP, fn_INCR, fn_CELLPLUS, fn_ADD, fn_SUB, fn_MUL, fn_AND, fn_XOR,
    fn_STORE, fn_FETCH, fn_PLUSSTORE, fn_CSTORE, fn_CFETCH, fn_CMOVE, fn_FILL, fn_EMIT, fn_TELL,
    fn_DOT, fn_WORD, fn_INIT, fn_RSPSTORE, charOut, hcall, hword, hfind, hnum, hstate,
    fn_NUMBERIN_eq]

theorem interpret_number1 (m : Nat → Nat) (sp rsp : List Nat) (ip w : Nat) (inp : List Nat) (li : Nat)
    (out : List Nat) (len li1 : Nat) (m1 : Nat → Nat)
    (hcall : read32 m ip = XT .INTERPRET)
    (hword : readWord inp li m = some (len, li1, m1))
    (hfind : findLoop m1 word len 4294967296 (read32 m1 LATEST_value) = some 0)
    (hnum : (numberIn m1 (read32 m1 BASE_value) len word).2.2 = 0)
    (hstate : read32 m1 STATE_value ≠ 0)
    (hlo : dictionary ≤ read32 m1 HERE_value)
    (hhi : read32 m1 HERE_value + 8 ≤ dictionary + DICTIONARY_SIZE) :
    steps 38 ⟨m, sp, rsp, ip, w, inp, li, out⟩
      = some ⟨set32 (set32 (set32 (set32 m1 (read32 m1 HERE_value) (XT .LIT))
                HERE_value (read32 m1 HERE_value + 4))
                (read32 m1 HERE_value + 4) (numberIn m1 (read32 m1 BASE_value) len word).1)
                HERE_value (read32 m1 HERE_value + 8),
          sp, rsp, (ip + 4) % 4294967296, XT .EXIT, inp, li1, out⟩ := by
  have hw1 : ∀ (mm : Nat → Nat) v,
      write32 mm (read32 m1 HERE_value) v = some (set32 mm (read32 m1 HERE_value) v) :=
    fun mm v => write32_ram _ _ (ram_dictionary hlo)
  have hw1b : ∀ (mm : Nat → Nat) v,
      write32 mm (read32 m1 HERE_value + 4) v = some (set32 mm (read32 m1 HERE_value + 4) v) :=
    fun mm v => write32_ram _ _ (ram_dictionary (Nat.le_trans hlo (Nat.le_add_right _ _)))
  have hr : ∀ (mm : Nat → Nat) v,
      read32 (set32 mm (read32 m1 HERE_value) v) HERE_value = read32 mm HERE_value :=
    fun mm v => read32_set32_ne _ _ (Or.inl (Nat.le_trans (by decide) hlo))
  have hrb : ∀ (mm : Nat → Nat) v,
      read32 (set32 mm (read32 m1 HERE_value + 4) v) HERE_value = read32 mm HERE_value :=
    fun mm v => read32_set32_ne _ _
      (Or.inl (Nat.le_trans (by decide) (Nat.le_trans hlo (Nat.le_add_right _ _))))
  have hs : ∀ (mm : Nat → Nat) v, read32 (set32 mm HERE_value v) HERE_value = v % 4294967296 :=
    fun mm v => read32_set32_same _ _ (by decide)
  have hw2 : ∀ (mm : Nat → Nat) v, write32 mm HERE_value v = some (set32 mm HERE_value v) :=
    fun mm v => write32_ram _ _ (by decide)
  have hm : (read32 m1 HERE_value + 4) % 4294967296 = read32 m1 HERE_value + 4 :=
    Nat.mod_eq_of_lt (by have := (by decide : dictionary + DICTIONARY_SIZE < 4294967296); omega)
  have hm2 : (read32 m1 HERE_value + 8) % 4294967296 = read32 m1 HERE_value + 8 :=
    Nat.mod_eq_of_lt (by have := (by decide : dictionary + DICTIONARY_SIZE < 4294967296); omega)
  simp only [steps_succ, steps_zero, andThen_some, andThen_none, NEXT, callFn, read32_XT,
    read32_XT_add, XT_mod, XT_add_mod, cells_native, cells_value, cells_colon, cells_eqs,
    List.getD_cons_succ, List.getD_cons_zero, decodeFn_fnAddr, Option.some_bind, Option.map_some',
    callCode_eqs, pop, push, rpop, rpush, unaryOp, binaryOp, Nat.add_assoc, Nat.reduceAdd,
    Nat.reduceMod, Nat.reduceDiv, Nat.reduceLT, Nat.reduceMul, if_true, if_false, ite_true,
    ite_false, Nat.reduceSub, Nat.reduceXor, fn_DOCOL, fn_EXIT, fn_BRANCH, fn_ZBRANCH, fn_LIT,
    fn_LBRAC, fn_RBRAC, fn_CONST, fn_VAR, fn_FIND, fn_DROP, fn_SWAP, fn_DUP, fn_OVER, fn_ROT,
    fn_NROT, fn_DDROP, fn_DDUP, fn_INCR, fn_CELLPLUS, fn_ADD, fn_SUB, fn_MUL, fn_AND, fn_XOR,
    fn_STORE, fn_FETCH, fn_PLUSSTORE, fn_CSTORE, fn_CFETCH, fn_CMOVE, fn_FILL, fn_EMIT, fn_TELL,
    fn_DOT, fn_WORD, fn_INIT, fn_RSPSTORE, charOut, hcall, hword, hfind, hnum, hstate,
    fn_NUMBERIN_eq, hw1, hw1b, hr, hrb, hs, hw2, hm, hm2]

theorem readWord_eq (input : List Nat) (lineIndex : Nat) (mem : Nat → Nat) (len li1 : Nat)
    (h : (readWord input lineIndex mem).map (fun r => (r.1, r.2.1)) = some (len, li1)) :
    readWord input lineIndex mem = some (len, li1, wordMem input lineIndex mem) := by
  unfold wordMem
  cases hr : readWord input lineIndex mem with
  | none => rw [hr] at h; exact absurd h (by simp)
  | some r =>
      rw [hr] at h
      obtain ⟨a, b, c⟩ := r
      simp only [Option.map_some', Option.some.injEq, Prod.mk.injEq] at h
      obtain ⟨h1, h2⟩ := h
      subst h1; subst h2; rfl

theorem wordLoop_spec (input : List Nat) (fuel : Nat) :
    ∀ (length c lineIndex : Nat) (mem : Nat → Nat) (r : Nat × Nat × Nat × (Nat → Nat)),
      wordLoop input fuel length c lineIndex mem = some r → length ≤ 30 →
        length < r.1 ∧ r.1 ≤ 31 ∧ ∀ a, (a < word ∨ word + 31 ≤ a) → r.2.2.2 a = mem a := by
  induction fuel with
  | zero => intro length c lineIndex mem r h; simp [wordLoop] at h
  | succ fuel ih =>
      intro length c lineIndex mem r h hl
      unfold wordLoop at h
      cases hc : charIn input lineIndex with
      | none => rw [hc] at h; simp at h
      | some p =>
          obtain ⟨c1, l1⟩ := p
          rw [hc] at h
          simp only at h
          split at h
          · rename_i hcond
            simp only [Bool.and_eq_true, decide_eq_true_eq, TOMOKO_WORD_MAX] at hcond
            obtain ⟨h1, h2, h3⟩ := ih _ _ _ _ r h (by omega)
            refine ⟨by omega, h2, fun a ha => ?_⟩
            rw [h3 a ha]
            unfold set8
            rw [if_neg (by omega)]
          · simp only [Option.some.injEq] at h
            subst h
            refine ⟨by simp, by simp; omega, fun a ha => ?_⟩
            simp only [set8]
            rw [if_neg (by omega)]

theorem readWord_spec (input : List Nat) (lineIndex : Nat) (mem : Nat → Nat) (len li1 : Nat)
    (m1 : Nat → Nat) (h : readWord input lineIndex mem = some (len, li1, m1)) :
    1 ≤ len ∧ len ≤ 31 ∧ ∀ a, (a < word ∨ word + 32 ≤ a) → m1 a = mem a := by
  unfold readWord at h
  cases hs : skipWS input input.length lineIndex with
  | none => rw [hs] at h; simp at h
  | some p =>
      obtain ⟨c, l1⟩ := p
      rw [hs] at h
      simp only [Option.some_bind] at h
      cases hw : wordLoop input TOMOKO_WORD_MAX 0 c l1 mem with
      | none => rw [hw] at h; simp at h
      | some r =>
          obtain ⟨length, c1, l2, mem1⟩ := r
          rw [hw] at h
          simp only [Option.map_some', Option.some.injEq, Prod.mk.injEq] at h
          obtain ⟨h1, h2, h3⟩ := h
          obtain ⟨g1, g2, g3⟩ := wordLoop_spec input _ _ _ _ _ _ hw (by omega)
          simp only at g1 g2 g3
          subst h1
          refine ⟨by omega, g2, fun a ha => ?_⟩
          rw [← h3]
          simp only [set8]
          rw [if_neg (by omega)]
          exact g3 a (by omega)

theorem xnumberLoop_spec (mem : Nat → Nat) (base : Nat) (len : Nat) :
    ∀ (addr uacc : Nat), addr + len < 4294967296 →
      (xnumberLoop mem base len addr uacc).2.2 ≤ len
        ∧ (xnumberLoop mem base len addr uacc).2.1 + (xnumberLoop mem base len addr uacc).2.2 = addr + len := by
  induction len with
  | zero => intro addr uacc _; simp [xnumberLoop]
  | succ len ih =>
      intro addr uacc h
      unfold xnumberLoop
      simp only
      generalize (if 48 ≤ toupper (read8 mem addr) ∧ toupper (read8 mem addr) ≤ 57
          then toupper (read8 mem addr) - 48
          else if 65 ≤ toupper (read8 mem addr) ∧ toupper (read8 mem addr) ≤ 90
            then 10 + toupper (read8 mem addr) - 65 else 99) = dv
      by_cases hd : dv < base
      · have h1 : (addr + 1) % 4294967296 = addr + 1 := Nat.mod_eq_of_lt (by omega)
        simp only [hd, if_true, h1]
        obtain ⟨g1, g2⟩ := ih (addr + 1) ((uacc * base + dv) % 4294967296) (by omega)
        exact ⟨by omega, by omega⟩
      · simp only [hd, if_false]
        exact ⟨Nat.le_refl _, trivial⟩

theorem toInt_small {n : Nat} (h : n < 2147483648) : toInt n = n := by
  unfold toInt
  rw [Nat.mod_eq_of_lt (by omega), if_pos h]

theorem numberIn_spec (mem : Nat → Nat) (base len addr : Nat) (h1 : 1 ≤ len) (h2 : len < 2147483648)
    (h3 : addr + len < 4294967296) :
    (numberIn mem base len addr).2.2 ≤ len
      ∧ (numberIn mem base len addr).2.1 + (numberIn mem base len addr).2.2 = addr + len := by
  unfold numberIn
  simp only
  by_cases hs : read8 mem addr = 45 ∨ read8 mem addr = 43
  · have e1 : (addr + 1) % 4294967296 = addr + 1 := Nat.mod_eq_of_lt (by omega)
    have e2 : (len + 4294967295) % 4294967296 = len - 1 := by omega
    simp only [hs, if_true, e1, e2]
    by_cases hb : toInt base < 1 ∨ 36 < toInt base
    · simp only [hb, if_true]; exact ⟨by omega, by omega⟩
    · simp only [hb, if_false]
      by_cases hl : 0 < toInt (len - 1)
      · simp only [hl, if_true]
        obtain ⟨g1, g2⟩ := xnumberLoop_spec mem base (len - 1) (addr + 1) 0 (by omega)
        exact ⟨by omega, by omega⟩
      · simp only [hl, if_false]
        rw [toInt_small (by omega)] at hl
        have : len - 1 = 0 := by omega
        simp only [this, xnumberLoop]; omega
  · simp only [hs, if_false]
    by_cases hb : toInt base < 1 ∨ 36 < toInt base
    · simp only [hb, if_true]; exact ⟨Nat.le_refl _, trivial⟩
    · simp only [hb, if_false]
      have hl : 0 < toInt len := by rw [toInt_small h2]; omega
      simp only [hl, if_true]
      exact xnumberLoop_spec mem base len addr 0 h3

theorem readBytes_length (mem : Nat → Nat) (n : Nat) : ∀ a, (readBytes mem a n).length = n := by
  induction n with
  | zero => intro a; rfl
  | succ n ih => intro a; simp [readBytes, ih]

/-- C1: `INTERPRET` on a token that `FIND` locates.  The thread is about to
call `INTERPRET`, `WORD` reads a token of `len` bytes (leaving memory `m1`
and `lineIndex` `li1`) and `FIND` returns the link-field address `lfa ≠ 0`.
If `STATE` is 0, the 31st round of `NEXT()` is the call `(*w)()` with
`w = >CFA lfa` and the parameter stack as it was before `INTERPRET`; if
`STATE` is not 0 and the `IMMEDIATE` bit of the entry is set, the 36th round
is that same call; if `STATE` is not 0 and the bit is clear (and the cell at
`HERE` lies in the dictionary area), after 44 rounds `INTERPRET` has
returned to its caller with `>CFA lfa` stored at `HERE`, `HERE` advanced by 4
and the parameter stack, the return stack and the output unchanged. -/
theorem INTERPRET_found (s : Machine) (len li1 : Nat) (m1 : Nat → Nat) (lfa : Nat)
    (hcall : read32 s.mem s.ip = XT .INTERPRET)
    (hword : readWord s.input s.lineIndex s.mem = some (len, li1, m1))
    (hfind : findLoop m1 word len 4294967296 (read32 m1 LATEST_value) = some lfa)
    (hlfa : lfa ≠ 0) :
    (read32 m1 STATE_value = 0 →
      steps 31 s = callFn { s with mem := m1, lineIndex := li1, rsp := (s.ip + 4) % 4294967296 :: s.rsp,
                                   ip := XT .INTERPRET + 104, w := toCFA m1 lfa })
    ∧ (read32 m1 STATE_value ≠ 0 → read8 m1 ((lfa + 4) % 4294967296) &&& IMMEDIATE_BIT ≠ 0 →
      steps 36 s = callFn { s with mem := m1, lineIndex := li1, rsp := (s.ip + 4) % 4294967296 :: s.rsp,
                                   ip := XT .INTERPRET + 104, w := toCFA m1 lfa })
    ∧ (read32 m1 STATE_value ≠ 0 → read8 m1 ((lfa + 4) % 4294967296) &&& IMMEDIATE_BIT = 0 →
        dictionary ≤ read32 m1 HERE_value → read32 m1 HERE_value + 4 ≤ dictionary + DICTIONARY_SIZE →
      steps 44 s = some { s with
        mem := set32 (set32 m1 (read32 m1 HERE_value) (toCFA m1 lfa)) HERE_value (read32 m1 HERE_value + 4),
        lineIndex := li1, ip := (s.ip + 4) % 4294967296, w := XT .EXIT }) := by
  obtain ⟨m, sp, rsp, ip, w, inp, li, out⟩ := s
  exact ⟨fun h0 => interpret_found0 m sp rsp ip w inp li out len li1 m1 lfa hcall hword hfind hlfa h0,
    fun h0 h1 => interpret_found1 m sp rsp ip w inp li out len li1 m1 lfa hcall hword hfind hlfa h0 h1,
    fun h0 h1 h2 h3 =>
      interpret_found2 m sp rsp ip w inp li out len li1 m1 lfa hcall hword hfind hlfa h0 h1 h2 h3⟩

theorem INTERPRET_found_witness :
    steps 31 (atInterpret initMem [7] (strBytes "DUP "))
      = callFn { atInterpret initMem [7] (strBytes "DUP ") with
          mem := wordMem (strBytes "DUP ") 0 initMem, lineIndex := 3,
          rsp := ((atInterpret initMem [7] (strBytes "DUP ")).ip + 4) % 4294967296
            :: (atInterpret initMem [7] (strBytes "DUP ")).rsp,
          ip := XT .INTERPRET + 104, w := toCFA (wordMem (strBytes "DUP ") 0 initMem) (LINK .DUP) } :=
  (INTERPRET_found (atInterpret initMem [7] (strBytes "DUP ")) 3 3 (wordMem (strBytes "DUP ") 0 initMem)
    (LINK .DUP) (by decide!) (readWord_eq _ _ _ _ _ (by decide!)) (by decide!) (by decide)).1 (by decide!)

/-- C2: `INTERPRET` on a token that `FIND` does not locate and that
`NUMBERIN` parses completely in the current `BASE`.  If `STATE` is 0, after
17 rounds of `NEXT()` `INTERPRET` has returned with the value pushed and the
memory as `WORD` left it; if `STATE` is not 0 (and the two cells at `HERE`
lie in the dictionary area), after 38 rounds it has returned with `XT(LIT)`
stored at `HERE`, the value at `HERE + 4`, `HERE` advanced by 8 and the
parameter stack unchanged. -/
theorem INTERPRET_number (s : Machine) (len li1 : Nat) (m1 : Nat → Nat)
    (hcall : read32 s.mem s.ip = XT .INTERPRET)
    (hword : readWord s.input s.lineIndex s.mem = some (len, li1, m1))
    (hfind : findLoop m1 word len 4294967296 (read32 m1 LATEST_value) = some 0)
    (hnum : (numberIn m1 (read32 m1 BASE_value) len word).2.2 = 0) :
    (read32 m1 STATE_value = 0 →
      steps 17 s = some { s with
        mem := m1, lineIndex := li1, sp := (numberIn m1 (read32 m1 BASE_value) len word).1 :: s.sp,
        ip := (s.ip + 4) % 4294967296, w := XT .EXIT })
    ∧ (read32 m1 STATE_value ≠ 0 →
        dictionary ≤ read32 m1 HERE_value → read32 m1 HERE_value + 8 ≤ dictionary + DICTIONARY_SIZE →
      steps 38 s = some { s with
        mem := set32 (set32 (set32 (set32 m1 (read32 m1 HERE_value) (XT .LIT))
                HERE_value (read32 m1 HERE_value + 4))
                (read32 m1 HERE_value + 4) (numberIn m1 (read32 m1 BASE_value) len word).1)
                HERE_value (read32 m1 HERE_value + 8),
        lineIndex := li1, ip := (s.ip + 4) % 4294967296, w := XT .EXIT }) := by
  obtain ⟨m, sp, rsp, ip, w, inp, li, out⟩ := s
  exact ⟨fun h0 => interpret_number0 m sp rsp ip w inp li out len li1 m1 hcall hword hfind hnum h0,
    fun h0 h1 h2 => interpret_number1 m sp rsp ip w inp li out len li1 m1 hcall hword hfind hnum h0 h1 h2⟩

theorem INTERPRET_number_witness :
    steps 17 (atInterpret initMem [7] (strBytes "-42 "))
      = some { atInterpret initMem [7] (strBytes "-42 ") with
          mem := wordMem (strBytes "-42 ") 0 initMem, lineIndex := 3,
          sp := (numberIn (wordMem (strBytes "-42 ") 0 initMem)
                  (read32 (wordMem (strBytes "-42 ") 0 initMem) BASE_value) 3 word).1
                :: (atInterpret initMem [7] (strBytes "-42 ")).sp,
          ip := ((atInterpret initMem [7] (strBytes "-42 ")).ip + 4) % 4294967296, w := XT .EXIT } :=
  (INTERPRET_number (atInterpret initMem [7] (strBytes "-42 ")) 3 3 (wordMem (strBytes "-42 ") 0 initMem)
    (by decide!) (readWord_eq _ _ _ _ _ (by decide!)) (by decide!) (by decide!)).1 (by decide!)

theorem read8_congr (m m1 : Nat → Nat) (a : Nat) (h : m1 a = m a) : read8 m1 a = read8 m a := by
  unfold read8; rw [h]

theorem read32_congr (m m1 : Nat → Nat) (a : Nat)
    (h : ∀ k, k < 4 → m1 (a + k) = m (a + k)) : read32 m1 a = read32 m a := by
  unfold read32
  rw [read8_congr m m1 a (h 0 (by decide)), read8_congr m m1 (a + 1) (h 1 (by decide)),
    read8_congr m m1 (a + 2) (h 2 (by decide)), read8_congr m m1 (a + 3) (h 3 (by decide))]

/-- C4: on a token that is neither found nor fully parsed, after 17 rounds
of `NEXT()` `INTERPRET` has returned to its caller with the parameter stack
and the return stack as before, `HERE`, `LATEST` and `STATE` as before, and
every byte of memory outside the buffer of `WORD` as before, the bytes of
the dictionary area among them; the input index has moved past the token. -/
theorem INTERPRET_error_frame (s : Machine) (len li1 : Nat) (m1 : Nat → Nat)
    (hcall : read32 s.mem s.ip = XT .INTERPRET)
    (hword : readWord s.input s.lineIndex s.mem = some (len, li1, m1))
    (hfind : findLoop m1 word len 4294967296 (read32 m1 LATEST_value) = some 0)
    (hnum : (numberIn m1 (read32 m1 BASE_value) len word).2.2 ≠ 0) :
    ∃ s1, steps 17 s = some s1 ∧ s1.sp = s.sp ∧ s1.rsp = s.rsp ∧ s1.ip = (s.ip + 4) % 4294967296
      ∧ s1.lineIndex = li1
      ∧ read32 s1.mem HERE_value = read32 s.mem HERE_value
      ∧ read32 s1.mem LATEST_value = read32 s.mem LATEST_value
      ∧ read32 s1.mem STATE_value = read32 s.mem STATE_value
      ∧ (∀ a, dictionary ≤ a → a < dictionary + DICTIONARY_SIZE → s1.mem a = s.mem a)
      ∧ (∀ a, a < word ∨ word + TOMOKO_WORD_MAX ≤ a → s1.mem a = s.mem a) := by
  obtain ⟨m, sp, rsp, ip, w, inp, li, out⟩ := s
  obtain ⟨_, _, h3⟩ := readWord_spec inp li m len li1 m1 hword
  have hw : word = 134610976 := rfl
  refine ⟨_, interpret_error m sp rsp ip w inp li out len li1 m1 hcall hword hfind hnum,
    rfl, rfl, rfl, rfl, ?_, ?_, ?_, ?_, ?_⟩
  · exact read32_congr _ _ _ fun k hk => h3 _ (by have : HERE_value = 134610956 := rfl; omega)
  · exact read32_congr _ _ _ fun k hk => h3 _ (by have : LATEST_value = 134610952 := rfl; omega)
  · exact read32_congr _ _ _ fun k hk => h3 _ (by have : STATE_value = 134610948 := rfl; omega)
  · intro a ha _
    exact h3 a (by have : dictionary = 134615040 := rfl; omega)
  · intro a ha
    exact h3 a (by have : TOMOKO_WORD_MAX = 32 := rfl; omega)

theorem INTERPRET_error_frame_witness :
    ∃ s1, steps 17 (atInterpret initMem [7] (strBytes "foo ")) = some s1
      ∧ s1.sp = (atInterpret initMem [7] (strBytes "foo ")).sp
      ∧ s1.rsp = (atInterpret initMem [7] (strBytes "foo ")).rsp
      ∧ s1.ip = ((atInterpret initMem [7] (strBytes "foo ")).ip + 4) % 4294967296
      ∧ s1.lineIndex = 3
      ∧ read32 s1.mem HERE_value = read32 (atInterpret initMem [7] (strBytes "foo ")).mem HERE_value
      ∧ read32 s1.mem LATEST_value = read32 (atInterpret initMem [7] (strBytes "foo ")).mem LATEST_value
      ∧ read32 s1.mem STATE_value = read32 (atInterpret initMem [7] (strBytes "foo ")).mem STATE_value
      ∧ (∀ a, dictionary ≤ a → a < dictionary + DICTIONARY_SIZE →
          s1.mem a = (atInterpret initMem [7] (strBytes "foo ")).mem a)
      ∧ (∀ a, a < word ∨ word + TOMOKO_WORD_MAX ≤ a →
          s1.mem a = (atInterpret initMem [7] (strBytes "foo ")).mem a) :=
  INTERPRET_error_frame (atInterpret initMem [7] (strBytes "foo ")) 3 3
    (wordMem (strBytes "foo ") 0 initMem)
    (by decide!) (readWord_eq _ _ _ _ _ (by decide!)) (by decide!) (by decide!)

theorem nameMatches_eq (mem : Nat → Nat) (cs : Bool) (n : Nat) :
    ∀ name target, nameMatches mem cs name target n
      = nameEqual cs (readBytes mem name n) (readBytes mem target n) := by
  induction n with
  | zero => intro name target; cases cs <;> rfl
  | succ n ih =>
      intro name target
      have h := ih (name + 1) (target + 1)
      cases cs
      · simp only [nameMatches, nameEqual, readBytes, Bool.false_eq_true, if_false, List.map_cons] at h ⊢
        by_cases hb : toupper (read8 mem name) = toupper (read8 mem target)
        · simp [hb, h]
        · simp [hb]
      · simp only [nameMatches, nameEqual, readBytes, if_true] at h ⊢
        by_cases hb : read8 mem name = read8 mem target
        · simp [hb, h]
        · simp [hb]

theorem toInt_eq_iff (n len : Nat) (hn : n < 64) (hlen : len < 4294967296) :
    ((n : Int) = toInt len) ↔ n = len := by
  unfold toInt
  rw [Nat.mod_eq_of_lt hlen]
  split <;> omega

theorem and_LENGTH_lt (a : Nat) : a &&& LENGTH_BITS < 64 :=
  Nat.lt_of_le_of_lt Nat.and_le_right (by decide)

theorem findLoop_eq (mem : Nat → Nat) (target len : Nat) (hlen : len < 4294967296) (fuel : Nat) :
    ∀ (link : Nat) (entries : List Nat), linkChain mem fuel link = some entries →
      findLoop mem target len fuel link = some ((entries.find? (entryMatches mem target len)).getD 0) := by
  induction fuel with
  | zero => intro link entries h; simp [linkChain] at h
  | succ fuel ih =>
      intro link entries h
      unfold linkChain at h
      unfold findLoop
      by_cases h0 : link = 0
      · rw [if_pos h0] at h ⊢
        simp only [Option.some.injEq] at h
        subst h; rfl
      · rw [if_neg h0] at h ⊢
        cases hc : linkChain mem fuel (read32 mem link) with
        | none => rw [hc] at h; simp at h
        | some rest =>
            rw [hc] at h
            simp only [Option.map_some', Option.some.injEq] at h
            subst h
            have hrec := ih _ _ hc
            simp only [List.find?_cons]
            by_cases hm : entryMatches mem target len link = true
            · rw [hm]
              simp only [entryMatches, Bool.and_eq_true, beq_iff_eq] at hm
              obtain ⟨⟨hh, hl⟩, hn⟩ := hm
              have hl2 : ((read8 mem (link + 4) &&& LENGTH_BITS : Nat) : Int) = toInt len :=
                (toInt_eq_iff _ _ (and_LENGTH_lt _) hlen).mpr hl
              have hl3 : (len : Int) = toInt len := by rw [hl] at hl2; exact hl2
              simp only [hh, if_true, hl, hl3, nameMatches_eq, hn, Option.getD_some]
            · have hm2 : entryMatches mem target len link = false := by
                cases h : entryMatches mem target len link
                · rfl
                · exact absurd h hm
              rw [hm2]
              simp only
              rw [← hrec]
              by_cases hh : read8 mem (link + 4) &&& HIDDEN_BIT = 0
              · simp only [hh, if_true]
                by_cases hl : ((read8 mem (link + 4) &&& LENGTH_BITS : Nat) : Int) = toInt len
                · simp only [hl, if_true]
                  have hl1 := (toInt_eq_iff _ _ (and_LENGTH_lt _) hlen).mp hl
                  simp only [entryMatches, hh, hl1, beq_self_eq_true, Bool.true_and] at hm2
                  simp only [nameMatches_eq, hl1, hm2, Bool.false_eq_true, if_false]
                · simp only [hl, if_false]
              · simp only [hh, if_false]

theorem linkChain_ne_zero (mem : Nat → Nat) (fuel : Nat) :
    ∀ (link : Nat) (entries : List Nat), linkChain mem fuel link = some entries →
      ∀ e ∈ entries, e ≠ 0 := by
  induction fuel with
  | zero => intro link entries h; simp [linkChain] at h
  | succ fuel ih =>
      intro link entries h
      unfold linkChain at h
      by_cases h0 : link = 0
      · rw [if_pos h0] at h
        simp only [Option.some.injEq] at h
        subst h; intro e he; simp at he
      · rw [if_neg h0] at h
        cases hc : linkChain mem fuel (read32 mem link) with
        | none => rw [hc] at h; simp at h
        | some rest =>
            rw [hc] at h
            simp only [Option.map_some', Option.some.injEq] at h
            subst h
            intro e he
            rcases List.mem_cons.mp he with h1 | h1
            · rw [h1]; exact h0
            · exact ih _ _ hc e h1

theorem find_getD_eq_zero (p : Nat → Bool) (entries : List Nat) (h : ∀ e ∈ entries, e ≠ 0) :
    (entries.find? p).getD 0 = 0 ↔ ∀ e ∈ entries, p e = false := by
  constructor
  · intro hz
    cases hf : entries.find? p with
    | none => exact fun e he => by simpa using List.find?_eq_none.mp hf e he
    | some x =>
        rw [hf] at hz
        simp only [Option.getD_some] at hz
        exact absurd hz (h x (List.mem_of_find?_eq_some hf))
  · intro hall
    have : entries.find? p = none := List.find?_eq_none.mpr fun e he => by simp [hall e he]
    rw [this]; rfl

theorem fn_FIND_eq (s : Machine) (len target : Nat) (rest entries : List Nat)
    (hsp : s.sp = len :: target :: rest) (hlen : len < 4294967296)
    (hchain : linkChain s.mem 4294967296 (read32 s.mem LATEST_value) = some entries) :
    fn_FIND s = some { s with sp := (entries.find? (entryMatches s.mem target len)).getD 0 :: rest } := by
  unfold fn_FIND
  rw [hsp]
  simp only [findLoop_eq s.mem target len hlen _ _ _ hchain, Option.map_some', push]

theorem find_append (p : Nat → Bool) (pre post : List Nat) (e : Nat)
    (hpre : ∀ x ∈ pre, p x = false) (he : p e = true) : (pre ++ e :: post).find? p = some e := by
  induction pre with
  | nil => simp [List.find?_cons, he]
  | cons a pre ih =>
      have ha : p a = false := hpre a (List.mem_cons_self a pre)
      simp only [List.cons_append, List.find?_cons, ha]
      exact ih fun x hx => hpre x (List.mem_cons_of_mem a hx)

/-- C5, as the code has it: `FIND` on `(target, len)` returns the
link-field address of the first entry of the link chain that starts at
`LATEST` whose `HIDDEN` bit is clear, whose stored length is `len` and whose
`len` name bytes equal the `len` target bytes under the comparison that
`CASE-SENSITIVE` selects (`entryMatches`); it returns 0 exactly when no
entry of the chain passes the test. -/
theorem FIND_first_match (s : Machine) (len target : Nat) (rest entries : List Nat)
    (hsp : s.sp = len :: target :: rest) (hlen : len < 4294967296)
    (hchain : linkChain s.mem 4294967296 (read32 s.mem LATEST_value) = some entries) :
    (∀ pre e post, entries = pre ++ e :: post → (∀ x ∈ pre, entryMatches s.mem target len x = false) →
        entryMatches s.mem target len e = true → fn_FIND s = some { s with sp := e :: rest })
    ∧ ((∀ e ∈ entries, entryMatches s.mem target len e = false) → fn_FIND s = some { s with sp := 0 :: rest })
    ∧ (fn_FIND s = some { s with sp := 0 :: rest } → ∀ e ∈ entries, entryMatches s.mem target len e = false) := by
  have hf := fn_FIND_eq s len target rest entries hsp hlen hchain
  have hz := find_getD_eq_zero (entryMatches s.mem target len) entries
    (linkChain_ne_zero s.mem _ _ _ hchain)
  refine ⟨?_, ?_, ?_⟩
  · intro pre e post hsplit hpre he
    rw [hf, hsplit, find_append _ pre post e hpre he]
    rfl
  · intro hall
    rw [hf, hz.mpr hall]
  · intro h0
    rw [hf] at h0
    have h1 := congrArg (fun o => o.map fun t => t.sp) h0
    simp only [Option.map_some', Option.some.injEq, List.cons.injEq, and_true] at h1
    exact hz.mp h1

theorem FIND_first_match_witness :
    (∀ pre e post, List.map LINK words.reverse = pre ++ e :: post →
        (∀ x ∈ pre, entryMatches (atInterpret (wordMem (strBytes "DUP ") 0 initMem) [3, word] []).mem
            word 3 x = false) →
        entryMatches (atInterpret (wordMem (strBytes "DUP ") 0 initMem) [3, word] []).mem word 3 e = true →
        fn_FIND (atInterpret (wordMem (strBytes "DUP ") 0 initMem) [3, word] [])
          = some { atInterpret (wordMem (strBytes "DUP ") 0 initMem) [3, word] [] with sp := e :: [] })
    ∧ ((∀ e ∈ List.map LINK words.reverse,
          entryMatches (atInterpret (wordMem (strBytes "DUP ") 0 initMem) [3, word] []).mem word 3 e = false) →
        fn_FIND (atInterpret (wordMem (strBytes "DUP ") 0 initMem) [3, word] [])
          = some { atInterpret (wordMem (strBytes "DUP ") 0 initMem) [3, word] [] with sp := 0 :: [] })
    ∧ (fn_FIND (atInterpret (wordMem (strBytes "DUP ") 0 initMem) [3, word] [])
          = some { atInterpret (wordMem (strBytes "DUP ") 0 initMem) [3, word] [] with sp := 0 :: [] } →
        ∀ e ∈ List.map LINK words.reverse,
          entryMatches (atInterpret (wordMem (strBytes "DUP ") 0 initMem) [3, word] []).mem word 3 e = false) :=
  FIND_first_match (atInterpret (wordMem (strBytes "DUP ") 0 initMem) [3, word] []) 3 word []
    (List.map LINK words.reverse) rfl (by decide) (by decide!)

/-- C5 as stated fails: with `CASE-SENSITIVE` set to 0 and the target `dup`,
`FIND` returns the entry of `DUP`, whose three name bytes are not the target
bytes. -/
theorem FIND_first_match_counterexample :
    (fn_FIND (atInterpret (wordMem (strBytes "dup ") 0 (set32 initMem CASE_SENSITIVE_value 0))
        [3, word] [])).map (fun s => s.sp) = some [LINK .DUP]
      ∧ readBytes (wordMem (strBytes "dup ") 0 (set32 initMem CASE_SENSITIVE_value 0)) (LINK .DUP + 5) 3
          ≠ readBytes (wordMem (strBytes "dup ") 0 (set32 initMem CASE_SENSITIVE_value 0)) word 3 := by
  decide!

/-- C6: let an entry `e` of the chain be visible with stored length `len`
and with a name equal to the target after upper-casing both sides, while no
visible entry of that length has the bytes of the target themselves (only
the other spelling is defined).  When `CASE-SENSITIVE` is 0, `FIND` returns
an entry of the chain, not 0, that is visible, has length `len` and equals
the target after upper-casing; when `CASE-SENSITIVE` is not 0, `FIND`
returns 0. -/
theorem FIND_case (s : Machine) (len target : Nat) (rest entries : List Nat) (e : Nat)
    (hsp : s.sp = len :: target :: rest) (hlen : len < 4294967296)
    (hchain : linkChain s.mem 4294967296 (read32 s.mem LATEST_value) = some entries)
    (he : e ∈ entries)
    (hvisible : read8 s.mem (e + 4) &&& HIDDEN_BIT = 0)
    (hlength : read8 s.mem (e + 4) &&& LENGTH_BITS = len)
    (hupper : (readBytes s.mem (e + 5) len).map toupper = (readBytes s.mem target len).map toupper)
    (hexact : ∀ x ∈ entries, read8 s.mem (x + 4) &&& HIDDEN_BIT = 0 →
      read8 s.mem (x + 4) &&& LENGTH_BITS = len →
      readBytes s.mem (x + 5) len ≠ readBytes s.mem target len) :
    (read32 s.mem CASE_SENSITIVE_value = 0 →
      ∃ r, fn_FIND s = some { s with sp := r :: rest } ∧ r ≠ 0 ∧ r ∈ entries
        ∧ read8 s.mem (r + 4) &&& HIDDEN_BIT = 0 ∧ read8 s.mem (r + 4) &&& LENGTH_BITS = len
        ∧ (readBytes s.mem (r + 5) len).map toupper = (readBytes s.mem target len).map toupper)
    ∧ (read32 s.mem CASE_SENSITIVE_value ≠ 0 → fn_FIND s = some { s with sp := 0 :: rest }) := by
  have hf := fn_FIND_eq s len target rest entries hsp hlen hchain
  have hnz := linkChain_ne_zero s.mem _ _ _ hchain
  constructor
  · intro hcs
    have hm : entryMatches s.mem target len e = true := by
      simp only [entryMatches, hvisible, hlength, hcs, nameEqual, hupper, bne_self_eq_false,
        beq_self_eq_true, Bool.and_self, Bool.false_eq_true, if_false]
    cases hfind : entries.find? (entryMatches s.mem target len) with
    | none => exact absurd hm (by simpa using List.find?_eq_none.mp hfind e he)
    | some r =>
        have hr := List.find?_some hfind
        have hmem := List.mem_of_find?_eq_some hfind
        simp only [entryMatches, hcs, nameEqual, bne_self_eq_false, Bool.false_eq_true, if_false,
          Bool.and_eq_true, beq_iff_eq] at hr
        refine ⟨r, ?_, hnz r hmem, hmem, hr.1.1, hr.1.2, hr.2⟩
        rw [hf, hfind]; rfl
  · intro hcs
    rw [hf, (find_getD_eq_zero _ entries hnz).mpr]
    intro x hx
    have hb : (read32 s.mem CASE_SENSITIVE_value != 0) = true := by simpa using hcs
    cases hm : entryMatches s.mem target len x with
    | false => rfl
    | true =>
        simp only [entryMatches, hb, nameEqual, if_true, Bool.and_eq_true, beq_iff_eq] at hm
        exact absurd hm.2 (hexact x hx hm.1.1 hm.1.2)

theorem FIND_case_witness :
    (∃ r, fn_FIND (findState (withFoo 0) (strBytes "FOO"))
          = some { findState (withFoo 0) (strBytes "FOO") with sp := r :: [] }
        ∧ r ≠ 0 ∧ r ∈ dictionary :: List.map LINK words.reverse
        ∧ read8 (findState (withFoo 0) (strBytes "FOO")).mem (r + 4) &&& HIDDEN_BIT = 0
        ∧ read8 (findState (withFoo 0) (strBytes "FOO")).mem (r + 4) &&& LENGTH_BITS = 3
        ∧ (readBytes (findState (withFoo 0) (strBytes "FOO")).mem (r + 5) 3).map toupper
            = (readBytes (findState (withFoo 0) (strBytes "FOO")).mem word 3).map toupper)
      ∧ fn_FIND (findState (withFoo 1) (strBytes "FOO"))
          = some { findState (withFoo 1) (strBytes "FOO") with sp := 0 :: [] } :=
  ⟨(FIND_case (findState (withFoo 0) (strBytes "FOO")) 3 word [] (dictionary :: List.map LINK words.reverse)
      dictionary rfl (by decide) (by decide!) (List.mem_cons_self _ _) (by decide!) (by decide!)
      (by decide!) (by decide!)).1 (by decide!),
   (FIND_case (findState (withFoo 1) (strBytes "FOO")) 3 word [] (dictionary :: List.map LINK words.reverse)
      dictionary rfl (by decide) (by decide!) (List.mem_cons_self _ _) (by decide!) (by decide!)
      (by decide!) (by decide!)).2 (by decide!)⟩

/-- C6 on the built-in dictionary, where only `DUP` is defined: the target
`dup` is found (as the entry of `DUP`) when `CASE-SENSITIVE` is 0 and is not
found when `CASE-SENSITIVE` is 1. -/
theorem FIND_case_builtin :
    (fn_FIND (findState (set32 initMem CASE_SENSITIVE_value 0) (strBytes "dup"))).map (fun s => s.sp)
        = some [LINK .DUP]
      ∧ (fn_FIND (findState (set32 initMem CASE_SENSITIVE_value 1) (strBytes "dup"))).map (fun s => s.sp)
        = some [0] := by
  decide!

theorem writeBytes_ram (l : List Nat) : ∀ (m : Nat → Nat) (a : Nat), romEnd ≤ a →
    writeBytes m a l = some (setBytes m a l) := by
  induction l with
  | nil => intro m a _; rfl
  | cons b l ih =>
      intro m a h
      simp only [writeBytes, setBytes, write8_ram m b h, Option.some_bind]
      exact ih _ _ (by omega)

theorem read8_setBytes_lt (l : List Nat) : ∀ (m : Nat → Nat) (a b : Nat), b < a →
    read8 (setBytes m a l) b = read8 m b := by
  induction l with
  | nil => intro m a b _; rfl
  | cons x l ih =>
      intro m a b h
      simp only [setBytes]
      rw [ih _ _ _ (by omega), read8_set8_ne _ _ (by omega)]

theorem read8_setBytes_ge (l : List Nat) : ∀ (m : Nat → Nat) (a b : Nat), a + l.length ≤ b →
    read8 (setBytes m a l) b = read8 m b := by
  induction l with
  | nil => intro m a b _; rfl
  | cons x l ih =>
      intro m a b h
      simp only [setBytes]
      simp only [List.length_cons] at h
      rw [ih _ _ _ (by omega), read8_set8_ne _ _ (by omega)]

theorem read8_setBytes_ne (l : List Nat) (m : Nat → Nat) (a b : Nat) (h : b < a ∨ a + l.length ≤ b) :
    read8 (setBytes m a l) b = read8 m b := by
  rcases h with h | h
  · exact read8_setBytes_lt l m a b h
  · exact read8_setBytes_ge l m a b h

theorem read32_setBytes_ne (l : List Nat) (m : Nat → Nat) (a b : Nat)
    (h : b + 4 ≤ a ∨ a + l.length ≤ b) : read32 (setBytes m a l) b = read32 m b := by
  unfold read32
  rw [read8_setBytes_ne l m a b (by omega), read8_setBytes_ne l m a (b + 1) (by omega),
    read8_setBytes_ne l m a (b + 2) (by omega), read8_setBytes_ne l m a (b + 3) (by omega)]

theorem fn_STORE_ram (m : Nat → Nat) (addr v : Nat) (sp rsp : List Nat) (ip w : Nat) (inp : List Nat)
    (li : Nat) (out : List Nat) (h : romEnd ≤ addr) :
    fn_STORE ⟨m, addr :: v :: sp, rsp, ip, w, inp, li, out⟩
      = some ⟨set32 m addr v, sp, rsp, ip, w, inp, li, out⟩ := by
  simp only [fn_STORE, write32_ram m v h, Option.map_some']

theorem fn_PLUSSTORE_ram (m : Nat → Nat) (addr v : Nat) (sp rsp : List Nat) (ip w : Nat)
    (inp : List Nat) (li : Nat) (out : List Nat) (h : romEnd ≤ addr) :
    fn_PLUSSTORE ⟨m, addr :: v :: sp, rsp, ip, w, inp, li, out⟩
      = some ⟨set32 m addr ((read32 m addr + v) % 4294967296), sp, rsp, ip, w, inp, li, out⟩ := by
  simp only [fn_PLUSSTORE, write32_ram m _ h, Option.map_some']

theorem fn_CSTORE_ram (m : Nat → Nat) (addr v : Nat) (sp rsp : List Nat) (ip w : Nat) (inp : List Nat)
    (li : Nat) (out : List Nat) (h : romEnd ≤ addr) :
    fn_CSTORE ⟨m, addr :: v :: sp, rsp, ip, w, inp, li, out⟩
      = some ⟨set8 m addr v, sp, rsp, ip, w, inp, li, out⟩ := by
  simp only [fn_CSTORE, write8_ram m v h, Option.map_some']

theorem fn_CMOVE_ram (m : Nat → Nat) (count dest source : Nat) (sp rsp : List Nat) (ip w : Nat)
    (inp : List Nat) (li : Nat) (out : List Nat) (h : romEnd ≤ dest) (hc : count < 2147483648) :
    fn_CMOVE ⟨m, count :: dest :: source :: sp, rsp, ip, w, inp, li, out⟩
      = some ⟨setBytes m dest (readBytes m source count), sp, rsp, ip, w, inp, li, out⟩ := by
  simp only [fn_CMOVE, toInt_small hc]
  by_cases h0 : 0 < count
  · have h1 : (0 : Int) < (count : Int) := by omega
    rw [if_pos h1, writeBytes_ram _ _ _ h]; rfl
  · have : count = 0 := by omega
    subst this; rfl

theorem fn_FILL_ram (m : Nat → Nat) (b n addr : Nat) (sp rsp : List Nat) (ip w : Nat)
    (inp : List Nat) (li : Nat) (out : List Nat) (h : romEnd ≤ addr) (hc : n < 2147483648) :
    fn_FILL ⟨m, b :: n :: addr :: sp, rsp, ip, w, inp, li, out⟩
      = some ⟨setBytes m addr (List.replicate n (b % 256)), sp, rsp, ip, w, inp, li, out⟩ := by
  simp only [fn_FILL, toInt_small hc]
  by_cases h0 : 0 < n
  · have h1 : (0 : Int) < (n : Int) := by omega
    rw [if_pos h1, writeBytes_ram _ _ _ h]; rfl
  · have : n = 0 := by omega
    subst this; rfl

theorem and_CELLMASK (x : Nat) (h : x < 4294967296) : x &&& 4294967292 = x / 4 * 4 := by
  apply Nat.eq_of_testBit_eq
  intro i
  have e : x / 4 * 4 = (x >>> 2) <<< 2 := by
    rw [Nat.shiftLeft_eq, Nat.shiftRight_eq_div_pow]
  rw [e, Nat.testBit_and, Nat.testBit_shiftLeft, Nat.testBit_shiftRight]
  by_cases hi : i < 32
  · interval_cases i <;> simp [Nat.testBit]
  · have hp : 4294967296 ≤ 2 ^ i :=
      calc 4294967296 = 2 ^ 32 := by norm_num
        _ ≤ 2 ^ i := Nat.pow_le_pow_right (by decide) (by omega)
    have h1 : x.testBit i = false := Nat.testBit_eq_false_of_lt (Nat.lt_of_lt_of_le h hp)
    have h2 : 2 + (i - 2) = i := by omega
    simp [h1, h2]

theorem sub_wrap (a b : Nat) (h : b ≤ a) (ha : a < 4294967296) :
    (a + (4294967296 - b)) % 4294967296 = a - b := by
  omega

theorem set32_set32_same (m : Nat → Nat) (a v v1 : Nat) : set32 (set32 m a v) a v1 = set32 m a v1 := by
  funext x
  simp only [set32, set8]
  split_ifs <;> rfl

theorem readBytes_congr (m m1 : Nat → Nat) (n : Nat) :
    ∀ a, (∀ k, k < n → read8 m1 (a + k) = read8 m (a + k)) → readBytes m1 a n = readBytes m a n := by
  induction n with
  | zero => intro a _; rfl
  | succ n ih =>
      intro a h
      simp only [readBytes]
      have h0 := h 0 (by omega)
      rw [Nat.add_zero] at h0
      rw [h0, ih (a + 1) fun k hk => by
        have := h (k + 1) (by omega)
        rwa [show a + 1 + k = a + (k + 1) by omega]]

theorem readBytes_set8_ne (m : Nat → Nat) (a v b n : Nat) (h : a < b ∨ b + n ≤ a) :
    readBytes (set8 m a v) b n = readBytes m b n :=
  readBytes_congr _ _ _ _ fun k hk => read8_set8_ne _ _ (by omega)

theorem readBytes_set32_ne (m : Nat → Nat) (a v b n : Nat) (h : a + 4 ≤ b ∨ b + n ≤ a) :
    readBytes (set32 m a v) b n = readBytes m b n :=
  readBytes_congr _ _ _ _ fun k hk => read8_set32_ne _ _ (by omega)

theorem readBytes_setBytes_ne (l : List Nat) (m : Nat → Nat) (a b n : Nat)
    (h : a + l.length ≤ b ∨ b + n ≤ a) : readBytes (setBytes m a l) b n = readBytes m b n :=
  readBytes_congr _ _ _ _ fun k hk => read8_setBytes_ne l m a _ (by omega)

theorem create_run (m : Nat → Nat) (sp rsp : List Nat) (ip w : Nat) (inp : List Nat) (li : Nat)
    (out : List Nat) (len li1 : Nat) (m1 : Nat → Nat) (here : Nat)
    (hcall : read32 m ip = XT .CREATE)
    (hword : readWord inp li m = some (len, li1, m1))
    (hhere : read32 m1 HERE_value = here)
    (hlo : dictionary ≤ here) (hhi : here + len + 9 ≤ dictionary + DICTIONARY_SIZE) :
    steps 71 ⟨m, sp, rsp, ip, w, inp, li, out⟩
      = some ⟨createMem m1 here len, sp, rsp, (ip + 4) % 4294967296, XT .EXIT, inp, li1, out⟩ := by
  have hd : dictionary = 134615040 := rfl
  have hds : DICTIONARY_SIZE = 8192 := rfl
  have hre : romEnd = 134582016 := rfl
  have hH : HERE_value = 134610956 := rfl
  have hL : LATEST_value = 134610952 := rfl
  have hW : word = 134610976 := rfl
  obtain ⟨hl1, hl2, _⟩ := readWord_spec inp li m len li1 m1 hword
  simp (disch := omega) only [steps_succ, steps_zero, andThen_some, andThen_none, NEXT, callFn, read32_XT, read32_XT_add, XT_mod, XT_add_mod, cells_native, cells_value, cells_colon, cells_eqs, List.getD_cons_succ, List.getD_cons_zero, decodeFn_fnAddr, Option.some_bind, Option.map_some', callCode_eqs, pop, push, rpop, rpush, unaryOp, binaryOp, Nat.add_assoc, Nat.reduceAdd, Nat.reduceMod, Nat.reduceDiv, Nat.reduceLT, Nat.reduceMul, if_true, if_false, ite_true, ite_false, Nat.reduceSub, Nat.reduceXor, fn_DOCOL, fn_EXIT, fn_BRANCH, fn_ZBRANCH, fn_LIT, fn_LBRAC, fn_RBRAC, fn_CONST, fn_VAR, fn_FIND, fn_DROP, fn_SWAP, fn_DUP, fn_OVER, fn_ROT, fn_NROT, fn_DDROP, fn_DDUP, fn_INCR, fn_CELLPLUS, fn_ADD, fn_SUB, fn_MUL, fn_AND, fn_XOR, fn_FETCH, fn_CFETCH, fn_EMIT, fn_TELL, fn_DOT, fn_WORD, fn_INIT, fn_RSPSTORE, charOut, fn_STORE_ram, fn_PLUSSTORE_ram, fn_CSTORE_ram, fn_CMOVE_ram, fn_FILL_ram, read32_set32_same, read32_set32_ne, read32_set8_ne, read32_setBytes_ne, read8_set8_same, read8_set8_ne, read8_set32_ne, read8_setBytes_ne, Nat.mod_eq_of_lt, and_CELLMASK, sub_wrap, set32_set32_same, readBytes_set8_ne, readBytes_set32_ne, readBytes_setBytes_ne, hcall, hword, hhere]
  rfl

theorem read8_setBytes_same (l : List Nat) : ∀ (m : Nat → Nat) (a k : Nat), romEnd ≤ a → k < l.length →
    read8 (setBytes m a l) (a + k) = l.getD k 0 % 256 := by
  induction l with
  | nil => intro m a k _ hk; simp at hk
  | cons x l ih =>
      intro m a k h hk
      simp only [setBytes]
      cases k with
      | zero =>
          rw [read8_setBytes_lt l _ _ _ (by omega), Nat.add_zero, read8_set8_same _ _ h]
          rfl
      | succ k =>
          simp only [List.length_cons] at hk
          rw [show a + (k + 1) = a + 1 + k by omega, ih _ _ _ (by omega) (by omega)]
          rfl

theorem readBytes_eq_of_getD (l : List Nat) : ∀ (m : Nat → Nat) (a : Nat),
    (∀ k, k < l.length → read8 m (a + k) = l.getD k 0) → readBytes m a l.length = l := by
  induction l with
  | nil => intro m a _; rfl
  | cons x l ih =>
      intro m a h
      simp only [List.length_cons, readBytes]
      have h0 := h 0 (by simp)
      rw [Nat.add_zero] at h0
      rw [h0, ih m (a + 1) fun k hk => by
        have := h (k + 1) (by simp; omega)
        rwa [show a + 1 + k = a + (k + 1) by omega]]
      rfl

theorem readBytes_getD (m : Nat → Nat) (n : Nat) : ∀ (a k : Nat), k < n →
    (readBytes m a n).getD k 0 = read8 m (a + k) := by
  induction n with
  | zero => intro a k hk; omega
  | succ n ih =>
      intro a k hk
      cases k with
      | zero => rfl
      | succ k =>
          simp only [readBytes, List.getD_cons_succ]
          rw [ih (a + 1) k (by omega)]
          congr 1; omega

theorem read8_lt_ram (m : Nat → Nat) (a : Nat) (h : romEnd ≤ a) : read8 m a % 256 = read8 m a := by
  rw [read8_ram m h, Nat.mod_mod]

theorem createMem_spec (m1 : Nat → Nat) (here len : Nat) (hlo : dictionary ≤ here)
    (hhi : here + len + 9 ≤ dictionary + DICTIONARY_SIZE) (hl1 : 1 ≤ len) (hl2 : len ≤ 31) :
    read32 (createMem m1 here len) here = read32 m1 LATEST_value
    ∧ read32 (createMem m1 here len) LATEST_value = here
    ∧ read32 (createMem m1 here len) HERE_value = (here + len + 9) / 4 * 4
    ∧ read8 (createMem m1 here len) (here + 4) = len
    ∧ readBytes (createMem m1 here len) (here + 5) len = readBytes m1 word len
    ∧ read8 (createMem m1 here len) (here + (5 + len)) = 0
    ∧ (∀ a, here + len + 6 ≤ a → a < (here + len + 9) / 4 * 4 → read8 (createMem m1 here len) a = 0)
    ∧ (∀ a, a < here ∨ (here + len + 9) / 4 * 4 ≤ a → a < LATEST_value ∨ HERE_value + 4 ≤ a →
        read8 (createMem m1 here len) a = read8 m1 a)
    ∧ (∀ a, a + 4 ≤ here ∨ (here + len + 9) / 4 * 4 ≤ a → a + 4 ≤ LATEST_value ∨ HERE_value + 4 ≤ a →
        read32 (createMem m1 here len) a = read32 m1 a) := by
  have hd : dictionary = 134615040 := rfl
  have hds : DICTIONARY_SIZE = 8192 := rfl
  have hre : romEnd = 134582016 := rfl
  have hH : HERE_value = 134610956 := rfl
  have hL : LATEST_value = 134610952 := rfl
  have hW : word = 134610976 := rfl
  have hlat := read32_lt m1 (a := LATEST_value) (by omega)
  have hn : (readBytes m1 word len).length = len := readBytes_length m1 len word
  have hp : ∀ v : Nat, (List.replicate ((here + (5 + (len + 4))) / 4 * 4 - (here + (5 + (len + 1)))) v).length
      = (here + (5 + (len + 4))) / 4 * 4 - (here + (5 + (len + 1))) := fun v => List.length_replicate _ _
  refine ⟨?_, ?_, ?_, ?_, ?_, ?_, ?_, ?_, ?_⟩
  · unfold createMem
    simp (disch := omega) only [read32_setBytes_ne, read32_set32_ne, read32_set8_ne, read32_set32_same,
      Nat.mod_eq_of_lt]
  · unfold createMem
    simp (disch := omega) only [read32_setBytes_ne, read32_set32_ne, read32_set8_ne, read32_set32_same,
      Nat.mod_eq_of_lt]
  · unfold createMem
    simp (disch := omega) only [read32_setBytes_ne, read32_set32_ne, read32_set8_ne, read32_set32_same,
      Nat.mod_eq_of_lt]
    omega
  · unfold createMem
    simp (disch := omega) only [read8_setBytes_ne, read8_set32_ne, read8_set8_ne, read8_set8_same,
      Nat.mod_eq_of_lt]
  · unfold createMem
    simp (disch := omega) only [readBytes_setBytes_ne, readBytes_set32_ne, readBytes_set8_ne]
    have := readBytes_eq_of_getD (readBytes m1 word len)
      (setBytes (set32 (set8 (set32 (set32 (set32 m1 here (read32 m1 LATEST_value)) HERE_value (here + 4))
        LATEST_value here) (here + 4) len) HERE_value (here + (5 + len))) (here + 5) (readBytes m1 word len))
      (here + 5) fun k hk => by
        rw [read8_setBytes_same _ _ _ _ (by omega) hk]
        rw [hn] at hk
        rw [readBytes_getD _ _ _ _ hk, read8_lt_ram _ _ (by omega)]
    rw [hn] at this
    exact this
  · unfold createMem
    simp (disch := omega) only [read8_setBytes_ne, read8_set32_ne, read8_set8_ne, read8_set8_same,
      Nat.mod_eq_of_lt, Nat.zero_mod]
  · intro a ha1 ha2
    unfold createMem
    have hk : a = here + (5 + (len + 1)) + (a - (here + (5 + (len + 1)))) := by omega
    rw [hk, read8_setBytes_same _ _ _ _ (by omega) (by rw [hp]; omega)]
    rw [List.getD_eq_getElem?_getD, List.getElem?_replicate]
    split <;> rfl
  · intro a ha hb
    have hp0 := hp 0
    unfold createMem
    simp (disch := omega) only [read8_setBytes_ne, read8_set32_ne, read8_set8_ne]
  · intro a ha hb
    have hp0 := hp 0
    unfold createMem
    simp (disch := omega) only [read32_setBytes_ne, read32_set32_ne, read32_set8_ne]

theorem and_LENGTH_small (n : Nat) (h : n < 64) : n &&& LENGTH_BITS = n := by
  have : LENGTH_BITS = 2 ^ 6 - 1 := rfl
  rw [this, Nat.and_pow_two_sub_one_eq_mod]
  exact Nat.mod_eq_of_lt h

theorem toCFA_eq (mem : Nat → Nat) (lfa n : Nat) (hn : read8 mem (lfa + 4) &&& LENGTH_BITS = n)
    (hlfa : lfa + 80 < 4294967296) : toCFA mem lfa = (lfa + n + 9) / 4 * 4 := by
  have h63 := and_LENGTH_lt (read8 mem (lfa + 4))
  rw [hn] at h63
  unfold toCFA
  simp only
  rw [Nat.mod_eq_of_lt (show lfa + 4 < 4294967296 by omega), hn]
  rw [Nat.mod_eq_of_lt (show n < 4294967296 by omega)]
  rw [Nat.mod_eq_of_lt (show n + 1 < 4294967296 by omega)]
  rw [Nat.mod_eq_of_lt (show n + 1 + 1 < 4294967296 by omega)]
  rw [Nat.mod_eq_of_lt (show lfa + 4 + (n + 1 + 1) < 4294967296 by omega)]
  rw [Nat.mod_eq_of_lt (show lfa + 4 + (n + 1 + 1) + 3 < 4294967296 by omega)]
  rw [and_CELLMASK _ (by omega), Nat.mod_eq_of_lt (by omega)]
  congr 2
  omega

/-- C8: `CREATE`, called with `HERE` cell-aligned and with room in the
dictionary area, on an input whose next token has `len` bytes (which `WORD`
leaves in its buffer, in memory `m1`): after 71 rounds of `NEXT()` it has
returned with both stacks as before; the cell at the old `HERE` holds the
old `LATEST`, `LATEST` is the old `HERE`, the byte at old `HERE + 4` is
`len`, the `len` bytes from old `HERE + 5` are those of the token, then
comes a NUL byte, then zero bytes up to the new `HERE`, which is the old
`HERE` plus `len + 6` rounded up to a multiple of 4; the new `HERE` is
cell-aligned and is what `>CFA` computes from the new `LATEST`. -/
theorem CREATE_header (s : Machine) (len li1 : Nat) (m1 : Nat → Nat)
    (hcall : read32 s.mem s.ip = XT .CREATE)
    (hword : readWord s.input s.lineIndex s.mem = some (len, li1, m1))
    (haligned : read32 s.mem HERE_value % 4 = 0)
    (hlo : dictionary ≤ read32 s.mem HERE_value)
    (hhi : read32 s.mem HERE_value + len + 9 ≤ dictionary + DICTIONARY_SIZE) :
    ∃ s1, steps 71 s = some s1
      ∧ s1.sp = s.sp ∧ s1.rsp = s.rsp ∧ s1.ip = (s.ip + 4) % 4294967296
      ∧ read32 s1.mem (read32 s.mem HERE_value) = read32 s.mem LATEST_value
      ∧ read32 s1.mem LATEST_value = read32 s.mem HERE_value
      ∧ read8 s1.mem (read32 s.mem HERE_value + 4) = len
      ∧ readBytes s1.mem (read32 s.mem HERE_value + 5) len = readBytes m1 word len
      ∧ read8 s1.mem (read32 s.mem HERE_value + 5 + len) = 0
      ∧ (∀ a, read32 s.mem HERE_value + 5 + len < a →
          a < read32 s.mem HERE_value + (len + 6 + 3) / 4 * 4 → read8 s1.mem a = 0)
      ∧ read32 s1.mem HERE_value = read32 s.mem HERE_value + (len + 6 + 3) / 4 * 4
      ∧ read32 s1.mem HERE_value % 4 = 0
      ∧ toCFA s1.mem (read32 s1.mem LATEST_value) = read32 s1.mem HERE_value := by
  obtain ⟨m, sp, rsp, ip, w, inp, li, out⟩ := s
  obtain ⟨hl1, hl2, hframe⟩ := readWord_spec inp li m len li1 m1 hword
  have hd : dictionary = 134615040 := rfl
  have hds : DICTIONARY_SIZE = 8192 := rfl
  have hH : HERE_value = 134610956 := rfl
  have hL : LATEST_value = 134610952 := rfl
  have hW : word = 134610976 := rfl
  have eH : read32 m1 HERE_value = read32 m HERE_value :=
    read32_congr _ _ _ fun k hk => hframe _ (by omega)
  have eL : read32 m1 LATEST_value = read32 m LATEST_value :=
    read32_congr _ _ _ fun k hk => hframe _ (by omega)
  simp only at hcall hword haligned hlo hhi ⊢
  obtain ⟨c1, c2, c3, c4, c5, c6, c7, _, _⟩ :=
    createMem_spec m1 (read32 m HERE_value) len hlo hhi hl1 hl2
  have hcfa : toCFA (createMem m1 (read32 m HERE_value) len) (read32 m HERE_value)
      = (read32 m HERE_value + len + 9) / 4 * 4 :=
    toCFA_eq _ _ len (by rw [c4]; exact and_LENGTH_small len (by omega)) (by omega)
  have hnew : (read32 m HERE_value + len + 9) / 4 * 4 = read32 m HERE_value + (len + 6 + 3) / 4 * 4 := by
    omega
  refine ⟨_, create_run m sp rsp ip w inp li out len li1 m1 (read32 m HERE_value) hcall hword eH hlo hhi,
    rfl, rfl, rfl, ?_, c2, c4, c5, ?_, ?_, ?_, ?_, ?_⟩
  · rw [c1, eL]
  · rw [Nat.add_assoc]; exact c6
  · intro a h1 h2
    exact c7 a (by omega) (by omega)
  · rw [← hnew]; exact c3
  · show read32 (createMem m1 (read32 m HERE_value) len) HERE_value % 4 = 0
    rw [c3]; omega
  · show toCFA (createMem m1 (read32 m HERE_value) len)
        (read32 (createMem m1 (read32 m HERE_value) len) LATEST_value)
      = read32 (createMem m1 (read32 m HERE_value) len) HERE_value
    rw [c2, c3, hcfa]

theorem steps_split (a b : Nat) (s : Machine) : steps (a + b) s = andThen (steps a s) b := by
  rw [steps_add]
  cases steps a s with
  | none => rw [andThen_none]; rfl
  | some t => rw [andThen_some]; rfl

theorem colon_run (m : Nat → Nat) (sp rsp : List Nat) (ip w : Nat) (inp : List Nat) (li : Nat)
    (out : List Nat) (len li1 : Nat) (m1 : Nat → Nat) (here : Nat)
    (hword : readWord inp li m = some (len, li1, m1))
    (hhere : read32 m1 HERE_value = here)
    (hlo : dictionary ≤ here) (hhi : here + len + 13 ≤ dictionary + DICTIONARY_SIZE) :
    andThen (callFn ⟨m, sp, rsp, ip, XT .COLON, inp, li, out⟩) 95
      = some ⟨colonMem m1 here len, sp, rsp, ip, XT .EXIT, inp, li1, out⟩ := by
  have hd : dictionary = 134615040 := rfl
  have hds : DICTIONARY_SIZE = 8192 := rfl
  have hre : romEnd = 134582016 := rfl
  have hH : HERE_value = 134610956 := rfl
  have hL : LATEST_value = 134610952 := rfl
  have hS : STATE_value = 134610948 := rfl
  have hW : word = 134610976 := rfl
  obtain ⟨hl1, hl2, _⟩ := readWord_spec inp li m len li1 m1 hword
  obtain ⟨c1, c2, c3, c4, c5, c6, c7, c8, c9⟩ := createMem_spec m1 here len hlo (by omega) hl1 hl2
  have hcall : read32 m (XT .COLON + 4) = XT .CREATE := by
    simp (disch := omega) only [read32_XT_add, cells_colon, List.getD_cons_succ, List.getD_cons_zero,
      Nat.reduceDiv]
  have hstart : callFn ⟨m, sp, rsp, ip, XT .COLON, inp, li, out⟩
      = some ⟨m, sp, ip :: rsp, XT .COLON + 4, XT .COLON, inp, li, out⟩ := by
    simp (disch := omega) only [steps_succ, steps_zero, andThen_some, andThen_none, NEXT, callFn, read32_XT, read32_XT_add, XT_mod, XT_add_mod, cells_native, cells_value, cells_colon, cells_eqs, List.getD_cons_succ, List.getD_cons_zero, decodeFn_fnAddr, Option.some_bind, Option.map_some', callCode_eqs, pop, push, rpop, rpush, unaryOp, binaryOp, Nat.add_assoc, Nat.reduceAdd, Nat.reduceMod, Nat.reduceDiv, Nat.reduceLT, Nat.reduceMul, if_true, if_false, ite_true, ite_false, Nat.reduceSub, Nat.reduceXor, fn_DOCOL, fn_EXIT, fn_BRANCH, fn_ZBRANCH, fn_LIT, fn_LBRAC, fn_RBRAC, fn_CONST, fn_VAR, fn_FIND, fn_DROP, fn_SWAP, fn_DUP, fn_OVER, fn_ROT, fn_NROT, fn_DDROP, fn_DDUP, fn_INCR, fn_CELLPLUS, fn_ADD, fn_SUB, fn_MUL, fn_AND, fn_XOR, fn_STORE, fn_FETCH, fn_PLUSSTORE, fn_CSTORE, fn_CFETCH, fn_CMOVE, fn_FILL, fn_EMIT, fn_TELL, fn_DOT, fn_WORD, fn_INIT, fn_RSPSTORE, charOut]
  rw [hstart, andThen_some, steps_split 71 24,
    create_run m sp (ip :: rsp) (XT .COLON + 4) (XT .COLON) inp li out len li1 m1 here hcall hword hhere
      hlo (by omega)]
  simp (disch := omega) only [steps_succ, steps_zero, andThen_some, andThen_none, NEXT, callFn, read32_XT, read32_XT_add, XT_mod, XT_add_mod, cells_native, cells_value, cells_colon, cells_eqs, List.getD_cons_succ, List.getD_cons_zero, decodeFn_fnAddr, Option.some_bind, Option.map_some', callCode_eqs, pop, push, rpop, rpush, unaryOp, binaryOp, Nat.add_assoc, Nat.reduceAdd, Nat.reduceMod, Nat.reduceDiv, Nat.reduceLT, Nat.reduceMul, if_true, if_false, ite_true, ite_false, Nat.reduceSub, Nat.reduceXor, fn_DOCOL, fn_EXIT, fn_BRANCH, fn_ZBRANCH, fn_LIT, fn_LBRAC, fn_RBRAC, fn_CONST, fn_VAR, fn_FIND, fn_DROP, fn_SWAP, fn_DUP, fn_OVER, fn_ROT, fn_NROT, fn_DDROP, fn_DDUP, fn_INCR, fn_CELLPLUS, fn_ADD, fn_SUB, fn_MUL, fn_AND, fn_XOR, fn_FETCH, fn_CFETCH, fn_EMIT, fn_TELL, fn_DOT, fn_WORD, fn_INIT, fn_RSPSTORE, charOut, fn_STORE_ram, fn_PLUSSTORE_ram, fn_CSTORE_ram, fn_CMOVE_ram, fn_FILL_ram, read32_set32_same, read32_set32_ne, read32_set8_ne, read32_setBytes_ne, read8_set8_same, read8_set8_ne, read8_set32_ne, read8_setBytes_ne, Nat.mod_eq_of_lt, and_CELLMASK, sub_wrap, set32_set32_same, readBytes_set8_ne, readBytes_set32_ne, readBytes_setBytes_ne, c2, c3, c4]
  rfl

theorem semicolon_run (m : Nat → Nat) (sp rsp : List Nat) (ip w : Nat) (inp : List Nat) (li : Nat)
    (out : List Nat) (e : Nat) (hdef : Defining m e)
    (hhi : read32 m HERE_value + 4 ≤ dictionary + DICTIONARY_SIZE) :
    andThen (callFn ⟨m, sp, rsp, ip, XT .SEMICOLON, inp, li, out⟩) 24
      = some ⟨semicolonMem m, sp, rsp, ip, XT .EXIT, inp, li, out⟩ := by
  have hd : dictionary = 134615040 := rfl
  have hds : DICTIONARY_SIZE = 8192 := rfl
  have hre : romEnd = 134582016 := rfl
  have hH : HERE_value = 134610956 := rfl
  have hL : LATEST_value = 134610952 := rfl
  have hS : STATE_value = 134610948 := rfl
  obtain ⟨d1, d2, d3, d4, d5, d6⟩ := hdef
  subst d1
  simp (disch := omega) only [steps_succ, steps_zero, andThen_some, andThen_none, NEXT, callFn, read32_XT, read32_XT_add, XT_mod, XT_add_mod, cells_native, cells_value, cells_colon, cells_eqs, List.getD_cons_succ, List.getD_cons_zero, decodeFn_fnAddr, Option.some_bind, Option.map_some', callCode_eqs, pop, push, rpop, rpush, unaryOp, binaryOp, Nat.add_assoc, Nat.reduceAdd, Nat.reduceMod, Nat.reduceDiv, Nat.reduceLT, Nat.reduceMul, if_true, if_false, ite_true, ite_false, Nat.reduceSub, Nat.reduceXor, fn_DOCOL, fn_EXIT, fn_BRANCH, fn_ZBRANCH, fn_LIT, fn_LBRAC, fn_RBRAC, fn_CONST, fn_VAR, fn_FIND, fn_DROP, fn_SWAP, fn_DUP, fn_OVER, fn_ROT, fn_NROT, fn_DDROP, fn_DDUP, fn_INCR, fn_CELLPLUS, fn_ADD, fn_SUB, fn_MUL, fn_AND, fn_XOR, fn_FETCH, fn_CFETCH, fn_EMIT, fn_TELL, fn_DOT, fn_WORD, fn_INIT, fn_RSPSTORE, charOut, fn_STORE_ram, fn_PLUSSTORE_ram, fn_CSTORE_ram, fn_CMOVE_ram, fn_FILL_ram, read32_set32_same, read32_set32_ne, read32_set8_ne, read32_setBytes_ne, read8_set8_same, read8_set8_ne, read8_set32_ne, read8_setBytes_ne, Nat.mod_eq_of_lt, and_CELLMASK, sub_wrap, set32_set32_same, readBytes_set8_ne, readBytes_set32_ne, readBytes_setBytes_ne]
  rfl

theorem hidden_set : ∀ len, len < 32 →
    ((len ^^^ HIDDEN_BIT) % 4294967296 % 256) &&& HIDDEN_BIT ≠ 0
      ∧ ((len ^^^ HIDDEN_BIT) % 4294967296 % 256) &&& LENGTH_BITS = len := by
  decide

theorem colonMem_spec (m1 : Nat → Nat) (here len : Nat) (hlo : dictionary ≤ here)
    (hhi : here + len + 13 ≤ dictionary + DICTIONARY_SIZE) (hl1 : 1 ≤ len) (hl2 : len ≤ 31) :
    Defining (colonMem m1 here len) here
      ∧ read32 (colonMem m1 here len) (toCFA (colonMem m1 here len) here) = fnAddr .DOCOL
      ∧ read32 (colonMem m1 here len) STATE_value = 1
      ∧ read32 (colonMem m1 here len) HERE_value = toCFA (colonMem m1 here len) here + 4 := by
  have hd : dictionary = 134615040 := rfl
  have hds : DICTIONARY_SIZE = 8192 := rfl
  have hre : romEnd = 134582016 := rfl
  have hH : HERE_value = 134610956 := rfl
  have hL : LATEST_value = 134610952 := rfl
  have hS : STATE_value = 134610948 := rfl
  have hF : fnAddr .DOCOL = 134479872 := rfl
  obtain ⟨c1, c2, c3, c4, c5, c6, c7, c8, c9⟩ := createMem_spec m1 here len hlo (by omega) hl1 hl2
  obtain ⟨b1, b2⟩ := hidden_set len (by omega)
  have hbyte : read8 (colonMem m1 here len) (here + 4) = (len ^^^ HIDDEN_BIT) % 4294967296 % 256 := by
    unfold colonMem
    simp (disch := omega) only [read8_set32_ne, read8_set8_same]
  have hLATEST : read32 (colonMem m1 here len) LATEST_value = here := by
    unfold colonMem
    simp (disch := omega) only [read32_set32_ne, read32_set8_ne, c2]
  have hSTATE : read32 (colonMem m1 here len) STATE_value = 1 := by
    unfold colonMem
    simp (disch := omega) only [read32_set32_same, Nat.mod_eq_of_lt]
  have hHERE : read32 (colonMem m1 here len) HERE_value = (here + (len + 9)) / 4 * 4 + 4 := by
    unfold colonMem
    simp (disch := omega) only [read32_set32_ne, read32_set8_ne, read32_set32_same, Nat.mod_eq_of_lt]
  have hcfa : toCFA (colonMem m1 here len) here = (here + (len + 9)) / 4 * 4 := by
    rw [toCFA_eq _ _ len (by rw [hbyte]; exact b2) (by omega), Nat.add_assoc]
  have hcode : read32 (colonMem m1 here len) ((here + (len + 9)) / 4 * 4) = fnAddr .DOCOL := by
    unfold colonMem
    simp (disch := omega) only [read32_set32_ne, read32_set8_ne, read32_set32_same, Nat.mod_eq_of_lt]
  refine ⟨⟨hLATEST, ?_, ?_, hlo, ?_, ?_⟩, ?_, hSTATE, ?_⟩
  · rw [hbyte]; exact b1
  · rw [hSTATE]; decide
  · rw [hHERE]; omega
  · rw [hHERE]; omega
  · rw [hcfa]; exact hcode
  · rw [hcfa]; exact hHERE

theorem Defining_token (m m1 : Nat → Nat) (e : Nat) (input : List Nat) (li len li1 : Nat)
    (hdef : Defining m e) (hword : readWord input li m = some (len, li1, m1)) : Defining m1 e := by
  have hd : dictionary = 134615040 := rfl
  have hH : HERE_value = 134610956 := rfl
  have hL : LATEST_value = 134610952 := rfl
  have hS : STATE_value = 134610948 := rfl
  have hW : word = 134610976 := rfl
  obtain ⟨_, _, hframe⟩ := readWord_spec input li m len li1 m1 hword
  obtain ⟨d1, d2, d3, d4, d5, d6⟩ := hdef
  have eH : read32 m1 HERE_value = read32 m HERE_value :=
    read32_congr _ _ _ fun k hk => hframe _ (by omega)
  have eL : read32 m1 LATEST_value = read32 m LATEST_value :=
    read32_congr _ _ _ fun k hk => hframe _ (by omega)
  have eS : read32 m1 STATE_value = read32 m STATE_value :=
    read32_congr _ _ _ fun k hk => hframe _ (by omega)
  have eb : read8 m1 (e + 4) = read8 m (e + 4) := read8_congr _ _ _ (hframe _ (by omega))
  exact ⟨by rw [eL]; exact d1, by rw [eb]; exact d2, by rw [eS]; exact d3, d4, by rw [eH]; exact d5,
    by rw [eH]; exact d6⟩

theorem Defining_cell (m : Nat → Nat) (e v : Nat) (hdef : Defining m e)
    (hhi : read32 m HERE_value + 4 ≤ dictionary + DICTIONARY_SIZE) :
    Defining (set32 (set32 m (read32 m HERE_value) v) HERE_value (read32 m HERE_value + 4)) e := by
  have hd : dictionary = 134615040 := rfl
  have hds : DICTIONARY_SIZE = 8192 := rfl
  have hre : romEnd = 134582016 := rfl
  have hH : HERE_value = 134610956 := rfl
  have hL : LATEST_value = 134610952 := rfl
  have hS : STATE_value = 134610948 := rfl
  obtain ⟨d1, d2, d3, d4, d5, d6⟩ := hdef
  unfold Defining
  simp (disch := omega) only [read32_set32_ne, read8_set32_ne, read32_set32_same, Nat.mod_eq_of_lt]
  exact ⟨d1, d2, d3, d4, by omega, by omega⟩

theorem Defining_Compiled (m m1 : Nat → Nat) (e : Nat) (hc : Compiled m m1) :
    Defining m e → Defining m1 e := by
  induction hc with
  | start => exact id
  | token m1 m2 input li len li1 _ hword ih => exact fun h => Defining_token _ _ _ _ _ _ _ (ih h) hword
  | cell m1 v _ hhi ih => exact fun h => Defining_cell _ _ _ (ih h) hhi

theorem CREATE_header_witness :
    ∃ s1, steps 71 atCreate = some s1
      ∧ s1.sp = atCreate.sp ∧ s1.rsp = atCreate.rsp ∧ s1.ip = (atCreate.ip + 4) % 4294967296
      ∧ read32 s1.mem (read32 atCreate.mem HERE_value) = read32 atCreate.mem LATEST_value
      ∧ read32 s1.mem LATEST_value = read32 atCreate.mem HERE_value
      ∧ read8 s1.mem (read32 atCreate.mem HERE_value + 4) = 6
      ∧ readBytes s1.mem (read32 atCreate.mem HERE_value + 5) 6
          = readBytes (wordMem (strBytes "SQUARE ") 0 initMem) word 6
      ∧ read8 s1.mem (read32 atCreate.mem HERE_value + 5 + 6) = 0
      ∧ (∀ a, read32 atCreate.mem HERE_value + 5 + 6 < a →
          a < read32 atCreate.mem HERE_value + (6 + 6 + 3) / 4 * 4 → read8 s1.mem a = 0)
      ∧ read32 s1.mem HERE_value = read32 atCreate.mem HERE_value + (6 + 6 + 3) / 4 * 4
      ∧ read32 s1.mem HERE_value % 4 = 0
      ∧ toCFA s1.mem (read32 s1.mem LATEST_value) = read32 s1.mem HERE_value :=
  CREATE_header atCreate 6 6 (wordMem (strBytes "SQUARE ") 0 initMem)
    (by decide!) (readWord_eq _ _ _ _ _ (by decide!)) (by decide!) (by decide!) (by decide!)

/-- C7 fails on the empty string when the byte at its address is a sign:
`fn_NUMBERIN` tests `*addr` before it looks at `len`.  After `WORD` has read
the token `-` into its buffer, `NUMBER` executed on the empty string at the
buffer (the stack holds the length 0 over the address) returns, 6 rounds of
`NEXT()` after the call, the unparsed length `0xFFFFFFFF` over the value 0,
where the claim has the unparsed length 0. -/
theorem NUMBER_empty_string :
    read8 (wordMem (strBytes "- ") 0 initMem) word = 45
      ∧ (andThen (callFn { atInterpret (wordMem (strBytes "- ") 0 initMem) [0, word, 7] [] with
            w := XT .NUMBER }) 6).map (fun s => (s.sp, s.ip))
        = some ([4294967295, 0, 7], XT .QUIT + 12) := by
  decide!

theorem squareDefined_facts :
    steps 292 (boot squareInput) = some squareDefined
    ∧ read32 squareDefined.mem squareDefined.ip = XT .INTERPRET
    ∧ (readWord squareDefined.input squareDefined.lineIndex squareDefined.mem).map (fun r => (r.1, r.2.1))
        = some (6, 23)
    ∧ findLoop (wordMem squareDefined.input squareDefined.lineIndex squareDefined.mem) word 6 4294967296
        (read32 (wordMem squareDefined.input squareDefined.lineIndex squareDefined.mem) LATEST_value)
        = some dictionary
    ∧ read32 (wordMem squareDefined.input squareDefined.lineIndex squareDefined.mem) STATE_value = 0
    ∧ toCFA (wordMem squareDefined.input squareDefined.lineIndex squareDefined.mem) dictionary
        = dictionary + 12
    ∧ read32 (wordMem squareDefined.input squareDefined.lineIndex squareDefined.mem) (dictionary + 12)
        = fnAddr .DOCOL
    ∧ read32 (wordMem squareDefined.input squareDefined.lineIndex squareDefined.mem) (dictionary + 16)
        = XT .DUP
    ∧ read32 (wordMem squareDefined.input squareDefined.lineIndex squareDefined.mem) (dictionary + 20)
        = XT .MUL
    ∧ read32 (wordMem squareDefined.input squareDefined.lineIndex squareDefined.mem) (dictionary + 24)
        = XT .EXIT
    ∧ squareDefined.ip = XT .QUIT + 12 ∧ squareDefined.rsp = [] ∧ squareDefined.sp = []
    ∧ squareDefined.output = [] := by
  have h : (steps 292 (boot squareInput)).isSome = true
      ∧ read32 squareDefined.mem squareDefined.ip = XT .INTERPRET
      ∧ (readWord squareDefined.input squareDefined.lineIndex squareDefined.mem).map (fun r => (r.1, r.2.1))
          = some (6, 23)
      ∧ findLoop (wordMem squareDefined.input squareDefined.lineIndex squareDefined.mem) word 6 4294967296
          (read32 (wordMem squareDefined.input squareDefined.lineIndex squareDefined.mem) LATEST_value)
          = some dictionary
      ∧ read32 (wordMem squareDefined.input squareDefined.lineIndex squareDefined.mem) STATE_value = 0
      ∧ toCFA (wordMem squareDefined.input squareDefined.lineIndex squareDefined.mem) dictionary
          = dictionary + 12
      ∧ read32 (wordMem squareDefined.input squareDefined.lineIndex squareDefined.mem) (dictionary + 12)
          = fnAddr .DOCOL
      ∧ read32 (wordMem squareDefined.input squareDefined.lineIndex squareDefined.mem) (dictionary + 16)
          = XT .DUP
      ∧ read32 (wordMem squareDefined.input squareDefined.lineIndex squareDefined.mem) (dictionary + 20)
          = XT .MUL
      ∧ read32 (wordMem squareDefined.input squareDefined.lineIndex squareDefined.mem) (dictionary + 24)
          = XT .EXIT
      ∧ squareDefined.ip = XT .QUIT + 12 ∧ squareDefined.rsp = [] ∧ squareDefined.sp = []
      ∧ squareDefined.output = [] := by
    decide!
  refine ⟨?_, h.2⟩
  have h1 := h.1
  unfold squareDefined
  cases hs : steps 292 (boot squareInput) with
  | none => rw [hs] at h1; exact absurd h1 (by decide)
  | some s => rfl

theorem square_run (n : Nat) (rest : List Nat) :
    steps 35 { squareDefined with sp := n :: rest }
      = some { squareDefined with
          mem := wordMem squareDefined.input squareDefined.lineIndex squareDefined.mem,
          sp := (n * n) % 4294967296 :: rest, ip := XT .QUIT + 16, w := XT .EXIT, lineIndex := 23 } := by
  obtain ⟨_, f1, f2, f3, f4, f5, f6, f7, f8, f9, f10, f11, _, f13⟩ := squareDefined_facts
  have hword := readWord_eq _ _ _ _ _ f2
  have h31 := interpret_found0 squareDefined.mem (n :: rest) squareDefined.rsp squareDefined.ip
    squareDefined.w squareDefined.input squareDefined.lineIndex squareDefined.output 6 23
    (wordMem squareDefined.input squareDefined.lineIndex squareDefined.mem) dictionary f1 hword f3
    (by decide) f4
  rw [steps_split 31 4]
  show andThen (steps 31 ⟨squareDefined.mem, n :: rest, squareDefined.rsp, squareDefined.ip,
    squareDefined.w, squareDefined.input, squareDefined.lineIndex, squareDefined.output⟩) 4 = _
  rw [h31, f5, f10, f11]
  have hd : dictionary = 134615040 := rfl
  simp (disch := omega) only [steps_succ, steps_zero, andThen_some, andThen_none, NEXT, callFn, read32_XT, read32_XT_add, XT_mod, XT_add_mod, cells_native, cells_value, cells_colon, cells_eqs, List.getD_cons_succ, List.getD_cons_zero, decodeFn_fnAddr, Option.some_bind, Option.map_some', callCode_eqs, pop, push, rpop, rpush, unaryOp, binaryOp, Nat.add_assoc, Nat.reduceAdd, Nat.reduceMod, Nat.reduceDiv, Nat.reduceLT, Nat.reduceMul, if_true, if_false, ite_true, ite_false, Nat.reduceSub, Nat.reduceXor, fn_DOCOL, fn_EXIT, fn_BRANCH, fn_ZBRANCH, fn_LIT, fn_LBRAC, fn_RBRAC, fn_CONST, fn_VAR, fn_FIND, fn_DROP, fn_SWAP, fn_DUP, fn_OVER, fn_ROT, fn_NROT, fn_DDROP, fn_DDUP, fn_INCR, fn_CELLPLUS, fn_ADD, fn_SUB, fn_MUL, fn_AND, fn_XOR, fn_STORE, fn_FETCH, fn_PLUSSTORE, fn_CSTORE, fn_CFETCH, fn_CMOVE, fn_FILL, fn_EMIT, fn_TELL, fn_DOT, fn_WORD, fn_INIT, fn_RSPSTORE, charOut, Nat.mod_eq_of_lt, f6, f7, f8, f9, f10, f11]

/-- C10: booted on `: SQUARE DUP * ; 7 SQUARE . `, after 385 rounds of
`NEXT()` the output is exactly `49` and the parameter stack is empty (the
next round calls `INTERPRET` on the exhausted input).  More generally, in
the state after the definition (`squareDefined`, reached from start-up),
with any cell `n` on top of the parameter stack, interpreting the token
`SQUARE` takes 35 rounds and replaces `n` by `n * n` modulo `2^32`. -/
theorem SQUARE_example :
    (steps 385 (boot (strBytes ": SQUARE DUP * ; 7 SQUARE . "))).map (fun s => (s.output, s.sp))
        = some (strBytes "49", [])
      ∧ steps 292 (boot squareInput) = some squareDefined
      ∧ ∀ n rest, (steps 35 { squareDefined with sp := n :: rest }).map (fun s => s.sp)
          = some ((n * n) % 4294967296 :: rest) :=
  ⟨by decide!, squareDefined_facts.1, fun n rest => by rw [square_run n rest]; rfl⟩

theorem add_toInt (a c : Nat) : ofInt ((a : Int) + toInt c) = (a + c) % 4294967296 := by
  unfold ofInt toInt
  split <;> omega

/-- C11: `fn_DOCOL` pushes `ip` on the return stack and sets `ip` to
`w + 4`, leaving the rest of the state (the parameter stack with it) as it
was; `fn_EXIT` pops the top of the return stack into `ip`; `fn_DOCOL`
followed at once by `fn_EXIT` gives back the state before `fn_DOCOL`.  The
same through `NEXT()`: when the cell at `ip` holds the execution token of a
colon word whose body is `EXIT` alone, two rounds change only `ip`, which
moves on by a cell, and `w`. -/
theorem DOCOL_EXIT (s : Machine) :
    fn_DOCOL s = some { s with rsp := s.ip :: s.rsp, ip := (s.w + 4) % 4294967296 }
      ∧ (∀ v rest, s.rsp = v :: rest → fn_EXIT s = some { s with rsp := rest, ip := v })
      ∧ (fn_DOCOL s).bind fn_EXIT = some s
      ∧ (∀ xt, read32 s.mem s.ip = xt → xt + 4 < 4294967296 → read32 s.mem xt = fnAddr .DOCOL →
          read32 s.mem (xt + 4) = XT .EXIT →
          steps 2 s = some { s with ip := (s.ip + 4) % 4294967296, w := XT .EXIT }) := by
  obtain ⟨m, sp, rsp, ip, w, inp, li, out⟩ := s
  refine ⟨rfl, ?_, rfl, ?_⟩
  · intro v rest h
    simp only at h
    subst h
    rfl
  · intro xt h1 h2 h3 h4
    simp only at h1 h3 h4 ⊢
    simp (disch := omega) only [steps_succ, steps_zero, andThen_some, andThen_none, NEXT, callFn, read32_XT, read32_XT_add, XT_mod, XT_add_mod, cells_native, cells_value, cells_colon, cells_eqs, List.getD_cons_succ, List.getD_cons_zero, decodeFn_fnAddr, Option.some_bind, Option.map_some', callCode_eqs, pop, push, rpop, rpush, unaryOp, binaryOp, Nat.add_assoc, Nat.reduceAdd, Nat.reduceMod, Nat.reduceDiv, Nat.reduceLT, Nat.reduceMul, if_true, if_false, ite_true, ite_false, Nat.reduceSub, Nat.reduceXor, fn_DOCOL, fn_EXIT, fn_BRANCH, fn_ZBRANCH, fn_LIT, fn_LBRAC, fn_RBRAC, fn_CONST, fn_VAR, fn_FIND, fn_DROP, fn_SWAP, fn_DUP, fn_OVER, fn_ROT, fn_NROT, fn_DDROP, fn_DDUP, fn_INCR, fn_CELLPLUS, fn_ADD, fn_SUB, fn_MUL, fn_AND, fn_XOR, fn_STORE, fn_FETCH, fn_PLUSSTORE, fn_CSTORE, fn_CFETCH, fn_CMOVE, fn_FILL, fn_EMIT, fn_TELL, fn_DOT, fn_WORD, fn_INIT, fn_RSPSTORE, charOut, h1, h3, h4, Nat.mod_eq_of_lt]

/-- C12: with `ip` at the offset cell, whose content read as a signed
number is `k`, `fn_BRANCH` sets `ip` to `ip + k` (in 32-bit arithmetic) and
changes nothing else; `fn_ZBRANCH` pops the top of the parameter stack in
every case and sets `ip` to `ip + k` if the popped value is 0 and to
`ip + 4` otherwise. -/
theorem BRANCH_ZBRANCH (s : Machine) :
    fn_BRANCH s = some { s with ip := ofInt ((s.ip : Int) + toInt (read32 s.mem s.ip)) }
      ∧ (∀ v rest, s.sp = v :: rest →
          fn_ZBRANCH s = some { s with
            sp := rest,
            ip := if v = 0 then ofInt ((s.ip : Int) + toInt (read32 s.mem s.ip))
                  else (s.ip + 4) % 4294967296 }) := by
  obtain ⟨m, sp, rsp, ip, w, inp, li, out⟩ := s
  refine ⟨?_, ?_⟩
  · simp only [fn_BRANCH, add_toInt]
  · intro v rest h
    simp only at h
    subst h
    simp only [fn_ZBRANCH, pop, Option.map_some', add_toInt]
    split <;> rfl

/-- C14: `fn_DODOES` pushes `ip` on the return stack, pushes `w + 8` on the
parameter stack and sets `ip` to the content of the cell at `w + 4`; an
`fn_EXIT` run later on that return stack sets `ip` back to its value before
`fn_DODOES` and the return stack back to what it was. -/
theorem DODOES_EXIT (s : Machine) :
    fn_DODOES s = some { s with rsp := s.ip :: s.rsp, sp := (s.w + 8) % 4294967296 :: s.sp,
                                ip := read32 s.mem (s.w + 4) }
      ∧ (∀ s1, fn_DODOES s = some s1 → ∀ s2, s2.rsp = s1.rsp →
          fn_EXIT s2 = some { s2 with rsp := s.rsp, ip := s.ip }) := by
  obtain ⟨m, sp, rsp, ip, w, inp, li, out⟩ := s
  refine ⟨rfl, ?_⟩
  intro s1 h1 s2 h2
  simp only [fn_DODOES, push, rpush, Option.some.injEq] at h1
  subst h1
  obtain ⟨m2, sp2, rsp2, ip2, w2, inp2, li2, out2⟩ := s2
  simp only at h2
  subst h2
  rfl

/-- The cells of further entries made by `DEF_COLON`. -/
theorem cells_more :
    entryCells .TODFA = [fnAddr .DOCOL,  XT .TOCFA, XT .DUP, XT .ZBRANCH, cells (2), XT .CELLPLUS, XT .EXIT]
    ∧ entryCells .IMMEDIATE = [fnAddr .DOCOL,  XT .LATEST, XT .FETCH, XT .CELLPLUS, XT .DUP, XT .CFETCH, XT .F_IMMED, XT .XOR, XT .SWAP, XT .CSTORE, XT .EXIT]
    ∧ entryCells .BSCOMMENT = [fnAddr .DOCOL,  XT .KEY, XT .DUP, XT .LIT, 13, XT .NE, XT .ZBRANCH, cells (7), XT .LIT, 10, XT .NE, XT .ZBRANCH, cells (4), XT .BRANCH, cells (-13), XT .DROP, XT .EXIT] := by
  refine ⟨?_, ?_, ?_⟩ <;> rfl

theorem tocfa_zero (m : Nat → Nat) (sp rsp : List Nat) (ip : Nat) (inp : List Nat) (li : Nat)
    (out : List Nat) :
    andThen (callFn ⟨m, 0 :: sp, rsp, ip, XT .TOCFA, inp, li, out⟩) 3
      = some ⟨m, 0 :: sp, rsp, ip, XT .EXIT, inp, li, out⟩ := by
  simp (disch := omega) only [steps_succ, steps_zero, andThen_some, andThen_none, NEXT, callFn, read32_XT, read32_XT_add, XT_mod, XT_add_mod, cells_native, cells_value, cells_colon, cells_eqs, List.getD_cons_succ, List.getD_cons_zero, decodeFn_fnAddr, Option.some_bind, Option.map_some', callCode_eqs, pop, push, rpop, rpush, unaryOp, binaryOp, Nat.add_assoc, Nat.reduceAdd, Nat.reduceMod, Nat.reduceDiv, Nat.reduceLT, Nat.reduceMul, if_true, if_false, ite_true, ite_false, Nat.reduceSub, Nat.reduceXor, fn_DOCOL, fn_EXIT, fn_BRANCH, fn_ZBRANCH, fn_LIT, fn_LBRAC, fn_RBRAC, fn_CONST, fn_VAR, fn_FIND, fn_DROP, fn_SWAP, fn_DUP, fn_OVER, fn_ROT, fn_NROT, fn_DDROP, fn_DDUP, fn_INCR, fn_CELLPLUS, fn_ADD, fn_SUB, fn_MUL, fn_AND, fn_XOR, fn_STORE, fn_FETCH, fn_PLUSSTORE, fn_CSTORE, fn_CFETCH, fn_CMOVE, fn_FILL, fn_EMIT, fn_TELL, fn_DOT, fn_WORD, fn_INIT, fn_RSPSTORE, charOut, cells_more]

theorem tocfa_run (m : Nat → Nat) (sp rsp : List Nat) (ip : Nat) (inp : List Nat) (li : Nat)
    (out : List Nat) (lfa : Nat) (h : lfa ≠ 0) :
    andThen (callFn ⟨m, lfa :: sp, rsp, ip, XT .TOCFA, inp, li, out⟩) 15
      = some ⟨m, toCFA m lfa :: sp, rsp, ip, XT .EXIT, inp, li, out⟩ := by
  simp (disch := omega) only [steps_succ, steps_zero, andThen_some, andThen_none, NEXT, callFn, read32_XT, read32_XT_add, XT_mod, XT_add_mod, cells_native, cells_value, cells_colon, cells_eqs, List.getD_cons_succ, List.getD_cons_zero, decodeFn_fnAddr, Option.some_bind, Option.map_some', callCode_eqs, pop, push, rpop, rpush, unaryOp, binaryOp, Nat.add_assoc, Nat.reduceAdd, Nat.reduceMod, Nat.reduceDiv, Nat.reduceLT, Nat.reduceMul, if_true, if_false, ite_true, ite_false, Nat.reduceSub, Nat.reduceXor, fn_DOCOL, fn_EXIT, fn_BRANCH, fn_ZBRANCH, fn_LIT, fn_LBRAC, fn_RBRAC, fn_CONST, fn_VAR, fn_FIND, fn_DROP, fn_SWAP, fn_DUP, fn_OVER, fn_ROT, fn_NROT, fn_DDROP, fn_DDUP, fn_INCR, fn_CELLPLUS, fn_ADD, fn_SUB, fn_MUL, fn_AND, fn_XOR, fn_STORE, fn_FETCH, fn_PLUSSTORE, fn_CSTORE, fn_CFETCH, fn_CMOVE, fn_FILL, fn_EMIT, fn_TELL, fn_DOT, fn_WORD, fn_INIT, fn_RSPSTORE, charOut, cells_more, h, toCFA_raw]

theorem todfa_zero (m : Nat → Nat) (sp rsp : List Nat) (ip : Nat) (inp : List Nat) (li : Nat)
    (out : List Nat) :
    andThen (callFn ⟨m, 0 :: sp, rsp, ip, XT .TODFA, inp, li, out⟩) 7
      = some ⟨m, 0 :: sp, rsp, ip, XT .EXIT, inp, li, out⟩ := by
  simp (disch := omega) only [steps_succ, steps_zero, andThen_some, andThen_none, NEXT, callFn, read32_XT, read32_XT_add, XT_mod, XT_add_mod, cells_native, cells_value, cells_colon, cells_eqs, List.getD_cons_succ, List.getD_cons_zero, decodeFn_fnAddr, Option.some_bind, Option.map_some', callCode_eqs, pop, push, rpop, rpush, unaryOp, binaryOp, Nat.add_assoc, Nat.reduceAdd, Nat.reduceMod, Nat.reduceDiv, Nat.reduceLT, Nat.reduceMul, if_true, if_false, ite_true, ite_false, Nat.reduceSub, Nat.reduceXor, fn_DOCOL, fn_EXIT, fn_BRANCH, fn_ZBRANCH, fn_LIT, fn_LBRAC, fn_RBRAC, fn_CONST, fn_VAR, fn_FIND, fn_DROP, fn_SWAP, fn_DUP, fn_OVER, fn_ROT, fn_NROT, fn_DDROP, fn_DDUP, fn_INCR, fn_CELLPLUS, fn_ADD, fn_SUB, fn_MUL, fn_AND, fn_XOR, fn_STORE, fn_FETCH, fn_PLUSSTORE, fn_CSTORE, fn_CFETCH, fn_CMOVE, fn_FILL, fn_EMIT, fn_TELL, fn_DOT, fn_WORD, fn_INIT, fn_RSPSTORE, charOut, cells_more]

theorem todfa_run (m : Nat → Nat) (sp rsp : List Nat) (ip : Nat) (inp : List Nat) (li : Nat)
    (out : List Nat) (lfa : Nat) (h : lfa ≠ 0) (hc : toCFA m lfa ≠ 0) :
    andThen (callFn ⟨m, lfa :: sp, rsp, ip, XT .TODFA, inp, li, out⟩) 20
      = some ⟨m, (toCFA m lfa + 4) % 4294967296 :: sp, rsp, ip, XT .EXIT, inp, li, out⟩ := by
  simp (disch := omega) only [steps_succ, steps_zero, andThen_some, andThen_none, NEXT, callFn, read32_XT, read32_XT_add, XT_mod, XT_add_mod, cells_native, cells_value, cells_colon, cells_eqs, List.getD_cons_succ, List.getD_cons_zero, decodeFn_fnAddr, Option.some_bind, Option.map_some', callCode_eqs, pop, push, rpop, rpush, unaryOp, binaryOp, Nat.add_assoc, Nat.reduceAdd, Nat.reduceMod, Nat.reduceDiv, Nat.reduceLT, Nat.reduceMul, if_true, if_false, ite_true, ite_false, Nat.reduceSub, Nat.reduceXor, fn_DOCOL, fn_EXIT, fn_BRANCH, fn_ZBRANCH, fn_LIT, fn_LBRAC, fn_RBRAC, fn_CONST, fn_VAR, fn_FIND, fn_DROP, fn_SWAP, fn_DUP, fn_OVER, fn_ROT, fn_NROT, fn_DDROP, fn_DDUP, fn_INCR, fn_CELLPLUS, fn_ADD, fn_SUB, fn_MUL, fn_AND, fn_XOR, fn_STORE, fn_FETCH, fn_PLUSSTORE, fn_CSTORE, fn_CFETCH, fn_CMOVE, fn_FILL, fn_EMIT, fn_TELL, fn_DOT, fn_WORD, fn_INIT, fn_RSPSTORE, charOut, cells_more, h, toCFA_raw, hc]

theorem toCFA_aligned (m : Nat → Nat) (lfa : Nat) : toCFA m lfa % 4 = 0 := by
  unfold toCFA
  simp only
  rw [and_CELLMASK _ (Nat.mod_lt _ (by decide))]
  omega

theorem comma_run (m : Nat → Nat) (sp rsp : List Nat) (ip : Nat) (inp : List Nat) (li : Nat)
    (out : List Nat) (v : Nat) (hlo : dictionary ≤ read32 m HERE_value)
    (hhi : read32 m HERE_value + 4 ≤ dictionary + DICTIONARY_SIZE) :
    andThen (callFn ⟨m, v :: sp, rsp, ip, XT .COMMA, inp, li, out⟩) 9
      = some ⟨set32 (set32 m (read32 m HERE_value) v) HERE_value (read32 m HERE_value + 4),
          sp, rsp, ip, XT .EXIT, inp, li, out⟩ := by
  have hd : dictionary = 134615040 := rfl
  have hds : DICTIONARY_SIZE = 8192 := rfl
  have hre : romEnd = 134582016 := rfl
  have hH : HERE_value = 134610956 := rfl
  simp (disch := omega) only [steps_succ, steps_zero, andThen_some, andThen_none, NEXT, callFn, read32_XT, read32_XT_add, XT_mod, XT_add_mod, cells_native, cells_value, cells_colon, cells_eqs, List.getD_cons_succ, List.getD_cons_zero, decodeFn_fnAddr, Option.some_bind, Option.map_some', callCode_eqs, pop, push, rpop, rpush, unaryOp, binaryOp, Nat.add_assoc, Nat.reduceAdd, Nat.reduceMod, Nat.reduceDiv, Nat.reduceLT, Nat.reduceMul, if_true, if_false, ite_true, ite_false, Nat.reduceSub, Nat.reduceXor, fn_DOCOL, fn_EXIT, fn_BRANCH, fn_ZBRANCH, fn_LIT, fn_LBRAC, fn_RBRAC, fn_CONST, fn_VAR, fn_FIND, fn_DROP, fn_SWAP, fn_DUP, fn_OVER, fn_ROT, fn_NROT, fn_DDROP, fn_DDUP, fn_INCR, fn_CELLPLUS, fn_ADD, fn_SUB, fn_MUL, fn_AND, fn_XOR, fn_FETCH, fn_CFETCH, fn_EMIT, fn_TELL, fn_DOT, fn_WORD, fn_INIT, fn_RSPSTORE, charOut, fn_STORE_ram, fn_PLUSSTORE_ram, fn_CSTORE_ram, fn_CMOVE_ram, fn_FILL_ram, read32_set32_same, read32_set32_ne, read32_set8_ne, read32_setBytes_ne, read8_set8_same, read8_set8_ne, read8_set32_ne, read8_setBytes_ne, Nat.mod_eq_of_lt, and_CELLMASK, sub_wrap, set32_set32_same, readBytes_set8_ne, readBytes_set32_ne, readBytes_setBytes_ne, cells_more]

theorem ccomma_run (m : Nat → Nat) (sp rsp : List Nat) (ip : Nat) (inp : List Nat) (li : Nat)
    (out : List Nat) (v : Nat) (hlo : dictionary ≤ read32 m HERE_value)
    (hhi : read32 m HERE_value + 1 ≤ dictionary + DICTIONARY_SIZE) :
    andThen (callFn ⟨m, v :: sp, rsp, ip, XT .CCOMMA, inp, li, out⟩) 9
      = some ⟨set32 (set8 m (read32 m HERE_value) v) HERE_value (read32 m HERE_value + 1),
          sp, rsp, ip, XT .EXIT, inp, li, out⟩ := by
  have hd : dictionary = 134615040 := rfl
  have hds : DICTIONARY_SIZE = 8192 := rfl
  have hre : romEnd = 134582016 := rfl
  have hH : HERE_value = 134610956 := rfl
  simp (disch := omega) only [steps_succ, steps_zero, andThen_some, andThen_none, NEXT, callFn, read32_XT, read32_XT_add, XT_mod, XT_add_mod, cells_native, cells_value, cells_colon, cells_eqs, List.getD_cons_succ, List.getD_cons_zero, decodeFn_fnAddr, Option.some_bind, Option.map_some', callCode_eqs, pop, push, rpop, rpush, unaryOp, binaryOp, Nat.add_assoc, Nat.reduceAdd, Nat.reduceMod, Nat.reduceDiv, Nat.reduceLT, Nat.reduceMul, if_true, if_false, ite_true, ite_false, Nat.reduceSub, Nat.reduceXor, fn_DOCOL, fn_EXIT, fn_BRANCH, fn_ZBRANCH, fn_LIT, fn_LBRAC, fn_RBRAC, fn_CONST, fn_VAR, fn_FIND, fn_DROP, fn_SWAP, fn_DUP, fn_OVER, fn_ROT, fn_NROT, fn_DDROP, fn_DDUP, fn_INCR, fn_CELLPLUS, fn_ADD, fn_SUB, fn_MUL, fn_AND, fn_XOR, fn_FETCH, fn_CFETCH, fn_EMIT, fn_TELL, fn_DOT, fn_WORD, fn_INIT, fn_RSPSTORE, charOut, fn_STORE_ram, fn_PLUSSTORE_ram, fn_CSTORE_ram, fn_CMOVE_ram, fn_FILL_ram, read32_set32_same, read32_set32_ne, read32_set8_ne, read32_setBytes_ne, read8_set8_same, read8_set8_ne, read8_set32_ne, read8_setBytes_ne, Nat.mod_eq_of_lt, and_CELLMASK, sub_wrap, set32_set32_same, readBytes_set8_ne, readBytes_set32_ne, readBytes_setBytes_ne, cells_more]

theorem allot_run (m : Nat → Nat) (sp rsp : List Nat) (ip : Nat) (inp : List Nat) (li : Nat)
    (out : List Nat) (n : Nat) :
    andThen (callFn ⟨m, n :: sp, rsp, ip, XT .ALLOT, inp, li, out⟩) 3
      = some ⟨set32 m HERE_value ((read32 m HERE_value + n) % 4294967296),
          sp, rsp, ip, XT .EXIT, inp, li, out⟩ := by
  have hre : romEnd = 134582016 := rfl
  have hH : HERE_value = 134610956 := rfl
  simp (disch := omega) only [steps_succ, steps_zero, andThen_some, andThen_none, NEXT, callFn, read32_XT, read32_XT_add, XT_mod, XT_add_mod, cells_native, cells_value, cells_colon, cells_eqs, List.getD_cons_succ, List.getD_cons_zero, decodeFn_fnAddr, Option.some_bind, Option.map_some', callCode_eqs, pop, push, rpop, rpush, unaryOp, binaryOp, Nat.add_assoc, Nat.reduceAdd, Nat.reduceMod, Nat.reduceDiv, Nat.reduceLT, Nat.reduceMul, if_true, if_false, ite_true, ite_false, Nat.reduceSub, Nat.reduceXor, fn_DOCOL, fn_EXIT, fn_BRANCH, fn_ZBRANCH, fn_LIT, fn_LBRAC, fn_RBRAC, fn_CONST, fn_VAR, fn_FIND, fn_DROP, fn_SWAP, fn_DUP, fn_OVER, fn_ROT, fn_NROT, fn_DDROP, fn_DDUP, fn_INCR, fn_CELLPLUS, fn_ADD, fn_SUB, fn_MUL, fn_AND, fn_XOR, fn_FETCH, fn_CFETCH, fn_EMIT, fn_TELL, fn_DOT, fn_WORD, fn_INIT, fn_RSPSTORE, charOut, fn_STORE_ram, fn_PLUSSTORE_ram, fn_CSTORE_ram, fn_CMOVE_ram, fn_FILL_ram, read32_set32_same, read32_set32_ne, read32_set8_ne, read32_setBytes_ne, read8_set8_same, read8_set8_ne, read8_set32_ne, read8_setBytes_ne, Nat.mod_eq_of_lt, and_CELLMASK, sub_wrap, set32_set32_same, readBytes_set8_ne, readBytes_set32_ne, readBytes_setBytes_ne, cells_more]

theorem immediate_run (m : Nat → Nat) (sp rsp : List Nat) (ip : Nat) (inp : List Nat) (li : Nat)
    (out : List Nat) (hlo : dictionary ≤ read32 m LATEST_value)
    (hhi : read32 m LATEST_value + 4 < dictionary + DICTIONARY_SIZE) :
    andThen (callFn ⟨m, sp, rsp, ip, XT .IMMEDIATE, inp, li, out⟩) 10
      = some ⟨set8 m (read32 m LATEST_value + 4)
            ((read8 m (read32 m LATEST_value + 4) ^^^ IMMEDIATE_BIT) % 4294967296),
          sp, rsp, ip, XT .EXIT, inp, li, out⟩ := by
  have hd : dictionary = 134615040 := rfl
  have hds : DICTIONARY_SIZE = 8192 := rfl
  have hre : romEnd = 134582016 := rfl
  simp (disch := omega) only [steps_succ, steps_zero, andThen_some, andThen_none, NEXT, callFn, read32_XT, read32_XT_add, XT_mod, XT_add_mod, cells_native, cells_value, cells_colon, cells_eqs, List.getD_cons_succ, List.getD_cons_zero, decodeFn_fnAddr, Option.some_bind, Option.map_some', callCode_eqs, pop, push, rpop, rpush, unaryOp, binaryOp, Nat.add_assoc, Nat.reduceAdd, Nat.reduceMod, Nat.reduceDiv, Nat.reduceLT, Nat.reduceMul, if_true, if_false, ite_true, ite_false, Nat.reduceSub, Nat.reduceXor, fn_DOCOL, fn_EXIT, fn_BRANCH, fn_ZBRANCH, fn_LIT, fn_LBRAC, fn_RBRAC, fn_CONST, fn_VAR, fn_FIND, fn_DROP, fn_SWAP, fn_DUP, fn_OVER, fn_ROT, fn_NROT, fn_DDROP, fn_DDUP, fn_INCR, fn_CELLPLUS, fn_ADD, fn_SUB, fn_MUL, fn_AND, fn_XOR, fn_FETCH, fn_CFETCH, fn_EMIT, fn_TELL, fn_DOT, fn_WORD, fn_INIT, fn_RSPSTORE, charOut, fn_STORE_ram, fn_PLUSSTORE_ram, fn_CSTORE_ram, fn_CMOVE_ram, fn_FILL_ram, read32_set32_same, read32_set32_ne, read32_set8_ne, read32_setBytes_ne, read8_set8_same, read8_set8_ne, read8_set32_ne, read8_setBytes_ne, Nat.mod_eq_of_lt, and_CELLMASK, sub_wrap, set32_set32_same, readBytes_set8_ne, readBytes_set32_ne, readBytes_setBytes_ne, cells_more]

theorem hidden_run (m : Nat → Nat) (sp rsp : List Nat) (ip : Nat) (inp : List Nat) (li : Nat)
    (out : List Nat) (lfa : Nat) (hlo : dictionary ≤ lfa)
    (hhi : lfa + 4 < dictionary + DICTIONARY_SIZE) :
    andThen (callFn ⟨m, lfa :: sp, rsp, ip, XT .HIDDEN, inp, li, out⟩) 8
      = some ⟨set8 m (lfa + 4) ((read8 m (lfa + 4) ^^^ HIDDEN_BIT) % 4294967296),
          sp, rsp, ip, XT .EXIT, inp, li, out⟩ := by
  have hd : dictionary = 134615040 := rfl
  have hds : DICTIONARY_SIZE = 8192 := rfl
  have hre : romEnd = 134582016 := rfl
  simp (disch := omega) only [steps_succ, steps_zero, andThen_some, andThen_none, NEXT, callFn, read32_XT, read32_XT_add, XT_mod, XT_add_mod, cells_native, cells_value, cells_colon, cells_eqs, List.getD_cons_succ, List.getD_cons_zero, decodeFn_fnAddr, Option.some_bind, Option.map_some', callCode_eqs, pop, push, rpop, rpush, unaryOp, binaryOp, Nat.add_assoc, Nat.reduceAdd, Nat.reduceMod, Nat.reduceDiv, Nat.reduceLT, Nat.reduceMul, if_true, if_false, ite_true, ite_false, Nat.reduceSub, Nat.reduceXor, fn_DOCOL, fn_EXIT, fn_BRANCH, fn_ZBRANCH, fn_LIT, fn_LBRAC, fn_RBRAC, fn_CONST, fn_VAR, fn_FIND, fn_DROP, fn_SWAP, fn_DUP, fn_OVER, fn_ROT, fn_NROT, fn_DDROP, fn_DDUP, fn_INCR, fn_CELLPLUS, fn_ADD, fn_SUB, fn_MUL, fn_AND, fn_XOR, fn_FETCH, fn_CFETCH, fn_EMIT, fn_TELL, fn_DOT, fn_WORD, fn_INIT, fn_RSPSTORE, charOut, fn_STORE_ram, fn_PLUSSTORE_ram, fn_CSTORE_ram, fn_CMOVE_ram, fn_FILL_ram, read32_set32_same, read32_set32_ne, read32_set8_ne, read32_setBytes_ne, read8_set8_same, read8_set8_ne, read8_set32_ne, read8_setBytes_ne, Nat.mod_eq_of_lt, and_CELLMASK, sub_wrap, set32_set32_same, readBytes_set8_ne, readBytes_set32_ne, readBytes_setBytes_ne, cells_more]

theorem set8_apply_ne (m : Nat → Nat) (a v x : Nat) (h : x ≠ a) : set8 m a v x = m x := by
  simp only [set8, if_neg h]

theorem set32_apply_ne (m : Nat → Nat) (a v x : Nat) (h : x < a ∨ a + 4 ≤ x) : set32 m a v x = m x := by
  unfold set32
  rw [set8_apply_ne _ _ _ _ (by omega), set8_apply_ne _ _ _ _ (by omega),
    set8_apply_ne _ _ _ _ (by omega), set8_apply_ne _ _ _ _ (by omega)]

theorem flag_toggle : ∀ b, b < 256 →
    ((b ^^^ IMMEDIATE_BIT) % 4294967296 % 256 = b ^^^ IMMEDIATE_BIT
      ∧ (b ^^^ IMMEDIATE_BIT) &&& LENGTH_BITS = b &&& LENGTH_BITS
      ∧ (b ^^^ IMMEDIATE_BIT) &&& HIDDEN_BIT = b &&& HIDDEN_BIT
      ∧ (b ^^^ IMMEDIATE_BIT) &&& IMMEDIATE_BIT ≠ b &&& IMMEDIATE_BIT
      ∧ (b ^^^ IMMEDIATE_BIT) ^^^ IMMEDIATE_BIT = b ∧ b ^^^ IMMEDIATE_BIT < 256)
    ∧ ((b ^^^ HIDDEN_BIT) % 4294967296 % 256 = b ^^^ HIDDEN_BIT
      ∧ (b ^^^ HIDDEN_BIT) &&& LENGTH_BITS = b &&& LENGTH_BITS
      ∧ (b ^^^ HIDDEN_BIT) &&& IMMEDIATE_BIT = b &&& IMMEDIATE_BIT
      ∧ (b ^^^ HIDDEN_BIT) &&& HIDDEN_BIT ≠ b &&& HIDDEN_BIT
      ∧ (b ^^^ HIDDEN_BIT) ^^^ HIDDEN_BIT = b ∧ b ^^^ HIDDEN_BIT < 256) := by
  decide!

/-- C15: `>CFA` and `>DFA`, executed with `lfa` on top of the parameter
stack.  For `lfa = 0` both return 0 (3 and 7 more rounds of `NEXT()` after
the call).  For `lfa ≠ 0`, `>CFA` returns `toCFA`, which is always a
multiple of 4, and, the entry lying inside the address space, is
`(lfa + 4 + L + 2 + 3) AND NOT 3` with `L` the low six bits of the byte at
`lfa + 4`; `>DFA` then returns that value plus 4.  The other components of
the state are as before, but for `w`. -/
theorem TOCFA_TODFA (s : Machine) (lfa : Nat) (rest : List Nat) (hsp : s.sp = lfa :: rest) :
    (lfa = 0 →
      andThen (callFn { s with w := XT .TOCFA }) 3 = some { s with sp := 0 :: rest, w := XT .EXIT }
      ∧ andThen (callFn { s with w := XT .TODFA }) 7 = some { s with sp := 0 :: rest, w := XT .EXIT })
    ∧ (lfa ≠ 0 →
      andThen (callFn { s with w := XT .TOCFA }) 15
          = some { s with sp := toCFA s.mem lfa :: rest, w := XT .EXIT }
      ∧ toCFA s.mem lfa % 4 = 0)
    ∧ (lfa ≠ 0 → lfa + 80 < 4294967296 →
      toCFA s.mem lfa = (lfa + 4 + (read8 s.mem (lfa + 4) &&& LENGTH_BITS) + 2 + 3) &&& 4294967292
      ∧ toCFA s.mem lfa = (lfa + 4 + (read8 s.mem (lfa + 4) &&& LENGTH_BITS) + 2 + 3) / 4 * 4
      ∧ andThen (callFn { s with w := XT .TODFA }) 20
          = some { s with sp := (toCFA s.mem lfa + 4) :: rest, w := XT .EXIT }) := by
  obtain ⟨m, sp, rsp, ip, w, inp, li, out⟩ := s
  simp only at hsp ⊢
  subst hsp
  refine ⟨?_, ?_, ?_⟩
  · intro h0
    subst h0
    exact ⟨tocfa_zero m rest rsp ip inp li out, todfa_zero m rest rsp ip inp li out⟩
  · intro h0
    exact ⟨tocfa_run m rest rsp ip inp li out lfa h0, toCFA_aligned m lfa⟩
  · intro h0 hfit
    have h63 := and_LENGTH_lt (read8 m (lfa + 4))
    have he := toCFA_eq m lfa _ rfl hfit
    have he2 : toCFA m lfa = (lfa + 4 + (read8 m (lfa + 4) &&& LENGTH_BITS) + 2 + 3) / 4 * 4 := by
      rw [he]; congr 2; omega
    refine ⟨?_, he2, ?_⟩
    · rw [and_CELLMASK _ (by omega)]; exact he2
    · rw [todfa_run m rest rsp ip inp li out lfa h0 (by omega), Nat.mod_eq_of_lt (by omega)]

theorem TOCFA_TODFA_witness :
    (LINK .DUP = 0 →
      andThen (callFn { atInterpret initMem [LINK .DUP, 7] [] with w := XT .TOCFA }) 3
          = some { atInterpret initMem [LINK .DUP, 7] [] with sp := 0 :: [7], w := XT .EXIT }
      ∧ andThen (callFn { atInterpret initMem [LINK .DUP, 7] [] with w := XT .TODFA }) 7
          = some { atInterpret initMem [LINK .DUP, 7] [] with sp := 0 :: [7], w := XT .EXIT })
    ∧ (LINK .DUP ≠ 0 →
      andThen (callFn { atInterpret initMem [LINK .DUP, 7] [] with w := XT .TOCFA }) 15
          = some { atInterpret initMem [LINK .DUP, 7] [] with
              sp := toCFA (atInterpret initMem [LINK .DUP, 7] []).mem (LINK .DUP) :: [7], w := XT .EXIT }
      ∧ toCFA (atInterpret initMem [LINK .DUP, 7] []).mem (LINK .DUP) % 4 = 0)
    ∧ (LINK .DUP ≠ 0 → LINK .DUP + 80 < 4294967296 →
      toCFA (atInterpret initMem [LINK .DUP, 7] []).mem (LINK .DUP)
          = (LINK .DUP + 4 + (read8 (atInterpret initMem [LINK .DUP, 7] []).mem (LINK .DUP + 4)
              &&& LENGTH_BITS) + 2 + 3) &&& 4294967292
      ∧ toCFA (atInterpret initMem [LINK .DUP, 7] []).mem (LINK .DUP)
          = (LINK .DUP + 4 + (read8 (atInterpret initMem [LINK .DUP, 7] []).mem (LINK .DUP + 4)
              &&& LENGTH_BITS) + 2 + 3) / 4 * 4
      ∧ andThen (callFn { atInterpret initMem [LINK .DUP, 7] [] with w := XT .TODFA }) 20
          = some { atInterpret initMem [LINK .DUP, 7] [] with
              sp := (toCFA (atInterpret initMem [LINK .DUP, 7] []).mem (LINK .DUP) + 4) :: [7],
              w := XT .EXIT }) :=
  TOCFA_TODFA (atInterpret initMem [LINK .DUP, 7] []) (LINK .DUP) [7] rfl

/-- C16: `,`, `C,` and `ALLOT`, executed with `v` on top of the parameter
stack (`HERE` and the cell or byte at it lying in the dictionary area for
the first two).  `,` stores `v` in the cell at `HERE` and adds 4 to `HERE`;
`C,` stores the low byte of `v` in the byte at `HERE` and adds 1 to `HERE`;
`ALLOT` adds `v` to `HERE`.  Each pops `v` and nothing else, and leaves
every byte of memory outside `HERE` and the cell or byte written as it
was. -/
theorem COMMA_CCOMMA_ALLOT (s : Machine) (v : Nat) (rest : List Nat) (hsp : s.sp = v :: rest) :
    (dictionary ≤ read32 s.mem HERE_value →
      read32 s.mem HERE_value + 4 ≤ dictionary + DICTIONARY_SIZE →
      ∃ m1, andThen (callFn { s with w := XT .COMMA }) 9
          = some { s with mem := m1, sp := rest, w := XT .EXIT }
        ∧ read32 m1 (read32 s.mem HERE_value) = v % 4294967296
        ∧ read32 m1 HERE_value = read32 s.mem HERE_value + 4
        ∧ ∀ a, (a < read32 s.mem HERE_value ∨ read32 s.mem HERE_value + 4 ≤ a) →
            (a < HERE_value ∨ HERE_value + 4 ≤ a) → m1 a = s.mem a)
    ∧ (dictionary ≤ read32 s.mem HERE_value →
      read32 s.mem HERE_value + 1 ≤ dictionary + DICTIONARY_SIZE →
      ∃ m1, andThen (callFn { s with w := XT .CCOMMA }) 9
          = some { s with mem := m1, sp := rest, w := XT .EXIT }
        ∧ read8 m1 (read32 s.mem HERE_value) = v % 256
        ∧ read32 m1 HERE_value = read32 s.mem HERE_value + 1
        ∧ ∀ a, a ≠ read32 s.mem HERE_value → (a < HERE_value ∨ HERE_value + 4 ≤ a) → m1 a = s.mem a)
    ∧ (∃ m1, andThen (callFn { s with w := XT .ALLOT }) 3
          = some { s with mem := m1, sp := rest, w := XT .EXIT }
        ∧ read32 m1 HERE_value = (read32 s.mem HERE_value + v) % 4294967296
        ∧ ∀ a, (a < HERE_value ∨ HERE_value + 4 ≤ a) → m1 a = s.mem a) := by
  obtain ⟨m, sp, rsp, ip, w, inp, li, out⟩ := s
  simp only at hsp ⊢
  subst hsp
  have hd : dictionary = 134615040 := rfl
  have hds : DICTIONARY_SIZE = 8192 := rfl
  have hre : romEnd = 134582016 := rfl
  have hH : HERE_value = 134610956 := rfl
  refine ⟨?_, ?_, ?_⟩
  · intro hlo hhi
    refine ⟨_, comma_run m rest rsp ip inp li out v hlo hhi, ?_, ?_, ?_⟩
    · simp (disch := omega) only [read32_set32_ne, read32_set32_same]
    · simp (disch := omega) only [read32_set32_same, Nat.mod_eq_of_lt]
    · intro a h1 h2
      rw [set32_apply_ne _ _ _ _ h2, set32_apply_ne _ _ _ _ h1]
  · intro hlo hhi
    refine ⟨_, ccomma_run m rest rsp ip inp li out v hlo hhi, ?_, ?_, ?_⟩
    · simp (disch := omega) only [read8_set32_ne, read8_set8_same]
    · simp (disch := omega) only [read32_set32_same, Nat.mod_eq_of_lt]
    · intro a h1 h2
      rw [set32_apply_ne _ _ _ _ h2, set8_apply_ne _ _ _ _ h1]
  · refine ⟨_, allot_run m rest rsp ip inp li out v, ?_, ?_⟩
    · simp (disch := omega) only [read32_set32_same, Nat.mod_mod]
    · intro a h2
      rw [set32_apply_ne _ _ _ _ h2]

theorem COMMA_CCOMMA_ALLOT_witness :
    (dictionary ≤ read32 (atInterpret initMem [65, 7] []).mem HERE_value →
      read32 (atInterpret initMem [65, 7] []).mem HERE_value + 4 ≤ dictionary + DICTIONARY_SIZE →
      ∃ m1, andThen (callFn { atInterpret initMem [65, 7] [] with w := XT .COMMA }) 9
          = some { atInterpret initMem [65, 7] [] with mem := m1, sp := [7], w := XT .EXIT }
        ∧ read32 m1 (read32 (atInterpret initMem [65, 7] []).mem HERE_value) = 65 % 4294967296
        ∧ read32 m1 HERE_value = read32 (atInterpret initMem [65, 7] []).mem HERE_value + 4
        ∧ ∀ a, (a < read32 (atInterpret initMem [65, 7] []).mem HERE_value
              ∨ read32 (atInterpret initMem [65, 7] []).mem HERE_value + 4 ≤ a) →
            (a < HERE_value ∨ HERE_value + 4 ≤ a) → m1 a = (atInterpret initMem [65, 7] []).mem a)
    ∧ (dictionary ≤ read32 (atInterpret initMem [65, 7] []).mem HERE_value →
      read32 (atInterpret initMem [65, 7] []).mem HERE_value + 1 ≤ dictionary + DICTIONARY_SIZE →
      ∃ m1, andThen (callFn { atInterpret initMem [65, 7] [] with w := XT .CCOMMA }) 9
          = some { atInterpret initMem [65, 7] [] with mem := m1, sp := [7], w := XT .EXIT }
        ∧ read8 m1 (read32 (atInterpret initMem [65, 7] []).mem HERE_value) = 65 % 256
        ∧ read32 m1 HERE_value = read32 (atInterpret initMem [65, 7] []).mem HERE_value + 1
        ∧ ∀ a, a ≠ read32 (atInterpret initMem [65, 7] []).mem HERE_value →
            (a < HERE_value ∨ HERE_value + 4 ≤ a) → m1 a = (atInterpret initMem [65, 7] []).mem a)
    ∧ (∃ m1, andThen (callFn { atInterpret initMem [65, 7] [] with w := XT .ALLOT }) 3
          = some { atInterpret initMem [65, 7] [] with mem := m1, sp := [7], w := XT .EXIT }
        ∧ read32 m1 HERE_value
            = (read32 (atInterpret initMem [65, 7] []).mem HERE_value + 65) % 4294967296
        ∧ ∀ a, (a < HERE_value ∨ HERE_value + 4 ≤ a) → m1 a = (atInterpret initMem [65, 7] []).mem a) :=
  COMMA_CCOMMA_ALLOT (atInterpret initMem [65, 7] []) 65 [7] rfl

theorem immediate_hidden_ram (s : Machine) :
    (dictionary ≤ read32 s.mem LATEST_value →
      read32 s.mem LATEST_value + 4 < dictionary + DICTIONARY_SIZE →
      ∃ m1 m2, andThen (callFn { s with w := XT .IMMEDIATE }) 10 = some { s with mem := m1, w := XT .EXIT }
        ∧ read8 m1 (read32 s.mem LATEST_value + 4) = read8 s.mem (read32 s.mem LATEST_value + 4) ^^^ 0x80
        ∧ read8 m1 (read32 s.mem LATEST_value + 4) &&& LENGTH_BITS
            = read8 s.mem (read32 s.mem LATEST_value + 4) &&& LENGTH_BITS
        ∧ read8 m1 (read32 s.mem LATEST_value + 4) &&& HIDDEN_BIT
            = read8 s.mem (read32 s.mem LATEST_value + 4) &&& HIDDEN_BIT
        ∧ read8 m1 (read32 s.mem LATEST_value + 4) &&& IMMEDIATE_BIT
            ≠ read8 s.mem (read32 s.mem LATEST_value + 4) &&& IMMEDIATE_BIT
        ∧ (∀ a, a ≠ read32 s.mem LATEST_value + 4 → m1 a = s.mem a)
        ∧ andThen (callFn { s with mem := m1, w := XT .IMMEDIATE }) 10
            = some { s with mem := m2, w := XT .EXIT }
        ∧ read8 m2 (read32 s.mem LATEST_value + 4) = read8 s.mem (read32 s.mem LATEST_value + 4)
        ∧ (∀ a, a ≠ read32 s.mem LATEST_value + 4 → m2 a = s.mem a))
    ∧ (∀ lfa rest, s.sp = lfa :: rest → dictionary ≤ lfa → lfa + 4 < dictionary + DICTIONARY_SIZE →
      ∃ m1 m2, andThen (callFn { s with w := XT .HIDDEN }) 8
            = some { s with mem := m1, sp := rest, w := XT .EXIT }
        ∧ read8 m1 (lfa + 4) = read8 s.mem (lfa + 4) ^^^ 0x40
        ∧ read8 m1 (lfa + 4) &&& LENGTH_BITS = read8 s.mem (lfa + 4) &&& LENGTH_BITS
        ∧ read8 m1 (lfa + 4) &&& IMMEDIATE_BIT = read8 s.mem (lfa + 4) &&& IMMEDIATE_BIT
        ∧ read8 m1 (lfa + 4) &&& HIDDEN_BIT ≠ read8 s.mem (lfa + 4) &&& HIDDEN_BIT
        ∧ (∀ a, a ≠ lfa + 4 → m1 a = s.mem a)
        ∧ andThen (callFn { s with mem := m1, w := XT .HIDDEN }) 8
            = some { s with mem := m2, sp := rest, w := XT .EXIT }
        ∧ read8 m2 (lfa + 4) = read8 s.mem (lfa + 4)
        ∧ (∀ a, a ≠ lfa + 4 → m2 a = s.mem a)) := by
  obtain ⟨m, sp, rsp, ip, w, inp, li, out⟩ := s
  simp only
  have hd : dictionary = 134615040 := rfl
  have hds : DICTIONARY_SIZE = 8192 := rfl
  have hre : romEnd = 134582016 := rfl
  have hL : LATEST_value = 134610952 := rfl
  refine ⟨?_, ?_⟩
  · intro hlo hhi
    have hb := read8_lt m (a := read32 m LATEST_value + 4) (by omega)
    obtain ⟨⟨t1, t2, t3, t4, t5, t6⟩, _⟩ := flag_toggle _ hb
    have hr1 : read8 (set8 m (read32 m LATEST_value + 4)
        ((read8 m (read32 m LATEST_value + 4) ^^^ IMMEDIATE_BIT) % 4294967296))
        (read32 m LATEST_value + 4) = read8 m (read32 m LATEST_value + 4) ^^^ IMMEDIATE_BIT := by
      rw [read8_set8_same _ _ (by omega), t1]
    have hLATEST : read32 (set8 m (read32 m LATEST_value + 4)
        ((read8 m (read32 m LATEST_value + 4) ^^^ IMMEDIATE_BIT) % 4294967296)) LATEST_value
        = read32 m LATEST_value := read32_set8_ne _ _ (by omega)
    have hrun2 := immediate_run (set8 m (read32 m LATEST_value + 4)
        ((read8 m (read32 m LATEST_value + 4) ^^^ IMMEDIATE_BIT) % 4294967296)) sp rsp ip inp li out
        (by rw [hLATEST]; exact hlo) (by rw [hLATEST]; exact hhi)
    rw [hLATEST, hr1] at hrun2
    refine ⟨_, _, immediate_run m sp rsp ip inp li out hlo hhi, hr1, ?_, ?_, ?_, ?_, hrun2, ?_, ?_⟩
    · rw [hr1]; exact t2
    · rw [hr1]; exact t3
    · rw [hr1]; exact t4
    · intro a ha; exact set8_apply_ne _ _ _ _ ha
    · rw [read8_set8_same _ _ (by omega), t5, Nat.mod_eq_of_lt (Nat.lt_trans hb (by decide)),
        Nat.mod_eq_of_lt hb]
    · intro a ha
      rw [set8_apply_ne _ _ _ _ ha, set8_apply_ne _ _ _ _ ha]
  · intro lfa rest hsp hlo hhi
    subst hsp
    have hb := read8_lt m (a := lfa + 4) (by omega)
    obtain ⟨_, ⟨t1, t2, t3, t4, t5, t6⟩⟩ := flag_toggle _ hb
    have hr1 : read8 (set8 m (lfa + 4) ((read8 m (lfa + 4) ^^^ HIDDEN_BIT) % 4294967296)) (lfa + 4)
        = read8 m (lfa + 4) ^^^ HIDDEN_BIT := by
      rw [read8_set8_same _ _ (by omega), t1]
    have hrun2 := hidden_run (set8 m (lfa + 4) ((read8 m (lfa + 4) ^^^ HIDDEN_BIT) % 4294967296))
        rest rsp ip inp li out lfa hlo hhi
    rw [hr1] at hrun2
    refine ⟨_, _, hidden_run m rest rsp ip inp li out lfa hlo hhi, hr1, ?_, ?_, ?_, ?_, hrun2, ?_, ?_⟩
    · rw [hr1]; exact t2
    · rw [hr1]; exact t3
    · rw [hr1]; exact t4
    · intro a ha; exact set8_apply_ne _ _ _ _ ha
    · rw [read8_set8_same _ _ (by omega), t5, Nat.mod_eq_of_lt (Nat.lt_trans hb (by decide)),
        Nat.mod_eq_of_lt hb]
    · intro a ha
      rw [set8_apply_ne _ _ _ _ ha, set8_apply_ne _ _ _ _ ha]

/-- C18 holds when the first terminator is a line feed and fails when it
is a carriage return.  On the input `a`, LF, `7`, executing `\` returns
after 18 more rounds of `NEXT()` with the parameter stack as before and the
two characters consumed.  On `a`, CR, LF, `7`, after 14 rounds the character
13 is still on the stack and `ip` is at the offset cell of the final
`BRANCH` (cell 13 of the body, which holds -52), not at `DROP`; the next
round takes that offset as an execution token and the machine has no
successor state. -/
theorem BSCOMMENT_carriage_return :
    (andThen (callFn (atComment [97, 10, 55])) 18).map (fun s => (s.sp, s.rsp, s.ip, s.lineIndex))
        = some ([7], [], XT .QUIT + 12, 2)
      ∧ (andThen (callFn (atComment [97, 13, 10, 55])) 14).map
          (fun s => (s.sp, s.ip, s.lineIndex, read32 s.mem s.ip))
        = some ([13, 7], XT .BSCOMMENT + 4 + 4 * 13, 2, cells (-13))
      ∧ (andThen (callFn (atComment [97, 13, 10, 55])) 15).isSome = false := by
  decide!

/-- C19 fails on the bytes 128 to 255: `isWS` compares a `char`, which is
signed, with 32, so the test is true exactly for the bytes up to 32 and for
the bytes from 128 on; `WS?` on 200 pushes all-ones, and on 33 pushes 0. -/
theorem isWS_signed_char :
    (∀ b : Fin 256, isWS b.val = (decide (b.val ≤ 32) || decide (128 ≤ b.val)))
      ∧ (fn_WS (atInterpret initMem [200, 7] [])).map (fun s => s.sp) = some [4294967295, 7]
      ∧ (fn_WS (atInterpret initMem [33, 7] [])).map (fun s => s.sp) = some [0, 7] := by
  decide!

/-- C20 fails on a token with a byte from 128 on, for the reason of C19: on
the input bytes `C3 A9 20 41 20` (the two bytes of a letter in UTF-8, a
space, `A`, a space) `WORD` skips the first three bytes as white space and
returns the token `A` of length 1, with the input index after it, where the
claim has the token of the first two bytes. -/
theorem WORD_high_bytes :
    (readWord [195, 169, 32, 65, 32] 0 initMem).map (fun r => (r.1, r.2.1, readBytes r.2.2 word 2))
        = some (1, 4, [65, 0])
      ∧ (fn_WORD (atInterpret initMem [7] [195, 169, 32, 65, 32])).map (fun s => (s.sp, s.lineIndex))
        = some ([1, word, 7], 4) := by
  decide!

theorem charIn_of_drop (input : List Nat) (li c : Nat) (tl : List Nat) (h : input.drop li = c :: tl) :
    charIn input li = some (c % 256, li + 1) ∧ input.drop (li + 1) = tl := by
  constructor
  · unfold charIn
    have : input.get? li = some c := by
      rw [List.get?_eq_getElem?, ← List.head?_drop, h]; rfl
    rw [this]; rfl
  · rw [← List.drop_drop, h]; rfl

theorem isWS_mod (c : Nat) : isWS (c % 256) = isWS c := by
  unfold isWS toChar
  rw [Nat.mod_mod]

theorem skipWS_spec (input : List Nat) (spaces : List Nat) :
    ∀ (li fuel c0 : Nat) (tl : List Nat), input.drop li = spaces ++ c0 :: tl →
      (∀ c ∈ spaces, isWS c = true) → isWS c0 = false → spaces.length < fuel →
      skipWS input fuel li = some (c0 % 256, li + spaces.length + 1) := by
  induction spaces with
  | nil =>
      intro li fuel c0 tl h _ h0 hf
      obtain ⟨h1, _⟩ := charIn_of_drop input li c0 tl h
      cases fuel with
      | zero => simp at hf
      | succ fuel => simp only [skipWS, h1, isWS_mod, h0, Bool.false_eq_true, if_false, List.length_nil,
          Nat.add_zero]
  | cons a spaces ih =>
      intro li fuel c0 tl h hs h0 hf
      obtain ⟨h1, h2⟩ := charIn_of_drop input li a (spaces ++ c0 :: tl) h
      cases fuel with
      | zero => simp at hf
      | succ fuel =>
          simp only [List.length_cons] at hf
          simp only [skipWS, h1, isWS_mod, hs a (List.mem_cons_self _ _), if_true]
          rw [ih (li + 1) fuel c0 tl h2 (fun c hc => hs c (List.mem_cons_of_mem _ hc)) h0 (by omega)]
          simp only [List.length_cons]
          congr 2; omega

theorem set8_mod (m : Nat → Nat) (a v : Nat) : set8 m a (v % 256) = set8 m a v := by
  funext x
  simp only [set8, Nat.mod_mod]

theorem wordLoop_token (input : List Nat) (rest : List Nat) :
    ∀ (length c li fuel t : Nat) (tl : List Nat) (mem : Nat → Nat),
      input.drop li = rest ++ t :: tl → (∀ x ∈ rest, isWS x = false) → isWS t = true →
      length + rest.length + 1 ≤ 30 → rest.length < fuel →
      wordLoop input fuel length c li mem
        = some (length + rest.length + 1, t % 256, li + rest.length + 1,
            setBytes mem (word + length) (c :: rest)) := by
  induction rest with
  | nil =>
      intro length c li fuel t tl mem h _ ht _ hf
      obtain ⟨h1, _⟩ := charIn_of_drop input li t tl h
      cases fuel with
      | zero => simp at hf
      | succ fuel =>
          simp only [wordLoop, h1, isWS_mod, ht, Bool.not_true, Bool.false_and, Bool.false_eq_true,
            if_false, List.length_nil, Nat.add_zero, setBytes]
  | cons r rest ih =>
      intro length c li fuel t tl mem h hr ht hl hf
      obtain ⟨h1, h2⟩ := charIn_of_drop input li r (rest ++ t :: tl) h
      simp only [List.length_cons] at hl hf
      cases fuel with
      | zero => simp at hf
      | succ fuel =>
          have hcond : (!isWS r && decide (length + 1 < TOMOKO_WORD_MAX - 1)) = true := by
            have : TOMOKO_WORD_MAX = 32 := rfl
            simp only [hr r (List.mem_cons_self _ _), Bool.not_false, Bool.true_and, decide_eq_true_eq]
            omega
          simp only [wordLoop, h1, isWS_mod, hcond, if_true]
          rw [ih (length + 1) (r % 256) (li + 1) fuel t tl _ h2
            (fun x hx => hr x (List.mem_cons_of_mem _ hx)) ht (by omega) (by omega)]
          simp only [List.length_cons, setBytes, set8_mod]
          rw [show length + 1 + rest.length + 1 = length + (rest.length + 1) + 1 by omega,
            show li + 1 + rest.length + 1 = li + (rest.length + 1) + 1 by omega,
            show word + (length + 1) = word + length + 1 by omega]

/-- `WORD` on white space, a token of 1 to 30 bytes that the test `isWS`
does not take for white space, and a white-space byte: the result is the
length of the token and the input index of the white-space byte, which the
next `charIn` returns; the buffer holds the token followed by NUL. -/
theorem readWord_token (pre spaces tok post : List Nat) (t : Nat) (mem : Nat → Nat)
    (hs : ∀ c ∈ spaces, isWS c = true) (htok : ∀ c ∈ tok, isWS c = false) (ht : isWS t = true)
    (h1 : 1 ≤ tok.length) (h30 : tok.length ≤ 30) :
    ∃ m1, readWord (pre ++ spaces ++ tok ++ t :: post) pre.length mem
        = some (tok.length, pre.length + spaces.length + tok.length, m1)
      ∧ readBytes m1 word tok.length = tok.map (fun c => c % 256)
      ∧ read8 m1 (word + tok.length) = 0
      ∧ charIn (pre ++ spaces ++ tok ++ t :: post) (pre.length + spaces.length + tok.length)
          = some (t % 256, pre.length + spaces.length + tok.length + 1) := by
  obtain ⟨c0, rest, rfl⟩ : ∃ c0 rest, tok = c0 :: rest := by
    cases tok with
    | nil => simp at h1
    | cons c0 rest => exact ⟨c0, rest, rfl⟩
  simp only [List.length_cons] at h1 h30 ⊢
  have hW : word = 134610976 := rfl
  have hre : romEnd = 134582016 := rfl
  have hdrop : (pre ++ spaces ++ (c0 :: rest) ++ t :: post).drop pre.length
      = spaces ++ c0 :: (rest ++ t :: post) := by
    rw [List.append_assoc, List.append_assoc, List.drop_left]
    simp
  have hskip := skipWS_spec _ spaces pre.length (pre ++ spaces ++ (c0 :: rest) ++ t :: post).length c0
    (rest ++ t :: post) hdrop hs (htok c0 (List.mem_cons_self _ _)) (by simp; omega)
  have hdrop2 : (pre ++ spaces ++ (c0 :: rest) ++ t :: post).drop (pre.length + spaces.length + 1)
      = rest ++ t :: post := by
    have : pre ++ spaces ++ (c0 :: rest) ++ t :: post = (pre ++ spaces ++ [c0]) ++ (rest ++ t :: post) := by
      simp
    rw [this, show pre.length + spaces.length + 1 = (pre ++ spaces ++ [c0]).length by
      simp only [List.length_append, List.length_singleton], List.drop_left]
  have hloop := wordLoop_token _ rest 0 (c0 % 256) (pre.length + spaces.length + 1) TOMOKO_WORD_MAX t post
    mem hdrop2 (fun x hx => htok x (List.mem_cons_of_mem _ hx)) ht (by omega)
    (by have : TOMOKO_WORD_MAX = 32 := rfl; omega)
  have hlast : (pre ++ spaces ++ (c0 :: rest) ++ t :: post).drop (pre.length + spaces.length + (rest.length + 1))
      = t :: post := by
    rw [show pre.length + spaces.length + (rest.length + 1) = (pre ++ spaces ++ (c0 :: rest)).length by
      simp only [List.length_append, List.length_cons], List.drop_left]
  simp only [Nat.add_zero, Nat.zero_add] at hloop
  refine ⟨set8 (setBytes mem word (c0 % 256 :: rest)) (word + (rest.length + 1)) 0, ?_, ?_, ?_,
    (charIn_of_drop _ _ t post hlast).1⟩
  · unfold readWord
    rw [hskip]
    simp only [Option.some_bind, hloop, Option.map_some', isWS_mod, ht, if_true, unReadChar]
    rw [show pre.length + spaces.length + 1 + rest.length + 1 - 1
      = pre.length + spaces.length + (rest.length + 1) by omega]
  · rw [readBytes_set8_ne _ _ _ _ _ (by omega)]
    have hlen : (c0 % 256 :: rest).length = rest.length + 1 := by simp
    have := readBytes_eq_of_getD ((c0 % 256 :: rest).map fun c => c % 256)
      (setBytes mem word (c0 % 256 :: rest)) word fun k hk => by
        simp only [List.length_map] at hk
        rw [read8_setBytes_same (c0 % 256 :: rest) mem word k (by omega) hk,
          List.getD_eq_getElem?_getD, List.getD_eq_getElem?_getD, List.getElem?_map]
        cases h : (c0 % 256 :: rest)[k]? with
        | none => simp
        | some v => simp
    simp only [List.length_map, hlen, List.map_cons, Nat.mod_mod] at this
    simpa using this
  · rw [read8_set8_same _ _ (by omega)]

theorem cells_number : entryCells .NUMBER
    = [fnAddr .DOCOL, XT .BASE, XT .FETCH, XT .NUMBERIN, XT .SWAP, XT .DROP, XT .EXIT] := rfl

theorem number_run (m : Nat → Nat) (sp rsp : List Nat) (ip : Nat) (inp : List Nat) (li : Nat)
    (out : List Nat) (addr len : Nat) :
    andThen (callFn ⟨m, len :: addr :: sp, rsp, ip, XT .NUMBER, inp, li, out⟩) 6
      = some ⟨m, (numberIn m (read32 m BASE_value) len addr).2.2
          :: (numberIn m (read32 m BASE_value) len addr).1 :: sp, rsp, ip, XT .EXIT, inp, li, out⟩ := by
  simp (disch := omega) only [steps_succ, steps_zero, andThen_some, andThen_none, NEXT, callFn, read32_XT, read32_XT_add, XT_mod, XT_add_mod, cells_native, cells_value, cells_colon, cells_eqs, List.getD_cons_succ, List.getD_cons_zero, decodeFn_fnAddr, Option.some_bind, Option.map_some', callCode_eqs, pop, push, rpop, rpush, unaryOp, binaryOp, Nat.add_assoc, Nat.reduceAdd, Nat.reduceMod, Nat.reduceDiv, Nat.reduceLT, Nat.reduceMul, if_true, if_false, ite_true, ite_false, Nat.reduceSub, Nat.reduceXor, fn_DOCOL, fn_EXIT, fn_BRANCH, fn_ZBRANCH, fn_LIT, fn_LBRAC, fn_RBRAC, fn_CONST, fn_VAR, fn_FIND, fn_DROP, fn_SWAP, fn_DUP, fn_OVER, fn_ROT, fn_NROT, fn_DDROP, fn_DDUP, fn_INCR, fn_CELLPLUS, fn_ADD, fn_SUB, fn_MUL, fn_AND, fn_XOR, fn_STORE, fn_FETCH, fn_PLUSSTORE, fn_CSTORE, fn_CFETCH, fn_CMOVE, fn_FILL, fn_EMIT, fn_TELL, fn_DOT, fn_WORD, fn_INIT, fn_RSPSTORE, charOut, fn_NUMBERIN_eq]

theorem digit_code (base c : Nat) (hb : base ≤ 36) :
    (decide ((if 48 ≤ toupper c ∧ toupper c ≤ 57 then toupper c - 48
        else if 65 ≤ toupper c ∧ toupper c ≤ 90 then 10 + toupper c - 65 else 99) < base)
      = validDigit base c)
    ∧ (validDigit base c = true →
      (if 48 ≤ toupper c ∧ toupper c ≤ 57 then toupper c - 48
        else if 65 ≤ toupper c ∧ toupper c ≤ 90 then 10 + toupper c - 65 else 99)
        = (digitOf c).getD 0) := by
  unfold validDigit digitOf toupper
  by_cases h1 : 97 ≤ c ∧ c ≤ 122
  · have e1 : ¬ (48 ≤ c ∧ c ≤ 57) := by omega
    have e2 : ¬ (65 ≤ c ∧ c ≤ 90) := by omega
    have e3 : ¬ (48 ≤ c - 32 ∧ c - 32 ≤ 57) := by omega
    have e4 : 65 ≤ c - 32 ∧ c - 32 ≤ 90 := by omega
    simp only [h1, e1, e2, e3, e4, if_true, if_false, and_self, Option.getD_some]
    constructor
    · congr 1; apply propext; omega
    · intro _; omega
  · simp only [h1, if_false]
    by_cases h2 : 48 ≤ c ∧ c ≤ 57
    · simp only [h2, and_self, if_true, Option.getD_some, implies_true]
    · by_cases h3 : 65 ≤ c ∧ c ≤ 90
      · simp only [h2, h3, and_self, if_true, if_false, Option.getD_some]
        constructor
        · congr 1; apply propext; omega
        · intro _; omega
      · simp only [h2, h3, if_false, Option.getD_none]
        constructor
        · simp only [decide_eq_false_iff_not]; omega
        · intro h; exact absurd h (by decide)

theorem digitsValue_mod (base : Nat) (ds : List Nat) : ∀ acc,
    digitsValue base (acc % 4294967296) ds % 4294967296 = digitsValue base acc ds % 4294967296 := by
  induction ds with
  | nil => intro acc; simp [digitsValue]
  | cons d ds ih =>
      intro acc
      simp only [digitsValue, List.foldl_cons] at ih ⊢
      rw [← ih (acc % 4294967296 * base + (digitOf d).getD 0), ← ih (acc * base + (digitOf d).getD 0)]
      congr 2
      rw [Nat.add_mod, Nat.mul_mod, Nat.mod_mod, ← Nat.mul_mod, ← Nat.add_mod]

theorem xnumberLoop_digits (mem : Nat → Nat) (base : Nat) (hb : base ≤ 36) (n : Nat) :
    ∀ (addr uacc : Nat), addr + n < 4294967296 → uacc < 4294967296 →
      xnumberLoop mem base n addr uacc
        = (digitsValue base uacc ((readBytes mem addr n).takeWhile (validDigit base)) % 4294967296,
            addr + ((readBytes mem addr n).takeWhile (validDigit base)).length,
            ((readBytes mem addr n).dropWhile (validDigit base)).length) := by
  induction n with
  | zero =>
      intro addr uacc _ hu
      simp [xnumberLoop, readBytes, digitsValue, Nat.mod_eq_of_lt hu]
  | succ n ih =>
      intro addr uacc h hu
      obtain ⟨d1, d2⟩ := digit_code base (read8 mem addr) hb
      unfold xnumberLoop
      simp only [readBytes]
      by_cases hv : validDigit base (read8 mem addr) = true
      · have hlt := of_decide_eq_true (d1.trans hv)
        rw [d2 hv] at hlt
        simp only [d2 hv, hlt, if_true, List.takeWhile_cons, List.dropWhile_cons, hv,
          List.length_cons, Nat.mod_eq_of_lt (show addr + 1 < 4294967296 by omega)]
        rw [ih (addr + 1) _ (by omega) (Nat.mod_lt _ (by decide))]
        simp only [digitsValue, List.foldl_cons]
        have := digitsValue_mod base ((readBytes mem (addr + 1) n).takeWhile (validDigit base))
          (uacc * base + (digitOf (read8 mem addr)).getD 0)
        simp only [digitsValue] at this
        rw [this]
        congr 2
        omega
      · have hv' : validDigit base (read8 mem addr) = false := by
          cases h : validDigit base (read8 mem addr)
          · rfl
          · exact absurd h hv
        have hnlt := of_decide_eq_false (d1.trans hv')
        simp only [hnlt, if_false, List.takeWhile_cons, List.dropWhile_cons, hv',
          Bool.false_eq_true, List.length_cons, List.length_nil, Nat.add_zero, readBytes_length,
          digitsValue, List.foldl_nil, Nat.mod_eq_of_lt hu]

theorem ofInt_toInt_mul (x : Nat) (sign : Int) (hs : sign = -1 ∨ sign = 1) :
    ofInt (toInt (x % 4294967296) * sign) = ofInt (sign * (x : Int)) := by
  unfold ofInt toInt
  rw [Nat.mod_mod]
  rcases hs with h | h <;> subst h <;> split <;> congr 1 <;> omega

/-- The function `fn_NUMBERIN` on a non-empty string, in a base from 1 to
36: after an optional sign byte it consumes the longest run of digits of the
base; the unparsed length is the number of bytes from the first byte that is
not such a digit to the end of the string (0 when there is none), and the
number is the signed value of the digits consumed, as a cell. -/
theorem numberIn_digits (mem : Nat → Nat) (base len addr : Nat) (hb1 : 1 ≤ base) (hb : base ≤ 36)
    (h1 : 1 ≤ len) (h2 : len < 2147483648) (h3 : addr + len < 4294967296) :
    (numberIn mem base len addr).2.2
        = ((if read8 mem addr = 45 ∨ read8 mem addr = 43 then readBytes mem (addr + 1) (len - 1)
            else readBytes mem addr len).dropWhile (validDigit base)).length
      ∧ (numberIn mem base len addr).1
        = ofInt ((if read8 mem addr = 45 then -1 else 1)
            * (digitsValue base 0
                ((if read8 mem addr = 45 ∨ read8 mem addr = 43 then readBytes mem (addr + 1) (len - 1)
                  else readBytes mem addr len).takeWhile (validDigit base)) : Nat)) := by
  unfold numberIn
  simp only
  have hbi : ¬ (toInt base < 1 ∨ 36 < toInt base) := by
    rw [toInt_small (show base < 2147483648 by omega)]; omega
  have hsg : ((if read8 mem addr = 45 then -1 else 1 : Int) = -1)
      ∨ ((if read8 mem addr = 45 then -1 else 1 : Int) = 1) := by
    by_cases h : read8 mem addr = 45
    · left; rw [if_pos h]
    · right; rw [if_neg h]
  by_cases hs : read8 mem addr = 45 ∨ read8 mem addr = 43
  · have e1 : (addr + 1) % 4294967296 = addr + 1 := Nat.mod_eq_of_lt (by omega)
    have e2 : (len + 4294967295) % 4294967296 = len - 1 := by omega
    simp only [hs, if_true, e1, e2, hbi, if_false]
    by_cases hl : 0 < toInt (len - 1)
    · rw [toInt_small (show len - 1 < 2147483648 by omega)] at hl
      have hl' : 0 < toInt (len - 1) := by
        rw [toInt_small (show len - 1 < 2147483648 by omega)]; exact hl
      simp only [hl', if_true]
      rw [xnumberLoop_digits mem base hb (len - 1) (addr + 1) 0 (by omega) (by decide)]
      exact ⟨rfl, ofInt_toInt_mul _ _ hsg⟩
    · have hz : len - 1 = 0 := by
        rw [toInt_small (show len - 1 < 2147483648 by omega)] at hl; omega
      simp only [hl, if_false, hz, readBytes, List.dropWhile_nil, List.takeWhile_nil,
        List.length_nil, xnumberLoop, digitsValue, List.foldl_nil, true_and]
      have := ofInt_toInt_mul 0 _ hsg
      simpa using this
  · have hl : 0 < toInt len := by
      rw [toInt_small h2]; exact_mod_cast h1
    simp only [hs, if_false, hbi, hl, if_true]
    rw [xnumberLoop_digits mem base hb len addr 0 (by omega) (by decide)]
    exact ⟨rfl, ofInt_toInt_mul _ _ hsg⟩

theorem key_ne (c k : Nat) (hk : k < 128) (h : c % 256 ≠ k) :
    (toInt (ofInt (toChar (c % 256))) != toInt k) = true := by
  have e : toInt (ofInt (toChar (c % 256))) = toChar (c % 256) := by
    unfold toInt ofInt toChar
    rw [Nat.mod_mod]
    split <;> split <;> omega
  rw [e, toInt_small (show k < 2147483648 by omega)]
  unfold toChar
  rw [Nat.mod_mod]
  simp only [bne_iff_ne, ne_eq]
  split <;> omega

theorem bscomment_char (m : Nat → Nat) (sp rsp : List Nat) (w : Nat) (inp : List Nat) (li : Nat)
    (out : List Nat) (c : Nat) (hc : charIn inp li = some (c % 256, li + 1))
    (h13 : c % 256 ≠ 13) (h10 : c % 256 ≠ 10) :
    steps 9 ⟨m, sp, rsp, XT .BSCOMMENT + 4, w, inp, li, out⟩
      = some ⟨m, sp, rsp, XT .BSCOMMENT + 4, XT .BRANCH, inp, li + 1, out⟩ := by
  have k13 := key_ne c 13 (by decide) h13
  have k10 := key_ne c 10 (by decide) h10
  have hne : ¬ ((4294967295 : Nat) = 0) := by decide
  simp (disch := omega) only [steps_succ, steps_zero, andThen_some, andThen_none, NEXT, callFn, read32_XT, read32_XT_add, XT_mod, XT_add_mod, cells_native, cells_value, cells_colon, cells_eqs, List.getD_cons_succ, List.getD_cons_zero, decodeFn_fnAddr, Option.some_bind, Option.map_some', callCode_eqs, pop, push, rpop, rpush, unaryOp, binaryOp, Nat.add_assoc, Nat.reduceAdd, Nat.reduceMod, Nat.reduceDiv, Nat.reduceLT, Nat.reduceMul, if_true, if_false, ite_true, ite_false, Nat.reduceSub, Nat.reduceXor, fn_DOCOL, fn_EXIT, fn_BRANCH, fn_ZBRANCH, fn_LIT, fn_LBRAC, fn_RBRAC, fn_CONST, fn_VAR, fn_FIND, fn_DROP, fn_SWAP, fn_DUP, fn_OVER, fn_ROT, fn_NROT, fn_DDROP, fn_DDUP, fn_INCR, fn_CELLPLUS, fn_ADD, fn_SUB, fn_MUL, fn_AND, fn_XOR, fn_STORE, fn_FETCH, fn_PLUSSTORE, fn_CSTORE, fn_CFETCH, fn_CMOVE, fn_FILL, fn_EMIT, fn_TELL, fn_DOT, fn_WORD, fn_INIT, fn_RSPSTORE, charOut, cells_more, fn_KEY, hc, comparison, k13, k10, BOOLEAN, hne, XT_add_mod_wrap]

theorem bscomment_lf (m : Nat → Nat) (sp rsp : List Nat) (ip w : Nat) (inp : List Nat) (li : Nat)
    (out : List Nat) (hc : charIn inp li = some (10, li + 1)) :
    steps 9 ⟨m, sp, ip :: rsp, XT .BSCOMMENT + 4, w, inp, li, out⟩
      = some ⟨m, sp, rsp, ip, XT .EXIT, inp, li + 1, out⟩ := by
  have k13 := key_ne 10 13 (by decide) (by decide)
  have k10 : (toInt (ofInt (toChar 10)) != toInt 10) = false := by decide
  have hne : ¬ ((4294967295 : Nat) = 0) := by decide
  simp (disch := omega) only [steps_succ, steps_zero, andThen_some, andThen_none, NEXT, callFn, read32_XT, read32_XT_add, XT_mod, XT_add_mod, cells_native, cells_value, cells_colon, cells_eqs, List.getD_cons_succ, List.getD_cons_zero, decodeFn_fnAddr, Option.some_bind, Option.map_some', callCode_eqs, pop, push, rpop, rpush, unaryOp, binaryOp, Nat.add_assoc, Nat.reduceAdd, Nat.reduceMod, Nat.reduceDiv, Nat.reduceLT, Nat.reduceMul, if_true, if_false, ite_true, ite_false, Nat.reduceSub, Nat.reduceXor, fn_DOCOL, fn_EXIT, fn_BRANCH, fn_ZBRANCH, fn_LIT, fn_LBRAC, fn_RBRAC, fn_CONST, fn_VAR, fn_FIND, fn_DROP, fn_SWAP, fn_DUP, fn_OVER, fn_ROT, fn_NROT, fn_DDROP, fn_DDUP, fn_INCR, fn_CELLPLUS, fn_ADD, fn_SUB, fn_MUL, fn_AND, fn_XOR, fn_STORE, fn_FETCH, fn_PLUSSTORE, fn_CSTORE, fn_CFETCH, fn_CMOVE, fn_FILL, fn_EMIT, fn_TELL, fn_DOT, fn_WORD, fn_INIT, fn_RSPSTORE, charOut, cells_more, fn_KEY, hc, comparison, k13, k10, BOOLEAN, hne,
    Bool.false_eq_true]

theorem bscomment_loop (m : Nat → Nat) (sp rsp : List Nat) (ip : Nat) (inp : List Nat) (out : List Nat)
    (post : List Nat) (body : List Nat) :
    ∀ (w li : Nat), inp.drop li = body ++ 10 :: post →
      (∀ c ∈ body, c % 256 ≠ 13 ∧ c % 256 ≠ 10) →
      steps (9 * body.length + 9) ⟨m, sp, ip :: rsp, XT .BSCOMMENT + 4, w, inp, li, out⟩
        = some ⟨m, sp, rsp, ip, XT .EXIT, inp, li + body.length + 1, out⟩ := by
  induction body with
  | nil =>
      intro w li hd _
      have := (charIn_of_drop inp li 10 post hd).1
      exact bscomment_lf m sp rsp ip w inp li out this
  | cons c body ih =>
      intro w li hd hb
      obtain ⟨hc, hd1⟩ := charIn_of_drop inp li c (body ++ 10 :: post) hd
      have hcb := hb c (List.mem_cons_self _ _)
      rw [List.length_cons, show 9 * (body.length + 1) + 9 = 9 + (9 * body.length + 9) by omega,
        steps_split, bscomment_char m sp (ip :: rsp) w inp li out c hc hcb.1 hcb.2, andThen_some,
        ih (XT .BRANCH) (li + 1) hd1 (fun x hx => hb x (List.mem_cons_of_mem _ hx))]
      congr 2
      omega

/-- The word `\` when the first terminator is a line feed: on input whose
bytes from `lineIndex` on are `body`, with no carriage return and no line
feed, then a line feed, the word called with `w` at it returns to its caller
after `9 * body.length + 9` rounds of `NEXT()`, with the input consumed up to
and including the line feed and nothing else changed but `w`. -/
theorem bscomment_line_feed (m : Nat → Nat) (sp rsp : List Nat) (ip : Nat) (inp : List Nat) (li : Nat)
    (out : List Nat) (body post : List Nat) (hd : inp.drop li = body ++ 10 :: post)
    (hb : ∀ c ∈ body, c % 256 ≠ 13 ∧ c % 256 ≠ 10) :
    andThen (callFn ⟨m, sp, rsp, ip, XT .BSCOMMENT, inp, li, out⟩) (9 * body.length + 9)
      = some ⟨m, sp, rsp, ip, XT .EXIT, inp, li + body.length + 1, out⟩ := by
  have h0 : callFn ⟨m, sp, rsp, ip, XT .BSCOMMENT, inp, li, out⟩
      = some ⟨m, sp, ip :: rsp, XT .BSCOMMENT + 4, XT .BSCOMMENT, inp, li, out⟩ := by
    simp (disch := omega) only [steps_succ, steps_zero, andThen_some, andThen_none, NEXT, callFn, read32_XT, read32_XT_add, XT_mod, XT_add_mod, cells_native, cells_value, cells_colon, cells_eqs, List.getD_cons_succ, List.getD_cons_zero, decodeFn_fnAddr, Option.some_bind, Option.map_some', callCode_eqs, pop, push, rpop, rpush, unaryOp, binaryOp, Nat.add_assoc, Nat.reduceAdd, Nat.reduceMod, Nat.reduceDiv, Nat.reduceLT, Nat.reduceMul, if_true, if_false, ite_true, ite_false, Nat.reduceSub, Nat.reduceXor, fn_DOCOL, fn_EXIT, fn_BRANCH, fn_ZBRANCH, fn_LIT, fn_LBRAC, fn_RBRAC, fn_CONST, fn_VAR, fn_FIND, fn_DROP, fn_SWAP, fn_DUP, fn_OVER, fn_ROT, fn_NROT, fn_DDROP, fn_DDUP, fn_INCR, fn_CELLPLUS, fn_ADD, fn_SUB, fn_MUL, fn_AND, fn_XOR, fn_STORE, fn_FETCH, fn_PLUSSTORE, fn_CSTORE, fn_CFETCH, fn_CMOVE, fn_FILL, fn_EMIT, fn_TELL, fn_DOT, fn_WORD, fn_INIT, fn_RSPSTORE, charOut, cells_more]
  rw [h0, andThen_some]
  exact bscomment_loop m sp rsp ip inp out post body _ li hd hb

/-- The call `(*w)()` with `w` at the code field of a native word of the
read-only dictionary runs the function that the code field names. -/
theorem callFn_XT (s : Machine) (wd : Word) (f : Fn) (hw : s.w = XT wd)
    (hc : (entryCells wd).getD 0 0 = fnAddr f) : callFn s = callCode f s := by
  unfold callFn
  rw [hw, read32_XT, hc, decodeFn_fnAddr]
  rfl

/-- C21: the stack words on a parameter stack whose head is the top.  With
`w` at the code field of the word, the call `(*w)()` maps `a` to `a a`
(`DUP`), `a b` to `b a` (`SWAP`), `a b` to `a` (`DROP`), `a b` to `a b a`
(`OVER`), `a b c` to `c a b` (`ROT`), `a b c` to `b c a` (`-ROT`), `a b` to
`a b a b` (`2DUP`) and `a b c d` to `c d a b` (`2SWAP`); the cells beneath
(`rest`) and every other component of the state stay as they were. -/
theorem STACK_WORDS (s : Machine) (a b c d : Nat) (rest : List Nat) :
    callFn { s with w := XT .DUP, sp := a :: rest } = some { s with w := XT .DUP, sp := a :: a :: rest }
      ∧ callFn { s with w := XT .SWAP, sp := b :: a :: rest }
          = some { s with w := XT .SWAP, sp := a :: b :: rest }
      ∧ callFn { s with w := XT .DROP, sp := b :: a :: rest }
          = some { s with w := XT .DROP, sp := a :: rest }
      ∧ callFn { s with w := XT .OVER, sp := b :: a :: rest }
          = some { s with w := XT .OVER, sp := a :: b :: a :: rest }
      ∧ callFn { s with w := XT .ROT, sp := c :: b :: a :: rest }
          = some { s with w := XT .ROT, sp := b :: a :: c :: rest }
      ∧ callFn { s with w := XT .NROT, sp := c :: b :: a :: rest }
          = some { s with w := XT .NROT, sp := a :: c :: b :: rest }
      ∧ callFn { s with w := XT .DDUP, sp := b :: a :: rest }
          = some { s with w := XT .DDUP, sp := b :: a :: b :: a :: rest }
      ∧ callFn { s with w := XT .DSWAP, sp := d :: c :: b :: a :: rest }
          = some { s with w := XT .DSWAP, sp := b :: a :: d :: c :: rest } := by
  refine ⟨?_, ?_, ?_, ?_, ?_, ?_, ?_, ?_⟩
  · rw [callFn_XT _ .DUP .DUP rfl rfl]; rfl
  · rw [callFn_XT _ .SWAP .SWAP rfl rfl]; rfl
  · rw [callFn_XT _ .DROP .DROP rfl rfl]; rfl
  · rw [callFn_XT _ .OVER .OVER rfl rfl]; rfl
  · rw [callFn_XT _ .ROT .ROT rfl rfl]; rfl
  · rw [callFn_XT _ .NROT .NROT rfl rfl]; rfl
  · rw [callFn_XT _ .DDUP .DDUP rfl rfl]; rfl
  · rw [callFn_XT _ .DSWAP .DSWAP rfl rfl]; rfl

theorem toInt_nonneg_small {n : Nat} (h : n < 2147483648) : ¬ (toInt n < 0) := by
  rw [toInt_small h]; omega

/-- C22: `PICK` with the index `i` on top of a stack `rest` of more than `i`
cells (the stack array has `PARAMETER_STACK_CELLS` cells) pops `i` and
pushes a copy of the cell `i` places below the top of `rest`; `rest` itself
stays.  The word `PICK` of the dictionary runs `fn_PICK`.  With the index 0
pushed, `fn_PICK` does what `fn_DUP` does, on every state; with the index 1
pushed, what `fn_OVER` does; on a stack of at least one cell (two cells)
both give `a a` (`a b a`). -/
theorem PICK_DUP_OVER (s : Machine) (i : Nat) (rest : List Nat) (hi : i < rest.length)
    (hlen : rest.length ≤ PARAMETER_STACK_CELLS) :
    fn_PICK { s with sp := i :: rest } = some { s with sp := rest[i] :: rest }
      ∧ callFn { s with w := XT .PICK, sp := i :: rest }
          = some { s with w := XT .PICK, sp := rest[i] :: rest }
      ∧ (∀ t : Machine, fn_PICK (push 0 t) = fn_DUP t)
      ∧ (∀ t : Machine, fn_PICK (push 1 t) = fn_OVER t)
      ∧ (∀ (t : Machine) (a : Nat) (r : List Nat),
          fn_PICK (push 0 { t with sp := a :: r }) = some { t with sp := a :: a :: r }
          ∧ fn_DUP { t with sp := a :: r } = some { t with sp := a :: a :: r })
      ∧ (∀ (t : Machine) (a b : Nat) (r : List Nat),
          fn_PICK (push 1 { t with sp := b :: a :: r }) = some { t with sp := a :: b :: a :: r }
          ∧ fn_OVER { t with sp := b :: a :: r } = some { t with sp := a :: b :: a :: r }) := by
  have hi2 : i < 2147483648 := by
    have : PARAMETER_STACK_CELLS = 64 := rfl
    omega
  have h1 : ∀ w0, fn_PICK { s with w := w0, sp := i :: rest }
      = some { s with w := w0, sp := rest[i] :: rest } := by
    intro w0
    simp only [fn_PICK, toInt_nonneg_small hi2, if_false, List.get?_eq_getElem?,
      List.getElem?_eq_getElem hi, Option.map_some']
  refine ⟨h1 s.w, ?_, ?_, ?_, ?_, ?_⟩
  · rw [callFn_XT _ .PICK .PICK rfl rfl]
    exact h1 _
  · intro t
    obtain ⟨m, sp, rsp, ip, w, inp, li, out⟩ := t
    cases sp with
    | nil => rfl
    | cons a r => rfl
  · intro t
    obtain ⟨m, sp, rsp, ip, w, inp, li, out⟩ := t
    cases sp with
    | nil => rfl
    | cons b r =>
        cases r with
        | nil => rfl
        | cons a r => rfl
  · intro t a r
    exact ⟨rfl, rfl⟩
  · intro t a b r
    exact ⟨rfl, rfl⟩

theorem PICK_DUP_OVER_witness :
    2 < [10, 20, 30, 40].length ∧ fn_PICK { atInterpret initMem [] [] with sp := 2 :: [10, 20, 30, 40] }
      = some { atInterpret initMem [] [] with sp := 30 :: [10, 20, 30, 40] } :=
  ⟨by decide, (PICK_DUP_OVER (atInterpret initMem [] []) 2 [10, 20, 30, 40] (by decide) (by decide)).1⟩

/-- C23: `STICK` on the stack `i`, `x`, `rest` (from the top) with
`i < rest.length` pops `i` and `x` and overwrites with `x` the cell `i`
places below the top of `rest`: the depth drops by two, the cell at place
`i` is `x` and the cell at every other place is as it was.  The word `STICK`
of the dictionary runs `fn_STICK`. -/
theorem STICK_overwrite (s : Machine) (i x : Nat) (rest : List Nat) (hi : i < rest.length)
    (hlen : rest.length ≤ PARAMETER_STACK_CELLS) :
    fn_STICK { s with sp := i :: x :: rest } = some { s with sp := rest.set i x }
      ∧ callFn { s with w := XT .STICK, sp := i :: x :: rest }
          = some { s with w := XT .STICK, sp := rest.set i x }
      ∧ (rest.set i x).length + 2 = (i :: x :: rest).length
      ∧ (rest.set i x)[i]? = some x
      ∧ (∀ j, j ≠ i → (rest.set i x)[j]? = rest[j]?)
      ∧ rest.set i x = rest.take i ++ x :: rest.drop (i + 1) := by
  have hi2 : i < 2147483648 := by
    have : PARAMETER_STACK_CELLS = 64 := rfl
    omega
  have h1 : ∀ w0, fn_STICK { s with w := w0, sp := i :: x :: rest }
      = some { s with w := w0, sp := rest.set i x } := by
    intro w0
    have hc : ¬ (toInt i < 0 ∨ rest.length ≤ i) := by
      rw [toInt_small hi2]; omega
    simp only [fn_STICK, hc, if_false]
  refine ⟨h1 s.w, ?_, ?_, ?_, ?_, ?_⟩
  · rw [callFn_XT _ .STICK .STICK rfl rfl]
    exact h1 _
  · simp only [List.length_set, List.length_cons]
  · simp only [List.getElem?_set_self hi]
  · intro j hj
    exact List.getElem?_set_ne (Ne.symm hj)
  · exact List.set_eq_take_append_cons_drop.trans (by rw [if_pos hi])

theorem STICK_overwrite_witness :
    1 < [10, 20, 30].length ∧ fn_STICK { atInterpret initMem [] [] with sp := 1 :: 99 :: [10, 20, 30] }
      = some { atInterpret initMem [] [] with sp := [10, 99, 30] } :=
  ⟨by decide, (STICK_overwrite (atInterpret initMem [] []) 1 99 [10, 20, 30] (by decide) (by decide)).1⟩

/-- C24: `NTUCK` on the stack `i`, `x`, `below` (from the top) with
`i ≤ below.length` pops `i` and moves `x` to the place `i` below the top:
the `i` cells that were beneath `x` move one place towards the top in order,
the deeper cells stay, and the depth is that of `x`, `below`.  So index 0
leaves the stack beneath the index as it was, index 1 does what `fn_SWAP`
does and index 2 what `fn_ROT` does; for a negative index only the index is
popped.  The word `NTUCK` of the dictionary runs `fn_NTUCK`. -/
theorem NTUCK_insert (s : Machine) (i x : Nat) (below : List Nat) (hi : i ≤ below.length)
    (hlen : below.length < PARAMETER_STACK_CELLS) :
    fn_NTUCK { s with sp := i :: x :: below }
        = some { s with sp := below.take i ++ x :: below.drop i }
      ∧ callFn { s with w := XT .NTUCK, sp := i :: x :: below }
          = some { s with w := XT .NTUCK, sp := below.take i ++ x :: below.drop i }
      ∧ (below.take i ++ x :: below.drop i).length = (x :: below).length
      ∧ (below.take i ++ x :: below.drop i)[i]? = some x
      ∧ (∀ j, j < i → (below.take i ++ x :: below.drop i)[j]? = (x :: below)[j + 1]?)
      ∧ (∀ j, i < j → (below.take i ++ x :: below.drop i)[j]? = (x :: below)[j]?)
      ∧ (∀ (t : Machine) (st : List Nat), fn_NTUCK { t with sp := 0 :: st } = some { t with sp := st })
      ∧ (∀ t : Machine, fn_NTUCK (push 1 t) = fn_SWAP t)
      ∧ (∀ t : Machine, fn_NTUCK (push 2 t) = fn_ROT t)
      ∧ (∀ (t : Machine) (a b c : Nat) (r : List Nat),
          fn_NTUCK (push 1 { t with sp := b :: a :: r }) = some { t with sp := a :: b :: r }
          ∧ fn_NTUCK (push 2 { t with sp := c :: b :: a :: r }) = some { t with sp := b :: a :: c :: r })
      ∧ (∀ (t : Machine) (k : Nat) (st : List Nat), toInt k < 0 →
          fn_NTUCK { t with sp := k :: st } = some { t with sp := st }) := by
  have hi2 : i < 2147483648 := by
    have : PARAMETER_STACK_CELLS = 64 := rfl
    omega
  have h1 : ∀ w0, fn_NTUCK { s with w := w0, sp := i :: x :: below }
      = some { s with w := w0, sp := below.take i ++ x :: below.drop i } := by
    intro w0
    by_cases h0 : i = 0
    · subst h0
      rfl
    · have hc : 0 < toInt i := by rw [toInt_small hi2]; omega
      have hl : ¬ (below.length < i) := by omega
      simp only [fn_NTUCK, hc, if_true, hl, if_false]
  have hlt : (below.take i).length = i := by
    rw [List.length_take]; omega
  refine ⟨h1 s.w, ?_, ?_, ?_, ?_, ?_, ?_, ?_, ?_, ?_, ?_⟩
  · rw [callFn_XT _ .NTUCK .NTUCK rfl rfl]
    exact h1 _
  · simp only [List.length_append, List.length_cons, List.length_take, List.length_drop]
    omega
  · rw [List.getElem?_append_right (by omega), hlt, Nat.sub_self]
    exact List.getElem?_cons_zero
  · intro j hj
    rw [List.getElem?_append_left (by omega), List.getElem?_take_of_lt hj]
    exact List.getElem?_cons_succ.symm
  · intro j hj
    rw [List.getElem?_append_right (by omega), hlt]
    obtain ⟨k, rfl⟩ : ∃ k, j = i + k + 1 := ⟨j - i - 1, by omega⟩
    rw [show i + k + 1 - i = k + 1 by omega]
    simp only [List.getElem?_cons_succ, List.getElem?_drop]
  · intro t st
    rfl
  · intro t
    obtain ⟨m, sp, rsp, ip, w, inp, li, out⟩ := t
    cases sp with
    | nil => rfl
    | cons b r =>
        cases r with
        | nil => rfl
        | cons a r => rfl
  · intro t
    obtain ⟨m, sp, rsp, ip, w, inp, li, out⟩ := t
    cases sp with
    | nil => rfl
    | cons c r =>
        cases r with
        | nil => rfl
        | cons b r =>
            cases r with
            | nil => rfl
            | cons a r => rfl
  · intro t a b c r
    exact ⟨rfl, rfl⟩
  · intro t k st hk
    have hc : ¬ (0 < toInt k) := by omega
    simp only [fn_NTUCK, hc, if_false]

theorem NTUCK_insert_witness :
    3 ≤ [10, 20, 30, 40].length ∧ fn_NTUCK { atInterpret initMem [] [] with sp := 3 :: 99 :: [10, 20, 30, 40] }
      = some { atInterpret initMem [] [] with sp := [10, 20, 30, 99, 40] } :=
  ⟨by decide, (NTUCK_insert (atInterpret initMem [] []) 3 99 [10, 20, 30, 40] (by decide) (by decide)).1⟩

theorem toInt_emod (n : Nat) : toInt n % 4294967296 = (n : Int) % 4294967296 := by
  unfold toInt
  split <;> omega

theorem ofInt_cast (z : Int) : ((ofInt z : Nat) : Int) = z % 4294967296 := by
  unfold ofInt
  omega

theorem ofInt_eq_of_emod (z : Int) (n : Nat) (h : z % 4294967296 = (n : Int) % 4294967296) :
    ofInt z = n % 4294967296 := by
  unfold ofInt
  omega

theorem toInt_ofInt (z : Int) (h1 : -2147483648 ≤ z) (h2 : z < 2147483648) : toInt (ofInt z) = z := by
  unfold toInt ofInt
  split <;> omega

theorem toInt_range (n : Nat) : -2147483648 ≤ toInt n ∧ toInt n < 2147483648 := by
  unfold toInt
  split <;> omega

/-- C25: `fn_ADD`, `fn_SUB` and `fn_MUL` replace the top two cells, `a`
beneath `b`, by the cell of the sum, the difference and the product of the
two signed values, and leave the rest of the state; the cell of an integer
is its residue modulo 2^32, and its signed value is the integer itself
when that is in the signed 32-bit range.  The words `+`, `-` and `*` of the
dictionary run these functions. -/
theorem ADD_SUB_MUL (s : Machine) (a b : Nat) (rest : List Nat) :
    fn_ADD { s with sp := b :: a :: rest } = some { s with sp := ofInt (toInt a + toInt b) :: rest }
      ∧ fn_SUB { s with sp := b :: a :: rest } = some { s with sp := ofInt (toInt a - toInt b) :: rest }
      ∧ fn_MUL { s with sp := b :: a :: rest } = some { s with sp := ofInt (toInt a * toInt b) :: rest }
      ∧ callFn { s with w := XT .ADD, sp := b :: a :: rest }
          = some { s with w := XT .ADD, sp := ofInt (toInt a + toInt b) :: rest }
      ∧ callFn { s with w := XT .SUB, sp := b :: a :: rest }
          = some { s with w := XT .SUB, sp := ofInt (toInt a - toInt b) :: rest }
      ∧ callFn { s with w := XT .MUL, sp := b :: a :: rest }
          = some { s with w := XT .MUL, sp := ofInt (toInt a * toInt b) :: rest }
      ∧ (∀ z : Int, ((ofInt z : Nat) : Int) = z % 4294967296)
      ∧ (∀ z : Int, -2147483648 ≤ z → z < 2147483648 → toInt (ofInt z) = z) := by
  have hadd : ofInt (toInt a + toInt b) = (a + b) % 4294967296 := by
    apply ofInt_eq_of_emod
    rw [Int.add_emod, toInt_emod, toInt_emod, ← Int.add_emod]
    rfl
  have hsub : ofInt (toInt a - toInt b) = (a + (4294967296 - b % 4294967296)) % 4294967296 := by
    unfold ofInt toInt
    split <;> split <;> omega
  have hmul : ofInt (toInt a * toInt b) = (a * b) % 4294967296 := by
    apply ofInt_eq_of_emod
    rw [Int.mul_emod, toInt_emod, toInt_emod, ← Int.mul_emod]
    rfl
  have e1 : ∀ w0, fn_ADD { s with w := w0, sp := b :: a :: rest }
      = some { s with w := w0, sp := ofInt (toInt a + toInt b) :: rest } := by
    intro w0; rw [hadd]; rfl
  have e2 : ∀ w0, fn_SUB { s with w := w0, sp := b :: a :: rest }
      = some { s with w := w0, sp := ofInt (toInt a - toInt b) :: rest } := by
    intro w0; rw [hsub]; rfl
  have e3 : ∀ w0, fn_MUL { s with w := w0, sp := b :: a :: rest }
      = some { s with w := w0, sp := ofInt (toInt a * toInt b) :: rest } := by
    intro w0; rw [hmul]; rfl
  refine ⟨e1 s.w, e2 s.w, e3 s.w, ?_, ?_, ?_, ofInt_cast, toInt_ofInt⟩
  · rw [callFn_XT _ .ADD .ADD rfl rfl]; exact e1 _
  · rw [callFn_XT _ .SUB .SUB rfl rfl]; exact e2 _
  · rw [callFn_XT _ .MUL .MUL rfl rfl]; exact e3 _

theorem neg_tmod_eq (a b : Int) : Int.tmod (-a) b = -Int.tmod a b := by
  rw [Int.tmod_def, Int.tmod_def, Int.neg_tdiv]
  ring

theorem tmod_sign (a b : Int) :
    (0 ≤ a → Int.tmod a b = ((a.natAbs % b.natAbs : Nat) : Int))
      ∧ (a ≤ 0 → Int.tmod a b = -((a.natAbs % b.natAbs : Nat) : Int)) := by
  have key : ∀ m : Nat, Int.tmod (m : Int) b = ((m % b.natAbs : Nat) : Int) := by
    intro m
    rcases Int.natAbs_eq b with hb | hb
    · rw [Int.ofNat_tmod, ← hb]
    · rw [Int.ofNat_tmod, ← Int.tmod_neg (m : Int) (b.natAbs : Int), ← hb]
  constructor
  · intro h
    have := key a.natAbs
    rwa [Int.natAbs_of_nonneg h] at this
  · intro h
    have := key a.natAbs
    have e : (a.natAbs : Int) = -a := by omega
    rw [e, neg_tmod_eq] at this
    omega

theorem tdiv_facts (a b : Int) (hb : b ≠ 0) :
    Int.tmod a b = a - Int.tdiv a b * b
      ∧ (Int.tmod a b).natAbs < b.natAbs
      ∧ (Int.tmod a b = 0 ∨ (0 < Int.tmod a b ∧ 0 < a) ∨ (Int.tmod a b < 0 ∧ a < 0))
      ∧ (Int.tdiv a b * b).natAbs ≤ a.natAbs
      ∧ (Int.tdiv a b).natAbs ≤ a.natAbs
      ∧ ((Int.tdiv a b).natAbs = a.natAbs → b = 1 ∨ b = -1 ∨ a = 0) := by
  have h1 : Int.tmod a b = a - Int.tdiv a b * b := by
    rw [Int.tmod_def, Int.mul_comm]
  have hq : (Int.tdiv a b).natAbs = a.natAbs / b.natAbs := Int.natAbs_tdiv a b
  have hbn : 0 < b.natAbs := Int.natAbs_pos.mpr hb
  have hlt := Nat.mod_lt a.natAbs hbn
  have hqb : (Int.tdiv a b * b).natAbs = b.natAbs * (a.natAbs / b.natAbs) := by
    rw [Int.natAbs_mul, hq, Nat.mul_comm]
  have hle : b.natAbs * (a.natAbs / b.natAbs) ≤ a.natAbs := Nat.mul_div_le _ _
  obtain ⟨s1, s2⟩ := tmod_sign a b
  refine ⟨h1, ?_, ?_, by omega, ?_, ?_⟩
  · rcases Int.le_total 0 a with h | h
    · rw [s1 h, Int.natAbs_ofNat]; exact hlt
    · rw [s2 h, Int.natAbs_neg, Int.natAbs_ofNat]; exact hlt
  · rcases Int.le_total 0 a with h | h
    · have := s1 h; omega
    · have := s2 h; omega
  · rw [hq]; exact Nat.div_le_self _ _
  · intro h
    rw [hq] at h
    by_cases ha : a = 0
    · exact Or.inr (Or.inr ha)
    · have hapos : 0 < a.natAbs := Int.natAbs_pos.mpr ha
      have hb1 : b.natAbs = 1 := by
        by_contra hne
        have h2 : 2 ≤ b.natAbs := by omega
        have := Nat.div_lt_self hapos h2
        omega
      omega

/-- C26: for a divisor `b` that is not 0, and not `a = -2^31` with
`b = -1`, `fn_DIVMOD` replaces `a`, `b` (`b` on top) by the remainder `r`
with the quotient `q` on top, `fn_DIV` by `q` and `fn_MOD` by `r`, where `q`
is the quotient of the signed values truncated toward zero and
`r = a - q * b`: the remainder is smaller than the divisor in absolute
value and is zero or has the sign of `a`, `q * b` is not larger than `a` in
absolute value, and both are in the signed 32-bit range, so the cells
pushed have exactly these signed values.  The words `/MOD`, `/` and `MOD` of
the dictionary run these functions. -/
theorem DIVMOD_truncates (s : Machine) (a b : Nat) (rest : List Nat) (hb : toInt b ≠ 0)
    (hov : ¬ (toInt a = -2147483648 ∧ toInt b = -1)) :
    fn_DIVMOD { s with sp := b :: a :: rest }
        = some { s with sp := ofInt (Int.tdiv (toInt a) (toInt b))
                              :: ofInt (toInt a - Int.tdiv (toInt a) (toInt b) * toInt b) :: rest }
      ∧ fn_DIV { s with sp := b :: a :: rest }
          = some { s with sp := ofInt (Int.tdiv (toInt a) (toInt b)) :: rest }
      ∧ fn_MOD { s with sp := b :: a :: rest }
          = some { s with sp := ofInt (toInt a - Int.tdiv (toInt a) (toInt b) * toInt b) :: rest }
      ∧ callFn { s with w := XT .DIVMOD, sp := b :: a :: rest }
          = some { s with w := XT .DIVMOD,
                          sp := ofInt (Int.tdiv (toInt a) (toInt b))
                                :: ofInt (toInt a - Int.tdiv (toInt a) (toInt b) * toInt b) :: rest }
      ∧ callFn { s with w := XT .DIV, sp := b :: a :: rest }
          = some { s with w := XT .DIV, sp := ofInt (Int.tdiv (toInt a) (toInt b)) :: rest }
      ∧ callFn { s with w := XT .MOD, sp := b :: a :: rest }
          = some { s with w := XT .MOD,
                          sp := ofInt (toInt a - Int.tdiv (toInt a) (toInt b) * toInt b) :: rest }
      ∧ toInt (ofInt (Int.tdiv (toInt a) (toInt b))) = Int.tdiv (toInt a) (toInt b)
      ∧ toInt (ofInt (toInt a - Int.tdiv (toInt a) (toInt b) * toInt b))
          = toInt a - Int.tdiv (toInt a) (toInt b) * toInt b
      ∧ (toInt a - Int.tdiv (toInt a) (toInt b) * toInt b).natAbs < (toInt b).natAbs
      ∧ (toInt a - Int.tdiv (toInt a) (toInt b) * toInt b = 0
          ∨ (0 < toInt a - Int.tdiv (toInt a) (toInt b) * toInt b ∧ 0 < toInt a)
          ∨ (toInt a - Int.tdiv (toInt a) (toInt b) * toInt b < 0 ∧ toInt a < 0))
      ∧ (Int.tdiv (toInt a) (toInt b) * toInt b).natAbs ≤ (toInt a).natAbs := by
  obtain ⟨f1, f2, f3, f4, f5, f6⟩ := tdiv_facts (toInt a) (toInt b) hb
  rw [f1] at f2 f3
  obtain ⟨ra1, ra2⟩ := toInt_range a
  obtain ⟨rb1, rb2⟩ := toInt_range b
  have hdef : divDefined a b = true := by
    unfold divDefined
    simp only [Bool.and_eq_true, bne_iff_ne, ne_eq, Bool.not_eq_true', Bool.and_eq_false_imp,
      beq_iff_eq, beq_eq_false_iff_ne]
    exact ⟨hb, fun h1 h2 => hov ⟨h1, h2⟩⟩
  have hqr : toInt (ofInt (Int.tdiv (toInt a) (toInt b))) = Int.tdiv (toInt a) (toInt b) := by
    have hone : toInt b = 1 → Int.tdiv (toInt a) (toInt b) = toInt a := by
      intro h; rw [h, Int.tdiv_one]
    apply toInt_ofInt <;> omega
  have hrr : toInt (ofInt (toInt a - Int.tdiv (toInt a) (toInt b) * toInt b))
      = toInt a - Int.tdiv (toInt a) (toInt b) * toInt b := by
    apply toInt_ofInt <;> omega
  have e1 : ∀ w0, fn_DIVMOD { s with w := w0, sp := b :: a :: rest }
      = some { s with w := w0, sp := ofInt (Int.tdiv (toInt a) (toInt b))
                  :: ofInt (toInt a - Int.tdiv (toInt a) (toInt b) * toInt b) :: rest } := by
    intro w0
    simp only [fn_DIVMOD, hdef, if_true, f1]
  have e2 : ∀ w0, fn_DIV { s with w := w0, sp := b :: a :: rest }
      = some { s with w := w0, sp := ofInt (Int.tdiv (toInt a) (toInt b)) :: rest } := by
    intro w0
    simp only [fn_DIV, hdef, if_true]
  have e3 : ∀ w0, fn_MOD { s with w := w0, sp := b :: a :: rest }
      = some { s with w := w0,
                      sp := ofInt (toInt a - Int.tdiv (toInt a) (toInt b) * toInt b) :: rest } := by
    intro w0
    simp only [fn_MOD, hdef, if_true, f1]
  refine ⟨e1 s.w, e2 s.w, e3 s.w, ?_, ?_, ?_, hqr, hrr, f2, f3, f4⟩
  · rw [callFn_XT _ .DIVMOD .DIVMOD rfl rfl]; exact e1 _
  · rw [callFn_XT _ .DIV .DIV rfl rfl]; exact e2 _
  · rw [callFn_XT _ .MOD .MOD rfl rfl]; exact e3 _

theorem DIVMOD_truncates_witness :
    toInt 2 ≠ 0 ∧ ¬ (toInt 4294967289 = -2147483648 ∧ toInt 2 = -1)
      ∧ toInt 4294967289 = -7 ∧ toInt 2 = 2
      ∧ fn_DIVMOD { atInterpret initMem [] [] with sp := 2 :: 4294967289 :: [5] }
          = some { atInterpret initMem [] [] with
              sp := ofInt (Int.tdiv (toInt 4294967289) (toInt 2))
                    :: ofInt (toInt 4294967289 - Int.tdiv (toInt 4294967289) (toInt 2) * toInt 2) :: [5] }
      ∧ ofInt (Int.tdiv (toInt 4294967289) (toInt 2)) = 4294967293
      ∧ ofInt (toInt 4294967289 - Int.tdiv (toInt 4294967289) (toInt 2) * toInt 2) = 4294967295 :=
  ⟨by decide, by decide, by decide, by decide,
    (DIVMOD_truncates (atInterpret initMem [] []) 4294967289 2 [5] (by decide) (by decide)).1,
    by decide, by decide⟩

/-- C27: with `w` at the code field of `=`, `<>`, `<`, `>`, `<=` or `>=`,
the call `(*w)()` replaces `n1`, `n2` (`n2` on top) by all-ones if the
relation holds between the signed values of `n1` and `n2` and by 0 if not;
with `w` at `0=`, `0<>`, `0<`, `0>`, `0<=` or `0>=` it replaces `n1` by
all-ones if the relation holds between the signed value of `n1` and 0 and by
0 if not.  All-ones is the cell of -1, and the macro `BOOLEAN` gives no
other value than these two. -/
theorem COMPARISON_flags (s : Machine) (n1 n2 : Nat) (rest : List Nat) :
    callFn { s with w := XT .EQ, sp := n2 :: n1 :: rest }
          = some { s with w := XT .EQ, sp := (if toInt n1 = toInt n2 then 4294967295 else 0) :: rest }
      ∧ callFn { s with w := XT .NE, sp := n2 :: n1 :: rest }
          = some { s with w := XT .NE, sp := (if toInt n1 ≠ toInt n2 then 4294967295 else 0) :: rest }
      ∧ callFn { s with w := XT .LT, sp := n2 :: n1 :: rest }
          = some { s with w := XT .LT, sp := (if toInt n1 < toInt n2 then 4294967295 else 0) :: rest }
      ∧ callFn { s with w := XT .GT, sp := n2 :: n1 :: rest }
          = some { s with w := XT .GT, sp := (if toInt n1 > toInt n2 then 4294967295 else 0) :: rest }
      ∧ callFn { s with w := XT .LE, sp := n2 :: n1 :: rest }
          = some { s with w := XT .LE, sp := (if toInt n1 ≤ toInt n2 then 4294967295 else 0) :: rest }
      ∧ callFn { s with w := XT .GE, sp := n2 :: n1 :: rest }
          = some { s with w := XT .GE, sp := (if toInt n1 ≥ toInt n2 then 4294967295 else 0) :: rest }
      ∧ callFn { s with w := XT .EQ0, sp := n1 :: rest }
          = some { s with w := XT .EQ0, sp := (if toInt n1 = 0 then 4294967295 else 0) :: rest }
      ∧ callFn { s with w := XT .NE0, sp := n1 :: rest }
          = some { s with w := XT .NE0, sp := (if toInt n1 ≠ 0 then 4294967295 else 0) :: rest }
      ∧ callFn { s with w := XT .LT0, sp := n1 :: rest }
          = some { s with w := XT .LT0, sp := (if toInt n1 < 0 then 4294967295 else 0) :: rest }
      ∧ callFn { s with w := XT .GT0, sp := n1 :: rest }
          = some { s with w := XT .GT0, sp := (if toInt n1 > 0 then 4294967295 else 0) :: rest }
      ∧ callFn { s with w := XT .LE0, sp := n1 :: rest }
          = some { s with w := XT .LE0, sp := (if toInt n1 ≤ 0 then 4294967295 else 0) :: rest }
      ∧ callFn { s with w := XT .GE0, sp := n1 :: rest }
          = some { s with w := XT .GE0, sp := (if toInt n1 ≥ 0 then 4294967295 else 0) :: rest }
      ∧ ofInt (-1) = 4294967295
      ∧ toInt 4294967295 = -1
      ∧ (∀ c : Bool, BOOLEAN c = 0 ∨ BOOLEAN c = 4294967295) := by
  refine ⟨?_, ?_, ?_, ?_, ?_, ?_, ?_, ?_, ?_, ?_, ?_, ?_, by decide, by decide, ?_⟩
  · rw [callFn_XT _ .EQ .EQ rfl rfl]
    simp only [callCode, callBasic, comparison, binaryOp, BOOLEAN, beq_iff_eq, bne_iff_ne, decide_eq_true_eq, ne_eq]
  · rw [callFn_XT _ .NE .NE rfl rfl]
    simp only [callCode, callBasic, comparison, binaryOp, BOOLEAN, beq_iff_eq, bne_iff_ne, decide_eq_true_eq, ne_eq]
  · rw [callFn_XT _ .LT .LT rfl rfl]
    simp only [callCode, callBasic, comparison, binaryOp, BOOLEAN, beq_iff_eq, bne_iff_ne, decide_eq_true_eq, ne_eq]
  · rw [callFn_XT _ .GT .GT rfl rfl]
    simp only [callCode, callBasic, comparison, binaryOp, BOOLEAN, beq_iff_eq, bne_iff_ne, decide_eq_true_eq, ne_eq]
  · rw [callFn_XT _ .LE .LE rfl rfl]
    simp only [callCode, callBasic, comparison, binaryOp, BOOLEAN, beq_iff_eq, bne_iff_ne, decide_eq_true_eq, ne_eq]
  · rw [callFn_XT _ .GE .GE rfl rfl]
    simp only [callCode, callBasic, comparison, binaryOp, BOOLEAN, beq_iff_eq, bne_iff_ne, decide_eq_true_eq, ne_eq]
  · rw [callFn_XT _ .EQ0 .EQ0 rfl rfl]
    simp only [callCode, callBasic, comparison0, unaryOp, BOOLEAN, beq_iff_eq, bne_iff_ne, decide_eq_true_eq, ne_eq]
  · rw [callFn_XT _ .NE0 .NE0 rfl rfl]
    simp only [callCode, callBasic, comparison0, unaryOp, BOOLEAN, beq_iff_eq, bne_iff_ne, decide_eq_true_eq, ne_eq]
  · rw [callFn_XT _ .LT0 .LT0 rfl rfl]
    simp only [callCode, callBasic, comparison0, unaryOp, BOOLEAN, beq_iff_eq, bne_iff_ne, decide_eq_true_eq, ne_eq]
  · rw [callFn_XT _ .GT0 .GT0 rfl rfl]
    simp only [callCode, callBasic, comparison0, unaryOp, BOOLEAN, beq_iff_eq, bne_iff_ne, decide_eq_true_eq, ne_eq]
  · rw [callFn_XT _ .LE0 .LE0 rfl rfl]
    simp only [callCode, callBasic, comparison0, unaryOp, BOOLEAN, beq_iff_eq, bne_iff_ne, decide_eq_true_eq, ne_eq]
  · rw [callFn_XT _ .GE0 .GE0 rfl rfl]
    simp only [callCode, callBasic, comparison0, unaryOp, BOOLEAN, beq_iff_eq, bne_iff_ne, decide_eq_true_eq, ne_eq]
  · intro c
    cases c
    · exact Or.inl rfl
    · exact Or.inr rfl

theorem and_255 (v : Nat) : v &&& 255 = v % 256 :=
  Nat.and_pow_two_sub_one_eq_mod v 8

/-- C28: for a cell `v` and an address `a` in the array `dictionary`,
`fn_CSTORE` on `v`, `a` followed by `fn_CFETCH` on `a` leaves `v AND 0xFF`
in place of `v` and `a`, and the memory differs from the old one in the byte
at `a` only; when the four bytes from `a` on are in the array, `fn_STORE`
on `v`, `a` followed by `fn_FETCH` on `a` leaves `v`, and the memory differs
in the bytes `a` to `a + 3` only.  Nothing else in the state changes.  The
words `!`, `@`, `C!` and `C@` of the dictionary run these functions. -/
theorem STORE_FETCH (s : Machine) (v a : Nat) (rest : List Nat) (hv : v < 4294967296)
    (ha : dictionary ≤ a) (hb : a < dictionary + DICTIONARY_SIZE) :
    (a + 4 ≤ dictionary + DICTIONARY_SIZE →
        (fn_STORE { s with sp := a :: v :: rest }).bind (fun s1 => fn_FETCH (push a s1))
            = some { s with mem := set32 s.mem a v, sp := v :: rest }
          ∧ ∀ x, x < a ∨ a + 4 ≤ x → set32 s.mem a v x = s.mem x)
      ∧ (fn_CSTORE { s with sp := a :: v :: rest }).bind (fun s1 => fn_CFETCH (push a s1))
          = some { s with mem := set8 s.mem a v, sp := (v &&& 255) :: rest }
      ∧ (∀ x, x ≠ a → set8 s.mem a v x = s.mem x)
      ∧ (∀ t : Machine, callFn { t with w := XT .STORE } = fn_STORE { t with w := XT .STORE })
      ∧ (∀ t : Machine, callFn { t with w := XT .FETCH } = fn_FETCH { t with w := XT .FETCH })
      ∧ (∀ t : Machine, callFn { t with w := XT .CSTORE } = fn_CSTORE { t with w := XT .CSTORE })
      ∧ (∀ t : Machine, callFn { t with w := XT .CFETCH } = fn_CFETCH { t with w := XT .CFETCH }) := by
  have hram : romEnd ≤ a := ram_dictionary ha
  obtain ⟨m, sp, rsp, ip, w, inp, li, out⟩ := s
  refine ⟨?_, ?_, ?_, ?_, ?_, ?_, ?_⟩
  · intro _
    refine ⟨?_, fun x hx => set32_apply_ne _ _ _ _ hx⟩
    simp only [fn_STORE_ram m a v rest rsp ip w inp li out hram, Option.some_bind, push, fn_FETCH,
      read32_set32_same m v hram, Nat.mod_eq_of_lt hv]
  · simp only [fn_CSTORE_ram m a v rest rsp ip w inp li out hram, Option.some_bind, push, fn_CFETCH,
      read8_set8_same m v hram, and_255]
  · intro x hx
    exact set8_apply_ne _ _ _ _ hx
  · intro t
    exact callFn_XT _ .STORE .STORE rfl rfl
  · intro t
    exact callFn_XT _ .FETCH .FETCH rfl rfl
  · intro t
    exact callFn_XT _ .CSTORE .CSTORE rfl rfl
  · intro t
    exact callFn_XT _ .CFETCH .CFETCH rfl rfl

theorem STORE_FETCH_witness :
    (305419896 < 4294967296 ∧ dictionary ≤ dictionary + 5 ∧ dictionary + 5 < dictionary + DICTIONARY_SIZE)
      ∧ (fn_STORE { atInterpret initMem [] [] with sp := (dictionary + 5) :: 305419896 :: [7] }).bind
            (fun s1 => fn_FETCH (push (dictionary + 5) s1))
          = some { atInterpret initMem [] [] with
              mem := set32 (atInterpret initMem [] []).mem (dictionary + 5) 305419896,
              sp := 305419896 :: [7] }
      ∧ (fn_CSTORE { atInterpret initMem [] [] with sp := (dictionary + 5) :: 305419896 :: [7] }).bind
            (fun s1 => fn_CFETCH (push (dictionary + 5) s1))
          = some { atInterpret initMem [] [] with
              mem := set8 (atInterpret initMem [] []).mem (dictionary + 5) 305419896,
              sp := (305419896 &&& 255) :: [7] }
      ∧ (305419896 &&& 255) = 120 :=
  ⟨⟨by decide, by decide, by decide⟩,
    ((STORE_FETCH (atInterpret initMem [] []) 305419896 (dictionary + 5) [7] (by decide) (by decide)
      (by decide)).1 (by decide)).1,
    (STORE_FETCH (atInterpret initMem [] []) 305419896 (dictionary + 5) [7] (by decide) (by decide)
      (by decide)).2.1,
    by decide⟩

/-- C29 fails: `fn_CCOPY` copies the byte at `source` to `dest` and pushes
`source` as it was and `dest + 1`, where the claim (and `native.h`) has
`source + 1` pushed.  For every destination outside the read-only image the
stack after the call is `dest + 1` on top of `source`; for instance with
`source` at the start of `dictionary` and `dest` 8 bytes further. -/
theorem CCOPY_source_unchanged :
    (∀ (s : Machine) (source dest : Nat) (rest : List Nat), inRom dest = false →
        fn_CCOPY { s with sp := dest :: source :: rest }
          = some { s with mem := set8 s.mem dest (read8 s.mem source),
                          sp := (dest + 1) % 4294967296 :: source :: rest })
      ∧ (∀ t : Machine, callFn { t with w := XT .CCOPY } = fn_CCOPY { t with w := XT .CCOPY })
      ∧ (callFn { atInterpret initMem [dictionary + 8, dictionary, 7] [] with w := XT .CCOPY }).map
            (fun s => s.sp) = some [dictionary + 9, dictionary, 7]
      ∧ dictionary ≠ dictionary + 1 := by
  refine ⟨?_, ?_, ?_, by decide⟩
  · intro s source dest rest h
    simp only [fn_CCOPY, write8, h, Bool.false_eq_true, if_false, Option.map_some']
  · intro t
    exact callFn_XT _ .CCOPY .CCOPY rfl rfl
  · rw [callFn_XT _ .CCOPY .CCOPY rfl rfl]
    decide!

theorem foldl_mod_digits (base : Nat) (ds : List Nat) : ∀ acc, acc < 4294967296 →
    ds.foldl (fun a c => (a * base + (digitOf c).getD 0) % 4294967296) acc
      = digitsValue base acc ds % 4294967296 := by
  induction ds with
  | nil =>
      intro acc h
      simp only [List.foldl_nil, digitsValue, Nat.mod_eq_of_lt h]
  | cons d ds ih =>
      intro acc _
      rw [List.foldl_cons, ih _ (Nat.mod_lt _ (by decide)), digitsValue_mod]
      rfl

theorem takeWhile_longest (p : Nat → Bool) : ∀ (l q : List Nat), q <+: l → (∀ c ∈ q, p c = true) →
    q.length ≤ (l.takeWhile p).length := by
  intro l
  induction l with
  | nil =>
      intro q hq _
      rw [List.prefix_nil.mp hq]
      exact Nat.le_refl _
  | cons x l ih =>
      intro q hq hall
      cases q with
      | nil => exact Nat.zero_le _
      | cons y q =>
          obtain ⟨hxy, hq2⟩ := List.cons_prefix_cons.mp hq
          have hy : p y = true := hall y (List.mem_cons_self _ _)
          rw [← hxy, List.takeWhile_cons, hy]
          simp only [if_true, List.length_cons]
          exact Nat.succ_le_succ (ih q hq2 (fun c hc => hall c (List.mem_cons_of_mem _ hc)))

theorem validDigit_iff (base c : Nat) :
    validDigit base c = true ↔
      (48 ≤ c ∧ c ≤ 57 ∧ c - 48 < base) ∨ (65 ≤ c ∧ c ≤ 90 ∧ c - 55 < base)
        ∨ (97 ≤ c ∧ c ≤ 122 ∧ c - 87 < base) := by
  unfold validDigit digitOf
  by_cases h1 : 48 ≤ c ∧ c ≤ 57
  · rw [if_pos h1]
    simp only [decide_eq_true_eq]
    constructor
    · intro h; omega
    · intro h; omega
  · rw [if_neg h1]
    by_cases h2 : 65 ≤ c ∧ c ≤ 90
    · rw [if_pos h2]
      simp only [decide_eq_true_eq]
      constructor
      · intro h; omega
      · intro h; omega
    · rw [if_neg h2]
      by_cases h3 : 97 ≤ c ∧ c ≤ 122
      · rw [if_pos h3]
        simp only [decide_eq_true_eq]
        constructor
        · intro h; omega
        · intro h; omega
      · rw [if_neg h3]
        simp only [Bool.false_eq_true, false_iff]
        omega

/-- C30: `fn_XNUMBERIN` on `uacc`, `addr`, `len`, `base` (`base` on top)
with `base` from 1 to 36 and a string of `len` bytes at `addr`.  The bytes
consumed are the longest prefix of the string made of digits of the base
(`validDigit`: `0`-`9`, and `A`-`Z` or `a`-`z` counted from 10, with a
value below the base); the function leaves, from the top, the number of
bytes not consumed, `addr` plus the number consumed, and `uacc` folded over
the digits consumed by `acc * base + digit` modulo 2^32.  The word
`>NUMBERIN` of the dictionary runs this function. -/
theorem XNUMBERIN_digits (s : Machine) (uacc addr len base : Nat) (rest : List Nat)
    (hb1 : 1 ≤ base) (hb : base ≤ 36) (hl : len < 2147483648) (ha : addr + len < 4294967296)
    (hu : uacc < 4294967296) :
    fn_XNUMBERIN { s with sp := base :: len :: addr :: uacc :: rest }
        = some { s with
            sp := (len - ((readBytes s.mem addr len).takeWhile (validDigit base)).length)
              :: (addr + ((readBytes s.mem addr len).takeWhile (validDigit base)).length)
              :: ((readBytes s.mem addr len).takeWhile (validDigit base)).foldl
                    (fun acc c => (acc * base + (digitOf c).getD 0) % 4294967296) uacc
              :: rest }
      ∧ (readBytes s.mem addr len).takeWhile (validDigit base) <+: readBytes s.mem addr len
      ∧ (∀ c ∈ (readBytes s.mem addr len).takeWhile (validDigit base), validDigit base c = true)
      ∧ (∀ q, q <+: readBytes s.mem addr len → (∀ c ∈ q, validDigit base c = true) →
          q.length ≤ ((readBytes s.mem addr len).takeWhile (validDigit base)).length)
      ∧ len - ((readBytes s.mem addr len).takeWhile (validDigit base)).length
          = ((readBytes s.mem addr len).dropWhile (validDigit base)).length
      ∧ (∀ c rest1, (readBytes s.mem addr len).dropWhile (validDigit base) = c :: rest1 →
          validDigit base c = false)
      ∧ (∀ c, validDigit base c = true ↔
          (48 ≤ c ∧ c ≤ 57 ∧ c - 48 < base) ∨ (65 ≤ c ∧ c ≤ 90 ∧ c - 55 < base)
            ∨ (97 ≤ c ∧ c ≤ 122 ∧ c - 87 < base))
      ∧ (∀ t : Machine, callFn { t with w := XT .XNUMBERIN } = fn_XNUMBERIN { t with w := XT .XNUMBERIN }) := by
  have hbi : ¬ (toInt base < 1 ∨ 36 < toInt base) := by
    rw [toInt_small (show base < 2147483648 by omega)]; omega
  have hsplit : ((readBytes s.mem addr len).takeWhile (validDigit base)).length
      + ((readBytes s.mem addr len).dropWhile (validDigit base)).length = len := by
    have h := congrArg List.length (List.takeWhile_append_dropWhile (validDigit base) (readBytes s.mem addr len))
    rw [List.length_append, readBytes_length] at h
    exact h
  refine ⟨?_, List.takeWhile_prefix _, fun c hc => List.mem_takeWhile_imp hc,
    takeWhile_longest _ _, by omega, ?_, validDigit_iff base, ?_⟩
  · rw [foldl_mod_digits _ _ _ hu]
    by_cases h0 : len = 0
    · subst h0
      simp only [fn_XNUMBERIN, hbi, if_false, readBytes, List.takeWhile_nil, List.length_nil,
        Nat.add_zero, Nat.sub_zero, digitsValue, List.foldl_nil, Nat.mod_eq_of_lt hu]
      rfl
    · have hpos : 0 < toInt len := by
        rw [toInt_small hl]; omega
      simp only [fn_XNUMBERIN, hbi, if_false, hpos, if_true,
        xnumberLoop_digits s.mem base hb len addr uacc ha hu]
      rw [show ((readBytes s.mem addr len).dropWhile (validDigit base)).length
        = len - ((readBytes s.mem addr len).takeWhile (validDigit base)).length by omega]
  · intro c rest1 h
    have := List.head_dropWhile_not (validDigit base) (readBytes s.mem addr len)
      (by rw [h]; exact List.cons_ne_nil _ _)
    simpa [h] using this
  · intro t
    exact callFn_XT _ .XNUMBERIN .XNUMBERIN rfl rfl

theorem XNUMBERIN_digits_witness :
    (1 ≤ 16 ∧ 16 ≤ 36 ∧ 3 < 2147483648 ∧ dictionary + 3 < 4294967296 ∧ 0 < 4294967296)
      ∧ fn_XNUMBERIN { atDigits with sp := 16 :: 3 :: dictionary :: 0 :: [7] }
          = some { atDigits with
              sp := (3 - ((readBytes atDigits.mem dictionary 3).takeWhile (validDigit 16)).length)
                :: (dictionary + ((readBytes atDigits.mem dictionary 3).takeWhile (validDigit 16)).length)
                :: ((readBytes atDigits.mem dictionary 3).takeWhile (validDigit 16)).foldl
                      (fun acc c => (acc * 16 + (digitOf c).getD 0) % 4294967296) 0
                :: [7] }
      ∧ (readBytes atDigits.mem dictionary 3).takeWhile (validDigit 16) = [49, 102]
      ∧ ((readBytes atDigits.mem dictionary 3).takeWhile (validDigit 16)).foldl
            (fun acc c => (acc * 16 + (digitOf c).getD 0) % 4294967296) 0 = 31 :=
  ⟨⟨by decide, by decide, by decide, by decide, by decide⟩,
    (XNUMBERIN_digits atDigits 0 dictionary 3 16 [7] (by decide) (by decide) (by decide) (by decide)
      (by decide)).1,
    by decide!, by decide!⟩

/-- C33: `fn_MINUSSTORE` does on every state what `fn_PLUSSTORE` does: with
`addr` on top of `n` and `addr` outside the read-only image, both pop the
two cells and store `old + n` modulo 2^32 in the cell at `addr`, where `old`
is the cell stored there before.  The words `-!` and `+!` of the dictionary
run these functions.  With 10 in the cell and `n = 3` the cell becomes 13
(not 7). -/
theorem MINUSSTORE_adds (s : Machine) :
    fn_MINUSSTORE s = fn_PLUSSTORE s
      ∧ (∀ (n addr : Nat) (rest : List Nat), romEnd ≤ addr →
          fn_MINUSSTORE { s with sp := addr :: n :: rest }
            = some { s with sp := rest,
                            mem := set32 s.mem addr ((read32 s.mem addr + n) % 4294967296) })
      ∧ (∀ (n addr : Nat) (rest : List Nat), romEnd ≤ addr →
          fn_PLUSSTORE { s with sp := addr :: n :: rest }
            = some { s with sp := rest,
                            mem := set32 s.mem addr ((read32 s.mem addr + n) % 4294967296) })
      ∧ callFn { s with w := XT .MINUSSTORE } = fn_MINUSSTORE { s with w := XT .MINUSSTORE }
      ∧ callFn { s with w := XT .PLUSSTORE } = fn_PLUSSTORE { s with w := XT .PLUSSTORE }
      ∧ (fn_MINUSSTORE (atInterpret (set32 initMem dictionary 10) [dictionary, 3, 7] [])).map
            (fun t => (read32 t.mem dictionary, t.sp)) = some (13, [7]) := by
  refine ⟨rfl, ?_, ?_, callFn_XT _ .MINUSSTORE .MINUSSTORE rfl rfl,
    callFn_XT _ .PLUSSTORE .PLUSSTORE rfl rfl, by decide!⟩
  · intro n addr rest h
    simp only [fn_MINUSSTORE, write32_ram _ _ h, Option.map_some']
  · intro n addr rest h
    simp only [fn_PLUSSTORE, write32_ram _ _ h, Option.map_some']

/-- C34: with a base below 1 or above 36 (as a signed number)
`fn_XNUMBERIN` pops the base and nothing else, so `uacc`, `addr` and `len`
stay as its result; `fn_NUMBERIN` then leaves the value 0, the address after
an optional sign character and the length of the string after that
character, and so does `NUMBER` (without the address) when `BASE` holds such
a base.  A string that is not empty and does not start with a sign has all
of its length unparsed. -/
theorem BASE_range_check (s : Machine) (base uacc addr len : Nat) (rest : List Nat)
    (hbase : toInt base < 1 ∨ 36 < toInt base) :
    fn_XNUMBERIN { s with sp := base :: len :: addr :: uacc :: rest }
        = some { s with sp := len :: addr :: uacc :: rest }
      ∧ callFn { s with w := XT .XNUMBERIN, sp := base :: len :: addr :: uacc :: rest }
          = some { s with w := XT .XNUMBERIN, sp := len :: addr :: uacc :: rest }
      ∧ fn_NUMBERIN { s with sp := base :: len :: addr :: rest }
          = some { s with
              sp := (if read8 s.mem addr = 45 ∨ read8 s.mem addr = 43
                      then (len + 4294967295) % 4294967296 else len)
                :: (if read8 s.mem addr = 45 ∨ read8 s.mem addr = 43
                      then (addr + 1) % 4294967296 else addr)
                :: 0 :: rest }
      ∧ (read32 s.mem BASE_value = base →
          andThen (callFn { s with w := XT .NUMBER, sp := len :: addr :: rest }) 6
            = some { s with
                sp := (if read8 s.mem addr = 45 ∨ read8 s.mem addr = 43
                        then (len + 4294967295) % 4294967296 else len) :: 0 :: rest,
                w := XT .EXIT })
      ∧ (¬ (read8 s.mem addr = 45 ∨ read8 s.mem addr = 43) → len ≠ 0 →
          (if read8 s.mem addr = 45 ∨ read8 s.mem addr = 43
            then (len + 4294967295) % 4294967296 else len) ≠ 0) := by
  obtain ⟨m, sp, rsp, ip, w, inp, li, out⟩ := s
  have e1 : ∀ w0, fn_XNUMBERIN ⟨m, base :: len :: addr :: uacc :: rest, rsp, ip, w0, inp, li, out⟩
      = some ⟨m, len :: addr :: uacc :: rest, rsp, ip, w0, inp, li, out⟩ := by
    intro w0
    simp only [fn_XNUMBERIN, hbase, if_true]
  have hz : ∀ sign : Int, ofInt (toInt 0 * sign) = 0 := by
    intro sign
    have : toInt 0 = 0 := by decide
    rw [this, Int.zero_mul]
    rfl
  have hn : numberIn m base len addr
      = (0, (if read8 m addr = 45 ∨ read8 m addr = 43 then (addr + 1) % 4294967296 else addr),
          (if read8 m addr = 45 ∨ read8 m addr = 43 then (len + 4294967295) % 4294967296 else len)) := by
    unfold numberIn
    simp only [hbase, if_true, hz]
  refine ⟨e1 w, ?_, ?_, ?_, ?_⟩
  · rw [callFn_XT _ .XNUMBERIN .XNUMBERIN rfl rfl]
    exact e1 _
  · simp only [fn_NUMBERIN_eq, hn]
  · intro hB
    simp only at hB
    rw [number_run, hB, hn]
  · intro h1 h2
    simp only at h1
    simp only [h1, if_false]
    exact h2

theorem BASE_range_check_witness :
    (toInt 37 < 1 ∨ 36 < toInt 37)
      ∧ fn_XNUMBERIN { atDigits with sp := 37 :: 3 :: dictionary :: 0 :: [7] }
          = some { atDigits with sp := 3 :: dictionary :: 0 :: [7] }
      ∧ fn_NUMBERIN { atDigits with sp := 37 :: 3 :: dictionary :: [7] }
          = some { atDigits with
              sp := (if read8 atDigits.mem dictionary = 45 ∨ read8 atDigits.mem dictionary = 43
                      then (3 + 4294967295) % 4294967296 else 3)
                :: (if read8 atDigits.mem dictionary = 45 ∨ read8 atDigits.mem dictionary = 43
                      then (dictionary + 1) % 4294967296 else dictionary)
                :: 0 :: [7] } :=
  ⟨by decide, (BASE_range_check atDigits 37 0 dictionary 3 [7] (by decide)).1,
    (BASE_range_check atDigits 37 0 dictionary 3 [7] (by decide)).2.2.1⟩

theorem takeWhile_append_stop (p : Nat → Bool) (ds : List Nat) (c : Nat) (tl : List Nat)
    (h1 : ∀ d ∈ ds, p d = true) (h2 : p c = false) :
    (ds ++ c :: tl).takeWhile p = ds ∧ (ds ++ c :: tl).dropWhile p = c :: tl := by
  induction ds with
  | nil => simp [List.takeWhile_cons, List.dropWhile_cons, h2]
  | cons d ds ih =>
      have hd := h1 d (List.mem_cons_self _ _)
      obtain ⟨i1, i2⟩ := ih (fun x hx => h1 x (List.mem_cons_of_mem _ hx))
      simp only [List.cons_append, List.takeWhile_cons, List.dropWhile_cons, hd, if_true, i1, i2,
        and_self]

/-- C39: in a base from 1 to 36, `fn_NUMBERIN` on a string of one character
that is `+` or `-` leaves the value 0 and the unparsed length 0 (with the
address after the character); on a string that is `-`, then digits of the
base, then a character that is not such a digit, it leaves the negation of
the number that the digits denote, as a cell, with the address of that
character and the number of characters from it to the end of the string. -/
theorem NUMBERIN_bare_sign (s : Machine) (base addr : Nat) (rest : List Nat) (hb1 : 1 ≤ base)
    (hb : base ≤ 36) :
    (addr + 1 < 4294967296 → (read8 s.mem addr = 43 ∨ read8 s.mem addr = 45) →
        fn_NUMBERIN { s with sp := base :: 1 :: addr :: rest }
          = some { s with sp := 0 :: (addr + 1) :: 0 :: rest })
      ∧ (∀ (len : Nat) (digits : List Nat) (c : Nat) (tl : List Nat),
          len < 2147483648 → addr + len < 4294967296 → read8 s.mem addr = 45 →
          1 ≤ len → readBytes s.mem (addr + 1) (len - 1) = digits ++ c :: tl →
          (∀ d ∈ digits, validDigit base d = true) → validDigit base c = false →
          fn_NUMBERIN { s with sp := base :: len :: addr :: rest }
            = some { s with
                sp := (tl.length + 1) :: (addr + 1 + digits.length)
                  :: ofInt (-(digitsValue base 0 digits : Nat)) :: rest })
      ∧ (∀ t : Machine, callFn { t with w := XT .NUMBERIN } = fn_NUMBERIN { t with w := XT .NUMBERIN }) := by
  obtain ⟨m, sp, rsp, ip, w, inp, li, out⟩ := s
  refine ⟨?_, ?_, fun t => callFn_XT _ .NUMBERIN .NUMBERIN rfl rfl⟩
  · intro ha hsign
    simp only at hsign
    obtain ⟨d1, d2⟩ := numberIn_digits m base 1 addr hb1 hb (Nat.le_refl 1) (by decide) ha
    obtain ⟨_, s2⟩ := numberIn_spec m base 1 addr (Nat.le_refl 1) (by decide) ha
    have hs : read8 m addr = 45 ∨ read8 m addr = 43 := hsign.symm
    rw [if_pos hs] at d1 d2
    simp only [Nat.sub_self, readBytes, List.dropWhile_nil, List.takeWhile_nil,
      List.length_nil, digitsValue, List.foldl_nil] at d1 d2
    have d2' : (numberIn m base 1 addr).1 = 0 := by
      rw [d2]
      by_cases h : read8 m addr = 45
      · rw [if_pos h]; rfl
      · rw [if_neg h]; rfl
    have ha2 : (numberIn m base 1 addr).2.1 = addr + 1 := by omega
    simp only [fn_NUMBERIN_eq, d1, d2', ha2]
  · intro len digits c tl hl ha hminus hlen hbytes hdig hc
    simp only at hminus hbytes
    obtain ⟨d1, d2⟩ := numberIn_digits m base len addr hb1 hb hlen hl ha
    obtain ⟨_, s2⟩ := numberIn_spec m base len addr hlen hl ha
    obtain ⟨t1, t2⟩ := takeWhile_append_stop (validDigit base) digits c tl hdig hc
    have hs : read8 m addr = 45 ∨ read8 m addr = 43 := Or.inl hminus
    rw [if_pos hs, hbytes] at d1 d2
    rw [if_pos hminus, t1] at d2
    rw [t2, List.length_cons] at d1
    have hlen2 := congrArg List.length hbytes
    rw [readBytes_length, List.length_append, List.length_cons] at hlen2
    have ha2 : (numberIn m base len addr).2.1 = addr + 1 + digits.length := by omega
    simp only [fn_NUMBERIN_eq, d1, d2, ha2, Int.neg_mul, Int.one_mul]

theorem NUMBERIN_bare_sign_witness :
    (1 ≤ 10 ∧ 10 ≤ 36)
      ∧ fn_NUMBERIN { atMinus with sp := 10 :: 1 :: dictionary :: [7] }
          = some { atMinus with sp := 0 :: (dictionary + 1) :: 0 :: [7] }
      ∧ fn_NUMBERIN { atMinus with sp := 10 :: 4 :: dictionary :: [7] }
          = some { atMinus with
              sp := (([] : List Nat).length + 1) :: (dictionary + 1 + [49, 50].length)
                :: ofInt (-(digitsValue 10 0 [49, 50] : Nat)) :: [7] }
      ∧ ofInt (-(digitsValue 10 0 [49, 50] : Nat)) = 4294967284
      ∧ toInt 4294967284 = -12 :=
  ⟨⟨by decide, by decide⟩,
    (NUMBERIN_bare_sign atMinus 10 dictionary [7] (by decide) (by decide)).1 (by decide) (by decide!),
    (NUMBERIN_bare_sign atMinus 10 dictionary [7] (by decide) (by decide)).2.1 4 [49, 50] 120 []
      (by decide) (by decide) (by decide!) (by decide) (by decide!) (by decide) (by decide),
    by decide!, by decide⟩

/-- C40 holds for the counts 0, 1 and 2 and fails from 3 on: `APPLY_3`
appends `m(1,d)` where `m(2,d)` is due (and `APPLY_4`, `APPLY_5`, `APPLY_13`,
`APPLY_14`, `APPLY_15` are one or two behind in the same way), so
`APPLY(3,m,d)` is `m(0,d) m(1,d) m(1,d)` and no count from 3 to 19 gives the
indices 0 to `count - 1`.  For the literal `ABCDEFGHIJKLM` (13 characters,
`quot = 3`, `rem = 2`) `STRING_Q_R` lays out the cells of `ABCD`, `EFGH`,
`EFGH` and `M`, while the bytes of the literal make the cells of `ABCD`,
`EFGH`, `IJKL` and `M`. -/
theorem APPLY_indices :
    (∀ count, count ≤ 2 → APPLY (fun i (_ : Unit) => i) () count = some (List.range count))
      ∧ APPLY (fun i (_ : Unit) => i) () 3 = some [0, 1, 1]
      ∧ (∀ count, 3 ≤ count → count ≤ 19 →
          APPLY (fun i (_ : Unit) => i) () count ≠ some (List.range count))
      ∧ APPLY (fun i (_ : Unit) => i) () 19
          = some [0, 1, 1, 2, 3, 5, 6, 7, 8, 9, 10, 11, 11, 12, 13, 15, 16, 17, 18]
      ∧ STRING_Q_R (strBytes "ABCDEFGHIJKLM" ++ [0]) 3 2
          = some [CELL32 65 66 67 68, CELL32 69 70 71 72, CELL32 69 70 71 72, CELL32 77 0 0 0]
      ∧ cellsOfBytes (strBytes "ABCDEFGHIJKLM" ++ [0])
          = [CELL32 65 66 67 68, CELL32 69 70 71 72, CELL32 73 74 75 76, CELL32 77 0 0 0] := by
  refine ⟨by decide, by decide, by decide, by decide, by decide, by decide⟩

theorem LINK_eq (w : Word) : LINK w = 134545408 + 256 * w.toCtorIdx := rfl

theorem romByte_LINK (w : Word) (o : Nat) (ho : o < 8) :
    inRom (LINK w + o) = true ∧ romByte (LINK w + o) = (headerBytes w).getD o 0 := by
  have hh := headerSize_forthName w
  have hi := toCtorIdx_lt w
  constructor
  · simp only [inRom, romEnd, Bool.and_eq_true, decide_eq_true_eq, LINK_eq, romBase]
    omega
  · have h1 : (LINK w + o) % 65536 / 256 = w.toCtorIdx := by
      rw [LINK_eq]; omega
    have h2 : (LINK w + o) % 256 = o := by
      rw [LINK_eq]; omega
    unfold romByte
    rw [h1, h2, wordAt_toCtorIdx]
    simp only [entryByte]
    rw [if_pos (by omega)]

theorem headerBytes_facts (w : Word) :
    (headerBytes w).getD 4 0 &&& LENGTH_BITS = (strBytes (forthName w)).length
      ∧ 1 ≤ (strBytes (forthName w)).length ∧ (strBytes (forthName w)).length ≤ 63
      ∧ (headerBytes w).getD 0 0 + 256 * (headerBytes w).getD 1 0 + 65536 * (headerBytes w).getD 2 0
          + 16777216 * (headerBytes w).getD 3 0 = linkInit w
      ∧ (headerBytes w).getD 4 0 = lengthInit w % 256 := by
  cases w <;> decide!

theorem read8_LINK_length (m : Nat → Nat) (w : Word) :
    read8 m (LINK w + 4) = lengthInit w % 256 := by
  obtain ⟨h1, h2⟩ := romByte_LINK w 4 (by decide)
  simp only [read8, h1, if_true, h2, (headerBytes_facts w).2.2.2.2]

theorem read32_LINK (m : Nat → Nat) (w : Word) : read32 m (LINK w) = linkInit w := by
  have b0 := romByte_LINK w 0 (by decide)
  have b1 := romByte_LINK w 1 (by decide)
  have b2 := romByte_LINK w 2 (by decide)
  have b3 := romByte_LINK w 3 (by decide)
  simp only [Nat.add_zero] at b0
  simp only [read32, read8, b0.1, b1.1, b2.1, b3.1, if_true, b0.2, b1.2, b2.2, b3.2]
  exact (headerBytes_facts w).2.2.2.1

theorem headerSize_roundup (n : Nat) :
    headerSize n = (n + 6 + 3) / 4 * 4 ∧ headerSize n % 4 = 0 ∧ n + 6 ≤ headerSize n
      ∧ headerSize n < n + 6 + 4 := by
  unfold headerSize
  omega

/-- C37: for every entry of the hand-compiled dictionary, whatever macro
defines it: the name has 1 to 63 characters, the `codeWord` field is
`headerSize n` bytes after the link field, which is `n + 6` rounded up to a
multiple of 4, the length byte of the image masked with `LENGTH_BITS` is
`n`, and `>CFA` applied to `LINK(label)` returns `XT(label)` after 15 rounds
of `NEXT()`.  For any entry with a cell-aligned link field whose length
byte masked with `LENGTH_BITS` is `n` (so with any flag bits), such as one
made by `CREATE`, `>CFA` computes the link field address plus
`headerSize n`. -/
theorem STATIC_HEADER_TOCFA (label : Word) (s : Machine) (rest : List Nat) :
    1 ≤ (strBytes (forthName label)).length ∧ (strBytes (forthName label)).length ≤ 63
      ∧ XT label = LINK label + headerSize (strBytes (forthName label)).length
      ∧ headerSize (strBytes (forthName label)).length
          = ((strBytes (forthName label)).length + 6 + 3) / 4 * 4
      ∧ read8 s.mem (LINK label + 4) = lengthInit label % 256
      ∧ read8 s.mem (LINK label + 4) &&& LENGTH_BITS = (strBytes (forthName label)).length
      ∧ toCFA s.mem (LINK label) = XT label
      ∧ andThen (callFn { s with w := XT .TOCFA, sp := LINK label :: rest }) 15
          = some { s with w := XT .EXIT, sp := XT label :: rest }
      ∧ (∀ (mem : Nat → Nat) (lfa n : Nat), n ≤ 63 → lfa % 4 = 0 → lfa + 80 < 4294967296 →
          read8 mem (lfa + 4) &&& LENGTH_BITS = n → toCFA mem lfa = lfa + headerSize n) := by
  obtain ⟨f1, f2, f3, _, f5⟩ := headerBytes_facts label
  have hlen : read8 s.mem (LINK label + 4) &&& LENGTH_BITS = (strBytes (forthName label)).length := by
    rw [read8_LINK_length, ← f5, f1]
  have hgen : ∀ (mem : Nat → Nat) (lfa n : Nat), n ≤ 63 → lfa % 4 = 0 → lfa + 80 < 4294967296 →
      read8 mem (lfa + 4) &&& LENGTH_BITS = n → toCFA mem lfa = lfa + headerSize n := by
    intro mem lfa n hn hal hfit h
    rw [toCFA_eq mem lfa n h hfit]
    unfold headerSize
    omega
  have hi := toCtorIdx_lt label
  have hcfa : toCFA s.mem (LINK label) = XT label := by
    rw [hgen s.mem (LINK label) _ f3 (by rw [LINK_eq]; omega) (by rw [LINK_eq]; omega) hlen]
    unfold XT
    rfl
  refine ⟨f2, f3, by unfold XT; rfl, (headerSize_roundup _).1, read8_LINK_length _ _, hlen, hcfa, ?_, hgen⟩
  obtain ⟨m, sp, rsp, ip, w, inp, li, out⟩ := s
  have hne : LINK label ≠ 0 := by rw [LINK_eq]; omega
  have := tocfa_run m rest rsp ip inp li out (LINK label) hne
  simp only at hcfa
  rw [hcfa] at this
  exact this

theorem ram_HERE : romEnd ≤ HERE_value := by decide

/-- C35 as amended: with `HERE` in the array `dictionary` and room for a
cell (`dictionary ≤ HERE` and `HERE + 4 ≤ dictionary + DICTIONARY_SIZE`),
`,` moves `HERE` on by 4 and `C,` by 1; `CREATE`, called from a thread on a
token of `len` bytes with `HERE + len + 9 ≤ dictionary + DICTIONARY_SIZE`,
sets `HERE` to `HERE + len + 9` rounded down to a multiple of 4, which is
not below the old value.  `ALLOT` sets `HERE` to `(HERE + n)` modulo 2^32
for its argument `n`: for a cell `n` the new `HERE` is not below the old one
exactly when `HERE + n < 2^32`; so it is not below for a signed `n ≥ 0` with
`HERE + n < 2^32`, and it is below for a negative signed `n` with
`0 ≤ HERE + n`. -/
theorem HERE_grows (s : Machine) (here : Nat) (hH : read32 s.mem HERE_value = here)
    (hlo : dictionary ≤ here) (hhi : here + 4 ≤ dictionary + DICTIONARY_SIZE) :
    (∀ (v : Nat) (rest : List Nat), ∃ m1,
        andThen (callFn { s with w := XT .COMMA, sp := v :: rest }) 9
            = some { s with w := XT .EXIT, sp := rest, mem := m1 }
          ∧ read32 m1 HERE_value = here + 4)
      ∧ (∀ (v : Nat) (rest : List Nat), ∃ m1,
        andThen (callFn { s with w := XT .CCOMMA, sp := v :: rest }) 9
            = some { s with w := XT .EXIT, sp := rest, mem := m1 }
          ∧ read32 m1 HERE_value = here + 1)
      ∧ (∀ (n : Nat) (rest : List Nat), ∃ m1,
        andThen (callFn { s with w := XT .ALLOT, sp := n :: rest }) 3
            = some { s with w := XT .EXIT, sp := rest, mem := m1 }
          ∧ read32 m1 HERE_value = (here + n) % 4294967296
          ∧ (n < 4294967296 → (here ≤ read32 m1 HERE_value ↔ here + n < 4294967296))
          ∧ (0 ≤ toInt n → here + n < 4294967296 → here ≤ read32 m1 HERE_value)
          ∧ (toInt n < 0 → 0 ≤ (here : Int) + toInt n → read32 m1 HERE_value < here))
      ∧ (∀ (len li1 : Nat) (mw : Nat → Nat), read32 s.mem s.ip = XT .CREATE →
          readWord s.input s.lineIndex s.mem = some (len, li1, mw) →
          here + len + 9 ≤ dictionary + DICTIONARY_SIZE →
          ∃ s1, steps 71 s = some s1
            ∧ read32 s1.mem HERE_value = (here + len + 9) / 4 * 4
            ∧ here ≤ read32 s1.mem HERE_value) := by
  obtain ⟨m, sp, rsp, ip, w, inp, li, out⟩ := s
  simp only at hH
  have hd : dictionary = 134615040 := rfl
  have hds : DICTIONARY_SIZE = 8192 := rfl
  have hHv : HERE_value = 134610956 := rfl
  have hW : word = 134610976 := rfl
  refine ⟨?_, ?_, ?_, ?_⟩
  · intro v rest
    refine ⟨_, comma_run m rest rsp ip inp li out v (by rw [hH]; exact hlo) (by rw [hH]; exact hhi), ?_⟩
    rw [read32_set32_same _ _ ram_HERE, hH]
    omega
  · intro v rest
    refine ⟨_, ccomma_run m rest rsp ip inp li out v (by rw [hH]; exact hlo) (by rw [hH]; omega), ?_⟩
    rw [read32_set32_same _ _ ram_HERE, hH]
    omega
  · intro n rest
    refine ⟨_, allot_run m rest rsp ip inp li out n, ?_, ?_, ?_, ?_⟩
    · rw [read32_set32_same _ _ ram_HERE, hH, Nat.mod_mod]
    · intro hn
      rw [read32_set32_same _ _ ram_HERE, hH, Nat.mod_mod]
      constructor
      · intro h
        omega
      · intro h
        rw [Nat.mod_eq_of_lt h]
        omega
    · intro h0 hfit
      rw [read32_set32_same _ _ ram_HERE, hH, Nat.mod_mod, Nat.mod_eq_of_lt hfit]
      omega
    · intro hneg hfit
      rw [read32_set32_same _ _ ram_HERE, hH, Nat.mod_mod]
      unfold toInt at hneg hfit
      split at hneg <;> omega
  · intro len li1 mw hcall hword hfit
    simp only at hcall hword
    obtain ⟨hl1, hl2, hframe⟩ := readWord_spec inp li m len li1 mw hword
    have eH : read32 mw HERE_value = here := by
      rw [← hH]
      exact read32_congr _ _ _ fun k hk => hframe _ (by omega)
    obtain ⟨_, _, c3, _⟩ := createMem_spec mw here len hlo hfit hl1 hl2
    refine ⟨_, create_run m sp rsp ip w inp li out len li1 mw here hcall hword eH hlo hfit, c3, ?_⟩
    rw [c3]
    omega

theorem HERE_grows_witness :
    (read32 atCreate.mem HERE_value = dictionary ∧ dictionary ≤ dictionary
        ∧ dictionary + 4 ≤ dictionary + DICTIONARY_SIZE)
      ∧ (∃ m1, andThen (callFn { atCreate with w := XT .COMMA, sp := 65 :: [7] }) 9
            = some { atCreate with w := XT .EXIT, sp := [7], mem := m1 }
          ∧ read32 m1 HERE_value = dictionary + 4)
      ∧ (∃ m1, andThen (callFn { atCreate with w := XT .ALLOT, sp := 12 :: [7] }) 3
            = some { atCreate with w := XT .EXIT, sp := [7], mem := m1 }
          ∧ read32 m1 HERE_value = (dictionary + 12) % 4294967296
          ∧ (12 < 4294967296 → (dictionary ≤ read32 m1 HERE_value ↔ dictionary + 12 < 4294967296))
          ∧ (0 ≤ toInt 12 → dictionary + 12 < 4294967296 → dictionary ≤ read32 m1 HERE_value)
          ∧ (toInt 12 < 0 → 0 ≤ (dictionary : Int) + toInt 12 → read32 m1 HERE_value < dictionary))
      ∧ (∃ s1, steps 71 atCreate = some s1
          ∧ read32 s1.mem HERE_value = (dictionary + 6 + 9) / 4 * 4
          ∧ dictionary ≤ read32 s1.mem HERE_value) :=
  ⟨⟨by decide!, by decide, by decide⟩,
    (HERE_grows atCreate dictionary (by decide!) (by decide) (by decide)).1 65 [7],
    (HERE_grows atCreate dictionary (by decide!) (by decide) (by decide)).2.2.1 12 [7],
    (HERE_grows atCreate dictionary (by decide!) (by decide) (by decide)).2.2.2 6 6
      (wordMem (strBytes "SQUARE ") 0 initMem) (by decide!) (readWord_eq _ _ _ _ _ (by decide!))
      (by decide)⟩

theorem HERE_grows_counterexample :
    read32 (atInterpret initMem [4294967292, 7] []).mem HERE_value = dictionary
      ∧ toInt 4294967292 = -4
      ∧ (andThen (callFn { atInterpret initMem [4294967292, 7] [] with w := XT .ALLOT }) 3).map
          (fun t => (read32 t.mem HERE_value, t.sp)) = some (dictionary - 4, [7])
      ∧ dictionary - 4 < dictionary := by
  decide!

theorem linkChain_congr (m m1 : Nat → Nat) : ∀ (fuel link : Nat) (entries : List Nat),
    linkChain m fuel link = some entries → (∀ e ∈ entries, read32 m1 e = read32 m e) →
    linkChain m1 fuel link = some entries := by
  intro fuel
  induction fuel with
  | zero =>
      intro link entries h _
      simp only [linkChain] at h
      exact absurd h (by simp)
  | succ fuel ih =>
      intro link entries h hk
      simp only [linkChain] at h ⊢
      by_cases h0 : link = 0
      · rw [if_pos h0] at h ⊢
        exact h
      · rw [if_neg h0] at h ⊢
        cases hr : linkChain m fuel (read32 m link) with
        | none => rw [hr] at h; exact absurd h (by simp)
        | some rest =>
            rw [hr] at h
            simp only [Option.map_some', Option.some.injEq] at h
            subst h
            rw [hk link (List.mem_cons_self _ _),
              ih (read32 m link) rest hr (fun e he => hk e (List.mem_cons_of_mem _ he))]
            rfl

theorem linkChain_cons (m : Nat → Nat) (fuel link : Nat) (entries : List Nat) (h0 : link ≠ 0)
    (h : linkChain m fuel (read32 m link) = some entries) :
    linkChain m (fuel + 1) link = some (link :: entries) := by
  simp only [linkChain, if_neg h0, h, Option.map_some']

theorem kept_readWord (input : List Nat) (li : Nat) (m : Nat → Nat) (len li1 : Nat) (mw : Nat → Nat)
    (hword : readWord input li m = some (len, li1, mw)) (here e : Nat) (hk : linkKept here e) :
    read32 mw e = read32 m e := by
  obtain ⟨_, _, hframe⟩ := readWord_spec input li m len li1 mw hword
  have hW : word = 134610976 := rfl
  have hre : romEnd = 134582016 := rfl
  have hd : dictionary = 134615040 := rfl
  obtain ⟨_, h2⟩ := hk
  exact read32_congr _ _ _ fun k hk => hframe _ (by omega)

theorem kept_cell (m : Nat → Nat) (here e v : Nat) (hk : linkKept here e)
    (hH : here + 4 ≤ read32 m HERE_value) :
    read32 (set32 (set32 m (read32 m HERE_value) v) HERE_value (read32 m HERE_value + 4)) e
      = read32 m e := by
  have hHv : HERE_value = 134610956 := rfl
  have hre : romEnd = 134582016 := rfl
  have hd : dictionary = 134615040 := rfl
  obtain ⟨h1, h2⟩ := hk
  rw [read32_set32_ne _ _ (by omega), read32_set32_ne _ _ (by omega)]

theorem kept_Compiled (m m1 : Nat → Nat) (here : Nat) (hc : Compiled m m1)
    (hroom : here + 4 ≤ read32 m HERE_value) :
    here + 4 ≤ read32 m1 HERE_value ∧ ∀ e, linkKept here e → read32 m1 e = read32 m e := by
  induction hc with
  | start => exact ⟨hroom, fun _ _ => rfl⟩
  | token ma mb input li len li1 hcomp hword ih =>
      obtain ⟨i1, i2⟩ := ih
      have hHv : HERE_value = 134610956 := rfl
      have hW : word = 134610976 := rfl
      obtain ⟨_, _, hframe⟩ := readWord_spec input li ma len li1 mb hword
      have eH : read32 mb HERE_value = read32 ma HERE_value :=
        read32_congr _ _ _ fun k hk => hframe _ (by omega)
      refine ⟨by rw [eH]; exact i1, fun e he => ?_⟩
      rw [kept_readWord input li ma len li1 mb hword here e he]
      exact i2 e he
  | cell ma v hcomp hfit ih =>
      obtain ⟨i1, i2⟩ := ih
      refine ⟨?_, fun e he => ?_⟩
      · have hd : dictionary = 134615040 := rfl
        have hds : DICTIONARY_SIZE = 8192 := rfl
        rw [read32_set32_same _ _ ram_HERE, Nat.mod_eq_of_lt (by omega)]
        omega
      · rw [kept_cell ma here e v he i1]
        exact i2 e he

theorem kept_colonMem (mw : Nat → Nat) (here len : Nat) (hlo : dictionary ≤ here)
    (hfit : here + len + 13 ≤ dictionary + DICTIONARY_SIZE) (hl1 : 1 ≤ len) (hl2 : len ≤ 31) :
    read32 (colonMem mw here len) here = read32 mw LATEST_value
      ∧ here + 4 ≤ read32 (colonMem mw here len) HERE_value
      ∧ ∀ e, linkKept here e → e ≠ here → read32 (colonMem mw here len) e = read32 mw e := by
  have hHv : HERE_value = 134610956 := rfl
  have hL : LATEST_value = 134610952 := rfl
  have hS : STATE_value = 134610948 := rfl
  have hre : romEnd = 134582016 := rfl
  have hd : dictionary = 134615040 := rfl
  have hds : DICTIONARY_SIZE = 8192 := rfl
  obtain ⟨c1, _, _, _, _, _, _, _, c9⟩ := createMem_spec mw here len hlo (by omega) hl1 hl2
  obtain ⟨_, _, _, s4⟩ := colonMem_spec mw here len hlo hfit hl1 hl2
  have hcfa := toCFA_aligned (colonMem mw here len) here
  have key : ∀ e, linkKept here e →
      read32 (colonMem mw here len) e = read32 (createMem mw here len) e := by
    intro e he
    obtain ⟨h1, h2⟩ := he
    unfold colonMem
    rw [read32_set32_ne _ _ (by omega), read32_set8_ne _ _ (by omega), read32_set32_ne _ _ (by omega),
      read32_set32_ne _ _ (by omega)]
  refine ⟨?_, ?_, ?_⟩
  · rw [key here ⟨Or.inr rfl, Or.inr hlo⟩, c1]
  · have hdf := (colonMem_spec mw here len hlo hfit hl1 hl2).1
    unfold Defining at hdf
    rw [s4]
    have : here + 4 < read32 (colonMem mw here len) HERE_value := hdf.2.2.2.2.1
    rw [s4] at this
    omega
  · intro e he hne
    rw [key e he]
    obtain ⟨h1, h2⟩ := he
    exact c9 e (by omega) (by omega)

theorem kept_semicolonMem (m : Nat → Nat) (here : Nat) (hdef : Defining m here)
    (hroom : here + 4 ≤ read32 m HERE_value) :
    read32 (semicolonMem m) LATEST_value = here
      ∧ ∀ e, linkKept here e → read32 (semicolonMem m) e = read32 m e := by
  have hHv : HERE_value = 134610956 := rfl
  have hL : LATEST_value = 134610952 := rfl
  have hS : STATE_value = 134610948 := rfl
  have hre : romEnd = 134582016 := rfl
  have hd : dictionary = 134615040 := rfl
  have hlat : read32 m LATEST_value = here := hdef.1
  refine ⟨?_, ?_⟩
  · unfold semicolonMem
    have := hdef.2.2.2.1
    rw [read32_set32_ne _ _ (by omega), read32_set8_ne _ _ (by omega), read32_set32_ne _ _ (by omega),
      read32_set32_ne _ _ (by omega), hlat]
  · intro e he
    obtain ⟨h1, h2⟩ := he
    unfold semicolonMem
    rw [read32_set32_ne _ _ (by omega), read32_set8_ne _ _ (by omega), read32_set32_ne _ _ (by omega),
      read32_set32_ne _ _ (by omega)]

/-- C36: let the chain from `LATEST` be the list `entries`, ending at the
null link, of distinct link fields that lie below `HERE`, in the read-only
image or in the array `dictionary`, and let the next token have `len` bytes.
After `CREATE` (71 rounds of `NEXT()`), and after `:` (95 rounds), any
compiling (`Compiled`) and `;` (24 rounds), `LATEST` is the old `HERE` and
the chain from `LATEST` is the old `HERE` followed by `entries`: it ends
at the null link, no entry is 0 and no entry occurs twice. -/
theorem LINK_chain_preserved (s : Machine) (fuel : Nat) (entries : List Nat) (here len li1 : Nat)
    (mw : Nat → Nat)
    (hchain : linkChain s.mem fuel (read32 s.mem LATEST_value) = some entries)
    (hnodup : entries.Nodup)
    (hH : read32 s.mem HERE_value = here) (hlo : dictionary ≤ here)
    (habove : ∀ e ∈ entries, e + 4 ≤ here ∧ (e + 4 ≤ romEnd ∨ dictionary ≤ e))
    (hword : readWord s.input s.lineIndex s.mem = some (len, li1, mw)) :
    (read32 s.mem s.ip = XT .CREATE → here + len + 9 ≤ dictionary + DICTIONARY_SIZE →
        ∃ s1, steps 71 s = some s1 ∧ read32 s1.mem LATEST_value = here
          ∧ linkChain s1.mem (fuel + 1) (read32 s1.mem LATEST_value) = some (here :: entries))
      ∧ (here + len + 13 ≤ dictionary + DICTIONARY_SIZE →
        ∃ s1, andThen (callFn { s with w := XT .COLON }) 95 = some s1
          ∧ ∀ t : Machine, Compiled s1.mem t.mem →
              read32 t.mem HERE_value + 4 ≤ dictionary + DICTIONARY_SIZE →
              ∃ t1, andThen (callFn { t with w := XT .SEMICOLON }) 24 = some t1
                ∧ read32 t1.mem LATEST_value = here
                ∧ linkChain t1.mem (fuel + 1) (read32 t1.mem LATEST_value) = some (here :: entries))
      ∧ (here :: entries).Nodup
      ∧ (∀ e ∈ here :: entries, e ≠ 0) := by
  obtain ⟨m, sp, rsp, ip, w, inp, li, out⟩ := s
  simp only at hchain hH hword ⊢
  have hHv : HERE_value = 134610956 := rfl
  have hL : LATEST_value = 134610952 := rfl
  have hW : word = 134610976 := rfl
  have hre : romEnd = 134582016 := rfl
  have hd : dictionary = 134615040 := rfl
  have hds : DICTIONARY_SIZE = 8192 := rfl
  obtain ⟨hl1, hl2, hframe⟩ := readWord_spec inp li m len li1 mw hword
  have eH : read32 mw HERE_value = here := by
    rw [← hH]
    exact read32_congr _ _ _ fun k hk => hframe _ (by omega)
  have eL : read32 mw LATEST_value = read32 m LATEST_value :=
    read32_congr _ _ _ fun k hk => hframe _ (by omega)
  have hkept : ∀ e ∈ entries, linkKept here e ∧ e ≠ here := by
    intro e he
    obtain ⟨a1, a2⟩ := habove e he
    exact ⟨⟨Or.inl a1, a2⟩, by omega⟩
  have hw : ∀ e ∈ entries, read32 mw e = read32 m e := fun e he =>
    kept_readWord inp li m len li1 mw hword here e (hkept e he).1
  have hne : here ≠ 0 := by omega
  refine ⟨?_, ?_, ?_, ?_⟩
  · intro hcall hfit
    obtain ⟨c1, c2, _, _, _, _, _, _, c9⟩ := createMem_spec mw here len hlo hfit hl1 hl2
    refine ⟨_, create_run m sp rsp ip w inp li out len li1 mw here hcall hword eH hlo hfit, c2, ?_⟩
    simp only
    rw [c2]
    apply linkChain_cons _ _ _ _ hne
    rw [c1, eL]
    apply linkChain_congr m _ fuel _ entries hchain
    intro e he
    obtain ⟨a1, a2⟩ := habove e he
    rw [c9 e (Or.inl a1) (by omega)]
    exact hw e he
  · intro hfit
    obtain ⟨k1, k2, k3⟩ := kept_colonMem mw here len hlo hfit hl1 hl2
    have hdef := (colonMem_spec mw here len hlo hfit hl1 hl2).1
    refine ⟨_, colon_run m sp rsp ip w inp li out len li1 mw here hword eH hlo hfit, ?_⟩
    intro t hcomp hroom
    obtain ⟨tm, tsp, trsp, tip, tw, tinp, tli, tout⟩ := t
    simp only at hcomp hroom ⊢
    obtain ⟨q1, q2⟩ := kept_Compiled _ tm here hcomp k2
    have hdef2 := Defining_Compiled _ tm here hcomp hdef
    obtain ⟨r1, r2⟩ := kept_semicolonMem tm here hdef2 q1
    refine ⟨_, semicolon_run tm tsp trsp tip tw tinp tli tout here hdef2 hroom, r1, ?_⟩
    simp only
    rw [r1]
    apply linkChain_cons _ _ _ _ hne
    rw [r2 here ⟨Or.inr rfl, Or.inr hlo⟩, q2 here ⟨Or.inr rfl, Or.inr hlo⟩, k1, eL]
    apply linkChain_congr m _ fuel _ entries hchain
    intro e he
    obtain ⟨a1, a2⟩ := hkept e he
    rw [r2 e a1, q2 e a1, k3 e a1 a2]
    exact hw e he
  · rw [List.nodup_cons]
    refine ⟨fun hmem => ?_, hnodup⟩
    have := (habove here hmem).1
    omega
  · intro e he
    rcases List.mem_cons.mp he with h | h
    · rw [h]; exact hne
    · exact linkChain_ne_zero m fuel _ entries hchain e h

theorem LINK_chain_preserved_witness :
    (linkChain atCreate.mem 144 (read32 atCreate.mem LATEST_value) = some (words.reverse.map LINK)
        ∧ (words.reverse.map LINK).Nodup
        ∧ read32 atCreate.mem HERE_value = dictionary
        ∧ (∀ e ∈ words.reverse.map LINK, e + 4 ≤ dictionary ∧ (e + 4 ≤ romEnd ∨ dictionary ≤ e)))
      ∧ (∃ s1, steps 71 atCreate = some s1 ∧ read32 s1.mem LATEST_value = dictionary
          ∧ linkChain s1.mem (144 + 1) (read32 s1.mem LATEST_value)
              = some (dictionary :: words.reverse.map LINK))
      ∧ (dictionary :: words.reverse.map LINK).Nodup :=
  ⟨⟨by decide!, by decide!, by decide!, by decide!⟩,
    (LINK_chain_preserved atCreate 144 (words.reverse.map LINK) dictionary 6 6
      (wordMem (strBytes "SQUARE ") 0 initMem) (by decide!) (by decide!) (by decide!) (by decide)
      (by decide!) (readWord_eq _ _ _ _ _ (by decide!))).1 (by decide!) (by decide),
    (LINK_chain_preserved atCreate 144 (words.reverse.map LINK) dictionary 6 6
      (wordMem (strBytes "SQUARE ") 0 initMem) (by decide!) (by decide!) (by decide!) (by decide)
      (by decide!) (readWord_eq _ _ _ _ _ (by decide!))).2.2.1⟩

theorem wordLoop_full (input : List Nat) (rest : List Nat) :
    ∀ (length c li fuel x : Nat) (tl : List Nat) (mem : Nat → Nat),
      input.drop li = rest ++ x :: tl → (∀ r ∈ rest, isWS r = false) →
      length + rest.length + 1 = 31 → rest.length < fuel →
      wordLoop input fuel length c li mem
        = some (31, x % 256, li + rest.length + 1, setBytes mem (word + length) (c :: rest)) := by
  induction rest with
  | nil =>
      intro length c li fuel x tl mem h _ hl hf
      obtain ⟨h1, _⟩ := charIn_of_drop input li x tl h
      simp only [List.length_nil, Nat.add_zero] at hl
      cases fuel with
      | zero => simp at hf
      | succ fuel =>
          have hcond : (!isWS (x % 256) && decide (length + 1 < TOMOKO_WORD_MAX - 1)) = false := by
            have : TOMOKO_WORD_MAX = 32 := rfl
            rw [Bool.and_eq_false_iff]
            right
            simp only [decide_eq_false_iff_not]
            omega
          simp only [wordLoop, h1, hcond, Bool.false_eq_true, if_false, List.length_nil, Nat.add_zero,
            setBytes]
          rw [hl]
  | cons r rest ih =>
      intro length c li fuel x tl mem h hr hl hf
      obtain ⟨h1, h2⟩ := charIn_of_drop input li r (rest ++ x :: tl) h
      simp only [List.length_cons] at hl hf
      cases fuel with
      | zero => simp at hf
      | succ fuel =>
          have hcond : (!isWS r && decide (length + 1 < TOMOKO_WORD_MAX - 1)) = true := by
            have : TOMOKO_WORD_MAX = 32 := rfl
            simp only [hr r (List.mem_cons_self _ _), Bool.not_false, Bool.true_and, decide_eq_true_eq]
            omega
          simp only [wordLoop, h1, isWS_mod, hcond, if_true]
          rw [ih (length + 1) (r % 256) (li + 1) fuel x tl _ h2
            (fun y hy => hr y (List.mem_cons_of_mem _ hy)) (by omega) (by omega)]
          simp only [List.length_cons, setBytes, set8_mod]
          rw [show li + 1 + rest.length + 1 = li + (rest.length + 1) + 1 by omega,
            show word + (length + 1) = word + length + 1 by omega]

theorem readWord_span (pre spaces span post : List Nat) (x : Nat) (mem : Nat → Nat)
    (hs : ∀ c ∈ spaces, isWS c = true) (hspan : ∀ c ∈ span, isWS c = false) (hx : isWS x = false)
    (hlen : span.length = 31) :
    ∃ m1, readWord (pre ++ spaces ++ span ++ x :: post) pre.length mem
        = some (31, pre.length + spaces.length + 32, m1)
      ∧ readBytes m1 word 31 = span.map (fun c => c % 256)
      ∧ read8 m1 (word + 31) = 0 := by
  obtain ⟨c0, rest, rfl⟩ : ∃ c0 rest, span = c0 :: rest := by
    cases span with
    | nil => simp at hlen
    | cons c0 rest => exact ⟨c0, rest, rfl⟩
  simp only [List.length_cons] at hlen
  have hW : word = 134610976 := rfl
  have hre : romEnd = 134582016 := rfl
  have hdrop : (pre ++ spaces ++ (c0 :: rest) ++ x :: post).drop pre.length
      = spaces ++ c0 :: (rest ++ x :: post) := by
    rw [List.append_assoc, List.append_assoc, List.drop_left]
    simp
  have hskip := skipWS_spec _ spaces pre.length (pre ++ spaces ++ (c0 :: rest) ++ x :: post).length c0
    (rest ++ x :: post) hdrop hs (hspan c0 (List.mem_cons_self _ _)) (by simp; omega)
  have hdrop2 : (pre ++ spaces ++ (c0 :: rest) ++ x :: post).drop (pre.length + spaces.length + 1)
      = rest ++ x :: post := by
    have : pre ++ spaces ++ (c0 :: rest) ++ x :: post = (pre ++ spaces ++ [c0]) ++ (rest ++ x :: post) := by
      simp
    rw [this, show pre.length + spaces.length + 1 = (pre ++ spaces ++ [c0]).length by
      simp only [List.length_append, List.length_singleton], List.drop_left]
  have hloop := wordLoop_full _ rest 0 (c0 % 256) (pre.length + spaces.length + 1) TOMOKO_WORD_MAX x post
    mem hdrop2 (fun y hy => hspan y (List.mem_cons_of_mem _ hy)) (by omega)
    (by have : TOMOKO_WORD_MAX = 32 := rfl; omega)
  simp only [Nat.add_zero, Nat.zero_add] at hloop
  refine ⟨set8 (setBytes mem word (c0 % 256 :: rest)) (word + 31) 0, ?_, ?_, ?_⟩
  · unfold readWord
    rw [hskip]
    simp only [Option.some_bind, hloop, Option.map_some', isWS_mod, hx, Bool.false_eq_true, if_false]
    rw [show pre.length + spaces.length + 1 + rest.length + 1 = pre.length + spaces.length + 32 by omega]
  · rw [readBytes_set8_ne _ _ _ _ _ (by omega)]
    have hlen2 : (c0 % 256 :: rest).length = 31 := by simp only [List.length_cons]; omega
    have := readBytes_eq_of_getD ((c0 % 256 :: rest).map fun c => c % 256)
      (setBytes mem word (c0 % 256 :: rest)) word fun k hk => by
        simp only [List.length_map] at hk
        rw [read8_setBytes_same (c0 % 256 :: rest) mem word k (by omega) hk,
          List.getD_eq_getElem?_getD, List.getD_eq_getElem?_getD, List.getElem?_map]
        cases h : (c0 % 256 :: rest)[k]? with
        | none => simp
        | some v => simp
    simp only [List.length_map, List.map_cons, Nat.mod_mod, List.length_cons] at this
    rw [hlen] at this
    simpa using this
  · rw [read8_set8_same _ _ (by omega)]

/-- C38 holds for spans of bytes that the test `isWS` does not take for
white space and fails on a span with a byte from 128 on, for the reason of
C19.  After white space, on 31 bytes and a 32nd byte that `isWS` rejects,
`WORD` returns the length 31 with the 31 bytes and a NUL in the buffer, and
the input index is past the 32nd byte, which is neither stored nor pushed
back; whenever `WORD` returns, the length is from 1 to 31 and no byte
outside the 32 bytes of the buffer has changed.  On 40 letters `a` the
first `WORD` returns 31 and the next one the 8 letters from the 33rd on.  On
10 letters `a`, the byte `C3` and 21 letters `a` (a span of 32 bytes above
`0x20`) `WORD` returns the length 10 with the input index at the byte
`C3`, where the claim has 31. -/
theorem WORD_long_span :
    (∀ (pre spaces span post : List Nat) (x : Nat) (mem : Nat → Nat),
        (∀ c ∈ spaces, isWS c = true) → (∀ c ∈ span, isWS c = false) → isWS x = false →
        span.length = 31 →
        ∃ m1, readWord (pre ++ spaces ++ span ++ x :: post) pre.length mem
            = some (31, pre.length + spaces.length + 32, m1)
          ∧ readBytes m1 word 31 = span.map (fun c => c % 256)
          ∧ read8 m1 (word + 31) = 0)
      ∧ (∀ (input : List Nat) (lineIndex : Nat) (mem : Nat → Nat) (len li1 : Nat) (m1 : Nat → Nat),
          readWord input lineIndex mem = some (len, li1, m1) →
          1 ≤ len ∧ len ≤ 31 ∧ ∀ a, a < word ∨ word + TOMOKO_WORD_MAX ≤ a → m1 a = mem a)
      ∧ (∀ s : Machine, fn_WORD s
          = (readWord s.input s.lineIndex s.mem).map fun r =>
              { s with sp := r.1 :: word :: s.sp, lineIndex := r.2.1, mem := r.2.2 })
      ∧ (readWord (List.replicate 40 97 ++ [32]) 0 initMem).map
            (fun r => (r.1, r.2.1, readBytes r.2.2 word 32))
          = some (31, 32, List.replicate 31 97 ++ [0])
      ∧ (readWord (List.replicate 40 97 ++ [32]) 32 initMem).map
            (fun r => (r.1, r.2.1, readBytes r.2.2 word 9))
          = some (8, 40, List.replicate 8 97 ++ [0])
      ∧ (∀ c ∈ List.replicate 10 97 ++ [195] ++ List.replicate 21 97, 32 < c ∧ c < 256)
      ∧ (readWord (List.replicate 10 97 ++ [195] ++ List.replicate 21 97 ++ [32]) 0 initMem).map
            (fun r => (r.1, r.2.1, readBytes r.2.2 word 11))
          = some (10, 10, List.replicate 10 97 ++ [0]) := by
  refine ⟨readWord_span, readWord_spec, fun s => rfl, by decide!, by decide!, by decide!, by decide!⟩

theorem cells_loops :
    entryCells .SPHASH = [fnAddr .DOCOL, XT .S0, XT .FETCH, XT .DSPFETCH, XT .SUB, XT .CELL, XT .DIV,
      XT .DECR, XT .EXIT]
    ∧ entryCells .DOT_S = [fnAddr .DOCOL, XT .SPHASH, XT .DUP, XT .LIT, 60, XT .EMIT, XT .DOT, XT .LIT,
      62, XT .EMIT, XT .DUP, XT .ZBRANCH, cells (8), XT .DUP, XT .PICK, XT .SPACE, XT .DOT, XT .DECR,
      XT .BRANCH, cells (-9), XT .CR, XT .DROP, XT .EXIT, 0, 0]
    ∧ entryCells .WORDS = [fnAddr .DOCOL, XT .LATEST, XT .FETCH, XT .DUP, XT .ZBRANCH, cells (23),
      XT .DUP, XT .CELLPLUS, XT .DUP, XT .CFETCH, XT .F_HIDDEN, XT .AND, XT .ZBRANCH, cells (4),
      XT .DROP, XT .BRANCH, cells (-14), XT .DUP, XT .CFETCH, XT .F_LENMASK, XT .AND, XT .SWAP,
      XT .INCR, XT .SWAP, XT .TELL, XT .SPACE, XT .BRANCH, cells (-25), XT .DROP, XT .CR, XT .EXIT]
    ∧ entryCells .CR = [fnAddr .DOCOL, XT .LIT, 10, XT .EMIT, XT .EXIT]
    ∧ entryCells .SPACE = [fnAddr .DOCOL, XT .BL, XT .EMIT, XT .EXIT, 0] := by
  refine ⟨?_, ?_, ?_, ?_, ?_⟩ <;> rfl

theorem sphash_value (d : Nat) (hd : d ≤ 1000) :
    ofInt (Int.tdiv (toInt ((parameterStack + (4 * PARAMETER_STACK_CELLS
        + (4294967296 - (stackPointer parameterStack PARAMETER_STACK_CELLS (d + 1)) % 4294967296)))
          % 4294967296)) (toInt 4)) = d + 1
      ∧ divDefined ((parameterStack + (4 * PARAMETER_STACK_CELLS
        + (4294967296 - (stackPointer parameterStack PARAMETER_STACK_CELLS (d + 1)) % 4294967296)))
          % 4294967296) 4 = true := by
  have hp : parameterStack = 134611200 := rfl
  have hc : PARAMETER_STACK_CELLS = 64 := rfl
  have h4 : toInt 4 = 4 := by decide
  have e : (parameterStack + (4 * PARAMETER_STACK_CELLS
        + (4294967296 - (stackPointer parameterStack PARAMETER_STACK_CELLS (d + 1)) % 4294967296)))
          % 4294967296 = 4 * (d + 1) := by
    unfold stackPointer
    omega
  rw [e]
  have e2 : toInt (4 * (d + 1)) = ((4 * (d + 1) : Nat) : Int) := toInt_small (by omega)
  constructor
  · rw [e2, h4]
    have : Int.tdiv ((4 * (d + 1) : Nat) : Int) 4 = ((d + 1 : Nat) : Int) := by
      rw [Int.tdiv_eq_ediv (by omega) (by omega)]
      omega
    rw [this]
    unfold ofInt
    omega
  · unfold divDefined
    rw [e2, h4]
    simp only [Bool.and_eq_true, bne_iff_ne, ne_eq, Bool.not_eq_true', Bool.and_eq_false_imp,
      beq_iff_eq, beq_eq_false_iff_ne]
    exact ⟨by omega, fun _ => by omega⟩

theorem sphash_run (m : Nat → Nat) (st rsp : List Nat) (ip : Nat) (inp : List Nat) (li : Nat)
    (out : List Nat) (hS0 : read32 m S0_value = parameterStack + 4 * PARAMETER_STACK_CELLS)
    (hd : st.length ≤ 1000) :
    andThen (callFn ⟨m, st, rsp, ip, XT .SPHASH, inp, li, out⟩) 8
      = some ⟨m, st.length :: st, rsp, ip, XT .EXIT, inp, li, out⟩ := by
  obtain ⟨v1, v2⟩ := sphash_value st.length hd
  have e3 : (st.length + 4294967296) % 4294967296 = st.length := by omega
  simp (disch := omega) only [steps_succ, steps_zero, andThen_some, andThen_none, NEXT, callFn, read32_XT, read32_XT_add, XT_mod, XT_add_mod, cells_native, cells_value, cells_colon, cells_eqs, List.getD_cons_succ, List.getD_cons_zero, decodeFn_fnAddr, Option.some_bind, Option.map_some', callCode_eqs, pop, push, rpop, rpush, unaryOp, binaryOp, Nat.add_assoc, Nat.reduceAdd, Nat.reduceMod, Nat.reduceDiv, Nat.reduceLT, Nat.reduceMul, if_true, if_false, ite_true, ite_false, Nat.reduceSub, Nat.reduceXor, fn_DOCOL, fn_EXIT, fn_BRANCH, fn_ZBRANCH, fn_LIT, fn_LBRAC, fn_RBRAC, fn_CONST, fn_VAR, fn_FIND, fn_DROP, fn_SWAP, fn_DUP, fn_OVER, fn_ROT, fn_NROT, fn_DDROP, fn_DDUP, fn_INCR, fn_CELLPLUS, fn_ADD, fn_SUB, fn_MUL, fn_AND, fn_XOR, fn_STORE, fn_FETCH, fn_PLUSSTORE, fn_CSTORE, fn_CFETCH, fn_CMOVE, fn_FILL, fn_EMIT, fn_TELL, fn_DOT, fn_WORD, fn_INIT, fn_RSPSTORE, charOut, cells_loops, fn_DSPFETCH, fn_DIV, fn_DECR, hS0, List.length_cons,
    v1, v2, e3]

theorem dots_iter (m : Nat → Nat) (st rsp : List Nat) (w : Nat) (inp : List Nat) (li : Nat)
    (out : List Nat) (k x : Nat) (hk : k < 1000) (hx : st.get? k = some x) :
    steps 11 ⟨m, (k + 1) :: st, rsp, XT .DOT_S + 40, w, inp, li, out⟩
      = some ⟨m, k :: st, rsp, XT .DOT_S + 40, XT .BRANCH, inp, li,
          out ++ [32] ++ decimal (toInt x)⟩ := by
  have h0 : ¬ (k + 1 = 0) := Nat.succ_ne_zero k
  have h1 : ¬ (toInt (k + 1) < 0) := toInt_nonneg_small (by omega)
  have h2 : ((k + 1) :: st).get? (k + 1) = some x := by rw [List.get?_cons_succ]; exact hx
  have h3 : (k + 4294967296) % 4294967296 = k := by omega
  have h4 : (32 : Nat) % 256 = 32 := rfl
  simp (disch := omega) only [steps_succ, steps_zero, andThen_some, andThen_none, NEXT, callFn, read32_XT, read32_XT_add, XT_mod, XT_add_mod, cells_native, cells_value, cells_colon, cells_eqs, List.getD_cons_succ, List.getD_cons_zero, decodeFn_fnAddr, Option.some_bind, Option.map_some', callCode_eqs, pop, push, rpop, rpush, unaryOp, binaryOp, Nat.add_assoc, Nat.reduceAdd, Nat.reduceMod, Nat.reduceDiv, Nat.reduceLT, Nat.reduceMul, if_true, if_false, ite_true, ite_false, Nat.reduceSub, Nat.reduceXor, fn_DOCOL, fn_EXIT, fn_BRANCH, fn_ZBRANCH, fn_LIT, fn_LBRAC, fn_RBRAC, fn_CONST, fn_VAR, fn_FIND, fn_DROP, fn_SWAP, fn_DUP, fn_OVER, fn_ROT, fn_NROT, fn_DDROP, fn_DDUP, fn_INCR, fn_CELLPLUS, fn_ADD, fn_SUB, fn_MUL, fn_AND, fn_XOR, fn_STORE, fn_FETCH, fn_PLUSSTORE, fn_CSTORE, fn_CFETCH, fn_CMOVE, fn_FILL, fn_EMIT, fn_TELL, fn_DOT, fn_WORD, fn_INIT, fn_RSPSTORE, charOut, cells_loops, fn_PICK, fn_DECR, h0, h1, h2, h3, h4,
    XT_add_mod_wrap, List.append_assoc]

theorem dots_exit (m : Nat → Nat) (st rsp : List Nat) (ip w : Nat) (inp : List Nat) (li : Nat)
    (out : List Nat) :
    steps 8 ⟨m, 0 :: st, ip :: rsp, XT .DOT_S + 40, w, inp, li, out⟩
      = some ⟨m, st, rsp, ip, XT .EXIT, inp, li, out ++ [10]⟩ := by
  have h4 : (10 : Nat) % 256 = 10 := rfl
  simp (disch := omega) only [steps_succ, steps_zero, andThen_some, andThen_none, NEXT, callFn, read32_XT, read32_XT_add, XT_mod, XT_add_mod, cells_native, cells_value, cells_colon, cells_eqs, List.getD_cons_succ, List.getD_cons_zero, decodeFn_fnAddr, Option.some_bind, Option.map_some', callCode_eqs, pop, push, rpop, rpush, unaryOp, binaryOp, Nat.add_assoc, Nat.reduceAdd, Nat.reduceMod, Nat.reduceDiv, Nat.reduceLT, Nat.reduceMul, if_true, if_false, ite_true, ite_false, Nat.reduceSub, Nat.reduceXor, fn_DOCOL, fn_EXIT, fn_BRANCH, fn_ZBRANCH, fn_LIT, fn_LBRAC, fn_RBRAC, fn_CONST, fn_VAR, fn_FIND, fn_DROP, fn_SWAP, fn_DUP, fn_OVER, fn_ROT, fn_NROT, fn_DDROP, fn_DDUP, fn_INCR, fn_CELLPLUS, fn_ADD, fn_SUB, fn_MUL, fn_AND, fn_XOR, fn_STORE, fn_FETCH, fn_PLUSSTORE, fn_CSTORE, fn_CFETCH, fn_CMOVE, fn_FILL, fn_EMIT, fn_TELL, fn_DOT, fn_WORD, fn_INIT, fn_RSPSTORE, charOut, cells_loops, h4]

theorem dots_loop (m : Nat → Nat) (st rsp : List Nat) (ip : Nat) (inp : List Nat) (li : Nat) :
    ∀ (k : Nat), k ≤ st.length → k ≤ 1000 → ∀ (w : Nat) (out : List Nat),
      steps (11 * k + 8) ⟨m, k :: st, ip :: rsp, XT .DOT_S + 40, w, inp, li, out⟩
        = some ⟨m, st, rsp, ip, XT .EXIT, inp, li,
            out ++ (st.take k).reverse.flatMap (fun c => 32 :: decimal (toInt c)) ++ [10]⟩ := by
  intro k
  induction k with
  | zero =>
      intro _ _ w out
      rw [dots_exit]
      simp only [List.take_zero, List.reverse_nil, List.flatMap_nil, List.append_nil]
  | succ k ih =>
      intro hk hk2 w out
      have hx : st.get? k = some (st.get ⟨k, hk⟩) := List.get?_eq_get hk
      rw [show 11 * (k + 1) + 8 = 11 + (11 * k + 8) by omega, steps_split,
        dots_iter m st (ip :: rsp) w inp li out k _ (by omega) hx, andThen_some,
        ih (by omega) (by omega)]
      congr 2
      have ht : st.take (k + 1) = st.take k ++ [st.get ⟨k, hk⟩] := by
        rw [List.take_succ, List.getElem?_eq_getElem hk]
        rfl
      rw [ht, List.reverse_append, List.flatMap_append]
      simp only [List.reverse_cons, List.reverse_nil, List.nil_append, List.flatMap_cons,
        List.flatMap_nil, List.append_nil, List.append_assoc, List.singleton_append]

theorem dots_run (m : Nat → Nat) (st rsp : List Nat) (ip : Nat) (inp : List Nat) (li : Nat)
    (out : List Nat) (hS0 : read32 m S0_value = parameterStack + 4 * PARAMETER_STACK_CELLS)
    (hd : st.length ≤ 1000) :
    andThen (callFn ⟨m, st, rsp, ip, XT .DOT_S, inp, li, out⟩) (11 * st.length + 23)
      = some ⟨m, st, rsp, ip, XT .EXIT, inp, li,
          out ++ [60] ++ decimal st.length ++ [62]
            ++ st.reverse.flatMap (fun c => 32 :: decimal (toInt c)) ++ [10]⟩ := by
  obtain ⟨v1, v2⟩ := sphash_value st.length hd
  have e3 : (st.length + 4294967296) % 4294967296 = st.length := by omega
  have h60 : (60 : Nat) % 256 = 60 := rfl
  have h62 : (62 : Nat) % 256 = 62 := rfl
  have hdec : toInt st.length = (st.length : Int) := toInt_small (by omega)
  have hpre : andThen (callFn ⟨m, st, rsp, ip, XT .DOT_S, inp, li, out⟩) 15
      = some ⟨m, st.length :: st, ip :: rsp, XT .DOT_S + 40, XT .EMIT, inp, li,
          out ++ [60] ++ decimal st.length ++ [62]⟩ := by
    simp (disch := omega) only [steps_succ, steps_zero, andThen_some, andThen_none, NEXT, callFn, read32_XT, read32_XT_add, XT_mod, XT_add_mod, cells_native, cells_value, cells_colon, cells_eqs, List.getD_cons_succ, List.getD_cons_zero, decodeFn_fnAddr, Option.some_bind, Option.map_some', callCode_eqs, pop, push, rpop, rpush, unaryOp, binaryOp, Nat.add_assoc, Nat.reduceAdd, Nat.reduceMod, Nat.reduceDiv, Nat.reduceLT, Nat.reduceMul, if_true, if_false, ite_true, ite_false, Nat.reduceSub, Nat.reduceXor, fn_DOCOL, fn_EXIT, fn_BRANCH, fn_ZBRANCH, fn_LIT, fn_LBRAC, fn_RBRAC, fn_CONST, fn_VAR, fn_FIND, fn_DROP, fn_SWAP, fn_DUP, fn_OVER, fn_ROT, fn_NROT, fn_DDROP, fn_DDUP, fn_INCR, fn_CELLPLUS, fn_ADD, fn_SUB, fn_MUL, fn_AND, fn_XOR, fn_STORE, fn_FETCH, fn_PLUSSTORE, fn_CSTORE, fn_CFETCH, fn_CMOVE, fn_FILL, fn_EMIT, fn_TELL, fn_DOT, fn_WORD, fn_INIT, fn_RSPSTORE, charOut, cells_loops, fn_DSPFETCH, fn_DIV, fn_DECR, hS0,
      List.length_cons, v1, v2, e3, h60, h62, hdec, List.append_assoc]
  have hsplit : ∀ o : Option Machine, andThen o (15 + (11 * st.length + 8))
      = (andThen o 15).bind (steps (11 * st.length + 8)) := by
    intro o
    cases o with
    | none => simp only [andThen_none, Option.none_bind]
    | some t => simp only [andThen_some, steps_add]
  rw [show 11 * st.length + 23 = 15 + (11 * st.length + 8) by omega, hsplit, hpre, Option.some_bind,
    dots_loop m st rsp ip inp li st.length (Nat.le_refl _) hd, List.take_length]

theorem tell_small (m : Nat → Nat) (a L : Nat) (hL : L < 64) :
    (if 0 < toInt L then readBytes m a L else []) = readBytes m a L := by
  rw [toInt_small (show L < 2147483648 by omega)]
  by_cases h : L = 0
  · subst h
    rfl
  · rw [if_pos (by omega)]

theorem words_hidden (m : Nat → Nat) (st rsp : List Nat) (w : Nat) (inp : List Nat) (li : Nat)
    (out : List Nat) (a link : Nat) (ha : read32 m a = link) (h0 : link ≠ 0)
    (hfit : link + 80 < 4294967296) (hh : read8 m (link + 4) &&& HIDDEN_BIT ≠ 0) :
    steps 12 ⟨m, a :: st, rsp, XT .WORDS + 8, w, inp, li, out⟩
      = some ⟨m, link :: st, rsp, XT .WORDS + 8, XT .BRANCH, inp, li, out⟩ := by
  have h1 : ¬ (link = 0) := h0
  have hb : read8 m (link + 4) &&& HIDDEN_BIT < 4294967296 :=
    Nat.lt_of_le_of_lt Nat.and_le_right (by decide)
  have h2 : ¬ ((read8 m (link + 4) &&& HIDDEN_BIT) % 4294967296 = 0) := by
    rw [Nat.mod_eq_of_lt hb]; exact hh
  have h2b : ¬ (read8 m (link + 4) &&& HIDDEN_BIT = 0) := hh
  simp (disch := omega) only [steps_succ, steps_zero, andThen_some, andThen_none, NEXT, callFn, read32_XT, read32_XT_add, XT_mod, XT_add_mod, cells_native, cells_value, cells_colon, cells_eqs, List.getD_cons_succ, List.getD_cons_zero, decodeFn_fnAddr, Option.some_bind, Option.map_some', callCode_eqs, pop, push, rpop, rpush, unaryOp, binaryOp, Nat.add_assoc, Nat.reduceAdd, Nat.reduceMod, Nat.reduceDiv, Nat.reduceLT, Nat.reduceMul, if_true, if_false, ite_true, ite_false, Nat.reduceSub, Nat.reduceXor, fn_DOCOL, fn_EXIT, fn_BRANCH, fn_ZBRANCH, fn_LIT, fn_LBRAC, fn_RBRAC, fn_CONST, fn_VAR, fn_FIND, fn_DROP, fn_SWAP, fn_DUP, fn_OVER, fn_ROT, fn_NROT, fn_DDROP, fn_DDUP, fn_INCR, fn_CELLPLUS, fn_ADD, fn_SUB, fn_MUL, fn_AND, fn_XOR, fn_FETCH, fn_CFETCH, fn_EMIT, fn_TELL, fn_DOT, fn_WORD, fn_INIT, fn_RSPSTORE, charOut, fn_STORE_ram, fn_PLUSSTORE_ram, fn_CSTORE_ram, fn_CMOVE_ram, fn_FILL_ram, read32_set32_same, read32_set32_ne, read32_set8_ne, read32_setBytes_ne, read8_set8_same, read8_set8_ne, read8_set32_ne, read8_setBytes_ne, Nat.mod_eq_of_lt, and_CELLMASK, sub_wrap, set32_set32_same, readBytes_set8_ne, readBytes_set32_ne, readBytes_setBytes_ne, cells_loops, ha, h1, h2, h2b, XT_add_mod_wrap]

theorem words_visible (m : Nat → Nat) (st rsp : List Nat) (w : Nat) (inp : List Nat) (li : Nat)
    (out : List Nat) (a link : Nat) (ha : read32 m a = link) (h0 : link ≠ 0)
    (hfit : link + 80 < 4294967296) (hv : read8 m (link + 4) &&& HIDDEN_BIT = 0) :
    steps 23 ⟨m, a :: st, rsp, XT .WORDS + 8, w, inp, li, out⟩
      = some ⟨m, link :: st, rsp, XT .WORDS + 8, XT .BRANCH, inp, li,
          out ++ (readBytes m (link + 5) (read8 m (link + 4) &&& LENGTH_BITS) ++ [32])⟩ := by
  have h1 : ¬ (link = 0) := h0
  have h2 : (read8 m (link + 4) &&& HIDDEN_BIT) % 4294967296 = 0 := by
    rw [hv]
  have hl : read8 m (link + 4) &&& LENGTH_BITS < 64 := and_LENGTH_lt _
  have h3 : (read8 m (link + 4) &&& LENGTH_BITS) % 4294967296 = read8 m (link + 4) &&& LENGTH_BITS :=
    Nat.mod_eq_of_lt (by omega)
  have h4 := tell_small m (link + 5) (read8 m (link + 4) &&& LENGTH_BITS) hl
  have h5 : (32 : Nat) % 256 = 32 := rfl
  have hb : read8 m (link + 4) &&& HIDDEN_BIT < 4294967296 :=
    Nat.lt_of_le_of_lt Nat.and_le_right (by decide)
  simp (disch := omega) only [steps_succ, steps_zero, andThen_some, andThen_none, NEXT, callFn, read32_XT, read32_XT_add, XT_mod, XT_add_mod, cells_native, cells_value, cells_colon, cells_eqs, List.getD_cons_succ, List.getD_cons_zero, decodeFn_fnAddr, Option.some_bind, Option.map_some', callCode_eqs, pop, push, rpop, rpush, unaryOp, binaryOp, Nat.add_assoc, Nat.reduceAdd, Nat.reduceMod, Nat.reduceDiv, Nat.reduceLT, Nat.reduceMul, if_true, if_false, ite_true, ite_false, Nat.reduceSub, Nat.reduceXor, fn_DOCOL, fn_EXIT, fn_BRANCH, fn_ZBRANCH, fn_LIT, fn_LBRAC, fn_RBRAC, fn_CONST, fn_VAR, fn_FIND, fn_DROP, fn_SWAP, fn_DUP, fn_OVER, fn_ROT, fn_NROT, fn_DDROP, fn_DDUP, fn_INCR, fn_CELLPLUS, fn_ADD, fn_SUB, fn_MUL, fn_AND, fn_XOR, fn_FETCH, fn_CFETCH, fn_EMIT, fn_TELL, fn_DOT, fn_WORD, fn_INIT, fn_RSPSTORE, charOut, fn_STORE_ram, fn_PLUSSTORE_ram, fn_CSTORE_ram, fn_CMOVE_ram, fn_FILL_ram, read32_set32_same, read32_set32_ne, read32_set8_ne, read32_setBytes_ne, read8_set8_same, read8_set8_ne, read8_set32_ne, read8_setBytes_ne, Nat.mod_eq_of_lt, and_CELLMASK, sub_wrap, set32_set32_same, readBytes_set8_ne, readBytes_set32_ne, readBytes_setBytes_ne, cells_loops, ha, h1, h2, hv, h3, h4, h5, XT_add_mod_wrap,
    List.append_assoc]

theorem words_exit (m : Nat → Nat) (st rsp : List Nat) (ip w : Nat) (inp : List Nat) (li : Nat)
    (out : List Nat) (a : Nat) (ha : read32 m a = 0) :
    steps 9 ⟨m, a :: st, ip :: rsp, XT .WORDS + 8, w, inp, li, out⟩
      = some ⟨m, st, rsp, ip, XT .EXIT, inp, li, out ++ [10]⟩ := by
  have h5 : (10 : Nat) % 256 = 10 := rfl
  simp (disch := omega) only [steps_succ, steps_zero, andThen_some, andThen_none, NEXT, callFn, read32_XT, read32_XT_add, XT_mod, XT_add_mod, cells_native, cells_value, cells_colon, cells_eqs, List.getD_cons_succ, List.getD_cons_zero, decodeFn_fnAddr, Option.some_bind, Option.map_some', callCode_eqs, pop, push, rpop, rpush, unaryOp, binaryOp, Nat.add_assoc, Nat.reduceAdd, Nat.reduceMod, Nat.reduceDiv, Nat.reduceLT, Nat.reduceMul, if_true, if_false, ite_true, ite_false, Nat.reduceSub, Nat.reduceXor, fn_DOCOL, fn_EXIT, fn_BRANCH, fn_ZBRANCH, fn_LIT, fn_LBRAC, fn_RBRAC, fn_CONST, fn_VAR, fn_FIND, fn_DROP, fn_SWAP, fn_DUP, fn_OVER, fn_ROT, fn_NROT, fn_DDROP, fn_DDUP, fn_INCR, fn_CELLPLUS, fn_ADD, fn_SUB, fn_MUL, fn_AND, fn_XOR, fn_FETCH, fn_CFETCH, fn_EMIT, fn_TELL, fn_DOT, fn_WORD, fn_INIT, fn_RSPSTORE, charOut, fn_STORE_ram, fn_PLUSSTORE_ram, fn_CSTORE_ram, fn_CMOVE_ram, fn_FILL_ram, read32_set32_same, read32_set32_ne, read32_set8_ne, read32_setBytes_ne, read8_set8_same, read8_set8_ne, read8_set32_ne, read8_setBytes_ne, Nat.mod_eq_of_lt, and_CELLMASK, sub_wrap, set32_set32_same, readBytes_set8_ne, readBytes_set32_ne, readBytes_setBytes_ne, cells_loops, ha, h5]

theorem words_loop (m : Nat → Nat) (st rsp : List Nat) (ip : Nat) (inp : List Nat) (li : Nat) :
    ∀ (fuel : Nat) (entries : List Nat) (a w : Nat) (out : List Nat),
      linkChain m fuel (read32 m a) = some entries → (∀ e ∈ entries, e + 80 < 4294967296) →
      ∃ n, steps n ⟨m, a :: st, ip :: rsp, XT .WORDS + 8, w, inp, li, out⟩
        = some ⟨m, st, rsp, ip, XT .EXIT, inp, li,
            out ++ entries.flatMap (fun e =>
              if read8 m (e + 4) &&& HIDDEN_BIT = 0
              then readBytes m (e + 5) (read8 m (e + 4) &&& LENGTH_BITS) ++ [32] else []) ++ [10]⟩ := by
  intro fuel
  induction fuel with
  | zero =>
      intro entries a w out h _
      simp only [linkChain] at h
      exact absurd h (by simp)
  | succ fuel ih =>
      intro entries a w out h hfit
      simp only [linkChain] at h
      by_cases h0 : read32 m a = 0
      · rw [if_pos h0] at h
        simp only [Option.some.injEq] at h
        subst h
        refine ⟨9, ?_⟩
        rw [words_exit m st rsp ip w inp li out a h0]
        simp only [List.flatMap_nil, List.append_nil]
      · rw [if_neg h0] at h
        cases hr : linkChain m fuel (read32 m (read32 m a)) with
        | none => rw [hr] at h; exact absurd h (by simp)
        | some rest =>
            rw [hr] at h
            simp only [Option.map_some', Option.some.injEq] at h
            subst h
            have hf := hfit (read32 m a) (List.mem_cons_self _ _)
            have hrest : ∀ e ∈ rest, e + 80 < 4294967296 :=
              fun e he => hfit e (List.mem_cons_of_mem _ he)
            by_cases hv : read8 m (read32 m a + 4) &&& HIDDEN_BIT = 0
            · obtain ⟨n, hn⟩ := ih rest (read32 m a) (XT .BRANCH)
                (out ++ (readBytes m (read32 m a + 5) (read8 m (read32 m a + 4) &&& LENGTH_BITS) ++ [32]))
                hr hrest
              refine ⟨23 + n, ?_⟩
              rw [steps_split, words_visible m st (ip :: rsp) w inp li out a _ rfl h0 hf hv, andThen_some,
                hn]
              simp only [List.flatMap_cons, hv, if_true, List.append_assoc]
            · obtain ⟨n, hn⟩ := ih rest (read32 m a) (XT .BRANCH) out hr hrest
              refine ⟨12 + n, ?_⟩
              rw [steps_split, words_hidden m st (ip :: rsp) w inp li out a _ rfl h0 hf hv, andThen_some,
                hn]
              simp only [List.flatMap_cons, hv, if_false, List.nil_append]

theorem words_run (m : Nat → Nat) (st rsp : List Nat) (ip : Nat) (inp : List Nat) (li : Nat)
    (out : List Nat) (fuel : Nat) (entries : List Nat)
    (hchain : linkChain m fuel (read32 m LATEST_value) = some entries)
    (hfit : ∀ e ∈ entries, e + 80 < 4294967296) :
    ∃ n, andThen (callFn ⟨m, st, rsp, ip, XT .WORDS, inp, li, out⟩) n
        = some ⟨m, st, rsp, ip, XT .EXIT, inp, li,
            out ++ entries.flatMap (fun e =>
              if read8 m (e + 4) &&& HIDDEN_BIT = 0
              then readBytes m (e + 5) (read8 m (e + 4) &&& LENGTH_BITS) ++ [32] else []) ++ [10]⟩ := by
  obtain ⟨n, hn⟩ := words_loop m st rsp ip inp li fuel entries LATEST_value (XT .LATEST) out hchain hfit
  have hpre : andThen (callFn ⟨m, st, rsp, ip, XT .WORDS, inp, li, out⟩) 1
      = some ⟨m, LATEST_value :: st, ip :: rsp, XT .WORDS + 8, XT .LATEST, inp, li, out⟩ := by
    simp (disch := omega) only [steps_succ, steps_zero, andThen_some, andThen_none, NEXT, callFn, read32_XT, read32_XT_add, XT_mod, XT_add_mod, cells_native, cells_value, cells_colon, cells_eqs, List.getD_cons_succ, List.getD_cons_zero, decodeFn_fnAddr, Option.some_bind, Option.map_some', callCode_eqs, pop, push, rpop, rpush, unaryOp, binaryOp, Nat.add_assoc, Nat.reduceAdd, Nat.reduceMod, Nat.reduceDiv, Nat.reduceLT, Nat.reduceMul, if_true, if_false, ite_true, ite_false, Nat.reduceSub, Nat.reduceXor, fn_DOCOL, fn_EXIT, fn_BRANCH, fn_ZBRANCH, fn_LIT, fn_LBRAC, fn_RBRAC, fn_CONST, fn_VAR, fn_FIND, fn_DROP, fn_SWAP, fn_DUP, fn_OVER, fn_ROT, fn_NROT, fn_DDROP, fn_DDUP, fn_INCR, fn_CELLPLUS, fn_ADD, fn_SUB, fn_MUL, fn_AND, fn_XOR, fn_FETCH, fn_CFETCH, fn_EMIT, fn_TELL, fn_DOT, fn_WORD, fn_INIT, fn_RSPSTORE, charOut, fn_STORE_ram, fn_PLUSSTORE_ram, fn_CSTORE_ram, fn_CMOVE_ram, fn_FILL_ram, read32_set32_same, read32_set32_ne, read32_set8_ne, read32_setBytes_ne, read8_set8_same, read8_set8_ne, read8_set32_ne, read8_setBytes_ne, Nat.mod_eq_of_lt, and_CELLMASK, sub_wrap, set32_set32_same, readBytes_set8_ne, readBytes_set32_ne, readBytes_setBytes_ne, cells_loops]
  refine ⟨1 + n, ?_⟩
  have hsplit : ∀ o : Option Machine, andThen o (1 + n) = (andThen o 1).bind (steps n) := by
    intro o
    cases o with
    | none => simp only [andThen_none, Option.none_bind]
    | some t => simp only [andThen_some, steps_add]
  rw [hsplit, hpre, Option.some_bind, hn]

/-- C31: with `S0` holding the address past the array `parameterStack` and
`d` cells on the parameter stack (and room for three more), `.S` returns
after `11 * d + 23` rounds of `NEXT()` with the stack and everything else
but the output as before; it has written `<`, the decimal of `d`, `>`, then
for each cell from the bottom of the stack to the top a space and its signed
decimal, then a line feed.  `SP#` returns after 8 rounds with `d` pushed on
the stack. -/
theorem DOT_S_output (s : Machine)
    (hS0 : read32 s.mem S0_value = parameterStack + 4 * PARAMETER_STACK_CELLS)
    (hd : s.sp.length + 3 ≤ PARAMETER_STACK_CELLS) :
    andThen (callFn { s with w := XT .DOT_S }) (11 * s.sp.length + 23)
        = some { s with
            w := XT .EXIT,
            output := s.output ++ [60] ++ decimal s.sp.length ++ [62]
              ++ s.sp.reverse.flatMap (fun c => 32 :: decimal (toInt c)) ++ [10] }
      ∧ andThen (callFn { s with w := XT .SPHASH }) 8
          = some { s with w := XT .EXIT, sp := s.sp.length :: s.sp } := by
  obtain ⟨m, sp, rsp, ip, w, inp, li, out⟩ := s
  have hc : PARAMETER_STACK_CELLS = 64 := rfl
  simp only at hS0 hd ⊢
  exact ⟨dots_run m sp rsp ip inp li out hS0 (by omega), sphash_run m sp rsp ip inp li out hS0 (by omega)⟩

theorem DOT_S_output_witness :
    (read32 (atInterpret initMem [3, 4294967295, 7] []).mem S0_value
          = parameterStack + 4 * PARAMETER_STACK_CELLS
        ∧ (atInterpret initMem [3, 4294967295, 7] []).sp.length + 3 ≤ PARAMETER_STACK_CELLS)
      ∧ andThen (callFn { atInterpret initMem [3, 4294967295, 7] [] with w := XT .DOT_S })
            (11 * (atInterpret initMem [3, 4294967295, 7] []).sp.length + 23)
          = some { atInterpret initMem [3, 4294967295, 7] [] with
              w := XT .EXIT,
              output := (atInterpret initMem [3, 4294967295, 7] []).output ++ [60]
                ++ decimal (atInterpret initMem [3, 4294967295, 7] []).sp.length ++ [62]
                ++ (atInterpret initMem [3, 4294967295, 7] []).sp.reverse.flatMap
                    (fun c => 32 :: decimal (toInt c)) ++ [10] }
      ∧ (atInterpret initMem [3, 4294967295, 7] []).output ++ [60]
            ++ decimal (atInterpret initMem [3, 4294967295, 7] []).sp.length ++ [62]
            ++ (atInterpret initMem [3, 4294967295, 7] []).sp.reverse.flatMap
                (fun c => 32 :: decimal (toInt c)) ++ [10]
          = strBytes "<3> 7 -1 3\n" :=
  ⟨⟨by decide!, by decide⟩,
    (DOT_S_output (atInterpret initMem [3, 4294967295, 7] []) (by decide!) (by decide)).1,
    by decide!⟩

/-- C32: when the chain from `LATEST` is the list `entries` of link fields,
ending at the null link, `WORDS` returns after some number of rounds of
`NEXT()` with the parameter stack and everything else but the output as
before; it has written, for each entry of the chain in order, nothing if the
`HIDDEN` bit of its length byte is set, and otherwise the bytes of its name
(as many as the length byte masked with `LENGTH_BITS` says, from the byte
after the length byte) and a space; then a line feed. -/
theorem WORDS_output (s : Machine) (fuel : Nat) (entries : List Nat)
    (hchain : linkChain s.mem fuel (read32 s.mem LATEST_value) = some entries)
    (hfit : ∀ e ∈ entries, e + 80 < 4294967296) :
    ∃ n, andThen (callFn { s with w := XT .WORDS }) n
        = some { s with
            w := XT .EXIT,
            output := s.output ++ entries.flatMap (fun e =>
              if read8 s.mem (e + 4) &&& HIDDEN_BIT = 0
              then readBytes s.mem (e + 5) (read8 s.mem (e + 4) &&& LENGTH_BITS) ++ [32] else [])
              ++ [10] } := by
  obtain ⟨m, sp, rsp, ip, w, inp, li, out⟩ := s
  exact words_run m sp rsp ip inp li out fuel entries hchain hfit

theorem WORDS_output_witness :
    (linkChain (atInterpret initMem [7] []).mem 144 (read32 (atInterpret initMem [7] []).mem LATEST_value)
          = some (words.reverse.map LINK)
        ∧ ∀ e ∈ words.reverse.map LINK, e + 80 < 4294967296)
      ∧ (∃ n, andThen (callFn { atInterpret initMem [7] [] with w := XT .WORDS }) n
          = some { atInterpret initMem [7] [] with
              w := XT .EXIT,
              output := (atInterpret initMem [7] []).output ++ (words.reverse.map LINK).flatMap (fun e =>
                if read8 (atInterpret initMem [7] []).mem (e + 4) &&& HIDDEN_BIT = 0
                then readBytes (atInterpret initMem [7] []).mem (e + 5)
                  (read8 (atInterpret initMem [7] []).mem (e + 4) &&& LENGTH_BITS) ++ [32] else [])
                ++ [10] })
      ∧ ((words.reverse.map LINK).flatMap (fun e =>
            if read8 (atInterpret initMem [7] []).mem (e + 4) &&& HIDDEN_BIT = 0
            then readBytes (atInterpret initMem [7] []).mem (e + 5)
              (read8 (atInterpret initMem [7] []).mem (e + 4) &&& LENGTH_BITS) ++ [32] else [])).take 22
          = strBytes "MAIN ; : QUIT INTERPRE" :=
  ⟨⟨by decide!, by decide!⟩,
    WORDS_output (atInterpret initMem [7] []) 144 (words.reverse.map LINK) (by decide!) (by decide!),
    by decide!⟩

theorem inRom_lt {a : Nat} (h : inRom a = true) : a < romEnd := by
  unfold inRom at h
  simp only [Bool.and_eq_true, decide_eq_true_eq] at h
  exact h.2

theorem andThen_add_none (o : Option Machine) (a k : Nat) (h : andThen o a = none) :
    andThen o (a + k) = none := by
  cases o with
  | none => exact andThen_none _
  | some t =>
      rw [andThen_some] at h ⊢
      rw [steps_add, h]
      rfl

theorem immediate_rom (m : Nat → Nat) (sp rsp : List Nat) (ip : Nat) (inp : List Nat) (li : Nat)
    (out : List Nat) (hrom : inRom (read32 m LATEST_value + 4) = true) :
    andThen (callFn ⟨m, sp, rsp, ip, XT .IMMEDIATE, inp, li, out⟩) 9 = none := by
  have hre : romEnd = 134582016 := rfl
  have hlt := inRom_lt hrom
  have hm : (read32 m LATEST_value + 4) % 4294967296 = read32 m LATEST_value + 4 :=
    Nat.mod_eq_of_lt (by omega)
  simp (disch := omega) only [steps_succ, steps_zero, andThen_some, andThen_none, NEXT, callFn, read32_XT, read32_XT_add, XT_mod, XT_add_mod, cells_native, cells_value, cells_colon, cells_eqs, List.getD_cons_succ, List.getD_cons_zero, decodeFn_fnAddr, Option.some_bind, Option.map_some', callCode_eqs, pop, push, rpop, rpush, unaryOp, binaryOp, Nat.add_assoc, Nat.reduceAdd, Nat.reduceMod, Nat.reduceDiv, Nat.reduceLT, Nat.reduceMul, if_true, if_false, ite_true, ite_false, Nat.reduceSub, Nat.reduceXor, fn_DOCOL, fn_EXIT, fn_BRANCH, fn_ZBRANCH, fn_LIT, fn_LBRAC, fn_RBRAC, fn_CONST, fn_VAR, fn_FIND, fn_DROP, fn_SWAP, fn_DUP, fn_OVER, fn_ROT, fn_NROT, fn_DDROP, fn_DDUP, fn_INCR, fn_CELLPLUS, fn_ADD, fn_SUB, fn_MUL, fn_AND, fn_XOR, fn_STORE, fn_FETCH, fn_PLUSSTORE, fn_CSTORE, fn_CFETCH, fn_CMOVE, fn_FILL, fn_EMIT, fn_TELL, fn_DOT, fn_WORD, fn_INIT, fn_RSPSTORE, charOut, cells_more, hm, write8, hrom, Option.map_none']

theorem hidden_rom (m : Nat → Nat) (sp rsp : List Nat) (ip : Nat) (inp : List Nat) (li : Nat)
    (out : List Nat) (lfa : Nat) (hrom : inRom (lfa + 4) = true) :
    andThen (callFn ⟨m, lfa :: sp, rsp, ip, XT .HIDDEN, inp, li, out⟩) 7 = none := by
  have hre : romEnd = 134582016 := rfl
  have hlt := inRom_lt hrom
  have hm : (lfa + 4) % 4294967296 = lfa + 4 := Nat.mod_eq_of_lt (by omega)
  simp (disch := omega) only [steps_succ, steps_zero, andThen_some, andThen_none, NEXT, callFn, read32_XT, read32_XT_add, XT_mod, XT_add_mod, cells_native, cells_value, cells_colon, cells_eqs, List.getD_cons_succ, List.getD_cons_zero, decodeFn_fnAddr, Option.some_bind, Option.map_some', callCode_eqs, pop, push, rpop, rpush, unaryOp, binaryOp, Nat.add_assoc, Nat.reduceAdd, Nat.reduceMod, Nat.reduceDiv, Nat.reduceLT, Nat.reduceMul, if_true, if_false, ite_true, ite_false, Nat.reduceSub, Nat.reduceXor, fn_DOCOL, fn_EXIT, fn_BRANCH, fn_ZBRANCH, fn_LIT, fn_LBRAC, fn_RBRAC, fn_CONST, fn_VAR, fn_FIND, fn_DROP, fn_SWAP, fn_DUP, fn_OVER, fn_ROT, fn_NROT, fn_DDROP, fn_DDUP, fn_INCR, fn_CELLPLUS, fn_ADD, fn_SUB, fn_MUL, fn_AND, fn_XOR, fn_STORE, fn_FETCH, fn_PLUSSTORE, fn_CSTORE, fn_CFETCH, fn_CMOVE, fn_FILL, fn_EMIT, fn_TELL, fn_DOT, fn_WORD, fn_INIT, fn_RSPSTORE, charOut, cells_more, hm, write8, hrom, Option.map_none']

/-- C17 as amended: `IMMEDIATE` and `HIDDEN` on an entry of the array
`dictionary`, and on an entry of the read-only image.  For an entry in the
array, `IMMEDIATE` replaces the length byte of the entry at `LATEST` by that
byte XOR `0x80` and pops nothing; `HIDDEN` pops a link-field address and
replaces the length byte of that entry by that byte XOR `0x40`; no other
byte of memory changes, the six length bits and the other flag keep their
values, the flag itself changes, and running the word a second time on the
same entry gives the first byte back.  For an entry whose length byte is in
the read-only image, as every hand-compiled entry is, the store of the word
(the 9th round of `IMMEDIATE`, the 7th of `HIDDEN`) has no successor state,
so the word does not return. -/
theorem IMMEDIATE_HIDDEN (s : Machine) :
    (dictionary ≤ read32 s.mem LATEST_value →
      read32 s.mem LATEST_value + 4 < dictionary + DICTIONARY_SIZE →
      ∃ m1 m2, andThen (callFn { s with w := XT .IMMEDIATE }) 10 = some { s with mem := m1, w := XT .EXIT }
        ∧ read8 m1 (read32 s.mem LATEST_value + 4) = read8 s.mem (read32 s.mem LATEST_value + 4) ^^^ 0x80
        ∧ read8 m1 (read32 s.mem LATEST_value + 4) &&& LENGTH_BITS
            = read8 s.mem (read32 s.mem LATEST_value + 4) &&& LENGTH_BITS
        ∧ read8 m1 (read32 s.mem LATEST_value + 4) &&& HIDDEN_BIT
            = read8 s.mem (read32 s.mem LATEST_value + 4) &&& HIDDEN_BIT
        ∧ read8 m1 (read32 s.mem LATEST_value + 4) &&& IMMEDIATE_BIT
            ≠ read8 s.mem (read32 s.mem LATEST_value + 4) &&& IMMEDIATE_BIT
        ∧ (∀ a, a ≠ read32 s.mem LATEST_value + 4 → m1 a = s.mem a)
        ∧ andThen (callFn { s with mem := m1, w := XT .IMMEDIATE }) 10
            = some { s with mem := m2, w := XT .EXIT }
        ∧ read8 m2 (read32 s.mem LATEST_value + 4) = read8 s.mem (read32 s.mem LATEST_value + 4)
        ∧ (∀ a, a ≠ read32 s.mem LATEST_value + 4 → m2 a = s.mem a))
    ∧ (∀ lfa rest, s.sp = lfa :: rest → dictionary ≤ lfa → lfa + 4 < dictionary + DICTIONARY_SIZE →
      ∃ m1 m2, andThen (callFn { s with w := XT .HIDDEN }) 8
            = some { s with mem := m1, sp := rest, w := XT .EXIT }
        ∧ read8 m1 (lfa + 4) = read8 s.mem (lfa + 4) ^^^ 0x40
        ∧ read8 m1 (lfa + 4) &&& LENGTH_BITS = read8 s.mem (lfa + 4) &&& LENGTH_BITS
        ∧ read8 m1 (lfa + 4) &&& IMMEDIATE_BIT = read8 s.mem (lfa + 4) &&& IMMEDIATE_BIT
        ∧ read8 m1 (lfa + 4) &&& HIDDEN_BIT ≠ read8 s.mem (lfa + 4) &&& HIDDEN_BIT
        ∧ (∀ a, a ≠ lfa + 4 → m1 a = s.mem a)
        ∧ andThen (callFn { s with mem := m1, w := XT .HIDDEN }) 8
            = some { s with mem := m2, sp := rest, w := XT .EXIT }
        ∧ read8 m2 (lfa + 4) = read8 s.mem (lfa + 4)
        ∧ (∀ a, a ≠ lfa + 4 → m2 a = s.mem a))
    ∧ (inRom (read32 s.mem LATEST_value + 4) = true →
        ∀ k, andThen (callFn { s with w := XT .IMMEDIATE }) (9 + k) = none)
    ∧ (∀ lfa rest, s.sp = lfa :: rest → inRom (lfa + 4) = true →
        ∀ k, andThen (callFn { s with w := XT .HIDDEN }) (7 + k) = none)
    ∧ (∀ label : Word, inRom (LINK label + 4) = true) := by
  refine ⟨(immediate_hidden_ram s).1, (immediate_hidden_ram s).2, ?_, ?_,
    fun label => (romByte_LINK label 4 (by decide)).1⟩
  · intro hrom k
    obtain ⟨m, sp, rsp, ip, w, inp, li, out⟩ := s
    exact andThen_add_none _ 9 k (immediate_rom m sp rsp ip inp li out hrom)
  · intro lfa rest hsp hrom k
    obtain ⟨m, sp, rsp, ip, w, inp, li, out⟩ := s
    simp only at hsp
    subst hsp
    exact andThen_add_none _ 7 k (hidden_rom m rest rsp ip inp li out lfa hrom)

theorem IMMEDIATE_HIDDEN_witness :
    (dictionary ≤ read32 fooState.mem LATEST_value
        ∧ read32 fooState.mem LATEST_value + 4 < dictionary + DICTIONARY_SIZE
        ∧ read8 fooState.mem (read32 fooState.mem LATEST_value + 4) = 3)
      ∧ (∃ m1 m2, andThen (callFn { fooState with w := XT .IMMEDIATE }) 10 = some { fooState with mem := m1, w := XT .EXIT }
        ∧ read8 m1 (read32 fooState.mem LATEST_value + 4) = read8 fooState.mem (read32 fooState.mem LATEST_value + 4) ^^^ 0x80
        ∧ read8 m1 (read32 fooState.mem LATEST_value + 4) &&& LENGTH_BITS
            = read8 fooState.mem (read32 fooState.mem LATEST_value + 4) &&& LENGTH_BITS
        ∧ read8 m1 (read32 fooState.mem LATEST_value + 4) &&& HIDDEN_BIT
            = read8 fooState.mem (read32 fooState.mem LATEST_value + 4) &&& HIDDEN_BIT
        ∧ read8 m1 (read32 fooState.mem LATEST_value + 4) &&& IMMEDIATE_BIT
            ≠ read8 fooState.mem (read32 fooState.mem LATEST_value + 4) &&& IMMEDIATE_BIT
        ∧ (∀ a, a ≠ read32 fooState.mem LATEST_value + 4 → m1 a = fooState.mem a)
        ∧ andThen (callFn { fooState with mem := m1, w := XT .IMMEDIATE }) 10
            = some { fooState with mem := m2, w := XT .EXIT }
        ∧ read8 m2 (read32 fooState.mem LATEST_value + 4) = read8 fooState.mem (read32 fooState.mem LATEST_value + 4)
        ∧ (∀ a, a ≠ read32 fooState.mem LATEST_value + 4 → m2 a = fooState.mem a))
      ∧ (∃ m1 m2, andThen (callFn { fooState with w := XT .HIDDEN }) 8
            = some { fooState with mem := m1, sp := [7], w := XT .EXIT }
        ∧ read8 m1 (dictionary + 4) = read8 fooState.mem (dictionary + 4) ^^^ 0x40
        ∧ read8 m1 (dictionary + 4) &&& LENGTH_BITS = read8 fooState.mem (dictionary + 4) &&& LENGTH_BITS
        ∧ read8 m1 (dictionary + 4) &&& IMMEDIATE_BIT = read8 fooState.mem (dictionary + 4) &&& IMMEDIATE_BIT
        ∧ read8 m1 (dictionary + 4) &&& HIDDEN_BIT ≠ read8 fooState.mem (dictionary + 4) &&& HIDDEN_BIT
        ∧ (∀ a, a ≠ dictionary + 4 → m1 a = fooState.mem a)
        ∧ andThen (callFn { fooState with mem := m1, w := XT .HIDDEN }) 8
            = some { fooState with mem := m2, sp := [7], w := XT .EXIT }
        ∧ read8 m2 (dictionary + 4) = read8 fooState.mem (dictionary + 4)
        ∧ (∀ a, a ≠ dictionary + 4 → m2 a = fooState.mem a)) :=
  ⟨⟨by decide!, by decide!, by decide!⟩,
    (IMMEDIATE_HIDDEN fooState).1 (by decide!) (by decide!),
    (IMMEDIATE_HIDDEN fooState).2.1 dictionary [7] rfl (by decide) (by decide)⟩

theorem IMMEDIATE_HIDDEN_counterexample :
    read32 (atInterpret initMem [7] []).mem LATEST_value = LINK .MAIN
      ∧ inRom (LINK .MAIN + 4) = true
      ∧ (andThen (callFn { atInterpret initMem [7] [] with w := XT .IMMEDIATE }) 8).isSome = true
      ∧ (andThen (callFn { atInterpret initMem [7] [] with w := XT .IMMEDIATE }) 9).isSome = false
      ∧ (andThen (callFn { atInterpret initMem [7] [] with w := XT .IMMEDIATE }) 10).isSome = false
      ∧ inRom (LINK .DUP + 4) = true
      ∧ (andThen (callFn { atInterpret initMem [LINK .DUP, 7] [] with w := XT .HIDDEN }) 6).isSome = true
      ∧ (andThen (callFn { atInterpret initMem [LINK .DUP, 7] [] with w := XT .HIDDEN }) 7).isSome = false
      ∧ (andThen (callFn { atInterpret initMem [LINK .DUP, 7] [] with w := XT .HIDDEN }) 8).isSome = false := by
  decide!

end Tomoko
